import Mathlib

/-!
# SubmarineWars: the entity manager's identifier pool and live collections

A shallow embedding of `EntityManager` (`EntityManager.hpp`, `EntityManager.cpp`):
the free list of identifiers, the per-kind live collections, the add / remove
protocol and the entity factories, followed by the theorems about them.
-/

set_option autoImplicit false

namespace SubmarineWars

/-! ## Identifier allocator (`EntityManager::FreeList`) -/

/-- Modelled from the spec: `Entity::Identifier` is declared in
`Entities/Entity.hpp`, which is not in the sources; the spec has it a small
integer with 0 for "no entity". `FreeList` stores identifiers as `int`
(`std::list<int>`), and the conversions between the two types are the identity
on the values of the pool, so one integer type stands for both. -/
abbrev Identifier := Int

/-- Constant `EntityManager::MAX_NUM_ON_SCREEN_ENTITIES`. -/
def MAX_NUM_ON_SCREEN_ENTITIES : Nat := 1024

/-- Result of `std::generate` over `count` list cells with the stateful lambda
`[n] () mutable { return n++; }`. -/
def generate : Nat → Int → List Int
  | 0, _ => []
  | count + 1, n => n :: generate count (n + 1)

/-- The free list: `std::list<int> freeids`. -/
structure FreeList where
  freeids : List Int
deriving DecidableEq, Repr

namespace FreeList

/-- Constructor `FreeList::FreeList()`: `MAX_NUM_ON_SCREEN_ENTITIES - 1` cells
filled with 1, 2, 3, ... -/
def fresh : FreeList := ⟨generate (MAX_NUM_ON_SCREEN_ENTITIES - 1) 1⟩

/-- Member `FreeList::alloc()`: 0 on an empty list, else pop and return the front.
The pair is the returned value and the allocator afterwards. -/
def alloc (fl : FreeList) : Int × FreeList :=
  match fl.freeids with
  | [] => (0, fl)
  | first :: rest => (first, ⟨rest⟩)

/-- Member `FreeList::free(id)`: `push_back(id)`, no check. -/
def free (fl : FreeList) (id : Int) : FreeList := ⟨fl.freeids ++ [id]⟩

/-- Values returned by `n` consecutive calls of `alloc`, and the allocator afterwards. -/
def allocN : Nat → FreeList → List Int × FreeList
  | 0, fl => ([], fl)
  | n + 1, fl => ((fl.alloc).1 :: (allocN n (fl.alloc).2).1, (allocN n (fl.alloc).2).2)

/-- Value returned by the `k`-th call of `alloc` (counting from 1) when no call
of `free` comes in between. -/
def kthAlloc (fl : FreeList) (k : Nat) : Int := ((allocN (k - 1) fl).2.alloc).1

end FreeList

/-- One call on the allocator. -/
inductive Op where
  | alloc : Op
  | free : Int → Op
deriving DecidableEq, Repr

/-- The allocator together with the identifiers that `alloc` has handed out and
that have not been released since (the identifiers of the live entities). -/
structure Pool where
  fl : FreeList
  live : List Int
deriving DecidableEq, Repr

namespace Pool

/-- A freshly constructed allocator; nothing is handed out yet. -/
def fresh : Pool := ⟨FreeList.fresh, []⟩

/-- Effect of one call. A non-zero identifier returned by `alloc` becomes live;
a released identifier stops being live. -/
def step (p : Pool) : Op → Pool
  | .alloc => ⟨(p.fl.alloc).2, if (p.fl.alloc).1 = 0 then p.live else (p.fl.alloc).1 :: p.live⟩
  | .free id => ⟨p.fl.free id, p.live.filter (fun x => decide (x ≠ id))⟩

/-- Effect of a sequence of calls. -/
def run (p : Pool) : List Op → Pool
  | [] => p
  | op :: ops => run (p.step op) ops

/-- The no-double-release precondition for one call: `free id` is called only
with a non-zero identifier that is live. -/
def allowed (p : Pool) : Op → Prop
  | .alloc => True
  | .free id => id ≠ 0 ∧ id ∈ p.live

instance (p : Pool) (op : Op) : Decidable (p.allowed op) := by
  cases op <;> unfold allowed <;> infer_instance

/-- The precondition along a whole sequence of calls. -/
def Respects (p : Pool) : List Op → Prop
  | [] => True
  | op :: ops => p.allowed op ∧ (p.step op).Respects ops

instance decRespects : (p : Pool) → (ops : List Op) → Decidable (p.Respects ops)
  | _, [] => isTrue trivial
  | p, op :: ops =>
    match (inferInstance : Decidable (p.allowed op)), decRespects (p.step op) ops with
    | isTrue h1, isTrue h2 => isTrue ⟨h1, h2⟩
    | isFalse h1, _ => isFalse (fun h => h1 h.1)
    | _, isFalse h2 => isFalse (fun h => h2 h.2)

/-- True when the sequence contains no call of `free`. -/
def noFree : List Op → Bool
  | [] => true
  | .alloc :: ops => noFree ops
  | .free _ :: _ => false

end Pool

/-- Identifiers passed to `free`, in call order. -/
def released : List Op → List Int
  | [] => []
  | .alloc :: ops => released ops
  | .free id :: ops => id :: released ops

/-- Identifiers that `alloc` popped from the list (calls that found it
non-empty), in call order. -/
def served (fl : FreeList) : List Op → List Int
  | [] => []
  | .alloc :: ops =>
    match fl.freeids with
    | [] => served fl ops
    | first :: _ => first :: served (fl.alloc).2 ops
  | .free id :: ops => served (fl.free id) ops

/-- The allocator after a sequence of calls. -/
def FreeList.run (fl : FreeList) : List Op → FreeList
  | [] => fl
  | .alloc :: ops => FreeList.run (fl.alloc).2 ops
  | .free id :: ops => FreeList.run (fl.free id) ops

/-! ## Components

The component classes are declared in `Components/Components.hpp`, which is
not in the sources. The records below hold the fields that the manager reads
and writes; a default-constructed record is the empty / default state. -/

/-- Pair of floats. Floats are modelled as rationals: the manager only stores,
negates and compares them. -/
structure vec2 where
  x : Rat
  y : Rat
deriving DecidableEq, Repr

/-- Four floats (a colour). -/
structure vec4 where
  r : Rat
  g : Rat
  b : Rat
  a : Rat
deriving DecidableEq, Repr

/-- Colour `Color::defaultColor`: no colour transformation, as in the default
argument `{1.0f, 1.0f, 1.0f, 1.0f}` of `make`. -/
def defaultColor : vec4 := ⟨1, 1, 1, 1⟩

/-- Colour `Color::black`. -/
def black : vec4 := ⟨0, 0, 0, 1⟩

/-- Sprite slot (`StaticSprite` / `AnimatedSprite`): what the sprite factory left in it. -/
structure Sprite where
  valid : Bool := false
  numTextures : Nat := 0
deriving DecidableEq, Repr

/-- Value of a `Sprite*` in the indirect array `sprites`: the slot it points to. -/
inductive SpriteRef where
  | ssprite : Identifier → SpriteRef
  | asprite : Identifier → SpriteRef
deriving DecidableEq, Repr

structure Color where
  color : vec4 := ⟨0, 0, 0, 0⟩
deriving DecidableEq, Repr

/-- Member `Color::setColor`. -/
def Color.setColor (_c : Color) (color : vec4) : Color := ⟨color⟩

structure Position where
  x : Rat := 0
  y : Rat := 0
deriving DecidableEq, Repr

structure Velocity where
  vx : Rat := 0
  vy : Rat := 0
deriving DecidableEq, Repr

structure Rotation where
  radians : Rat := 0
deriving DecidableEq, Repr

structure Physics where
  scale : vec2 := ⟨0, 0⟩
  mass : Rat := 0
  force : vec2 := ⟨0, 0⟩
deriving DecidableEq, Repr

/-- Tags `Collision::eType` used by the factories. -/
inductive CollisionType where
  | none | bomb | explosion | submarine | fish | torpedo | smoke | missile | boatMissile | storeIcon
deriving DecidableEq, Repr

structure Collision where
  type : CollisionType := .none
  gridCoords : List (Int × Int) := []
  ignore : List Identifier := []
  prevCellCount : Int := 0
deriving DecidableEq, Repr

structure Input where
  keys : Nat := 0
deriving DecidableEq, Repr

inductive AttackType where
  | none | torpedo | missile
deriving DecidableEq, Repr

structure Attack where
  radius : Rat := 0
  type : AttackType := .none
deriving DecidableEq, Repr

/-- The single player record. -/
structure Player where
  pid : Identifier := 0
  money : Int := 0
  score : Int := 0
  lives : Int := 0
  numAvailableMissiles : Int := 0
  numAvailableBombs : Int := 0
deriving DecidableEq, Repr

structure Score where
  score : Nat := 0
deriving DecidableEq, Repr

structure Pathing where
  startPosition : Position := {}
  targetPosition : Position := {}
  bezier : Bool := false
  increment : Rat := 0
deriving DecidableEq, Repr

inductive AnimationMode where
  | none | Autoterminating | Loopback
deriving DecidableEq, Repr

/-- Callbacks that the factories register on an animation. -/
inductive AnimationCallback where
  | removeExplosion
deriving DecidableEq, Repr

structure Animation where
  mode : AnimationMode := .none
  arg : Nat := 0
  callback : Option AnimationCallback := none
deriving DecidableEq, Repr

/-- Member `Animation::setAnimationMode`. -/
def Animation.setAnimationMode (a : Animation) (mode : AnimationMode) (arg : Nat) : Animation :=
  { a with mode := mode, arg := arg }

/-- Member `Animation::registerCallback`. -/
def Animation.registerCallback (a : Animation) (cb : AnimationCallback) : Animation :=
  { a with callback := some cb }

inductive StoreType where
  | none | life | boatMissile | end_
deriving DecidableEq, Repr

structure Store where
  type : StoreType := .none
deriving DecidableEq, Repr

structure Distortion where
  distort : Bool := false
deriving DecidableEq, Repr

/-- The catalogue of component kinds that own a bit of the bitmask. -/
inductive ComponentKind where
  | Sprite | Color | Position | Velocity | Rotation | Physics | Collision | Input
  | Attack | Player | Score | Pathing | Animation | Store | Distortion
deriving DecidableEq, Repr

/-- Modelled from the spec: the table `Components::getTypeIndex` is not in the
sources. The spec gives one bit per component kind; `removeEntity` treats bit 0
as the one indirect kind, the sprite, and the other kinds take the order in
which the constructor registers their arrays. -/
def ComponentKind.bitIndex : ComponentKind → Nat
  | .Sprite => 0 | .Color => 1 | .Position => 2 | .Velocity => 3 | .Rotation => 4
  | .Physics => 5 | .Collision => 6 | .Input => 7 | .Attack => 8 | .Player => 9
  | .Score => 10 | .Pathing => 11 | .Animation => 12 | .Store => 13 | .Distortion => 14

/-- Modelled from the spec: `Foundations/Foundations.hpp` (bit options) is not in
the sources. This is the mask `BitOptionCreate(index)` with the one bit `index`. -/
def BitOptionCreate (index : Nat) : Nat := 1 <<< index

/-- Modelled from the spec: the bitmask `Components::makeBitMap<...>()` of a list
of kinds, one bit per kind. -/
def makeBitMap (kinds : List ComponentKind) : Nat :=
  kinds.foldl (fun acc k => acc ||| BitOptionCreate k.bitIndex) 0

/-- Modelled from the spec: member `BitOptions::mutativeRemove`, which clears in
`bits` the bits set in `option`. -/
def mutativeRemove (bits option : Nat) : Nat := bits &&& (bits ^^^ option)

/-- Scan of `findlsb` from bit `index` upwards, over at most `fuel` bits. -/
def findlsbAux : Nat → Nat → Nat → Nat
  | 0, _, index => index
  | fuel + 1, bits, index =>
    if bits % 2 = 1 then index else findlsbAux fuel (bits / 2) (index + 1)

/-- Modelled from the spec: `findlsb` (not in the sources), the index of the least
significant set bit. -/
def findlsb (bits : Nat) : Nat := findlsbAux bits bits 0

/-! ## Entity handles and live collections -/

inductive Font where
  | SFMonoRegular
  | other : Nat → Font
deriving DecidableEq, Repr

/-- Attribute record `Character::attribute`, passed to the sprite factory as `info`. -/
structure CharAttribute where
  character : Char := Char.ofNat 0
  font : Font := .SFMonoRegular
  pixelWidth : Nat := 0
  pixelHeight : Nat := 0
  advance : Int := 0
deriving DecidableEq, Repr

/-- Modelled from the spec: the entity classes (`Entities/Entities.hpp`) are not
in the sources. A handle is an identifier and a bitmask of attached component
kinds; every concrete kind is the same handle plus bookkeeping fields, of which
the manager uses the attribute (`attr`) of a `Character` and the character identifiers
of a `StringLabel`. A default-constructed handle has identifier 0. -/
structure Entity where
  identifier : Identifier := 0
  components : Nat := 0
  attr : CharAttribute := {}
  identifiers : List Identifier := []
deriving DecidableEq, Repr

namespace Entity

/-- Member `Entity::init(identifier, components, delegate)`. -/
def init (e : Entity) (identifier : Identifier) (components : Nat) : Entity :=
  { e with identifier := identifier, components := components }

/-- Member `Entity::registerComponent`: set the bit of the component kind. -/
def registerComponent (e : Entity) (k : ComponentKind) : Entity :=
  { e with components := e.components ||| BitOptionCreate k.bitIndex }

end Entity

/-- Entity classes that `make<T>` is instantiated with. -/
inductive EntityType where
  | Boat | Ocean | IntroUI | BoatLives | BoatMissiles
  | SubmarineI | SubmarineII | SubmarineIII | Fish | Bomb | Torpedo | Missile
  | BoatMissile | Explosion | Smoke | BuyLives | BuyMissiles | EndStore | Character
deriving DecidableEq, Repr

/-- The submarine types `Submarine::Type`. The header of `Submarine` is not in
the sources; the enumerators are the ones the sources use (`I`, `II`, `III`
and `SPEC`), and `TOTAL_NUM_SUBMARINE_TYPES` is 4: `World.cpp` writes and reads
the saved sets `submarines[0]` to `submarines[3]` as "SubI", "SubII",
"SubIII" and "SubSPEC". -/
inductive SubmarineType where
  | I | II | III | SPEC
deriving DecidableEq, Repr

/-- Index `Submarine::typeToIndex(type)` into the array of the
`TOTAL_NUM_SUBMARINE_TYPES` submarine collections. -/
def SubmarineType.typeToIndex : SubmarineType → Fin 4
  | .I => 0 | .II => 1 | .III => 2 | .SPEC => 3

inductive Direction where
  | Left | Right
deriving DecidableEq, Repr

/-- Lookup in the entries of a collection. -/
def findEntries : List (Identifier × Entity) → Identifier → Option Entity
  | [], _ => none
  | (k, v) :: rest, key => if k = key then some v else findEntries rest key

/-- A live collection `std::unordered_map<Entity::Identifier, T>`: its entries
in some iteration order. -/
structure EMap where
  entries : List (Identifier × Entity) := []
deriving DecidableEq, Repr

namespace EMap

/-- The keys, in iteration order. -/
def keys (m : EMap) : List Identifier := m.entries.map Prod.fst

/-- Lookup `find(key)`: the stored handle, or `none` for `end()`. -/
def find (m : EMap) (key : Identifier) : Option Entity := findEntries m.entries key

/-- Number of entries, `size()`. -/
def size (m : EMap) : Nat := m.entries.length

/-- Removal `erase(iterator)` of the entry found under `key`. -/
def erase (m : EMap) (key : Identifier) : EMap :=
  ⟨m.entries.filter (fun p => decide (p.1 ≠ key))⟩

/-- Assignment `m[key] = value`: overwrite the entry of `key`, or insert one. -/
def assign (m : EMap) (key : Identifier) (value : Entity) : EMap :=
  if key ∈ m.keys then
    ⟨m.entries.map (fun p => if p.1 = key then (key, value) else p)⟩
  else
    ⟨m.entries ++ [(key, value)]⟩

end EMap

/-- Call received by a delegate (`EntityManagerDelegate`). -/
inductive Event where
  | didAddEntity : Entity → Event
  | didRemoveEntity : Entity → Event
  | didUpdateEntity : Entity → Event
deriving DecidableEq, Repr

/-! ## The entity manager -/

/-- What a call of `SpriteFactory::make<T>(sprite, info)` leaves behind: its
result, the content of the sprite slot, and the record behind `info`. -/
structure SpriteOutcome where
  ok : Bool
  sprite : Sprite
  attr : CharAttribute
deriving DecidableEq, Repr

/-- The external collaborators of the manager: the sprite factory (texture and
font loading) and the bounding box of a sprite. -/
structure Env where
  spriteMake : EntityType → Option CharAttribute → SpriteOutcome
  getBoundingBox : Sprite → vec2 → Position → vec2 × vec2

/-- Write `f (arr i)` into slot `i` of a component array. -/
def setAt {α : Type} (arr : Identifier → α) (i : Identifier) (f : α → α) : Identifier → α :=
  Function.update arr i (f (arr i))

/-- Modelled from the spec: the class `FormattedNumberLabel` is not in the
sources. It is a string label (a handle with the identifiers of its character
entities) that shows a string before a number of fixed digit width. -/
structure FormattedNumberLabel where
  label : Entity := {}
  stringPrefix : List Char := []
  width : Nat := 0
  value : Nat := 0
deriving DecidableEq, Repr

/-- The state of an `EntityManager`: allocator, delegates (with the calls they
have received so far), the entities it owns, the live collections and the
component arrays. -/
structure EntityManager where
  freelist : FreeList := FreeList.fresh
  delegates : List Nat := []
  log : List (Nat × Event) := []
  gameIsOver : Bool := true
  gameIsRunning : Bool := false
  gravity : Rat := 200
  tutorialSub : Entity := {}
  tutorialFish : Entity := {}
  tutorialBomb : Entity := {}
  tutorialBM : Entity := {}
  tutorialMissile : Entity := {}
  tutorialTorpedo : Entity := {}
  boat : Entity := {}
  ocean : Entity := {}
  submarines : Fin 4 → EMap := fun _ => {}
  fishes : EMap := {}
  bombs : EMap := {}
  torpedoes : EMap := {}
  missiles : EMap := {}
  boatMissiles : EMap := {}
  buyLivesIcons : EMap := {}
  buyMissilesIcons : EMap := {}
  endStoreIcons : EMap := {}
  explosions : EMap := {}
  smokes : EMap := {}
  characters : EMap := {}
  stringLabels : EMap := {}
  sprites : Identifier → Option SpriteRef := fun _ => none
  ssprites : Identifier → Sprite := fun _ => {}
  asprites : Identifier → Sprite := fun _ => {}
  colors : Identifier → Color := fun _ => {}
  positions : Identifier → Position := fun _ => {}
  velocities : Identifier → Velocity := fun _ => {}
  rotations : Identifier → Rotation := fun _ => {}
  physics : Identifier → Physics := fun _ => {}
  collisions : Identifier → Collision := fun _ => {}
  inputs : Identifier → Input := fun _ => {}
  attacks : Identifier → Attack := fun _ => {}
  player : Player := {}
  scores : Identifier → Score := fun _ => {}
  pathings : Identifier → Pathing := fun _ => {}
  animations : Identifier → Animation := fun _ => {}
  stores : Identifier → Store := fun _ => {}
  distortions : Identifier → Distortion := fun _ => {}
  lifePrice : Int := 50
  missilePrice : Int := 50
  scoreLabel : FormattedNumberLabel := { stringPrefix := "SCORE:".toList, width := 8 }
  moneyLabel : FormattedNumberLabel := { stringPrefix := "MONEY:".toList, width := 8, value := 100 }
  livesLabel : FormattedNumberLabel := { stringPrefix := "x ".toList, width := 2, value := 5 }
  missilesLabel : FormattedNumberLabel := { stringPrefix := "x ".toList, width := 2, value := 1 }
  stageLabel : FormattedNumberLabel := { stringPrefix := "STAGE ".toList, width := 2, value := 0 }
  OutroLabel1 : Entity := {}
  OutroLabel2 : Entity := {}
  OutroLabel3 : Entity := {}
  newGameLabel : Entity := {}
  loadGameLabel : Entity := {}

namespace EntityManager

/-- Constants `DEF_SUB_FORCE`, `DEF_FISH_FORCE`, `DEF_TORPEDO_FORCE`, `DEF_FISH_SCORE`. -/
def DEF_SUB_FORCE : vec2 := ⟨50, 0⟩

def DEF_FISH_FORCE : vec2 := ⟨25, 0⟩

def DEF_TORPEDO_FORCE : vec2 := ⟨0, -100⟩

def DEF_FISH_SCORE : Nat := 1

/-- The sprite slot behind a `Sprite*`. -/
def spriteAt (em : EntityManager) : SpriteRef → Sprite
  | .ssprite i => em.ssprites i
  | .asprite i => em.asprites i

/-- Store `sprite` into the slot behind a `Sprite*`. -/
def writeSprite (em : EntityManager) (ref : SpriteRef) (sprite : Sprite) : EntityManager :=
  match ref with
  | .ssprite i => { em with ssprites := Function.update em.ssprites i sprite }
  | .asprite i => { em with asprites := Function.update em.asprites i sprite }

/-- The template `make<T>(entity, position, scale, color, radians, isAnimated, info)`.
Returns the result, the manager afterwards and the entity handle afterwards. -/
def make (env : Env) (em : EntityManager) (entity : Entity) (T : EntityType)
    (position : Position) (scale : vec2) (color : vec4) (radians : Rat) (isAnimated : Bool)
    (info : Option CharAttribute) : Bool × EntityManager × Entity :=
  let identifier : Identifier := (em.freelist.alloc).1
  let em1 := { em with freelist := (em.freelist.alloc).2 }
  if identifier = 0 then (false, em1, entity)
  else
    let sprite := if isAnimated then SpriteRef.asprite identifier else SpriteRef.ssprite identifier
    let em2 := { em1 with sprites := Function.update em1.sprites identifier (some sprite) }
    let out := env.spriteMake T info
    let em3 := em2.writeSprite sprite out.sprite
    let entity1 := match info with
      | some _ => { entity with attr := out.attr }
      | none => entity
    if !out.ok then (false, em3, entity1)
    else
      let em4 := { em3 with
        colors := setAt em3.colors identifier (fun c => c.setColor color)
        positions := Function.update em3.positions identifier position
        physics := setAt em3.physics identifier (fun p => { p with scale := scale })
        rotations := setAt em3.rotations identifier (fun r => { r with radians := radians }) }
      let components := makeBitMap [.Sprite, .Color, .Position, .Rotation, .Physics]
      (true, em4, entity1.init identifier components)

/-- The four statements every factory uses to configure `collisions[id]`. -/
def configureCollision (em : EntityManager) (id : Identifier) (type : CollisionType) :
    EntityManager :=
  { em with collisions := setAt em.collisions id (fun c =>
      { c with type := type, gridCoords := [], ignore := [], prevCellCount := -1 }) }

/-- Statement `this->distortions[id].distort = value`. -/
def setDistort (em : EntityManager) (id : Identifier) (value : Bool) : EntityManager :=
  { em with distortions := setAt em.distortions id (fun d => { d with distort := value }) }

/-- Factory `makeBomb(bomb, position, initVel)`. -/
def makeBomb (env : Env) (em : EntityManager) (bomb : Entity) (position : Position)
    (initVel : vec2) : Bool × EntityManager × Entity :=
  let r := make env em bomb .Bomb position ⟨1, 1⟩ ⟨1, 1, 1, 1⟩ 0 false none
  if !r.1 then (false, r.2.1, r.2.2)
  else
    let bomb := r.2.2
    let id := bomb.identifier
    let em :=
      { r.2.1 with
        velocities := setAt r.2.1.velocities id
            (fun v => { v with vx := initVel.x, vy := initVel.y }) }
    let em := em.configureCollision id .bomb
    let em := { em with physics := setAt em.physics id (fun p => { p with mass := 0.25 }) }
    let em := if id = em.tutorialBomb.identifier then
        { em with physics := setAt em.physics id (fun p => { p with force := ⟨0, 0⟩ }) }
      else
        { em with physics := setAt em.physics id (fun p => { p with force := ⟨0, em.gravity⟩ }) }
    let em := em.setDistort id true
    let bomb := ((bomb.registerComponent .Collision).registerComponent .Velocity).registerComponent
      .Distortion
    (true, em, bomb)

/-- Factory `makeExplosion(explosion, position)`. -/
def makeExplosion (env : Env) (em : EntityManager) (explosion : Entity) (position : Position) :
    Bool × EntityManager × Entity :=
  let r := make env em explosion .Explosion position ⟨1, 1⟩ defaultColor 0 true none
  if !r.1 then (false, r.2.1, r.2.2)
  else
    let explosion := r.2.2
    let id := explosion.identifier
    let em := r.2.1.configureCollision id .explosion
    let em := { em with velocities := setAt em.velocities id (fun v => { v with vx := 0, vy := 0 }) }
    let em :=
      { em with
        animations := setAt em.animations id
            (fun a => (a.setAnimationMode .Autoterminating 0).registerCallback .removeExplosion) }
    let em :=
      { em with
        physics := setAt em.physics id
            (fun p => { p with mass := 999999, force := ⟨0, 0⟩ }) }
    let em := em.setDistort id true
    let explosion := (((explosion.registerComponent .Collision).registerComponent
      .Velocity).registerComponent .Animation).registerComponent .Distortion
    (true, em, explosion)

/-- The instantiation of `make` that `makeSubmarine` selects for a type: the
`else` branch (type III and `SPEC`) makes a `SubmarineIII`. -/
def submarineEntityType : SubmarineType → EntityType
  | .I => .SubmarineI
  | .II => .SubmarineII
  | .III => .SubmarineIII
  | .SPEC => .SubmarineIII

/-- Factory `makeSubmarine(submarine, position, direction, x_velocity, type, score, radarRadius)`. -/
def makeSubmarine (env : Env) (em : EntityManager) (submarine : Entity) (position : Position)
    (direction : Direction) (x_velocity : Rat) (type : SubmarineType) (score : Nat)
    (radarRadius : Rat) : Bool × EntityManager × Entity :=
  if position.y < 20 then (false, em, submarine)
  else
    let scale : vec2 := if direction = .Left then ⟨1 * -1, 1⟩ else ⟨1, 1⟩
    let x_velocity := if direction = .Left then -|x_velocity| else x_velocity
    let r := make env em submarine (submarineEntityType type) position scale ⟨1, 1, 1, 1⟩ 0 false
      none
    if !r.1 then (false, r.2.1, r.2.2)
    else
      let submarine := r.2.2
      let id := submarine.identifier
      let em :=
        { r.2.1 with
          velocities := setAt r.2.1.velocities id
              (fun v => { v with vx := x_velocity, vy := 0 }) }
      let em := em.configureCollision id .submarine
      let em :=
        { em with
          physics := setAt em.physics id
              (fun p => { p with force := ⟨p.force.x, DEF_SUB_FORCE.y⟩ }) }
      let em := if direction = .Left then
          { em with
            physics := setAt em.physics id
                (fun p => { p with force := ⟨-DEF_SUB_FORCE.x, p.force.y⟩ }) }
        else
          { em with
            physics := setAt em.physics id
                (fun p => { p with force := ⟨DEF_SUB_FORCE.x, p.force.y⟩ }) }
      let em := if id = em.tutorialSub.identifier then
          { em with physics := setAt em.physics id (fun p => { p with force := ⟨0, p.force.y⟩ }) }
        else em
      let em := { em with physics := setAt em.physics id (fun p => { p with mass := 1 }) }
      let em := { em with scores := setAt em.scores id (fun sc => { sc with score := score }) }
      let em := em.setDistort id true
      let submarine := (((submarine.registerComponent .Collision).registerComponent
        .Velocity).registerComponent .Score).registerComponent .Distortion
      let em := { em with attacks := setAt em.attacks id (fun a => { a with radius := radarRadius }) }
      match type with
      | .II =>
        (true, { em with attacks := setAt em.attacks id (fun a => { a with type := .torpedo }) },
          submarine.registerComponent .Attack)
      | .III =>
        (true, { em with attacks := setAt em.attacks id (fun a => { a with type := .missile }) },
          submarine.registerComponent .Attack)
      | .I => (true, em, submarine)
      | .SPEC => (true, em, submarine)

/-- Factory `makeFish(fish, position, direction, x_velocity)`. -/
def makeFish (env : Env) (em : EntityManager) (fish : Entity) (position : Position)
    (_direction : Direction) (x_velocity : Rat) : Bool × EntityManager × Entity :=
  let scale : vec2 := ⟨1, 1⟩
  let r := make env em fish .Fish position scale ⟨1, 1, 1, 1⟩ 0 false none
  if !r.1 then (false, r.2.1, r.2.2)
  else
    let fish := r.2.2
    let id := fish.identifier
    let em :=
      { r.2.1 with
        velocities := setAt r.2.1.velocities id
            (fun v => { v with vx := x_velocity, vy := 0 }) }
    let em := em.configureCollision id .fish
    let em := if id = em.tutorialFish.identifier then
        { em with physics := setAt em.physics id (fun p => { p with force := ⟨0, 0⟩ }) }
      else
        { em with
          physics := setAt em.physics id
              (fun p => { p with force := ⟨DEF_FISH_FORCE.x, DEF_FISH_FORCE.y⟩ }) }
    let em := { em with physics := setAt em.physics id (fun p => { p with mass := 1 }) }
    let em :=
      { em with
        scores := setAt em.scores id
            (fun sc => { sc with score := DEF_FISH_SCORE }) }
    let em := em.setDistort id true
    let fish := (((fish.registerComponent .Collision).registerComponent
      .Velocity).registerComponent .Score).registerComponent .Distortion
    (true, em, fish)

/-- Factory `makeTorpedo(torpedo, position, initVel)`. -/
def makeTorpedo (env : Env) (em : EntityManager) (torpedo : Entity) (position : Position)
    (initVel : vec2) : Bool × EntityManager × Entity :=
  let r := make env em torpedo .Torpedo position ⟨1, 1⟩ ⟨1, 1, 1, 1⟩ 0 false none
  if !r.1 then (false, r.2.1, r.2.2)
  else
    let torpedo := r.2.2
    let id := torpedo.identifier
    let em :=
      { r.2.1 with
        velocities := setAt r.2.1.velocities id
            (fun v => { v with vx := initVel.x, vy := initVel.y }) }
    let em := em.configureCollision id .torpedo
    let em := if id = em.tutorialTorpedo.identifier then
        { em with
          physics := setAt em.physics id (fun p => { p with force := ⟨0, 0⟩ })
          rotations := Function.update em.rotations id ⟨3.14195 / 2⟩ }
      else
        { em with physics := setAt em.physics id (fun p => { p with force := DEF_TORPEDO_FORCE }) }
    let em := { em with physics := setAt em.physics id (fun p => { p with mass := 1 }) }
    let em := em.setDistort id true
    let torpedo := ((torpedo.registerComponent .Collision).registerComponent
      .Velocity).registerComponent .Distortion
    (true, em, torpedo)

/-- Factory `makeSmoke(smoke)`. The sprite of the boat is read through
`sprites[boatid]`. The source dereferences that pointer; a manager whose boat
has no sprite is outside the model, where the null pointer is read as an
empty sprite. -/
def makeSmoke (env : Env) (em : EntityManager) (smoke : Entity) :
    Bool × EntityManager × Entity :=
  let boatid := em.boat.identifier
  let boatSprite : Sprite := match em.sprites boatid with
    | some ref => em.spriteAt ref
    | none => {}
  let thisBB := env.getBoundingBox boatSprite (em.physics boatid).scale (em.positions boatid)
  let position : Position := { x := (em.positions boatid).x, y := thisBB.1.y }
  let r := make env em smoke .Smoke position ⟨0.05, 0.05⟩ ⟨1, 1, 1, 1⟩ 0 false none
  if !r.1 then (false, r.2.1, r.2.2)
  else
    let smoke := r.2.2
    let id := smoke.identifier
    let em :=
      { r.2.1 with
        physics := setAt r.2.1.physics id
            (fun p => { p with mass := 0.005, force := ⟨1, -1⟩ }) }
    let em :=
      { em with
        velocities := setAt em.velocities id
            (fun v => { v with vx := 0.5, vy := -0.5 }) }
    let em := { em with collisions := setAt em.collisions id (fun c => { c with type := .smoke }) }
    let smoke := ((smoke.registerComponent .Physics).registerComponent
      .Velocity).registerComponent .Collision
    (true, em, smoke)

/-- Factory `makeMissile(missile, position)`. -/
def makeMissile (env : Env) (em : EntityManager) (missile : Entity) (position : Position) :
    Bool × EntityManager × Entity :=
  let r := make env em missile .Missile position ⟨1, 1⟩ ⟨1, 1, 1, 1⟩ 0 false none
  if !r.1 then (false, r.2.1, r.2.2)
  else
    let missile := r.2.2
    let id := missile.identifier
    let em := r.2.1.configureCollision id .missile
    let em :=
      { em with
        physics := setAt em.physics id
            (fun p => { p with force := ⟨0, 0⟩, mass := 99999 }) }
    let em := { em with pathings := setAt em.pathings id (fun pa =>
      { pa with startPosition := position, targetPosition := em.positions em.boat.identifier,
                bezier := true }) }
    let em := em.setDistort id true
    let missile := (((missile.registerComponent .Collision).registerComponent
      .Velocity).registerComponent .Pathing).registerComponent .Distortion
    (true, em, missile)

/-- Factory `makeBoatMissile(boatMissile, position, target)`. -/
def makeBoatMissile (env : Env) (em : EntityManager) (boatMissile : Entity)
    (position target : Position) : Bool × EntityManager × Entity :=
  let r := make env em boatMissile .BoatMissile position ⟨1, 1⟩ ⟨1, 1, 1, 1⟩ 0 true none
  if !r.1 then (false, r.2.1, r.2.2)
  else
    let boatMissile := r.2.2
    let id := boatMissile.identifier
    let em := r.2.1.configureCollision id .boatMissile
    let em :=
      { em with
        physics := setAt em.physics id
            (fun p => { p with force := ⟨0, 0⟩, mass := 99999 }) }
    let em :=
      { em with
        animations := setAt em.animations id
            (fun a => a.setAnimationMode .Loopback 1) }
    let em := { em with pathings := setAt em.pathings id (fun pa =>
      { pa with startPosition := position, targetPosition := target, bezier := false,
                increment := 0.025 }) }
    let em := em.setDistort id true
    let boatMissile := ((((boatMissile.registerComponent .Collision).registerComponent
      .Velocity).registerComponent .Pathing).registerComponent .Animation).registerComponent
      .Distortion
    (true, em, boatMissile)

/-- The common body of `makeBuyLives`, `makeBuyMissiles` and `makeEndStore`,
which differ in the instantiation of `make` and in the store type. -/
def makeStoreIcon (env : Env) (em : EntityManager) (icon : Entity) (T : EntityType)
    (storeType : StoreType) (position : Position) : Bool × EntityManager × Entity :=
  let r := make env em icon T position ⟨1, 1⟩ ⟨1, 1, 1, 1⟩ 0 false none
  if !r.1 then (false, r.2.1, r.2.2)
  else
    let icon := r.2.2
    let id := icon.identifier
    let em := r.2.1.configureCollision id .storeIcon
    let em := { em with stores := setAt em.stores id (fun st => { st with type := storeType }) }
    let em := { em with velocities := setAt em.velocities id (fun v => { v with vx := 0, vy := 0 }) }
    let em :=
      { em with
        physics := setAt em.physics id
            (fun p => { p with mass := 999999, force := ⟨0, 0⟩ }) }
    let icon := ((icon.registerComponent .Collision).registerComponent
      .Velocity).registerComponent .Store
    (true, em, icon)

/-- Factory `makeBuyLives(buyLives, position)`. -/
def makeBuyLives (env : Env) (em : EntityManager) (buyLives : Entity) (position : Position) :
    Bool × EntityManager × Entity :=
  makeStoreIcon env em buyLives .BuyLives .life position

/-- Factory `makeBuyMissiles(buyMissiles, position)`. -/
def makeBuyMissiles (env : Env) (em : EntityManager) (buyMissiles : Entity)
    (position : Position) : Bool × EntityManager × Entity :=
  makeStoreIcon env em buyMissiles .BuyMissiles .boatMissile position

/-- Factory `makeEndStore(endStore, position)`. -/
def makeEndStore (env : Env) (em : EntityManager) (endStore : Entity) (position : Position) :
    Bool × EntityManager × Entity :=
  makeStoreIcon env em endStore .EndStore .end_ position

/-- Factory `makeCharacter(character, position, c, font, color, size)`. -/
def makeCharacter (env : Env) (em : EntityManager) (character : Entity) (position : Position)
    (c : Char) (font : Font) (color : vec4) (size : Nat) : Bool × EntityManager × Entity :=
  let character := { character with attr :=
    { character.attr with character := c, font := font, pixelWidth := 0, pixelHeight := size } }
  make env em character .Character position ⟨1, 1⟩ color 0 false (some character.attr)

/-- Private `addEntity(entity)`: every delegate, in registration order, receives
`didAddEntity`. -/
def addEntity (em : EntityManager) (entity : Entity) : EntityManager :=
  { em with log := em.log ++ em.delegates.map (fun d => (d, Event.didAddEntity entity)) }

/-- Operation `addSubmarine(submarine, type)`. -/
def addSubmarine (em : EntityManager) (submarine : Entity) (type : SubmarineType) :
    EntityManager :=
  let index := type.typeToIndex
  addEntity
    { em with
      submarines := Function.update em.submarines index
          ((em.submarines index).assign submarine.identifier submarine) }
    submarine

/-- Operation `addFish(fish)`. -/
def addFish (em : EntityManager) (fish : Entity) : EntityManager :=
  addEntity { em with fishes := em.fishes.assign fish.identifier fish } fish

/-- Operation `addBomb(bomb)`. -/
def addBomb (em : EntityManager) (bomb : Entity) : EntityManager :=
  addEntity { em with bombs := em.bombs.assign bomb.identifier bomb } bomb

/-- Operation `addTorpedo(torpedo)`. -/
def addTorpedo (em : EntityManager) (torpedo : Entity) : EntityManager :=
  addEntity { em with torpedoes := em.torpedoes.assign torpedo.identifier torpedo } torpedo

/-- Operation `addMissile(missile)`. -/
def addMissile (em : EntityManager) (missile : Entity) : EntityManager :=
  addEntity { em with missiles := em.missiles.assign missile.identifier missile } missile

/-- Operation `addBoatMissile(boatMissile)`. -/
def addBoatMissile (em : EntityManager) (boatMissile : Entity) : EntityManager :=
  addEntity
    { em with boatMissiles := em.boatMissiles.assign boatMissile.identifier boatMissile }
    boatMissile

/-- Operation `addBuyLives(buyLives)`. -/
def addBuyLives (em : EntityManager) (buyLives : Entity) : EntityManager :=
  addEntity { em with buyLivesIcons := em.buyLivesIcons.assign buyLives.identifier buyLives }
    buyLives

/-- Operation `addBuyMissiles(buyMissiles)`. -/
def addBuyMissiles (em : EntityManager) (buyMissiles : Entity) : EntityManager :=
  addEntity
    { em with buyMissilesIcons := em.buyMissilesIcons.assign buyMissiles.identifier buyMissiles }
    buyMissiles

/-- Operation `addEndStore(endStore)`. -/
def addEndStore (em : EntityManager) (endStore : Entity) : EntityManager :=
  addEntity { em with endStoreIcons := em.endStoreIcons.assign endStore.identifier endStore }
    endStore

/-- Operation `addExplosion(explosion)`. -/
def addExplosion (em : EntityManager) (explosion : Entity) : EntityManager :=
  addEntity { em with explosions := em.explosions.assign explosion.identifier explosion }
    explosion

/-- Operation `addSmoke(smoke)`. -/
def addSmoke (em : EntityManager) (smoke : Entity) : EntityManager :=
  addEntity { em with smokes := em.smokes.assign smoke.identifier smoke } smoke

/-- Operation `addCharacter(character)`. -/
def addCharacter (em : EntityManager) (character : Entity) : EntityManager :=
  addEntity { em with characters := em.characters.assign character.identifier character }
    character

/-- Operation `addStringLabel(stringLabel)`: no delegate is notified. -/
def addStringLabel (em : EntityManager) (stringLabel : Entity) : EntityManager :=
  { em with stringLabels := em.stringLabels.assign stringLabel.identifier stringLabel }

/-- The loop of `makeStringLabel` over the characters of the formatted string.
Returns the result, the manager, the label and the position afterwards. -/
def makeStringLabelLoop (env : Env) (font : Font) (color : vec4) (psize : Nat) :
    List Char → EntityManager → Entity → Position → Bool × EntityManager × Entity × Position
  | [], em, stringLabel, position => (true, em, stringLabel, position)
  | c :: rest, em, stringLabel, position =>
    let r := makeCharacter env em {} position c font color psize
    if !r.1 then (false, r.2.1, stringLabel, position)
    else
      let ce := r.2.2
      let em := r.2.1.addCharacter ce
      let stringLabel := { stringLabel with identifiers := stringLabel.identifiers ++ [ce.identifier] }
      let position := { position with x := position.x + ((ce.attr.advance >>> 6 : Int) : Rat) }
      makeStringLabelLoop env font color psize rest em stringLabel position

/-- Factory `makeStringLabel(stringLabel, position, font, color, psize, format, ...)`;
`string` is the text that `vsnprintf` produced from the format and its arguments. -/
def makeStringLabel (env : Env) (em : EntityManager) (stringLabel : Entity)
    (position : Position) (font : Font) (color : vec4) (psize : Nat) (string : List Char) :
    Bool × EntityManager × Entity × Position :=
  makeStringLabelLoop env font color psize string em { stringLabel with identifiers := [] }
    position

/-- Modelled from the spec: `SWComponent::deinit` of the component kinds is not in
the sources; the spec has a removed entity's components reset to their empty /
default state. This is `component->deinit()` on the slot of the kind with bit
`index` at identifier `id`: bit 0 goes through the pointer in `sprites[id]`,
the player record has a single slot, and an index without a kind has no array.
The source dereferences `sprites[id]` without a check; a null pointer there is
outside the model (the manager is returned as it is), and what is proved about
the removal of a handle with bit 0 assumes that `sprites[id]` is set, as `make`
leaves it. -/
def deinitComponent (em : EntityManager) (index : Nat) (id : Identifier) : EntityManager :=
  match index with
  | 0 =>
    match em.sprites id with
    | some ref => em.writeSprite ref {}
    | none => em
  | 1 => { em with colors := Function.update em.colors id {} }
  | 2 => { em with positions := Function.update em.positions id {} }
  | 3 => { em with velocities := Function.update em.velocities id {} }
  | 4 => { em with rotations := Function.update em.rotations id {} }
  | 5 => { em with physics := Function.update em.physics id {} }
  | 6 => { em with collisions := Function.update em.collisions id {} }
  | 7 => { em with inputs := Function.update em.inputs id {} }
  | 8 => { em with attacks := Function.update em.attacks id {} }
  | 9 => if id = 0 then { em with player := {} } else em
  | 10 => { em with scores := Function.update em.scores id {} }
  | 11 => { em with pathings := Function.update em.pathings id {} }
  | 12 => { em with animations := Function.update em.animations id {} }
  | 13 => { em with stores := Function.update em.stores id {} }
  | 14 => { em with distortions := Function.update em.distortions id {} }
  | _ => em

/-- The loop `while (!bitmap.isEmpty())` of `removeEntity`: deinitialise the
component of the least significant set bit, clear the bit, continue. The first
argument bounds the number of iterations; `removeEntity` passes the value of
the bitmask, which the loop never exhausts (`deinitLoop_enough`). -/
def deinitLoop : Nat → EntityManager → Identifier → Nat → EntityManager
  | 0, em, _, _ => em
  | fuel + 1, em, id, bitmap =>
    if bitmap = 0 then em
    else
      let index := findlsb bitmap
      deinitLoop fuel (deinitComponent em index id) id
        (mutativeRemove bitmap (BitOptionCreate index))

/-- Private `removeEntity(entity)`: notify the delegates, deinitialise the
attached components, release the identifier, reset the distortion flag. -/
def removeEntity (em : EntityManager) (entity : Entity) : EntityManager :=
  let em := { em with
    log := em.log ++ em.delegates.map (fun d => (d, Event.didRemoveEntity entity)) }
  let bitmap := entity.components
  let em := deinitLoop bitmap em entity.identifier bitmap
  let em := { em with freelist := em.freelist.free entity.identifier }
  em.setDistort entity.identifier false

/-- The loop of `removeSubmarine` over the remaining collection indices. -/
def removeSubmarineFrom (em : EntityManager) (identifier : Identifier) :
    List (Fin 4) → EntityManager
  | [] => em
  | index :: rest =>
    match (em.submarines index).find identifier with
    | some entity =>
      let em := em.removeEntity entity
      { em with
        submarines := Function.update em.submarines index
            ((em.submarines index).erase identifier) }
    | none => removeSubmarineFrom em identifier rest

/-- Operation `removeSubmarine(identifier)`: search the collections of the
submarine types in index order; remove the first entry found and return. -/
def removeSubmarine (em : EntityManager) (identifier : Identifier) : EntityManager :=
  removeSubmarineFrom em identifier [0, 1, 2, 3]

/-- Operation `removeFish(identifier)`. -/
def removeFish (em : EntityManager) (identifier : Identifier) : EntityManager :=
  match em.fishes.find identifier with
  | some entity =>
    let em := em.removeEntity entity
    { em with fishes := em.fishes.erase identifier }
  | none => em

/-- Operation `removeBomb(identifier)`. -/
def removeBomb (em : EntityManager) (identifier : Identifier) : EntityManager :=
  match em.bombs.find identifier with
  | some entity =>
    let em := em.removeEntity entity
    { em with bombs := em.bombs.erase identifier }
  | none => em

/-- Operation `removeTorpedo(identifier)`. -/
def removeTorpedo (em : EntityManager) (identifier : Identifier) : EntityManager :=
  match em.torpedoes.find identifier with
  | some entity =>
    let em := em.removeEntity entity
    { em with torpedoes := em.torpedoes.erase identifier }
  | none => em

/-- Operation `removeMissile(identifier)`. -/
def removeMissile (em : EntityManager) (identifier : Identifier) : EntityManager :=
  match em.missiles.find identifier with
  | some entity =>
    let em := em.removeEntity entity
    { em with missiles := em.missiles.erase identifier }
  | none => em

/-- Operation `removeBoatMissile(identifier)`. -/
def removeBoatMissile (em : EntityManager) (identifier : Identifier) : EntityManager :=
  match em.boatMissiles.find identifier with
  | some entity =>
    let em := em.removeEntity entity
    { em with boatMissiles := em.boatMissiles.erase identifier }
  | none => em

/-- Operation `removeBuyLives(identifier)`. -/
def removeBuyLives (em : EntityManager) (identifier : Identifier) : EntityManager :=
  match em.buyLivesIcons.find identifier with
  | some entity =>
    let em := em.removeEntity entity
    { em with buyLivesIcons := em.buyLivesIcons.erase identifier }
  | none => em

/-- Operation `removeBuyMissiles(identifier)`. -/
def removeBuyMissiles (em : EntityManager) (identifier : Identifier) : EntityManager :=
  match em.buyMissilesIcons.find identifier with
  | some entity =>
    let em := em.removeEntity entity
    { em with buyMissilesIcons := em.buyMissilesIcons.erase identifier }
  | none => em

/-- Operation `removeEndStore(identifier)`. -/
def removeEndStore (em : EntityManager) (identifier : Identifier) : EntityManager :=
  match em.endStoreIcons.find identifier with
  | some entity =>
    let em := em.removeEntity entity
    { em with endStoreIcons := em.endStoreIcons.erase identifier }
  | none => em

/-- Operation `removeExplosion(identifier)`. -/
def removeExplosion (em : EntityManager) (identifier : Identifier) : EntityManager :=
  match em.explosions.find identifier with
  | some entity =>
    let em := em.removeEntity entity
    { em with explosions := em.explosions.erase identifier }
  | none => em

/-- Operation `removeSmoke(identifier)`. -/
def removeSmoke (em : EntityManager) (identifier : Identifier) : EntityManager :=
  match em.smokes.find identifier with
  | some entity =>
    let em := em.removeEntity entity
    { em with smokes := em.smokes.erase identifier }
  | none => em

/-- Operation `removeCharacter(identifier)`. -/
def removeCharacter (em : EntityManager) (identifier : Identifier) : EntityManager :=
  match em.characters.find identifier with
  | some entity =>
    let em := em.removeEntity entity
    { em with characters := em.characters.erase identifier }
  | none => em

/-- Operation `removeStringLabel(identifier)`: remove the characters of the label,
then the label; no delegate is notified for the label itself. -/
def removeStringLabel (em : EntityManager) (identifier : Identifier) : EntityManager :=
  match em.stringLabels.find identifier with
  | some label =>
    let em := label.identifiers.foldl removeCharacter em
    { em with stringLabels := em.stringLabels.erase identifier }
  | none => em

/-- Operation `registerDelegate(delegate)`. -/
def registerDelegate (em : EntityManager) (delegate : Nat) : EntityManager :=
  { em with delegates := em.delegates ++ [delegate] }

end EntityManager

/-- The live collections of the manager. -/
inductive Coll where
  | submarines : Fin 4 → Coll
  | fishes | bombs | torpedoes | missiles | boatMissiles | buyLivesIcons | buyMissilesIcons
  | endStoreIcons | explosions | smokes | characters | stringLabels
deriving DecidableEq, Repr

/-- The content of a live collection. -/
def Coll.get : Coll → EntityManager → EMap
  | .submarines i, em => em.submarines i
  | .fishes, em => em.fishes
  | .bombs, em => em.bombs
  | .torpedoes, em => em.torpedoes
  | .missiles, em => em.missiles
  | .boatMissiles, em => em.boatMissiles
  | .buyLivesIcons, em => em.buyLivesIcons
  | .buyMissilesIcons, em => em.buyMissilesIcons
  | .endStoreIcons, em => em.endStoreIcons
  | .explosions, em => em.explosions
  | .smokes, em => em.smokes
  | .characters, em => em.characters
  | .stringLabels, em => em.stringLabels

/-- The submarine type of a collection index. -/
def indexToType : Fin 4 → SubmarineType
  | 0 => .I
  | 1 => .II
  | 2 => .III
  | 3 => .SPEC

/-- The `add_<Kind>` operation that stores into a given live collection. -/
def Coll.add : Coll → EntityManager → Entity → EntityManager
  | .submarines i, em, e => em.addSubmarine e (indexToType i)
  | .fishes, em, e => em.addFish e
  | .bombs, em, e => em.addBomb e
  | .torpedoes, em, e => em.addTorpedo e
  | .missiles, em, e => em.addMissile e
  | .boatMissiles, em, e => em.addBoatMissile e
  | .buyLivesIcons, em, e => em.addBuyLives e
  | .buyMissilesIcons, em, e => em.addBuyMissiles e
  | .endStoreIcons, em, e => em.addEndStore e
  | .explosions, em, e => em.addExplosion e
  | .smokes, em, e => em.addSmoke e
  | .characters, em, e => em.addCharacter e
  | .stringLabels, em, e => em.addStringLabel e

/-- The entity kinds that live in a single collection and are removed through
`removeEntity`. -/
inductive Kind where
  | bomb | fish | torpedo | missile | boatMissile | explosion | smoke | character
  | buyLives | buyMissiles | endStore
deriving DecidableEq, Repr

/-- The live collection of a kind. -/
def Kind.coll : Kind → Coll
  | .bomb => .bombs
  | .fish => .fishes
  | .torpedo => .torpedoes
  | .missile => .missiles
  | .boatMissile => .boatMissiles
  | .explosion => .explosions
  | .smoke => .smokes
  | .character => .characters
  | .buyLives => .buyLivesIcons
  | .buyMissiles => .buyMissilesIcons
  | .endStore => .endStoreIcons

/-- The `remove_<Kind>` operation of a kind. -/
def Kind.remove : Kind → EntityManager → Identifier → EntityManager
  | .bomb => EntityManager.removeBomb
  | .fish => EntityManager.removeFish
  | .torpedo => EntityManager.removeTorpedo
  | .missile => EntityManager.removeMissile
  | .boatMissile => EntityManager.removeBoatMissile
  | .explosion => EntityManager.removeExplosion
  | .smoke => EntityManager.removeSmoke
  | .character => EntityManager.removeCharacter
  | .buyLives => EntityManager.removeBuyLives
  | .buyMissiles => EntityManager.removeBuyMissiles
  | .endStore => EntityManager.removeEndStore

/-- Every remove operation of the manager. -/
inductive RemoveOp where
  | single : Kind → RemoveOp
  | submarine : RemoveOp
  | stringLabel : RemoveOp
deriving DecidableEq, Repr

/-- Run a remove operation. -/
def RemoveOp.run : RemoveOp → EntityManager → Identifier → EntityManager
  | .single k => k.remove
  | .submarine => EntityManager.removeSubmarine
  | .stringLabel => EntityManager.removeStringLabel

/-- The identifier is a key of (one of) the live collection(s) that the remove
operation searches. -/
def RemoveOp.isKey : RemoveOp → EntityManager → Identifier → Prop
  | .single k, em, id => (k.coll.get em).find id ≠ none
  | .submarine, em, id => ∃ i : Fin 4, (em.submarines i).find id ≠ none
  | .stringLabel, em, id => em.stringLabels.find id ≠ none

/-- Two managers hold the same component arrays (and player record). -/
def sameComponents (a b : EntityManager) : Prop :=
  a.sprites = b.sprites ∧ a.ssprites = b.ssprites ∧ a.asprites = b.asprites ∧
  a.colors = b.colors ∧ a.positions = b.positions ∧ a.velocities = b.velocities ∧
  a.rotations = b.rotations ∧ a.physics = b.physics ∧ a.collisions = b.collisions ∧
  a.inputs = b.inputs ∧ a.attacks = b.attacks ∧ a.player = b.player ∧ a.scores = b.scores ∧
  a.pathings = b.pathings ∧ a.animations = b.animations ∧ a.stores = b.stores ∧
  a.distortions = b.distortions

/-- A call of one of the factory operations, with its arguments (the entity
handle and the manager apart). -/
inductive Factory where
  | make : EntityType → Position → vec2 → vec4 → Rat → Bool → Option CharAttribute → Factory
  | makeBomb : Position → vec2 → Factory
  | makeExplosion : Position → Factory
  | makeSubmarine : Position → Direction → Rat → SubmarineType → Nat → Rat → Factory
  | makeFish : Position → Direction → Rat → Factory
  | makeTorpedo : Position → vec2 → Factory
  | makeSmoke : Factory
  | makeMissile : Position → Factory
  | makeBoatMissile : Position → Position → Factory
  | makeBuyLives : Position → Factory
  | makeBuyMissiles : Position → Factory
  | makeEndStore : Position → Factory
  | makeCharacter : Position → Char → Font → vec4 → Nat → Factory
  | makeStringLabel : Position → Font → vec4 → Nat → List Char → Factory

/-- Run a factory call on a manager and an entity handle: the result, the
manager afterwards and the handle afterwards. -/
def Factory.run (env : Env) (em : EntityManager) (entity : Entity) :
    Factory → Bool × EntityManager × Entity
  | .make T position scale color radians isAnimated info =>
    em.make env entity T position scale color radians isAnimated info
  | .makeBomb position initVel => em.makeBomb env entity position initVel
  | .makeExplosion position => em.makeExplosion env entity position
  | .makeSubmarine position direction x_velocity type score radarRadius =>
    em.makeSubmarine env entity position direction x_velocity type score radarRadius
  | .makeFish position direction x_velocity => em.makeFish env entity position direction x_velocity
  | .makeTorpedo position initVel => em.makeTorpedo env entity position initVel
  | .makeSmoke => em.makeSmoke env entity
  | .makeMissile position => em.makeMissile env entity position
  | .makeBoatMissile position target => em.makeBoatMissile env entity position target
  | .makeBuyLives position => em.makeBuyLives env entity position
  | .makeBuyMissiles position => em.makeBuyMissiles env entity position
  | .makeEndStore position => em.makeEndStore env entity position
  | .makeCharacter position c font color size =>
    em.makeCharacter env entity position c font color size
  | .makeStringLabel position font color psize string =>
    let r := em.makeStringLabel env entity position font color psize string
    (r.1, r.2.1, r.2.2.1)

/-- The factory call reaches the generic `make`: `makeSubmarine` returns before
it for a position with `y < 20`, and `makeStringLabel` makes one character per
character of its text. -/
def Factory.reachesMake : Factory → Prop
  | .makeSubmarine position _ _ _ _ _ => ¬ position.y < 20
  | .makeStringLabel _ _ _ _ string => string ≠ []
  | _ => True

/-- An environment in which the sprite factory succeeds on every call. -/
def Env.succeeding : Env :=
  ⟨fun _ info => ⟨true, ⟨true, 1⟩, info.getD {}⟩, fun _ _ _ => (⟨0, 0⟩, ⟨0, 0⟩)⟩

/-- A new manager with one registered delegate on which
`makeSubmarine(submarine, {100, 50}, Right, 3, Type::I, 100, 1000)` has run. -/
def madeSubmarine : Bool × EntityManager × Entity :=
  (({} : EntityManager).registerDelegate 7).makeSubmarine Env.succeeding {} ⟨100, 50⟩ .Right 3
    .I 100 1000

/-- The manager after `addSubmarine(submarine, Type::I)` and
`addSubmarine(submarine, Type::II)` with the submarine of `madeSubmarine`. -/
def addedTwice : EntityManager :=
  (madeSubmarine.2.1.addSubmarine madeSubmarine.2.2 .I).addSubmarine madeSubmarine.2.2 .II

/-- Well-formedness of a live collection, as `std::unordered_map` and the
`add_<Kind>` operations keep it: the keys are unique and every handle is stored
under its own identifier. -/
def EMap.WF (m : EMap) : Prop :=
  m.keys.Nodup ∧ ∀ p ∈ m.entries, p.2.identifier = p.1

/-- Every live collection of the manager is well formed. -/
def EntityManager.WF (em : EntityManager) : Prop := ∀ c : Coll, (c.get em).WF

/-! ## Number labels, the player record and the game-over teardown -/

/-- Colour `Color::white`. -/
def white : vec4 := ⟨1, 1, 1, 1⟩

/-- The character of a decimal digit. -/
def digitChar (d : Nat) : Char := Char.ofNat (48 + d)

/-- Decimal digits of `value`, most significant first (at most `fuel` of them). -/
def decimalDigits : Nat → Nat → List Char
  | 0, _ => []
  | fuel + 1, value =>
    if value < 10 then [digitChar value]
    else decimalDigits fuel (value / 10) ++ [digitChar (value % 10)]

/-- Text that `snprintf` produces for the format `%0<width>llu`: the decimal
digits of `value`, padded with zeros on the left to `width` characters. -/
def formatNumber (width value : Nat) : List Char :=
  List.replicate (width - (decimalDigits (value + 1) value).length) '0' ++
    decimalDigits (value + 1) value

/-- The loop of `updateFormattedNumberLabel` over the digit positions `indices`.
For a digit that differs: the character entity `characters[id]` (inserted when
absent, as `operator[]` does) gets the new character, its static sprite is
deinitialised and made again from the attribute; a failure of the sprite
factory ends the update with `false`. An index past the end of `identifiers`
is read as 0. -/
def updateDigits (env : Env) (numericOld numericNew : List Char) (identifiers : List Identifier)
    (base : Nat) : List Nat → EntityManager → Bool × EntityManager
  | [], em => (true, em)
  | index :: rest, em =>
    if numericNew.getD index (Char.ofNat 0) ≠ numericOld.getD index (Char.ofNat 0) then
      let id := identifiers.getD (base + index) 0
      let ch : Entity := (em.characters.find id).getD {}
      let ch := { ch with attr := { ch.attr with character := numericNew.getD index (Char.ofNat 0) } }
      let em := { em with ssprites := Function.update em.ssprites id {} }
      let out := env.spriteMake .Character (some ch.attr)
      let ch := { ch with attr := out.attr }
      let em :=
        { em with
          ssprites := Function.update em.ssprites id out.sprite
          characters := em.characters.assign id ch }
      if !out.ok then (false, em)
      else updateDigits env numericOld numericNew identifiers base rest em
    else updateDigits env numericOld numericNew identifiers base rest em

namespace EntityManager

/-- Operation `updateFormattedNumberLabel(numberLabel, newValue)`: the result, the
manager afterwards and the label afterwards. -/
def updateFormattedNumberLabel (env : Env) (em : EntityManager)
    (numberLabel : FormattedNumberLabel) (newValue : Nat) :
    Bool × EntityManager × FormattedNumberLabel :=
  if numberLabel.value = newValue then (true, em, numberLabel)
  else
    let width := numberLabel.width
    let numericOld := formatNumber width numberLabel.value
    let numericNew := formatNumber width newValue
    let base := numberLabel.stringPrefix.length
    let r := updateDigits env numericOld numericNew numberLabel.label.identifiers base
      (List.range width) em
    if !r.1 then (false, r.2, numberLabel)
    else (true, r.2, { numberLabel with value := newValue })

/-- Wrapper `updateScoreLabel(newScore)`. -/
def updateScoreLabel (env : Env) (em : EntityManager) (newScore : Nat) : Bool × EntityManager :=
  let r := em.updateFormattedNumberLabel env em.scoreLabel newScore
  (r.1, { r.2.1 with scoreLabel := r.2.2 })

/-- Wrapper `updateMoneyLabel(newValue)`. -/
def updateMoneyLabel (env : Env) (em : EntityManager) (newValue : Nat) : Bool × EntityManager :=
  let r := em.updateFormattedNumberLabel env em.moneyLabel newValue
  (r.1, { r.2.1 with moneyLabel := r.2.2 })

/-- Wrapper `updateBoatLivesLabel(lives)`. -/
def updateBoatLivesLabel (env : Env) (em : EntityManager) (lives : Nat) : Bool × EntityManager :=
  let r := em.updateFormattedNumberLabel env em.livesLabel lives
  (r.1, { r.2.1 with livesLabel := r.2.2 })

/-- Wrapper `updateBoatMissilesLabel(numMissiles)`. -/
def updateBoatMissilesLabel (env : Env) (em : EntityManager) (numMissiles : Nat) :
    Bool × EntityManager :=
  let r := em.updateFormattedNumberLabel env em.missilesLabel numMissiles
  (r.1, { r.2.1 with missilesLabel := r.2.2 })

/-- Operation `signalGameOver(over)`. -/
def signalGameOver (em : EntityManager) (over : Bool) : EntityManager :=
  let em := { em with gameIsOver := over }
  if !em.gameIsOver then { em with gameIsRunning := true } else em

end EntityManager

/-- The methods of the player record (`Components/Player.hpp`, not in the
sources) that the manager and the stage controller call. -/
inductive PlayerMethod where
  | hasAvailableBombs | hasAvailableMissiles
  | incrementNumAvailableBombs | decrementNumAvailableBombs
  | incrementNumAvailableMissiles | decrementNumAvailableMissiles
  | incrementNumAvailableLives
  | incrementScore : Nat → PlayerMethod
  | commitScore
  | setBoatDestroyed
  | spendPlayerMoney : Int → PlayerMethod
deriving DecidableEq, Repr

/-- The calls of `PlayerDelegate` that the player record makes on its delegate,
the stage controller. -/
inductive PlayerEvent where
  | playerScoreDidChange : Nat → PlayerEvent
  | playerMoneyDidChange : Nat → PlayerEvent
  | playerBoatLivesDidChange : Nat → PlayerEvent
  | playerDidLoseAllLives : PlayerEvent
deriving DecidableEq, Repr

/-- What a call of a player method leaves behind: the value it returns, the
player record afterwards and the delegate calls it made, in order. -/
structure PlayerOutcome where
  result : Bool
  player : Player
  events : List PlayerEvent
deriving DecidableEq, Repr

/-- The behaviour of the code that the stage controller and the manager call
and that is not in the sources. The player record: any function from the
method called and the record to an outcome. The macro `psoftassert(e, ...)` of
`Foundations`: whether it evaluates its condition `e` (a build that compiles
the macro away does not). -/
structure PlayerModel where
  call : PlayerMethod → Player → PlayerOutcome
  softAsserts : Bool

namespace EntityManager

/-- The `PlayerDelegate` methods of `StageController` (`playerScoreDidChange`,
`playerMoneyDidChange`, `playerBoatLivesDidChange`, `playerDidLoseAllLives`);
each of them only calls into the manager, the first three inside
`psoftassert`. -/
def playerDelegate (pm : PlayerModel) (env : Env) (em : EntityManager) :
    PlayerEvent → EntityManager
  | .playerScoreDidChange newScore =>
    if pm.softAsserts then (em.updateScoreLabel env newScore).2 else em
  | .playerMoneyDidChange newValue =>
    if pm.softAsserts then (em.updateMoneyLabel env newValue).2 else em
  | .playerBoatLivesDidChange lives =>
    if pm.softAsserts then (em.updateBoatLivesLabel env lives).2 else em
  | .playerDidLoseAllLives => em.signalGameOver true

/-- A call of a method of the player record `this->player`, followed by the
delegate calls it made: the returned value and the manager afterwards. -/
def playerCall (pm : PlayerModel) (env : Env) (em : EntityManager) (method : PlayerMethod) :
    Bool × EntityManager :=
  let out := pm.call method em.player
  (out.result, out.events.foldl (playerDelegate pm env) { em with player := out.player })

/-- One loop `while (collection.size() > 0) remove(collection.begin()->first)` of
`removeAllEntities`, followed by `after` in each iteration; `fuel` bounds the
number of iterations. -/
def drain (get : EntityManager → EMap) (remove : EntityManager → Identifier → EntityManager)
    (after : EntityManager → EntityManager) : Nat → EntityManager → EntityManager
  | 0, em => em
  | fuel + 1, em =>
    match (get em).entries with
    | [] => em
    | (first, _) :: _ => drain get remove after fuel (after (remove em first))

/-- Operation `removeAllEntities()`. Each loop gets as many iterations as its
collection has entries, which it never exhausts. -/
def removeAllEntities (pm : PlayerModel) (env : Env) (em : EntityManager) : EntityManager :=
  let em := drain (fun m => m.fishes) removeFish id em.fishes.size em
  let em := drain (fun m => m.bombs) removeBomb
    (fun m => (m.playerCall pm env .incrementNumAvailableBombs).2) em.bombs.size em
  let em := drain (fun m => m.torpedoes) removeTorpedo id em.torpedoes.size em
  let em := drain (fun m => m.missiles) removeMissile id em.missiles.size em
  let em := drain (fun m => m.boatMissiles) removeBoatMissile id em.boatMissiles.size em
  let em := drain (fun m => m.explosions) removeExplosion id em.explosions.size em
  let em := drain (fun m => m.submarines 0) removeSubmarine id (em.submarines 0).size em
  let em := drain (fun m => m.submarines 1) removeSubmarine id (em.submarines 1).size em
  let em := drain (fun m => m.submarines 2) removeSubmarine id (em.submarines 2).size em
  let em := drain (fun m => m.submarines 3) removeSubmarine id (em.submarines 3).size em
  let em := drain (fun m => m.buyLivesIcons) removeBuyLives id em.buyLivesIcons.size em
  let em := drain (fun m => m.buyMissilesIcons) removeBuyMissiles id em.buyMissilesIcons.size em
  drain (fun m => m.endStoreIcons) removeEndStore id em.endStoreIcons.size em

/-- Operation `setupOutroUI()`: five string labels; the results of
`makeStringLabel` are not looked at. -/
def setupOutroUI (env : Env) (em : EntityManager) : Bool × EntityManager :=
  let r := em.makeStringLabel env em.OutroLabel1 ⟨512, 210⟩ .SFMonoRegular black 52
    "GAME OVER".toList
  let em := { r.2.1 with OutroLabel1 := r.2.2.1 }
  let r := em.makeStringLabel env em.OutroLabel2 ⟨365, 320⟩ .SFMonoRegular black 15
    "THANKS FOR PLAYING".toList
  let em := { r.2.1 with OutroLabel2 := r.2.2.1 }
  let r := em.makeStringLabel env em.OutroLabel3 ⟨200, 360⟩ .SFMonoRegular black 15
    "WOULD YOU LIKE TO TRY AGAIN?".toList
  let em := { r.2.1 with OutroLabel3 := r.2.2.1 }
  let r := em.makeStringLabel env em.newGameLabel ⟨440, 541.5⟩ .SFMonoRegular white 35
    "N E W  G A M E".toList
  let em := { r.2.1 with newGameLabel := r.2.2.1 }
  let r := em.makeStringLabel env em.loadGameLabel ⟨680, 541.5⟩ .SFMonoRegular white 35
    "L O A D  G A M E".toList
  (true, { r.2.1 with loadGameLabel := r.2.2.1 })

/-- Operation `checkIfGameOver()`: the returned value and the manager afterwards. -/
def checkIfGameOver (pm : PlayerModel) (env : Env) (em : EntityManager) : Bool × EntityManager :=
  if em.gameIsOver then
    if em.gameIsRunning then
      let em := { em with gameIsRunning := false }
      let em := em.removeAllEntities pm env
      (true, (em.setupOutroUI env).2)
    else (true, em)
  else (false, em)

end EntityManager

/-! ## Save and load -/

/-- Insertion into a `std::unordered_set<Entity::Identifier>`, kept as the list of
its elements in some iteration order. -/
def setInsert (s : List Identifier) (x : Identifier) : List Identifier :=
  if x ∈ s then s else s ++ [x]

/-- The snapshot `EntityManager::EM_SaveData`. -/
structure EM_SaveData where
  boatId : Identifier := 0
  submarines : Fin 4 → List Identifier := fun _ => []
  fishes : List Identifier := []
  bombs : List Identifier := []
  torpedoes : List Identifier := []
  missiles : List Identifier := []
  positions : Identifier → Position := fun _ => {}
  velocities : Identifier → Velocity := fun _ => {}
  rotations : Identifier → Rotation := fun _ => {}
  physics : Identifier → Physics := fun _ => {}
  scores : Identifier → Score := fun _ => {}
  collisions : Identifier → Collision := fun _ => {}
  attacks : Identifier → Attack := fun _ => {}

/-- The loop `for (i = 0; i < MAX_NUM_ON_SCREEN_ENTITIES; i++) dst[i] = src[i]`. -/
def copyArray {α : Type} (src dst : Identifier → α) : Identifier → α :=
  fun i => if 0 ≤ i ∧ i < (MAX_NUM_ON_SCREEN_ENTITIES : Int) then src i else dst i

/-- Constant `FLT_MAX`, the default radar radius of `makeSubmarine`. -/
def FLT_MAX : Rat := 340282346638528859811704183484516925440

/-- A loop of `loadGame` over the identifiers of a saved set: make an entity
(`checked` says whether a failed make returns false from `loadGame`), add it,
then run `after`. Returns false when a checked make failed. -/
def loadEach (mk : EntityManager → Identifier → Bool × EntityManager × Entity) (checked : Bool)
    (add : EntityManager → Entity → EntityManager) (after : EntityManager → EntityManager) :
    List Identifier → EntityManager → Bool × EntityManager
  | [], em => (true, em)
  | savedID :: rest, em =>
    if checked && !(mk em savedID).1 then (false, (mk em savedID).2.1)
    else loadEach mk checked add after rest (after (add (mk em savedID).2.1 (mk em savedID).2.2))

namespace EntityManager

/-- Operation `saveGame(data)`: the manager (which is only read) and the
snapshot afterwards. -/
def saveGame (em : EntityManager) (data : EM_SaveData) : EntityManager × EM_SaveData :=
  (em,
    { data with
      boatId := em.boat.identifier
      fishes := em.fishes.keys.foldl setInsert data.fishes
      bombs := em.bombs.keys.foldl setInsert data.bombs
      missiles := em.missiles.keys.foldl setInsert data.missiles
      torpedoes := em.torpedoes.keys.foldl setInsert data.torpedoes
      submarines := fun i => (em.submarines i).keys.foldl setInsert (data.submarines i)
      physics := copyArray em.physics data.physics
      positions := copyArray em.positions data.positions
      rotations := copyArray em.rotations data.rotations
      velocities := copyArray em.velocities data.velocities
      scores := copyArray em.scores data.scores
      collisions := copyArray em.collisions data.collisions
      attacks := copyArray em.attacks data.attacks })

/-- The body of the bomb loop of `loadGame` up to the check of `makeBomb`. -/
def loadBomb (env : Env) (data : EM_SaveData) (em : EntityManager) (bombID : Identifier) :
    Bool × EntityManager × Entity :=
  em.makeBomb env {} (data.positions bombID) ⟨0, 0⟩

/-- The body of the submarine loop of `loadGame` for the collection `i`, up to
the call of `makeSubmarine`. -/
def loadSubmarine (env : Env) (data : EM_SaveData) (i : Fin 4) (em : EntityManager)
    (subID : Identifier) : Bool × EntityManager × Entity :=
  let pos := data.positions subID
  let x_vel := (data.velocities subID).vx
  let score := (data.scores subID).score
  if x_vel < 0 then em.makeSubmarine env {} pos .Left (x_vel * (-1)) (indexToType i) score FLT_MAX
  else em.makeSubmarine env {} pos .Right x_vel (indexToType i) score FLT_MAX

/-- The body of the fish loop of `loadGame` up to the check of `makeFish`. -/
def loadFish (env : Env) (data : EM_SaveData) (em : EntityManager) (fishID : Identifier) :
    Bool × EntityManager × Entity :=
  let pos := data.positions fishID
  let x_vel := (data.velocities fishID).vx
  if x_vel < 0 then em.makeFish env {} pos .Left (x_vel * (-1))
  else em.makeFish env {} pos .Right x_vel

/-- The body of the torpedo loop of `loadGame` up to the check of `makeTorpedo`. -/
def loadTorpedo (env : Env) (data : EM_SaveData) (em : EntityManager) (torpID : Identifier) :
    Bool × EntityManager × Entity :=
  em.makeTorpedo env {} (data.positions torpID) ⟨0, 0⟩

/-- The body of the missile loop of `loadGame` up to the check of `makeMissile`. -/
def loadMissile (env : Env) (data : EM_SaveData) (em : EntityManager) (missileID : Identifier) :
    Bool × EntityManager × Entity :=
  em.makeMissile env {} (data.positions missileID)

/-- Operation `loadGame(data)`: the result and the manager afterwards. The
result of `makeSubmarine` is the only one that is not checked. -/
def loadGame (pm : PlayerModel) (env : Env) (em : EntityManager) (data : EM_SaveData) :
    Bool × EntityManager :=
  let em := em.removeAllEntities pm env
  let em :=
    { em with
      positions := Function.update em.positions data.boatId (data.positions data.boatId) }
  let r := loadEach (loadBomb env data) true addBomb
    (fun m => (m.playerCall pm env .decrementNumAvailableBombs).2) data.bombs em
  if !r.1 then (false, r.2)
  else
    let r := loadEach (loadSubmarine env data 0) false (fun m e => m.addSubmarine e (indexToType 0))
      id (data.submarines 0) r.2
    let r := loadEach (loadSubmarine env data 1) false (fun m e => m.addSubmarine e (indexToType 1))
      id (data.submarines 1) r.2
    let r := loadEach (loadSubmarine env data 2) false (fun m e => m.addSubmarine e (indexToType 2))
      id (data.submarines 2) r.2
    let r := loadEach (loadSubmarine env data 3) false (fun m e => m.addSubmarine e (indexToType 3))
      id (data.submarines 3) r.2
    let r := loadEach (loadFish env data) true addFish id data.fishes r.2
    if !r.1 then (false, r.2)
    else
      let r := loadEach (loadTorpedo env data) true addTorpedo id data.torpedoes r.2
      if !r.1 then (false, r.2)
      else
        let r := loadEach (loadMissile env data) true addMissile id data.missiles r.2
        if !r.1 then (false, r.2) else (true, r.2)

end EntityManager

/-! ## The stage controller: the collision update bracket -/

/-- The state of a `StageController` as far as the bracket uses it: the manager
it points to, the pending-removal sets and the counters. -/
structure StageController where
  entityManager : EntityManager := {}
  gameIsActive : Bool := false
  rmbombs : List Identifier := []
  rmsubmarines : List Identifier := []
  rmfishes : List Identifier := []
  rmtorpedoes : List Identifier := []
  rmmissiles : List Identifier := []
  rmboatmissiles : List Identifier := []
  rmsmoke : List Identifier := []
  subsDead : Int := 0
  fishCount : Int := 0
  storeEnded : Bool := false

namespace StageController

/-- A call of a method of the player record through `this->player`. -/
def playerCall (pm : PlayerModel) (env : Env) (sc : StageController) (method : PlayerMethod) :
    Bool × StageController :=
  ((sc.entityManager.playerCall pm env method).1,
    { sc with entityManager := (sc.entityManager.playerCall pm env method).2 })

/-- Operation `spawnExplosion(position)`: the returned identifier (0 when
`makeExplosion` fails) and the controller afterwards. -/
def spawnExplosion (env : Env) (sc : StageController) (position : Position) :
    Identifier × StageController :=
  let r := sc.entityManager.makeExplosion env {} position
  if !r.1 then (0, { sc with entityManager := r.2.1 })
  else (r.2.2.identifier, { sc with entityManager := r.2.1.addExplosion r.2.2 })

/-- Callback `beginUpdates()`. -/
def beginUpdates (sc : StageController) : StageController :=
  { sc with
    rmbombs := []
    rmsubmarines := []
    rmfishes := []
    rmtorpedoes := []
    rmmissiles := []
    rmboatmissiles := [] }

/-- Callback `bombDidGenerateExplosion(bomb)`; the call of `spawnExplosion` is
the condition of a `psoftassert`. -/
def bombDidGenerateExplosion (pm : PlayerModel) (env : Env) (sc : StageController)
    (bomb : Identifier) : StageController :=
  let sc := if pm.softAsserts then (sc.spawnExplosion env (sc.entityManager.positions bomb)).2
    else sc
  let sc := { sc with rmbombs := setInsert sc.rmbombs bomb }
  (sc.playerCall pm env .incrementNumAvailableBombs).2

/-- Callback `boatMissileDidGenerateExplosion(boatMissile)`. -/
def boatMissileDidGenerateExplosion (env : Env) (sc : StageController)
    (boatMissile : Identifier) : StageController :=
  let sc := (sc.spawnExplosion env (sc.entityManager.positions boatMissile)).2
  { sc with rmboatmissiles := setInsert sc.rmboatmissiles boatMissile }

/-- The loop `for_each` that adds the score of every reported entity to the
player score. -/
def incrementScores (pm : PlayerModel) (env : Env) (sc : StageController) :
    List Identifier → StageController
  | [] => sc
  | id :: rest =>
    incrementScores pm env
      (sc.playerCall pm env (.incrementScore (sc.entityManager.scores id).score)).2 rest

/-- Callback `explosionDidCollideWithSubmarines(submarines)`. -/
def explosionDidCollideWithSubmarines (pm : PlayerModel) (env : Env) (sc : StageController)
    (submarines : List Identifier) : StageController :=
  let sc := { sc with rmsubmarines := submarines.foldl setInsert sc.rmsubmarines }
  let sc := incrementScores pm env sc submarines
  (sc.playerCall pm env .commitScore).2

/-- Callback `explosionDidCollideWithFishes(fishes)`. -/
def explosionDidCollideWithFishes (pm : PlayerModel) (env : Env) (sc : StageController)
    (fishes : List Identifier) : StageController :=
  let sc := { sc with rmfishes := fishes.foldl setInsert sc.rmfishes }
  let sc := incrementScores pm env sc fishes
  (sc.playerCall pm env .commitScore).2

/-- The loop `for_each` that spawns an explosion at the position of every
reported entity. -/
def spawnExplosions (env : Env) (sc : StageController) : List Identifier → StageController
  | [] => sc
  | id :: rest =>
    spawnExplosions env (sc.spawnExplosion env (sc.entityManager.positions id)).2 rest

/-- Callback `explosionDidCollideWithMissiles(missiles)`. -/
def explosionDidCollideWithMissiles (env : Env) (sc : StageController)
    (missiles : List Identifier) : StageController :=
  let sc := { sc with rmmissiles := missiles.foldl setInsert sc.rmmissiles }
  spawnExplosions env sc missiles

/-- Callback `explosionDidCollideWithTorpedoes(torpedoes)`. -/
def explosionDidCollideWithTorpedoes (env : Env) (sc : StageController)
    (torpedoes : List Identifier) : StageController :=
  let sc := { sc with rmtorpedoes := torpedoes.foldl setInsert sc.rmtorpedoes }
  spawnExplosions env sc torpedoes

/-- Handler `playerDidBuyMissile()`; the update of the label is the condition of
a `psoftassert`. -/
def playerDidBuyMissile (pm : PlayerModel) (env : Env) (sc : StageController) :
    StageController :=
  let r := sc.playerCall pm env (.spendPlayerMoney sc.entityManager.missilePrice)
  if r.1 then
    let sc := (r.2.playerCall pm env .incrementNumAvailableMissiles).2
    if pm.softAsserts then
      { sc with
        entityManager := (sc.entityManager.updateBoatMissilesLabel env
            sc.entityManager.player.numAvailableMissiles.toNat).2 }
    else sc
  else r.2

/-- Handler `playerDidBuyLife()`; the update of the label is the condition of a
`psoftassert`. -/
def playerDidBuyLife (pm : PlayerModel) (env : Env) (sc : StageController) : StageController :=
  let r := sc.playerCall pm env (.spendPlayerMoney sc.entityManager.lifePrice)
  if r.1 then
    let sc := (r.2.playerCall pm env .incrementNumAvailableLives).2
    if pm.softAsserts then
      { sc with
        entityManager := (sc.entityManager.updateBoatLivesLabel env
            sc.entityManager.player.lives.toNat).2 }
    else sc
  else r.2

/-- Handler `playerDidExitStore()`. -/
def playerDidExitStore (sc : StageController) : StageController :=
  { sc with storeEnded := true }

/-- Callback `explosionDidCollideWithStoreIcons(storeIcons)`. -/
def explosionDidCollideWithStoreIcons (pm : PlayerModel) (env : Env) (sc : StageController) :
    List Identifier → StageController
  | [] => sc
  | icon :: rest =>
    let sc :=
      match (sc.entityManager.stores icon).type with
      | .boatMissile => sc.playerDidBuyMissile pm env
      | .life => sc.playerDidBuyLife pm env
      | .end_ => sc.playerDidExitStore
      | .none => sc
    explosionDidCollideWithStoreIcons pm env sc rest

/-- Helper `projectileDidCollideWithBoat(boat)`; the call of `spawnExplosion` is
the condition of a `psoftassert`. -/
def projectileDidCollideWithBoat (pm : PlayerModel) (env : Env) (sc : StageController)
    (boat : Identifier) : StageController :=
  let sc := if pm.softAsserts then (sc.spawnExplosion env (sc.entityManager.positions boat)).2
    else sc
  (sc.playerCall pm env .setBoatDestroyed).2

/-- Callback `torpedoDidCollideWithBoat(torpedo, boat)`. -/
def torpedoDidCollideWithBoat (pm : PlayerModel) (env : Env) (sc : StageController)
    (torpedo boat : Identifier) : StageController :=
  let sc := { sc with rmtorpedoes := setInsert sc.rmtorpedoes torpedo }
  sc.projectileDidCollideWithBoat pm env boat

/-- Callback `missileDidCollideWithBoat(missile, boat)`. -/
def missileDidCollideWithBoat (pm : PlayerModel) (env : Env) (sc : StageController)
    (missile boat : Identifier) : StageController :=
  let sc := { sc with rmmissiles := setInsert sc.rmmissiles missile }
  sc.projectileDidCollideWithBoat pm env boat

/-- Callback `submarineDidMoveOutOfScreen(submarine)`. -/
def submarineDidMoveOutOfScreen (sc : StageController) (submarine : Identifier) :
    StageController :=
  { sc with rmsubmarines := setInsert sc.rmsubmarines submarine }

/-- Callback `bombDidMoveOutOfScreen(bomb)`. -/
def bombDidMoveOutOfScreen (pm : PlayerModel) (env : Env) (sc : StageController)
    (bomb : Identifier) : StageController :=
  let sc := { sc with rmbombs := setInsert sc.rmbombs bomb }
  (sc.playerCall pm env .incrementNumAvailableBombs).2

/-- Callback `missileDidMoveOutOfScreen(missile)`. -/
def missileDidMoveOutOfScreen (sc : StageController) (missile : Identifier) : StageController :=
  { sc with rmmissiles := setInsert sc.rmmissiles missile }

/-- Callback `torpedoDidMoveOutOfOceanSurface(torpedo)`. -/
def torpedoDidMoveOutOfOceanSurface (sc : StageController) (torpedo : Identifier) :
    StageController :=
  { sc with rmtorpedoes := setInsert sc.rmtorpedoes torpedo }

/-- Callback `smokeDidMoveOutOfScreen(smoke)`. -/
def smokeDidMoveOutOfScreen (sc : StageController) (smoke : Identifier) : StageController :=
  { sc with rmsmoke := setInsert sc.rmsmoke smoke }

/-- The loop over `rmsubmarines` of `endUpdates`. -/
def removeSubmarines (sc : StageController) : List Identifier → StageController
  | [] => sc
  | id :: rest =>
    removeSubmarines
      { sc with
        entityManager := sc.entityManager.removeSubmarine id
        subsDead := sc.subsDead + 1 } rest

/-- The loop over `rmfishes` of `endUpdates`. -/
def removeFishes (sc : StageController) : List Identifier → StageController
  | [] => sc
  | id :: rest =>
    removeFishes
      { sc with
        entityManager := sc.entityManager.removeFish id
        fishCount := sc.fishCount - 1 } rest

/-- Callback `endUpdates()`. -/
def endUpdates (pm : PlayerModel) (env : Env) (sc : StageController) : StageController :=
  let r := sc.entityManager.checkIfGameOver pm env
  let sc := { sc with entityManager := r.2 }
  if !r.1 then
    let sc := { sc with entityManager := sc.rmbombs.foldl EntityManager.removeBomb sc.entityManager }
    let sc :=
      { sc with
        entityManager := sc.rmboatmissiles.foldl EntityManager.removeBoatMissile sc.entityManager }
    let sc :=
      { sc with entityManager := sc.rmmissiles.foldl EntityManager.removeMissile sc.entityManager }
    let sc :=
      { sc with entityManager := sc.rmtorpedoes.foldl EntityManager.removeTorpedo sc.entityManager }
    let sc := sc.removeSubmarines sc.rmsubmarines
    let sc := sc.removeFishes sc.rmfishes
    { sc with entityManager := sc.rmsmoke.foldl EntityManager.removeSmoke sc.entityManager }
  else sc

end StageController

/-- A call of one of the outcome-reporting callbacks of the collision delegate,
with its arguments. -/
inductive Outcome where
  | bombDidGenerateExplosion : Identifier → Outcome
  | boatMissileDidGenerateExplosion : Identifier → Outcome
  | explosionDidCollideWithSubmarines : List Identifier → Outcome
  | explosionDidCollideWithFishes : List Identifier → Outcome
  | explosionDidCollideWithMissiles : List Identifier → Outcome
  | explosionDidCollideWithTorpedoes : List Identifier → Outcome
  | explosionDidCollideWithStoreIcons : List Identifier → Outcome
  | torpedoDidCollideWithBoat : Identifier → Identifier → Outcome
  | missileDidCollideWithBoat : Identifier → Identifier → Outcome
  | submarineDidMoveOutOfScreen : Identifier → Outcome
  | bombDidMoveOutOfScreen : Identifier → Outcome
  | missileDidMoveOutOfScreen : Identifier → Outcome
  | torpedoDidMoveOutOfOceanSurface : Identifier → Outcome
  | smokeDidMoveOutOfScreen : Identifier → Outcome
deriving DecidableEq, Repr

/-- Run an outcome-reporting callback on the stage controller. -/
def Outcome.report (pm : PlayerModel) (env : Env) (sc : StageController) :
    Outcome → StageController
  | .bombDidGenerateExplosion bomb => sc.bombDidGenerateExplosion pm env bomb
  | .boatMissileDidGenerateExplosion boatMissile => sc.boatMissileDidGenerateExplosion env boatMissile
  | .explosionDidCollideWithSubmarines submarines =>
    sc.explosionDidCollideWithSubmarines pm env submarines
  | .explosionDidCollideWithFishes fishes => sc.explosionDidCollideWithFishes pm env fishes
  | .explosionDidCollideWithMissiles missiles => sc.explosionDidCollideWithMissiles env missiles
  | .explosionDidCollideWithTorpedoes torpedoes => sc.explosionDidCollideWithTorpedoes env torpedoes
  | .explosionDidCollideWithStoreIcons storeIcons =>
    sc.explosionDidCollideWithStoreIcons pm env storeIcons
  | .torpedoDidCollideWithBoat torpedo boat => sc.torpedoDidCollideWithBoat pm env torpedo boat
  | .missileDidCollideWithBoat missile boat => sc.missileDidCollideWithBoat pm env missile boat
  | .submarineDidMoveOutOfScreen submarine => sc.submarineDidMoveOutOfScreen submarine
  | .bombDidMoveOutOfScreen bomb => sc.bombDidMoveOutOfScreen pm env bomb
  | .missileDidMoveOutOfScreen missile => sc.missileDidMoveOutOfScreen missile
  | .torpedoDidMoveOutOfOceanSurface torpedo => sc.torpedoDidMoveOutOfOceanSurface torpedo
  | .smokeDidMoveOutOfScreen smoke => sc.smokeDidMoveOutOfScreen smoke

/-- The removal intents that a callback records: the remove operation that
`endUpdates` will run, and the identifier. -/
def Outcome.records : Outcome → List (RemoveOp × Identifier)
  | .bombDidGenerateExplosion bomb => [(.single .bomb, bomb)]
  | .boatMissileDidGenerateExplosion boatMissile => [(.single .boatMissile, boatMissile)]
  | .explosionDidCollideWithSubmarines submarines => submarines.map (fun id => (.submarine, id))
  | .explosionDidCollideWithFishes fishes => fishes.map (fun id => (.single .fish, id))
  | .explosionDidCollideWithMissiles missiles => missiles.map (fun id => (.single .missile, id))
  | .explosionDidCollideWithTorpedoes torpedoes =>
    torpedoes.map (fun id => (.single .torpedo, id))
  | .explosionDidCollideWithStoreIcons _ => []
  | .torpedoDidCollideWithBoat torpedo _ => [(.single .torpedo, torpedo)]
  | .missileDidCollideWithBoat missile _ => [(.single .missile, missile)]
  | .submarineDidMoveOutOfScreen submarine => [(.submarine, submarine)]
  | .bombDidMoveOutOfScreen bomb => [(.single .bomb, bomb)]
  | .missileDidMoveOutOfScreen missile => [(.single .missile, missile)]
  | .torpedoDidMoveOutOfOceanSurface torpedo => [(.single .torpedo, torpedo)]
  | .smokeDidMoveOutOfScreen smoke => [(.single .smoke, smoke)]

/-- The calls of `remove_<Kind>` that `endUpdates` makes when the game is not
over, in order. -/
def StageController.removeCalls (sc : StageController) : List (RemoveOp × Identifier) :=
  sc.rmbombs.map (fun id => (RemoveOp.single .bomb, id)) ++
  sc.rmboatmissiles.map (fun id => (RemoveOp.single .boatMissile, id)) ++
  sc.rmmissiles.map (fun id => (RemoveOp.single .missile, id)) ++
  sc.rmtorpedoes.map (fun id => (RemoveOp.single .torpedo, id)) ++
  sc.rmsubmarines.map (fun id => (RemoveOp.submarine, id)) ++
  sc.rmfishes.map (fun id => (RemoveOp.single .fish, id)) ++
  sc.rmsmoke.map (fun id => (RemoveOp.single .smoke, id))

/-- A bracket: `beginUpdates`, the outcome reports in order, before `endUpdates`. -/
def StageController.reportAll (pm : PlayerModel) (env : Env) (sc : StageController)
    (outcomes : List Outcome) : StageController :=
  outcomes.foldl (Outcome.report pm env) sc.beginUpdates

/-- A player record that changes nothing, always answers yes and notifies
nobody, in a build whose `psoftassert` evaluates its condition. -/
def PlayerModel.quiet : PlayerModel := ⟨fun _ p => ⟨true, p, []⟩, true⟩

/-- A snapshot whose only live entity is a submarine of type I with the saved
identifier 7 at the position `{100, 10}`. -/
def shallowSnapshot : EM_SaveData :=
  { submarines := fun i => if i = 0 then [7] else []
    positions := fun i => if i = 7 then ⟨100, 10⟩ else {} }

/-- What the delegates see of a manager: the live collections, the registered
delegates and the calls they have received. -/
structure Live where
  submarines : Fin 4 → EMap
  fishes : EMap
  bombs : EMap
  torpedoes : EMap
  missiles : EMap
  boatMissiles : EMap
  buyLivesIcons : EMap
  buyMissilesIcons : EMap
  endStoreIcons : EMap
  explosions : EMap
  smokes : EMap
  characters : EMap
  stringLabels : EMap
  delegates : List Nat
  log : List (Nat × Event)

/-- The live part of a manager. -/
def EntityManager.live (em : EntityManager) : Live :=
  { submarines := em.submarines, fishes := em.fishes, bombs := em.bombs,
    torpedoes := em.torpedoes, missiles := em.missiles, boatMissiles := em.boatMissiles,
    buyLivesIcons := em.buyLivesIcons, buyMissilesIcons := em.buyMissilesIcons,
    endStoreIcons := em.endStoreIcons, explosions := em.explosions, smokes := em.smokes,
    characters := em.characters, stringLabels := em.stringLabels, delegates := em.delegates,
    log := em.log }

/-- A collection of the live part. -/
def Live.get : Coll → Live → EMap
  | .submarines i, l => l.submarines i
  | .fishes, l => l.fishes
  | .bombs, l => l.bombs
  | .torpedoes, l => l.torpedoes
  | .missiles, l => l.missiles
  | .boatMissiles, l => l.boatMissiles
  | .buyLivesIcons, l => l.buyLivesIcons
  | .buyMissilesIcons, l => l.buyMissilesIcons
  | .endStoreIcons, l => l.endStoreIcons
  | .explosions, l => l.explosions
  | .smokes, l => l.smokes
  | .characters, l => l.characters
  | .stringLabels, l => l.stringLabels

/-- The part of a manager that the player record and the number labels never
touch: every live collection but the characters, the free list, the
delegates with their calls, the positions and the velocities. -/
structure Core where
  submarines : Fin 4 → EMap
  fishes : EMap
  bombs : EMap
  torpedoes : EMap
  missiles : EMap
  boatMissiles : EMap
  buyLivesIcons : EMap
  buyMissilesIcons : EMap
  endStoreIcons : EMap
  explosions : EMap
  smokes : EMap
  stringLabels : EMap
  freelist : FreeList
  delegates : List Nat
  log : List (Nat × Event)
  positions : Identifier → Position
  velocities : Identifier → Velocity

/-- The core part of a manager. -/
def EntityManager.core (em : EntityManager) : Core :=
  { submarines := em.submarines, fishes := em.fishes, bombs := em.bombs,
    torpedoes := em.torpedoes, missiles := em.missiles, boatMissiles := em.boatMissiles,
    buyLivesIcons := em.buyLivesIcons, buyMissilesIcons := em.buyMissilesIcons,
    endStoreIcons := em.endStoreIcons, explosions := em.explosions, smokes := em.smokes,
    stringLabels := em.stringLabels, freelist := em.freelist, delegates := em.delegates,
    log := em.log, positions := em.positions, velocities := em.velocities }

/-- A collection of the core part (the characters are not in it). -/
def Core.get : Coll → Core → EMap
  | .submarines i, l => l.submarines i
  | .fishes, l => l.fishes
  | .bombs, l => l.bombs
  | .torpedoes, l => l.torpedoes
  | .missiles, l => l.missiles
  | .boatMissiles, l => l.boatMissiles
  | .buyLivesIcons, l => l.buyLivesIcons
  | .buyMissilesIcons, l => l.buyMissilesIcons
  | .endStoreIcons, l => l.endStoreIcons
  | .explosions, l => l.explosions
  | .smokes, l => l.smokes
  | .characters, _ => {}
  | .stringLabels, l => l.stringLabels

/-- The factory call is `makeStringLabel`. -/
def Factory.isStringLabel : Factory → Bool
  | .makeStringLabel _ _ _ _ _ => true
  | _ => false

/-- What a factory built on the generic `make` does to the live part, the
free list and the positions of the manager `em`, for the result `r` of the
factory called with `position`. -/
def EntityManager.Made (env : Env) (em : EntityManager) (position : Position)
    (r : Bool × EntityManager × Entity) : Prop :=
  r.2.1.live = em.live ∧ r.2.1.freelist = em.freelist.alloc.2 ∧
  (r.1 = true → em.freelist.alloc.1 ≠ 0 ∧ r.2.2.identifier = em.freelist.alloc.1 ∧
    r.2.1.positions = Function.update em.positions em.freelist.alloc.1 position) ∧
  (r.1 = false → r.2.1.positions = em.positions) ∧
  (em.freelist.alloc.1 ≠ 0 → (∀ T info, (env.spriteMake T info).ok = true) → r.1 = true)

/-- The later manager `em2` has the core part of `em` and every character key
of `em`: what a call into the player record and the number labels leaves as it
was. -/
def EntityManager.SameCore (em em2 : EntityManager) : Prop :=
  em2.core = em.core ∧ em.characters.keys.Sublist em2.characters.keys

/-- Nothing is removed between the manager `em` and the later manager `em2`:
every live collection other than the explosions and the characters is the
same, the explosions and the characters keep their keys, and the free list of
`em2` is a tail of the free list of `em`. -/
def EntityManager.Reported (em em2 : EntityManager) : Prop :=
  (∀ c : Coll, c ≠ .explosions → c ≠ .characters → c.get em2 = c.get em) ∧
  em.explosions.keys.Sublist em2.explosions.keys ∧
  em.characters.keys.Sublist em2.characters.keys ∧
  em2.freelist.freeids <:+ em.freelist.freeids

/-- Nothing is added between the manager `em` and the later manager `em2`:
every live collection other than the characters has lost entries at most, and
the free list has grown at its end at most. -/
def EntityManager.Shrinks (em em2 : EntityManager) : Prop :=
  (∀ c : Coll, c ≠ .characters → (c.get em2).entries.Sublist (c.get em).entries) ∧
  em.freelist.freeids <+: em2.freelist.freeids

/-- The insert statements of an outcome-reporting callback: the stage
controller with the reported identifiers inserted into the pending-removal
sets, everything else as it was. -/
def Outcome.note (sc : StageController) : Outcome → StageController
  | .bombDidGenerateExplosion bomb => { sc with rmbombs := setInsert sc.rmbombs bomb }
  | .boatMissileDidGenerateExplosion boatMissile =>
    { sc with rmboatmissiles := setInsert sc.rmboatmissiles boatMissile }
  | .explosionDidCollideWithSubmarines submarines =>
    { sc with rmsubmarines := submarines.foldl setInsert sc.rmsubmarines }
  | .explosionDidCollideWithFishes fishes =>
    { sc with rmfishes := fishes.foldl setInsert sc.rmfishes }
  | .explosionDidCollideWithMissiles missiles =>
    { sc with rmmissiles := missiles.foldl setInsert sc.rmmissiles }
  | .explosionDidCollideWithTorpedoes torpedoes =>
    { sc with rmtorpedoes := torpedoes.foldl setInsert sc.rmtorpedoes }
  | .explosionDidCollideWithStoreIcons _ => sc
  | .torpedoDidCollideWithBoat torpedo _ =>
    { sc with rmtorpedoes := setInsert sc.rmtorpedoes torpedo }
  | .missileDidCollideWithBoat missile _ =>
    { sc with rmmissiles := setInsert sc.rmmissiles missile }
  | .submarineDidMoveOutOfScreen submarine =>
    { sc with rmsubmarines := setInsert sc.rmsubmarines submarine }
  | .bombDidMoveOutOfScreen bomb => { sc with rmbombs := setInsert sc.rmbombs bomb }
  | .missileDidMoveOutOfScreen missile =>
    { sc with rmmissiles := setInsert sc.rmmissiles missile }
  | .torpedoDidMoveOutOfOceanSurface torpedo =>
    { sc with rmtorpedoes := setInsert sc.rmtorpedoes torpedo }
  | .smokeDidMoveOutOfScreen smoke => { sc with rmsmoke := setInsert sc.rmsmoke smoke }

/-- The callback only inserts into the pending-removal sets and makes no call
into the manager or the player record. -/
def Outcome.insertsOnly : Outcome → Bool
  | .submarineDidMoveOutOfScreen _ => true
  | .missileDidMoveOutOfScreen _ => true
  | .torpedoDidMoveOutOfOceanSurface _ => true
  | .smokeDidMoveOutOfScreen _ => true
  | _ => false

/-- The later stage controller `sc2` differs from `sc` in the manager, to which
nothing was removed, and in the flag `storeEnded` at most. -/
def StageController.Step (sc sc2 : StageController) : Prop :=
  ∃ em2 se, sc.entityManager.Reported em2 ∧
    sc2 = { sc with entityManager := em2, storeEnded := se }

/-- A stage controller whose manager holds one live bomb: `makeBomb` at
`{10, 30}` on a new manager gives it the identifier 1, `addBomb` adds it. -/
def bombStage : StageController :=
  { entityManager :=
      (({} : EntityManager).makeBomb Env.succeeding {} ⟨10, 30⟩ ⟨0, 5⟩).2.1.addBomb
        (({} : EntityManager).makeBomb Env.succeeding {} ⟨10, 30⟩ ⟨0, 5⟩).2.2 }

/-- Run a list of calls of remove operations, in order. -/
def RemoveOp.runAll (calls : List (RemoveOp × Identifier)) (em : EntityManager) :
    EntityManager :=
  calls.foldl (fun m p => p.1.run m p.2) em

/-- Every pending-removal set holds each of its identifiers once, as a
`std::unordered_set` does. -/
def StageController.SetsNodup (sc : StageController) : Prop :=
  sc.rmbombs.Nodup ∧ sc.rmboatmissiles.Nodup ∧ sc.rmmissiles.Nodup ∧ sc.rmtorpedoes.Nodup ∧
  sc.rmsubmarines.Nodup ∧ sc.rmfishes.Nodup ∧ sc.rmsmoke.Nodup

/-- The stage `bombStage` after `signalGameOver(false)`: the game is running. -/
def runningBombStage : StageController :=
  { bombStage with entityManager := bombStage.entityManager.signalGameOver false }

/-- The entities of `done` are loaded in the manager `m`: for each entry (a
live collection, the identifiers newly given to its entities, the saved
identifiers they replace, in order, and what the loop of the collection
restores of a velocity) the keys of the collection are the new identifiers,
the position stored at each new identifier is the position `pos` saved for
the identifier it replaces, and the velocity stored there is as restored for
that identifier. -/
def EntityManager.Loaded (pos : Identifier → Position) (m : EntityManager)
    (done : List (Coll × List Identifier × List Identifier × (Identifier → Velocity → Prop))) :
    Prop :=
  ∀ t ∈ done, (t.1.get m).keys = t.2.1 ∧
    ∀ p ∈ t.2.1.zip t.2.2.1, m.positions p.1 = pos p.2 ∧ t.2.2.2 p.2 (m.velocities p.1)

/-- The identifiers that `removeAllEntities` releases, in the order of its
loops: the keys of the fish, bombs, torpedoes, missiles, boat missiles,
explosions, of the four submarine collections and of the three store-icon
collections. -/
def EntityManager.roundIds (em : EntityManager) : List Identifier :=
  em.fishes.keys ++ (em.bombs.keys ++ (em.torpedoes.keys ++ (em.missiles.keys ++
    (em.boatMissiles.keys ++ (em.explosions.keys ++ ((em.submarines 0).keys ++
      ((em.submarines 1).keys ++ ((em.submarines 2).keys ++ ((em.submarines 3).keys ++
        (em.buyLivesIcons.keys ++ (em.buyMissilesIcons.keys ++ em.endStoreIcons.keys)))))))))))

/-- The identifiers that the loops of `loadGame` take for a collection: of the
free list as `removeAllEntities` leaves it (the identifiers that were free,
then the released ones), the `count` identifiers after the first `skip`. -/
def EntityManager.newIds (em : EntityManager) (skip count : Nat) : List Identifier :=
  ((em.freelist.freeids ++ em.roundIds).drop skip).take count

/-- A stage controller whose manager holds one live boat missile:
`makeBoatMissile` at `{10, 30}` with the target `{50, 60}` on a new manager
gives it the identifier 1, `addBoatMissile` adds it. -/
def boatMissileStage : StageController :=
  { entityManager :=
      (({} : EntityManager).makeBoatMissile Env.succeeding {} ⟨10, 30⟩ ⟨50, 60⟩).2.1.addBoatMissile
        (({} : EntityManager).makeBoatMissile Env.succeeding {} ⟨10, 30⟩ ⟨50, 60⟩).2.2 }

/-- The two operations of the manager on its game-over flags. -/
inductive GameOp where
  | signalGameOver (over : Bool)
  | checkIfGameOver
deriving DecidableEq, Repr

/-- The manager after one operation on the game-over flags. -/
def GameOp.run (pm : PlayerModel) (env : Env) (em : EntityManager) : GameOp → EntityManager
  | .signalGameOver over => em.signalGameOver over
  | .checkIfGameOver => (em.checkIfGameOver pm env).2

/-- Whether the operation, run on the manager `em`, enters the branch of
`checkIfGameOver` that calls `removeAllEntities` and `setupOutroUI`. -/
def GameOp.tearsDown (em : EntityManager) : GameOp → Bool
  | .signalGameOver _ => false
  | .checkIfGameOver => em.gameIsOver && em.gameIsRunning

/-- The manager after a sequence of operations on the game-over flags. -/
def EntityManager.runOps (pm : PlayerModel) (env : Env) (em : EntityManager)
    (ops : List GameOp) : EntityManager :=
  ops.foldl (GameOp.run pm env) em

/-- The number of operations of the sequence that enter the teardown branch. -/
def EntityManager.teardowns (pm : PlayerModel) (env : Env) :
    EntityManager → List GameOp → Nat
  | _, [] => 0
  | em, op :: ops =>
    (if op.tearsDown em then 1 else 0) + EntityManager.teardowns pm env (op.run pm env em) ops

/-- A running game that is over and has one live bomb: the state of
`runningBombStage` after `signalGameOver(true)`. -/
def overBombManager : EntityManager :=
  runningBombStage.entityManager.signalGameOver true

/-- The bit indices that the loop `while (!bitmap.isEmpty())` of `removeEntity`
visits, in the order of the visits: the loop of `deinitLoop` with the same
bound, the same condition and the same bit arithmetic, recording `index`
instead of deinitialising the component. -/
def deinitTrace : Nat → Nat → List Nat
  | 0, _ => []
  | fuel + 1, bitmap =>
    if bitmap = 0 then []
    else
      let index := findlsb bitmap
      index :: deinitTrace fuel (mutativeRemove bitmap (BitOptionCreate index))

/-- Number of set bits among the lowest `width` bits of `bits`. -/
def popcountAux : Nat → Nat → Nat
  | 0, _ => 0
  | width + 1, bits => bits % 2 + popcountAux width (bits / 2)

/-- Number of set bits of `bits` (a number `bits` has fewer than `bits` binary
digits). -/
def popcount (bits : Nat) : Nat := popcountAux bits bits

/-- The closed list of kind tags, in index order. -/
def ComponentKind.all : List ComponentKind :=
  [.Sprite, .Color, .Position, .Velocity, .Rotation, .Physics, .Collision, .Input,
    .Attack, .Player, .Score, .Pathing, .Animation, .Store, .Distortion]

/-- The teardown in the words of the specification: iterate over the closed
list of kind tags in index order and deinitialise the slot of each kind whose
flag is set in the bitmask. -/
def EntityManager.deinitByKinds (em : EntityManager) (id : Identifier) (bitmap : Nat) :
    EntityManager :=
  ComponentKind.all.foldl
    (fun m k => if bitmap.testBit k.bitIndex then m.deinitComponent k.bitIndex id else m) em

/-- Operation `registerDelegates(delegate, others...)`: the variadic template
registers its first argument and recurses on the others; the overload without
arguments does nothing. -/
def EntityManager.registerDelegates (em : EntityManager) : List Nat → EntityManager
  | [] => em
  | delegate :: others => EntityManager.registerDelegates (em.registerDelegate delegate) others

/-- A component passed to `didAddComponent`, tagged with its dynamic type (the
`typeid` of the argument): one case per array of the registry of direct
component arrays. -/
inductive Component where
  | staticSprite : Sprite → Component
  | animatedSprite : Sprite → Component
  | color : Color → Component
  | position : Position → Component
  | velocity : Velocity → Component
  | rotation : Rotation → Component
  | physics : Physics → Component
  | collision : Collision → Component
  | input : Input → Component
  | attack : Attack → Component
  | player : Player → Component
  | score : Score → Component
  | pathing : Pathing → Component
  | animation : Animation → Component
  | store : Store → Component
  | distortion : Distortion → Component

/-- Callback `didAddComponent(entity, component)`: the component is saved in the
array of its kind at the identifier of the entity (the player record has a
single slot), then every delegate, in registration order, receives
`didUpdateEntity`. The write goes through a `SWComponent*`; it is modelled at
the level of the component arrays. -/
def EntityManager.didAddComponent (em : EntityManager) (entity : Entity)
    (component : Component) : EntityManager :=
  let id := entity.identifier
  let em :=
    match component with
    | .staticSprite c => { em with ssprites := Function.update em.ssprites id c }
    | .animatedSprite c => { em with asprites := Function.update em.asprites id c }
    | .color c => { em with colors := Function.update em.colors id c }
    | .position c => { em with positions := Function.update em.positions id c }
    | .velocity c => { em with velocities := Function.update em.velocities id c }
    | .rotation c => { em with rotations := Function.update em.rotations id c }
    | .physics c => { em with physics := Function.update em.physics id c }
    | .collision c => { em with collisions := Function.update em.collisions id c }
    | .input c => { em with inputs := Function.update em.inputs id c }
    | .attack c => { em with attacks := Function.update em.attacks id c }
    | .player c => if id = 0 then { em with player := c } else em
    | .score c => { em with scores := Function.update em.scores id c }
    | .pathing c => { em with pathings := Function.update em.pathings id c }
    | .animation c => { em with animations := Function.update em.animations id c }
    | .store c => { em with stores := Function.update em.stores id c }
    | .distortion c => { em with distortions := Function.update em.distortions id c }
  { em with log := em.log ++ em.delegates.map (fun d => (d, Event.didUpdateEntity entity)) }

/-- Callback `didRemoveComponent(entity, componentBitMapIndex)`: the slot of the
kind with that bit at the identifier of the entity is deinitialised, then
every delegate, in registration order, receives `didUpdateEntity`. The array
is fetched with `components(...)`, whose `passert` fails for a kind without a
direct array (bit 0, the sprite, and an index without a kind): no manager
results. -/
def EntityManager.didRemoveComponent (em : EntityManager) (entity : Entity)
    (componentBitMapIndex : Nat) : Option EntityManager :=
  if 1 ≤ componentBitMapIndex ∧ componentBitMapIndex ≤ 14 then
    let em := em.deinitComponent componentBitMapIndex entity.identifier
    some { em with
      log := em.log ++ em.delegates.map (fun d => (d, Event.didUpdateEntity entity)) }
  else none

/-- The number of live submarines: the entries of the four collections
together. -/
def EntityManager.numSubmarines (em : EntityManager) : Nat :=
  (em.submarines 0).size + (em.submarines 1).size + (em.submarines 2).size +
    (em.submarines 3).size

/-- Whether the identifier is a key of one of the submarine collections. -/
def EntityManager.isLiveSubmarine (em : EntityManager) (id : Identifier) : Bool :=
  ((em.submarines 0).find id).isSome || ((em.submarines 1).find id).isSome ||
    ((em.submarines 2).find id).isSome || ((em.submarines 3).find id).isSome

/-- Whether the identifier is a key of the collection of the fish. -/
def EntityManager.isLiveFish (em : EntityManager) (id : Identifier) : Bool :=
  (em.fishes.find id).isSome

/-- The stage `runningBombStage` (game running, one live bomb, no submarine and
no fish) after `submarineDidMoveOutOfScreen(5)` and with 6 recorded in
`rmfishes`. -/
def strayRemovalStage : StageController :=
  { runningBombStage.submarineDidMoveOutOfScreen 5 with rmfishes := [6] }

namespace StageController

/-- Constant `FLT_MAX`, the radar radius that the submarine helpers pass. -/
def FLT_MAX : Rat := 340282346638528859811704183484516925440

/-- Operation `spawnBomb(position, boatVel)`: the returned identifier and the
controller afterwards. -/
def spawnBomb (pm : PlayerModel) (env : Env) (sc : StageController) (position : Position)
    (boatVel : vec2) : Identifier × StageController :=
  let r := sc.playerCall pm env .hasAvailableBombs
  if !r.1 then (0, r.2)
  else
    let m := r.2.entityManager.makeBomb env {} position boatVel
    if !m.1 then (0, { r.2 with entityManager := m.2.1 })
    else
      let sc := { r.2 with entityManager := m.2.1.addBomb m.2.2 }
      (m.2.2.identifier, (sc.playerCall pm env .decrementNumAvailableBombs).2)

/-- The body shared by `spawnSubIHelper`, `spawnSubIIHelper` and
`spawnSubIIIHelper`, which differ in the type only; `velocity` is the value
drawn from `vrandoms[type]`. -/
def spawnSubHelper (env : Env) (sc : StageController) (type : SubmarineType) (pos : Position)
    (dir : Direction) (velocity : Rat) : Identifier × StageController :=
  let m := sc.entityManager.makeSubmarine env {} pos dir velocity type 3 FLT_MAX
  if !m.1 then (0, { sc with entityManager := m.2.1 })
  else (m.2.2.identifier, { sc with entityManager := m.2.1.addSubmarine m.2.2 type })

/-- Helper `spawnSubIHelper(pos, dir)`. -/
def spawnSubIHelper (env : Env) (sc : StageController) (pos : Position) (dir : Direction)
    (velocity : Rat) : Identifier × StageController :=
  spawnSubHelper env sc .I pos dir velocity

/-- Helper `spawnSubIIHelper(pos, dir)`. -/
def spawnSubIIHelper (env : Env) (sc : StageController) (pos : Position) (dir : Direction)
    (velocity : Rat) : Identifier × StageController :=
  spawnSubHelper env sc .II pos dir velocity

/-- Helper `spawnSubIIIHelper(pos, dir)`. -/
def spawnSubIIIHelper (env : Env) (sc : StageController) (pos : Position) (dir : Direction)
    (velocity : Rat) : Identifier × StageController :=
  spawnSubHelper env sc .III pos dir velocity

/-- Operation `spawnSubmarine(type)`; `y`, `draw` and `velocity` are the values
drawn from `yrandoms[type]`, `drandom` and `vrandoms[type]`. -/
def spawnSubmarine (env : Env) (sc : StageController) (type : SubmarineType) (y : Rat)
    (draw : Nat) (velocity : Rat) : Identifier × StageController :=
  let position : Position := ⟨0, y⟩
  let direction : Direction := if draw = 0 then .Left else .Right
  let position : Position := if draw = 0 then { position with x := 1280 } else position
  match type with
  | .I => spawnSubIHelper env sc position direction velocity
  | .II => spawnSubIIHelper env sc position direction velocity
  | .III => spawnSubIIIHelper env sc position direction velocity
  | .SPEC => spawnSubIIIHelper env sc position direction velocity

/-- Operation `spawnFish()`; `y` and `draw` are the values drawn from
`fishRandom` and `drandom`. -/
def spawnFish (env : Env) (sc : StageController) (y : Rat) (draw : Nat) :
    Identifier × StageController :=
  let position : Position := ⟨0, y⟩
  let direction : Direction := if draw = 0 then .Left else .Right
  let position : Position := if draw = 0 then { position with x := 1998 } else position
  let m := sc.entityManager.makeFish env {} position direction 3
  if !m.1 then (0, { sc with entityManager := m.2.1 })
  else (m.2.2.identifier, { sc with entityManager := m.2.1.addFish m.2.2 })

/-- Operation `spawnTorpedo(position, initVel)`. -/
def spawnTorpedo (env : Env) (sc : StageController) (position : Position) (initVel : vec2) :
    Identifier × StageController :=
  let m := sc.entityManager.makeTorpedo env {} position initVel
  if !m.1 then (0, { sc with entityManager := m.2.1 })
  else (m.2.2.identifier, { sc with entityManager := m.2.1.addTorpedo m.2.2 })

/-- Operation `spawnMissile(position)`. -/
def spawnMissile (env : Env) (sc : StageController) (position : Position) :
    Identifier × StageController :=
  let m := sc.entityManager.makeMissile env {} position
  if !m.1 then (0, { sc with entityManager := m.2.1 })
  else (m.2.2.identifier, { sc with entityManager := m.2.1.addMissile m.2.2 })

/-- The statements of `spawnBoatMissile` between the guard and the factory:
`decrementNumAvailableMissiles()`, then the update of the missiles label as
the condition of a `psoftassert`. -/
def takeMissile (pm : PlayerModel) (env : Env) (sc : StageController) : StageController :=
  let sc := (sc.playerCall pm env .decrementNumAvailableMissiles).2
  if pm.softAsserts then
    { sc with
      entityManager := (sc.entityManager.updateBoatMissilesLabel env
          sc.entityManager.player.numAvailableMissiles.toNat).2 }
  else sc

/-- Operation `spawnBoatMissile(position, target)`. -/
def spawnBoatMissile (pm : PlayerModel) (env : Env) (sc : StageController)
    (position target : Position) : Identifier × StageController :=
  let r := sc.playerCall pm env .hasAvailableMissiles
  if !r.1 then (0, r.2)
  else
    let sc := r.2.takeMissile pm env
    let m := sc.entityManager.makeBoatMissile env {} position target
    if !m.1 then (0, { sc with entityManager := m.2.1 })
    else (m.2.2.identifier, { sc with entityManager := m.2.1.addBoatMissile m.2.2 })

end StageController

/-- The type that the helper of `spawnSubmarine` makes and adds: the `else`
branch of `spawnSubmarine` (type III and `SPEC`) calls `spawnSubIIIHelper`,
whose type is III. -/
def SubmarineType.helperType : SubmarineType → SubmarineType
  | .I => .I
  | .II => .II
  | .III => .III
  | .SPEC => .III

/-- A call of one of the spawn wrappers of the stage controller, with its
arguments and the values it draws from its random generators. -/
inductive Spawn where
  | spawnBomb : Position → vec2 → Spawn
  | spawnExplosion : Position → Spawn
  | spawnSubmarine : SubmarineType → Rat → Nat → Rat → Spawn
  | spawnFish : Rat → Nat → Spawn
  | spawnTorpedo : Position → vec2 → Spawn
  | spawnMissile : Position → Spawn
  | spawnBoatMissile : Position → Position → Spawn

/-- The returned identifier and the controller after a spawn call. -/
def Spawn.run (pm : PlayerModel) (env : Env) (sc : StageController) :
    Spawn → Identifier × StageController
  | .spawnBomb position boatVel => sc.spawnBomb pm env position boatVel
  | .spawnExplosion position => sc.spawnExplosion env position
  | .spawnSubmarine type y draw velocity => sc.spawnSubmarine env type y draw velocity
  | .spawnFish y draw => sc.spawnFish env y draw
  | .spawnTorpedo position initVel => sc.spawnTorpedo env position initVel
  | .spawnMissile position => sc.spawnMissile env position
  | .spawnBoatMissile position target => sc.spawnBoatMissile pm env position target

/-- The live collection that a spawn wrapper adds to. -/
def Spawn.coll : Spawn → Coll
  | .spawnBomb _ _ => .bombs
  | .spawnExplosion _ => .explosions
  | .spawnSubmarine type _ _ _ => .submarines type.helperType.typeToIndex
  | .spawnFish _ _ => .fishes
  | .spawnTorpedo _ _ => .torpedoes
  | .spawnMissile _ => .missiles
  | .spawnBoatMissile _ _ => .boatMissiles

/-- What the factory under a spawn wrapper returns in the call: `none` when the
wrapper does not reach the factory (the player has no bomb or no missile
available), else the result of `make_<Kind>` as the wrapper calls it. -/
def Spawn.factory (pm : PlayerModel) (env : Env) (sc : StageController) : Spawn → Option Bool
  | .spawnBomb position boatVel =>
    let r := sc.playerCall pm env .hasAvailableBombs
    if !r.1 then none else some (r.2.entityManager.makeBomb env {} position boatVel).1
  | .spawnExplosion position => some (sc.entityManager.makeExplosion env {} position).1
  | .spawnSubmarine type y draw velocity =>
    some (sc.entityManager.makeSubmarine env {}
      (if draw = 0 then ⟨1280, y⟩ else ⟨0, y⟩) (if draw = 0 then .Left else .Right)
      velocity type.helperType 3 StageController.FLT_MAX).1
  | .spawnFish y draw =>
    some (sc.entityManager.makeFish env {}
      (if draw = 0 then ⟨1998, y⟩ else ⟨0, y⟩) (if draw = 0 then .Left else .Right) 3).1
  | .spawnTorpedo position initVel => some (sc.entityManager.makeTorpedo env {} position initVel).1
  | .spawnMissile position => some (sc.entityManager.makeMissile env {} position).1
  | .spawnBoatMissile position target =>
    let r := sc.playerCall pm env .hasAvailableMissiles
    if !r.1 then none
    else some ((r.2.takeMissile pm env).entityManager.makeBoatMissile env {} position target).1

/-- A stage controller whose manager has the free identifiers 4 and 5 and no
live entity. -/
def smallPoolStage : StageController :=
  { entityManager := { freelist := ⟨[4, 5]⟩ } }

namespace EntityManager

/-- Operation `setupFormattedNumberLabel(numberLabel, position, size)`: the
result, the manager afterwards and the label afterwards. The guard reads the
identifier of the label's own handle; the text is what `makeStringLabel`
formats from `"Prefix%0<width>llu"` and the value of the label. -/
def setupFormattedNumberLabel (env : Env) (em : EntityManager)
    (numberLabel : FormattedNumberLabel) (position : Position) (size : Nat) :
    Bool × EntityManager × FormattedNumberLabel :=
  if numberLabel.label.identifier ≠ 0 then (true, em, numberLabel)
  else
    let r := em.makeStringLabel env numberLabel.label position .SFMonoRegular black size
      (numberLabel.stringPrefix ++ formatNumber numberLabel.width numberLabel.value)
    (r.1, r.2.1, { numberLabel with label := r.2.2.1 })

/-- Wrapper `setupScoreLabel()`. -/
def setupScoreLabel (env : Env) (em : EntityManager) : Bool × EntityManager :=
  let r := em.setupFormattedNumberLabel env em.scoreLabel ⟨1280 - 16 * 17, 16⟩ 32
  (r.1, { r.2.1 with scoreLabel := r.2.2 })

/-- Wrapper `setupMoneyLabel()`. -/
def setupMoneyLabel (env : Env) (em : EntityManager) : Bool × EntityManager :=
  let r := em.setupFormattedNumberLabel env em.moneyLabel ⟨1280 - 16 * 17, 16 + 32⟩ 32
  (r.1, { r.2.1 with moneyLabel := r.2.2 })

/-- Wrapper `setupStageLabel()`. -/
def setupStageLabel (env : Env) (em : EntityManager) : Bool × EntityManager :=
  let r := em.setupFormattedNumberLabel env em.stageLabel ⟨560, 16⟩ 32
  (r.1, { r.2.1 with stageLabel := r.2.2 })

end EntityManager

/-- The lives label ("x 05", digit width 2) set up on a new manager: its
characters get the identifiers 1 to 4. -/
def livesLabelSetUp : Bool × EntityManager × FormattedNumberLabel :=
  ({} : EntityManager).setupFormattedNumberLabel Env.succeeding
    ({} : EntityManager).livesLabel ⟨56, 24⟩ 32

/-- The label of `livesLabelSetUp` after `updateFormattedNumberLabel(label, 100)`. -/
def livesLabelOverflown : Bool × EntityManager × FormattedNumberLabel :=
  livesLabelSetUp.2.1.updateFormattedNumberLabel Env.succeeding livesLabelSetUp.2.2 100

/-- The label of `livesLabelSetUp` after `updateFormattedNumberLabel(label, 14)`. -/
def livesLabelUpdated : Bool × EntityManager × FormattedNumberLabel :=
  livesLabelSetUp.2.1.updateFormattedNumberLabel Env.succeeding livesLabelSetUp.2.2 14

/-- A manager in the middle of a round: the live bomb 1 of `bombStage` and a
live submarine of type II, which `makeSubmarine` at `{100, 50}` heading left
with the speed 3 gives the identifier 2 and the velocity `{-3, 0}` and
`addSubmarine` adds. -/
def savedRound : EntityManager :=
  (bombStage.entityManager.makeSubmarine Env.succeeding {} ⟨100, 50⟩ .Left 3 .II 100
    1000).2.1.addSubmarine
    (bombStage.entityManager.makeSubmarine Env.succeeding {} ⟨100, 50⟩ .Left 3 .II 100
      1000).2.2 .II

/-- A handle on which the loop of `removeEntity` stays inside the component
arrays, as every factory leaves its handle: the identifier is an index of the
arrays other than the reserved 0, the bitmask has bits of the fifteen
component kinds only and not the bit of the player record (which has a single
slot), and the pointer `sprites[identifier]` is set when the handle has the
sprite bit. -/
def EntityManager.ValidHandle (em : EntityManager) (e : Entity) : Prop :=
  1 ≤ e.identifier ∧ e.identifier < (MAX_NUM_ON_SCREEN_ENTITIES : Int) ∧
  e.components < 2 ^ 15 ∧ e.components.testBit 9 = false ∧
  (e.components.testBit 0 = true → em.sprites e.identifier ≠ none)

/-- The invariant of the identifier pool: the free list has no duplicate, no two
live entities share an identifier, no free identifier is live, and every
identifier of the pool lies in `[1, MAX_NUM_ON_SCREEN_ENTITIES - 1]`. -/
def Pool.Inv (p : Pool) : Prop :=
  p.fl.freeids.Nodup ∧ p.live.Nodup ∧ (∀ x ∈ p.fl.freeids, x ∉ p.live) ∧
  (∀ x ∈ p.fl.freeids, 1 ≤ x ∧ x ≤ (MAX_NUM_ON_SCREEN_ENTITIES : Int) - 1) ∧
  (∀ x ∈ p.live, 1 ≤ x ∧ x ≤ (MAX_NUM_ON_SCREEN_ENTITIES : Int) - 1)

/-! ## Lemmas on the allocator -/

theorem mem_generate (count : Nat) (n x : Int) :
    x ∈ generate count n ↔ n ≤ x ∧ x < n + count := by
  induction count generalizing n with
  | zero => simp [generate]
  | succ c ih =>
    simp only [generate, List.mem_cons, ih]
    push_cast
    omega

theorem nodup_generate (count : Nat) (n : Int) : (generate count n).Nodup := by
  induction count generalizing n with
  | zero => simp [generate]
  | succ c ih =>
    simp only [generate, List.nodup_cons, mem_generate]
    exact ⟨by omega, ih _⟩

theorem length_generate (count : Nat) (n : Int) : (generate count n).length = count := by
  induction count generalizing n with
  | zero => rfl
  | succ c ih => simp [generate, ih]

theorem Pool.inv_fresh : Pool.fresh.Inv := by
  refine ⟨nodup_generate _ _, List.nodup_nil, ?_, ?_, ?_⟩
  · intro x _ h
    cases h
  · intro x hx
    have := (mem_generate _ _ _).1 hx
    simp only [MAX_NUM_ON_SCREEN_ENTITIES] at this ⊢
    omega
  · intro x hx
    cases hx

theorem Pool.inv_step (p : Pool) (op : Op) (hinv : p.Inv) (hop : p.allowed op) :
    (p.step op).Inv := by
  obtain ⟨hnd, hlive, hdisj, hrange, hlrange⟩ := hinv
  cases op with
  | alloc =>
    cases hfl : p.fl.freeids with
    | nil =>
      have : p.fl.alloc = (0, p.fl) := by simp [FreeList.alloc, hfl]
      simp only [Pool.step, this, if_true]
      exact ⟨hnd, hlive, hdisj, hrange, hlrange⟩
    | cons first rest =>
      have halloc : p.fl.alloc = (first, ⟨rest⟩) := by simp [FreeList.alloc, hfl]
      rw [hfl] at hnd hdisj hrange
      have hfirst := hrange first (List.mem_cons_self _ _)
      have hne : first ≠ 0 := by omega
      simp only [Pool.step, halloc, if_neg hne]
      refine ⟨(List.nodup_cons.1 hnd).2, ?_, ?_, ?_, ?_⟩
      · exact List.nodup_cons.2 ⟨hdisj first (List.mem_cons_self _ _), hlive⟩
      · intro x hx hmem
        rcases List.mem_cons.1 hmem with h | h
        · subst h
          exact (List.nodup_cons.1 hnd).1 hx
        · exact hdisj x (List.mem_cons_of_mem _ hx) h
      · intro x hx
        exact hrange x (List.mem_cons_of_mem _ hx)
      · intro x hx
        rcases List.mem_cons.1 hx with h | h
        · subst h
          exact hfirst
        · exact hlrange x h
  | free id =>
    obtain ⟨_, hmem⟩ := hop
    simp only [Pool.step, FreeList.free]
    refine ⟨?_, hlive.filter _, ?_, ?_, ?_⟩
    · rw [List.nodup_append]
      refine ⟨hnd, List.nodup_singleton _, ?_⟩
      intro x hx hx2
      rw [List.mem_singleton] at hx2
      subst hx2
      exact hdisj x hx hmem
    · intro x hx hx2
      rw [List.mem_filter] at hx2
      rcases List.mem_append.1 hx with h | h
      · exact hdisj x h hx2.1
      · rw [List.mem_singleton] at h
        simp [h] at hx2
    · intro x hx
      rcases List.mem_append.1 hx with h | h
      · exact hrange x h
      · rw [List.mem_singleton] at h
        subst h
        exact hlrange x hmem
    · intro x hx
      exact hlrange x (List.mem_filter.1 hx).1

theorem Pool.inv_run (ops : List Op) (p : Pool) (hinv : p.Inv) (h : p.Respects ops) :
    (p.run ops).Inv := by
  induction ops generalizing p with
  | nil => exact hinv
  | cons op ops ih => exact ih _ (Pool.inv_step p op hinv h.1) h.2

theorem FreeList.alloc_nil (fl : FreeList) (h : fl.freeids = []) : fl.alloc = (0, fl) := by
  simp [FreeList.alloc, h]

theorem FreeList.alloc_cons (fl : FreeList) (first : Int) (rest : List Int)
    (h : fl.freeids = first :: rest) : fl.alloc = (first, ⟨rest⟩) := by
  simp [FreeList.alloc, h]

theorem FreeList.allocN_generate (k count : Nat) (n : Int) :
    ((FreeList.mk (generate count n)).allocN k).2 = ⟨generate (count - k) (n + min k count)⟩ := by
  induction k generalizing count n with
  | zero => simp [FreeList.allocN]
  | succ k ih =>
    cases count with
    | zero =>
      have h0 := ih 0 n
      simp only [generate, FreeList.allocN, FreeList.alloc] at h0 ⊢
      simpa using h0
    | succ c =>
      have h1 := ih c (n + 1)
      simp only [generate, FreeList.allocN, FreeList.alloc]
      rw [h1]
      congr 2
      · omega
      · have : min (k + 1) (c + 1) = min k c + 1 := by omega
        rw [this]
        push_cast
        omega

theorem FreeList.allocN_all (l : List Int) (extra : Nat) :
    (FreeList.mk l).allocN (l.length + extra) = (l ++ List.replicate extra 0, ⟨[]⟩) := by
  induction l with
  | nil =>
    induction extra with
    | zero => rfl
    | succ e ih =>
      simp only [List.length_nil, Nat.zero_add] at ih ⊢
      simp [FreeList.allocN, FreeList.alloc, ih, List.replicate_succ]
  | cons a l ih =>
    have : (a :: l).length + extra = (l.length + extra) + 1 := by simp; omega
    rw [this]
    simp [FreeList.allocN, FreeList.alloc, ih]

theorem served_run (ops : List Op) (fl : FreeList) :
    served fl ops ++ (fl.run ops).freeids = fl.freeids ++ released ops := by
  induction ops generalizing fl with
  | nil => simp [served, FreeList.run, released]
  | cons op ops ih =>
    cases op with
    | alloc =>
      cases hfl : fl.freeids with
      | nil =>
        have h1 : served fl (Op.alloc :: ops) = served fl ops := by
          simp [served, hfl]
        rw [h1]
        simp only [FreeList.run, released, FreeList.alloc_nil fl hfl]
        rw [ih, hfl]
      | cons first rest =>
        have h1 : served fl (Op.alloc :: ops) = first :: served (fl.alloc).2 ops := by
          simp [served, hfl]
        rw [h1]
        simp only [FreeList.run, released, List.cons_append]
        rw [ih, FreeList.alloc_cons fl first rest hfl]
    | free id =>
      simp only [served, FreeList.run, released]
      rw [ih]
      simp [FreeList.free]

theorem Pool.run_noFree (ops : List Op) (p : Pool) (count : Nat) (n : Int)
    (hfl : p.fl.freeids = generate count n) (h : Pool.noFree ops = true) :
    ∃ count2 n2, (p.run ops).fl.freeids = generate count2 n2 := by
  induction ops generalizing p count n with
  | nil => exact ⟨count, n, hfl⟩
  | cons op ops ih =>
    cases op with
    | alloc =>
      cases count with
      | zero =>
        refine ih (p.step .alloc) 0 n ?_ h
        have h0 : p.fl.freeids = [] := by simpa [generate] using hfl
        simp [Pool.step, FreeList.alloc_nil p.fl h0, h0, generate]
      | succ c =>
        refine ih (p.step .alloc) c (n + 1) ?_ h
        have h0 : p.fl.freeids = n :: generate c (n + 1) := by simpa [generate] using hfl
        simp [Pool.step, FreeList.alloc_cons p.fl _ _ h0]
    | free id => simp [Pool.noFree] at h

/-! ## Lemmas on the live collections and on `removeEntity` -/

theorem findEntries_filter_self (l : List (Identifier × Entity)) (k : Identifier) :
    findEntries (l.filter (fun p => decide (p.1 ≠ k))) k = none := by
  induction l with
  | nil => rfl
  | cons p l ih =>
    obtain ⟨pk, pv⟩ := p
    by_cases h : pk = k
    · rw [List.filter_cons_of_neg (by simp [h])]
      exact ih
    · rw [List.filter_cons_of_pos (by simp [h])]
      simp only [findEntries, if_neg h]
      exact ih

theorem findEntries_filter_ne (l : List (Identifier × Entity)) (j k : Identifier) (h : j ≠ k) :
    findEntries (l.filter (fun p => decide (p.1 ≠ k))) j = findEntries l j := by
  induction l with
  | nil => rfl
  | cons p l ih =>
    obtain ⟨pk, pv⟩ := p
    by_cases hk : pk = k
    · have hj : ¬ pk = j := fun hpj => h (hpj ▸ hk)
      rw [List.filter_cons_of_neg (by simp [hk])]
      simp only [findEntries, if_neg hj]
      exact ih
    · rw [List.filter_cons_of_pos (by simp [hk])]
      by_cases hj : pk = j
      · simp only [findEntries, if_pos hj]
      · simp only [findEntries, if_neg hj]
        exact ih

theorem findEntries_eq_none_iff (l : List (Identifier × Entity)) (k : Identifier) :
    findEntries l k = none ↔ k ∉ l.map Prod.fst := by
  induction l with
  | nil => simp [findEntries]
  | cons p l ih =>
    obtain ⟨pk, pv⟩ := p
    by_cases h : pk = k
    · simp [findEntries, h]
    · have h2 : ¬ k = pk := fun hh => h hh.symm
      simp only [findEntries, if_neg h, ih, List.map_cons, List.mem_cons, not_or]
      exact ⟨fun hh => ⟨h2, hh⟩, fun hh => hh.2⟩

theorem EMap.find_erase_self (m : EMap) (k : Identifier) : (m.erase k).find k = none :=
  findEntries_filter_self m.entries k

theorem EMap.find_erase_ne (m : EMap) (j k : Identifier) (h : j ≠ k) :
    (m.erase k).find j = m.find j :=
  findEntries_filter_ne m.entries j k h

theorem EMap.keys_erase (m : EMap) (k : Identifier) :
    (m.erase k).keys = m.keys.filter (fun j => decide (j ≠ k)) := by
  simp only [EMap.keys, EMap.erase, List.filter_map]
  rfl

theorem EMap.find_eq_none_iff (m : EMap) (k : Identifier) : m.find k = none ↔ k ∉ m.keys :=
  findEntries_eq_none_iff m.entries k

theorem findEntries_map_assign (l : List (Identifier × Entity)) (j k : Identifier) (v : Entity) :
    findEntries (l.map (fun p => if p.1 = k then (k, v) else p)) j =
      if j = k then (findEntries l k).map (fun _ => v) else findEntries l j := by
  induction l with
  | nil => simp [findEntries]
  | cons p l ih =>
    obtain ⟨pk, pv⟩ := p
    rw [List.map_cons]
    by_cases hk : pk = k
    · rw [if_pos (show (pk, pv).1 = k from hk)]
      by_cases hj : j = k
      · subst hj
        subst hk
        simp [findEntries]
      · have hkj : ¬ k = j := fun hh => hj hh.symm
        have hpj : ¬ pk = j := fun hh => hkj (hk ▸ hh)
        simp only [findEntries, if_neg hkj, if_neg hpj, ih, if_neg hj]
    · rw [if_neg (show ¬ (pk, pv).1 = k from hk)]
      by_cases hj : j = k
      · subst hj
        simp only [findEntries, if_neg hk, ih, if_true]
      · simp only [findEntries, ih, if_neg hj]

theorem findEntries_append_singleton (l : List (Identifier × Entity)) (j k : Identifier)
    (v : Entity) :
    findEntries (l ++ [(k, v)]) j =
      match findEntries l j with
      | some w => some w
      | none => if k = j then some v else none := by
  induction l with
  | nil => simp [findEntries]
  | cons p l ih =>
    obtain ⟨pk, pv⟩ := p
    by_cases hj : pk = j
    · simp only [List.cons_append, findEntries, if_pos hj]
    · simp only [List.cons_append, findEntries, if_neg hj]
      exact ih

theorem EMap.find_assign_self (m : EMap) (k : Identifier) (v : Entity) :
    (m.assign k v).find k = some v := by
  unfold EMap.assign
  split
  · rename_i hmem
    simp only [EMap.find, findEntries_map_assign, if_true]
    cases hf : findEntries m.entries k with
    | none => exact absurd hmem ((findEntries_eq_none_iff _ _).1 hf)
    | some w => rfl
  · rename_i hmem
    have hf := (findEntries_eq_none_iff _ _).2 hmem
    simp only [EMap.find, findEntries_append_singleton, hf, if_true]

theorem EMap.find_assign_ne (m : EMap) (j k : Identifier) (v : Entity) (h : j ≠ k) :
    (m.assign k v).find j = m.find j := by
  have hkj : ¬ k = j := fun hh => h hh.symm
  unfold EMap.assign
  split
  · simp only [EMap.find, findEntries_map_assign, if_neg h]
  · simp only [EMap.find, findEntries_append_singleton, if_neg hkj]
    cases findEntries m.entries j <;> rfl

theorem EMap.keys_assign (m : EMap) (k : Identifier) (v : Entity) :
    (m.assign k v).keys = if k ∈ m.keys then m.keys else m.keys ++ [k] := by
  unfold EMap.assign
  split
  · simp only [EMap.keys, List.map_map]
    apply List.map_congr_left
    intro p _
    by_cases h : p.1 = k <;> simp [h]
  · simp [EMap.keys]

theorem EMap.erase_of_find_none (m : EMap) (k : Identifier) (h : m.find k = none) :
    m.erase k = m := by
  have hk := (EMap.find_eq_none_iff m k).1 h
  cases m with
  | mk entries =>
    simp only [EMap.erase, EMap.mk.injEq, List.filter_eq_self]
    intro p hp
    have : p.1 ≠ k := fun hh => hk (by simp only [EMap.keys]; exact hh ▸ List.mem_map_of_mem _ hp)
    simp [this]

theorem EntityManager.writeSprite_frame (em : EntityManager) (ref : SpriteRef) (sp : Sprite) :
    (∀ c : Coll, c.get (em.writeSprite ref sp) = c.get em) ∧
    (em.writeSprite ref sp).freelist = em.freelist ∧
    (em.writeSprite ref sp).log = em.log ∧
    (em.writeSprite ref sp).delegates = em.delegates := by
  cases ref <;> exact ⟨fun c => by cases c <;> rfl, rfl, rfl, rfl⟩

theorem EntityManager.deinitComponent_frame (em : EntityManager) (index : Nat)
    (id : Identifier) :
    (∀ c : Coll, c.get (em.deinitComponent index id) = c.get em) ∧
    (em.deinitComponent index id).freelist = em.freelist ∧
    (em.deinitComponent index id).log = em.log ∧
    (em.deinitComponent index id).delegates = em.delegates := by
  unfold EntityManager.deinitComponent
  split
  · split
    · exact EntityManager.writeSprite_frame em _ _
    · exact ⟨fun c => rfl, rfl, rfl, rfl⟩
  all_goals first
    | exact ⟨fun c => by cases c <;> rfl, rfl, rfl, rfl⟩
    | (split <;> exact ⟨fun c => by cases c <;> rfl, rfl, rfl, rfl⟩)

theorem EntityManager.deinitLoop_frame (fuel : Nat) (em : EntityManager) (id : Identifier)
    (bitmap : Nat) :
    (∀ c : Coll, c.get (EntityManager.deinitLoop fuel em id bitmap) = c.get em) ∧
    (EntityManager.deinitLoop fuel em id bitmap).freelist = em.freelist ∧
    (EntityManager.deinitLoop fuel em id bitmap).log = em.log ∧
    (EntityManager.deinitLoop fuel em id bitmap).delegates = em.delegates := by
  induction fuel generalizing em bitmap with
  | zero => exact ⟨fun c => rfl, rfl, rfl, rfl⟩
  | succ fuel ih =>
    unfold EntityManager.deinitLoop
    split
    · exact ⟨fun c => rfl, rfl, rfl, rfl⟩
    · obtain ⟨h1, h2, h3, h4⟩ := ih (em.deinitComponent (findlsb bitmap) id)
        (mutativeRemove bitmap (BitOptionCreate (findlsb bitmap)))
      obtain ⟨g1, g2, g3, g4⟩ := EntityManager.deinitComponent_frame em (findlsb bitmap) id
      exact ⟨fun c => (h1 c).trans (g1 c), h2.trans g2, h3.trans g3, h4.trans g4⟩

theorem EntityManager.removeEntity_get (em : EntityManager) (e : Entity) (c : Coll) :
    c.get (em.removeEntity e) = c.get em := by
  unfold EntityManager.removeEntity EntityManager.setDistort
  have h := (EntityManager.deinitLoop_frame e.components
    { em with log := em.log ++ em.delegates.map (fun d => (d, Event.didRemoveEntity e)) }
    e.identifier e.components).1 c
  cases c <;> exact h

theorem EntityManager.removeEntity_freelist (em : EntityManager) (e : Entity) :
    (em.removeEntity e).freelist = em.freelist.free e.identifier := by
  unfold EntityManager.removeEntity EntityManager.setDistort
  have h := (EntityManager.deinitLoop_frame e.components
    { em with log := em.log ++ em.delegates.map (fun d => (d, Event.didRemoveEntity e)) }
    e.identifier e.components).2.1
  simp only [h]

theorem EntityManager.removeEntity_log (em : EntityManager) (e : Entity) :
    (em.removeEntity e).log = em.log ++ em.delegates.map (fun d => (d, Event.didRemoveEntity e)) := by
  unfold EntityManager.removeEntity EntityManager.setDistort
  exact (EntityManager.deinitLoop_frame e.components
    { em with log := em.log ++ em.delegates.map (fun d => (d, Event.didRemoveEntity e)) }
    e.identifier e.components).2.2.1

theorem EntityManager.removeEntity_delegates (em : EntityManager) (e : Entity) :
    (em.removeEntity e).delegates = em.delegates := by
  unfold EntityManager.removeEntity EntityManager.setDistort
  exact (EntityManager.deinitLoop_frame e.components
    { em with log := em.log ++ em.delegates.map (fun d => (d, Event.didRemoveEntity e)) }
    e.identifier e.components).2.2.2

theorem EntityManager.removeEntity_distort (em : EntityManager) (e : Entity) :
    ((em.removeEntity e).distortions e.identifier).distort = false := by
  simp [EntityManager.removeEntity, EntityManager.setDistort, setAt]

theorem EntityManager.removeEntity_fishes (em : EntityManager) (e : Entity) :
    (em.removeEntity e).fishes = em.fishes :=
  EntityManager.removeEntity_get em e .fishes

theorem EntityManager.removeEntity_bombs (em : EntityManager) (e : Entity) :
    (em.removeEntity e).bombs = em.bombs :=
  EntityManager.removeEntity_get em e .bombs

theorem EntityManager.removeEntity_torpedoes (em : EntityManager) (e : Entity) :
    (em.removeEntity e).torpedoes = em.torpedoes :=
  EntityManager.removeEntity_get em e .torpedoes

theorem EntityManager.removeEntity_missiles (em : EntityManager) (e : Entity) :
    (em.removeEntity e).missiles = em.missiles :=
  EntityManager.removeEntity_get em e .missiles

theorem EntityManager.removeEntity_boatMissiles (em : EntityManager) (e : Entity) :
    (em.removeEntity e).boatMissiles = em.boatMissiles :=
  EntityManager.removeEntity_get em e .boatMissiles

theorem EntityManager.removeEntity_buyLivesIcons (em : EntityManager) (e : Entity) :
    (em.removeEntity e).buyLivesIcons = em.buyLivesIcons :=
  EntityManager.removeEntity_get em e .buyLivesIcons

theorem EntityManager.removeEntity_buyMissilesIcons (em : EntityManager) (e : Entity) :
    (em.removeEntity e).buyMissilesIcons = em.buyMissilesIcons :=
  EntityManager.removeEntity_get em e .buyMissilesIcons

theorem EntityManager.removeEntity_endStoreIcons (em : EntityManager) (e : Entity) :
    (em.removeEntity e).endStoreIcons = em.endStoreIcons :=
  EntityManager.removeEntity_get em e .endStoreIcons

theorem EntityManager.removeEntity_explosions (em : EntityManager) (e : Entity) :
    (em.removeEntity e).explosions = em.explosions :=
  EntityManager.removeEntity_get em e .explosions

theorem EntityManager.removeEntity_smokes (em : EntityManager) (e : Entity) :
    (em.removeEntity e).smokes = em.smokes :=
  EntityManager.removeEntity_get em e .smokes

theorem EntityManager.removeEntity_characters (em : EntityManager) (e : Entity) :
    (em.removeEntity e).characters = em.characters :=
  EntityManager.removeEntity_get em e .characters

theorem EntityManager.removeEntity_stringLabels (em : EntityManager) (e : Entity) :
    (em.removeEntity e).stringLabels = em.stringLabels :=
  EntityManager.removeEntity_get em e .stringLabels

theorem EntityManager.removeEntity_submarines (em : EntityManager) (e : Entity) :
    (em.removeEntity e).submarines = em.submarines :=
  funext (fun i => EntityManager.removeEntity_get em e (.submarines i))

theorem typeToIndex_indexToType (i : Fin 4) : (indexToType i).typeToIndex = i := by
  fin_cases i <;> rfl

theorem Kind.remove_absent (k : Kind) (em : EntityManager) (id : Identifier)
    (h : (k.coll.get em).find id = none) : k.remove em id = em := by
  cases k <;> simp only [Kind.coll, Coll.get] at h <;>
    simp only [Kind.remove, EntityManager.removeBomb, EntityManager.removeFish,
      EntityManager.removeTorpedo, EntityManager.removeMissile, EntityManager.removeBoatMissile,
      EntityManager.removeExplosion, EntityManager.removeSmoke, EntityManager.removeCharacter,
      EntityManager.removeBuyLives, EntityManager.removeBuyMissiles,
      EntityManager.removeEndStore, h]

theorem Kind.remove_found (k : Kind) (em : EntityManager) (id : Identifier) (e : Entity)
    (h : (k.coll.get em).find id = some e) :
    k.coll.get (k.remove em id) = (k.coll.get em).erase id ∧
    (∀ c, c ≠ k.coll → c.get (k.remove em id) = c.get em) ∧
    (k.remove em id).freelist = em.freelist.free e.identifier ∧
    (k.remove em id).distortions = (em.removeEntity e).distortions ∧
    (k.remove em id).log =
      em.log ++ em.delegates.map (fun d => (d, Event.didRemoveEntity e)) := by
  cases k <;> simp only [Kind.coll, Coll.get] at h <;>
    simp only [Kind.remove, EntityManager.removeBomb, EntityManager.removeFish,
      EntityManager.removeTorpedo, EntityManager.removeMissile, EntityManager.removeBoatMissile,
      EntityManager.removeExplosion, EntityManager.removeSmoke, EntityManager.removeCharacter,
      EntityManager.removeBuyLives, EntityManager.removeBuyMissiles,
      EntityManager.removeEndStore, Kind.coll, Coll.get, h,
      EntityManager.removeEntity_freelist, EntityManager.removeEntity_log,
      EntityManager.removeEntity_fishes, EntityManager.removeEntity_bombs,
      EntityManager.removeEntity_torpedoes, EntityManager.removeEntity_missiles,
      EntityManager.removeEntity_boatMissiles, EntityManager.removeEntity_buyLivesIcons,
      EntityManager.removeEntity_buyMissilesIcons, EntityManager.removeEntity_endStoreIcons,
      EntityManager.removeEntity_explosions, EntityManager.removeEntity_smokes,
      EntityManager.removeEntity_characters, true_and, and_true] <;>
    (intro c hc
     cases c <;> first
       | exact absurd rfl hc
       | exact EntityManager.removeEntity_get em e (.submarines _)
       | simp only [Coll.get, EntityManager.removeEntity_fishes,
           EntityManager.removeEntity_bombs, EntityManager.removeEntity_torpedoes,
           EntityManager.removeEntity_missiles, EntityManager.removeEntity_boatMissiles,
           EntityManager.removeEntity_buyLivesIcons, EntityManager.removeEntity_buyMissilesIcons,
           EntityManager.removeEntity_endStoreIcons, EntityManager.removeEntity_explosions,
           EntityManager.removeEntity_smokes, EntityManager.removeEntity_characters,
           EntityManager.removeEntity_stringLabels])

/-! ## The bit scan of `removeEntity` does not run out of fuel -/

theorem findlsbAux_spec (fuel bits index : Nat) (h0 : bits ≠ 0) (hlt : bits < 2 ^ fuel) :
    ∃ t, findlsbAux fuel bits index = index + t ∧ bits.testBit t = true ∧
      ∀ j, j < t → bits.testBit j = false := by
  induction fuel generalizing bits index with
  | zero =>
    simp only [Nat.pow_zero, Nat.lt_one_iff] at hlt
    exact absurd hlt h0
  | succ fuel ih =>
    unfold findlsbAux
    by_cases hodd : bits % 2 = 1
    · rw [if_pos hodd]
      refine ⟨0, rfl, ?_, fun j hj => absurd hj (Nat.not_lt_zero j)⟩
      rw [Nat.testBit_zero]
      exact decide_eq_true hodd
    · rw [if_neg hodd]
      have hhalf0 : bits / 2 ≠ 0 := by omega
      have hhalflt : bits / 2 < 2 ^ fuel := by
        rw [Nat.pow_succ] at hlt
        omega
      obtain ⟨t, ht, hbit, hlow⟩ := ih (bits / 2) (index + 1) hhalf0 hhalflt
      refine ⟨t + 1, by rw [ht]; omega, ?_, ?_⟩
      · rw [Nat.testBit_succ]
        exact hbit
      · intro j hj
        cases j with
        | zero =>
          rw [Nat.testBit_zero]
          exact decide_eq_false hodd
        | succ j =>
          rw [Nat.testBit_succ]
          exact hlow j (by omega)

theorem findlsb_spec (bits : Nat) (h0 : bits ≠ 0) :
    bits.testBit (findlsb bits) = true ∧ ∀ j, j < findlsb bits → bits.testBit j = false := by
  obtain ⟨t, ht, hbit, hlow⟩ := findlsbAux_spec bits bits 0 h0 (Nat.lt_two_pow bits)
  have : findlsb bits = t := by
    unfold findlsb
    rw [ht]
    omega
  rw [this]
  exact ⟨hbit, hlow⟩

theorem mutativeRemove_testBit (bits index j : Nat) :
    (mutativeRemove bits (BitOptionCreate index)).testBit j =
      (bits.testBit j && !decide (index = j)) := by
  unfold mutativeRemove BitOptionCreate
  rw [Nat.testBit_and, Nat.testBit_xor, Nat.one_shiftLeft, Nat.testBit_two_pow]
  cases bits.testBit j <;> cases decide (index = j) <;> rfl

theorem EntityManager.deinitLoop_fuel (size : Nat) (id : Identifier) (fuel1 : Nat) :
    ∀ (fuel2 low : Nat) (em : EntityManager) (bitmap : Nat), bitmap < 2 ^ size →
      (∀ j, j < low → bitmap.testBit j = false) → size - low ≤ fuel1 → size - low ≤ fuel2 →
      EntityManager.deinitLoop fuel1 em id bitmap = EntityManager.deinitLoop fuel2 em id bitmap := by
  induction fuel1 with
  | zero =>
    intro fuel2 low em bitmap hlt hlow h1 _
    have hb : bitmap = 0 := by
      by_contra hne
      obtain ⟨hbit, _⟩ := findlsb_spec bitmap hne
      have hge : low ≤ findlsb bitmap := by
        by_contra hh
        rw [hlow _ (by omega)] at hbit
        cases hbit
      have hlts : findlsb bitmap < size := by
        by_contra hh
        have hle : 2 ^ size ≤ 2 ^ findlsb bitmap := Nat.pow_le_pow_right (by decide) (by omega)
        rw [Nat.testBit_lt_two_pow (Nat.lt_of_lt_of_le hlt hle)] at hbit
        cases hbit
      omega
    subst hb
    cases fuel2 with
    | zero => rfl
    | succ f2 => simp [EntityManager.deinitLoop]
  | succ f1 ih =>
    intro fuel2 low em bitmap hlt hlow h1 h2
    by_cases hb : bitmap = 0
    · subst hb
      cases fuel2 with
      | zero => simp [EntityManager.deinitLoop]
      | succ f2 => simp [EntityManager.deinitLoop]
    · obtain ⟨hbit, hbelow⟩ := findlsb_spec bitmap hb
      have hge : low ≤ findlsb bitmap := by
        by_contra hh
        rw [hlow _ (by omega)] at hbit
        cases hbit
      have hlts : findlsb bitmap < size := by
        by_contra hh
        have hle : 2 ^ size ≤ 2 ^ findlsb bitmap := Nat.pow_le_pow_right (by decide) (by omega)
        rw [Nat.testBit_lt_two_pow (Nat.lt_of_lt_of_le hlt hle)] at hbit
        cases hbit
      cases fuel2 with
      | zero => omega
      | succ f2 =>
        simp only [EntityManager.deinitLoop, if_neg hb]
        apply ih f2 (findlsb bitmap + 1)
        · exact Nat.lt_of_le_of_lt Nat.and_le_left hlt
        · intro j hj
          rw [mutativeRemove_testBit]
          by_cases hji : j = findlsb bitmap
          · subst hji
            simp
          · rw [hbelow j (by omega)]
            rfl
        · omega
        · omega

theorem EntityManager.deinitLoop_enough (em : EntityManager) (id : Identifier) (bitmap extra : Nat) :
    EntityManager.deinitLoop (bitmap + extra) em id bitmap =
      EntityManager.deinitLoop bitmap em id bitmap :=
  EntityManager.deinitLoop_fuel bitmap id _ _ 0 em bitmap (Nat.lt_two_pow bitmap)
    (fun j hj => absurd hj (Nat.not_lt_zero j)) (by omega) (by omega)

/-! ## Well-formedness of the live collections is kept by add and remove -/

theorem findEntries_identifier (l : List (Identifier × Entity)) (id : Identifier) (e : Entity)
    (hent : ∀ p ∈ l, p.2.identifier = p.1) (hfind : findEntries l id = some e) :
    e.identifier = id := by
  induction l with
  | nil => simp [findEntries] at hfind
  | cons p l ih =>
    obtain ⟨pk, pv⟩ := p
    by_cases hk : pk = id
    · simp only [findEntries, if_pos hk, Option.some.injEq] at hfind
      have := hent (pk, pv) (List.mem_cons_self _ _)
      simp only at this
      rw [← hfind, this, hk]
    · simp only [findEntries, if_neg hk] at hfind
      exact ih (fun q hq => hent q (List.mem_cons_of_mem _ hq)) hfind

theorem EMap.WF.find_identifier (m : EMap) (h : m.WF) (id : Identifier) (e : Entity)
    (hfind : m.find id = some e) : e.identifier = id :=
  findEntries_identifier m.entries id e h.2 hfind

theorem EMap.WF_sublist (m m2 : EMap) (h : m.WF) (hsub : m2.entries.Sublist m.entries) :
    m2.WF :=
  ⟨h.1.sublist (hsub.map Prod.fst), fun p hp => h.2 p (hsub.subset hp)⟩

theorem EMap.WF_erase (m : EMap) (k : Identifier) (h : m.WF) : (m.erase k).WF :=
  EMap.WF_sublist m _ h (List.filter_sublist _)

theorem EMap.WF_assign (m : EMap) (e : Entity) (h : m.WF) : (m.assign e.identifier e).WF := by
  refine ⟨?_, ?_⟩
  · rw [EMap.keys_assign]
    split
    · exact h.1
    · rename_i hmem
      rw [List.nodup_append]
      refine ⟨h.1, List.nodup_singleton _, ?_⟩
      intro x hx hx2
      rw [List.mem_singleton] at hx2
      exact hmem (hx2 ▸ hx)
  · unfold EMap.assign
    split
    · intro p hp
      obtain ⟨q, hq, hqp⟩ := List.mem_map.1 hp
      by_cases hk : q.1 = e.identifier
      · rw [if_pos hk] at hqp
        rw [← hqp]
      · rw [if_neg hk] at hqp
        rw [← hqp]
        exact h.2 q hq
    · intro p hp
      rcases List.mem_append.1 hp with hp1 | hp1
      · exact h.2 p hp1
      · rw [List.mem_singleton] at hp1
        rw [hp1]

theorem EntityManager.WF_new : ({} : EntityManager).WF := by
  intro c
  cases c <;> exact ⟨List.nodup_nil, fun p hp => by cases hp⟩

theorem Coll.get_add_self (c : Coll) (em : EntityManager) (e : Entity) :
    c.get (c.add em e) = (c.get em).assign e.identifier e := by
  cases c with
  | submarines i =>
    simp only [Coll.get, Coll.add, EntityManager.addSubmarine, EntityManager.addEntity,
      typeToIndex_indexToType, Function.update_same]
  | _ => rfl

theorem Coll.get_add_other (c c2 : Coll) (em : EntityManager) (e : Entity) (h : c2 ≠ c) :
    c2.get (c.add em e) = c2.get em := by
  cases c with
  | submarines i =>
    cases c2 with
    | submarines j =>
      have hji : j ≠ i := fun hh => h (by rw [hh])
      simp only [Coll.get, Coll.add, EntityManager.addSubmarine, EntityManager.addEntity,
        typeToIndex_indexToType, Function.update_noteq hji]
    | _ => rfl
  | _ =>
    cases c2 <;> first
      | exact absurd rfl h
      | rfl

theorem Coll.add_WF (c : Coll) (em : EntityManager) (e : Entity) (h : em.WF) :
    (c.add em e).WF := by
  intro c2
  by_cases hc : c2 = c
  · subst hc
    rw [Coll.get_add_self]
    exact EMap.WF_assign _ e (h c2)
  · rw [Coll.get_add_other c c2 em e hc]
    exact h c2

theorem Kind.remove_sublist (k : Kind) (em : EntityManager) (id : Identifier) (c : Coll) :
    (c.get (k.remove em id)).entries.Sublist (c.get em).entries := by
  cases hfind : (k.coll.get em).find id with
  | none =>
    rw [Kind.remove_absent k em id hfind]
  | some e =>
    obtain ⟨h1, h2, _⟩ := Kind.remove_found k em id e hfind
    by_cases hc : c = k.coll
    · subst hc
      rw [h1]
      exact List.filter_sublist _
    · rw [h2 c hc]

theorem EntityManager.removeSubmarineFrom_sublist (em : EntityManager) (id : Identifier)
    (indices : List (Fin 4)) (c : Coll) :
    (c.get (em.removeSubmarineFrom id indices)).entries.Sublist (c.get em).entries := by
  induction indices with
  | nil => exact List.Sublist.refl _
  | cons i rest ih =>
    unfold EntityManager.removeSubmarineFrom
    split
    · rename_i e _
      cases c with
      | submarines j =>
        by_cases hji : j = i
        · subst hji
          simp only [Coll.get, Function.update_same, EntityManager.removeEntity_submarines]
          exact List.filter_sublist _
        · simp only [Coll.get, Function.update_noteq hji,
            EntityManager.removeEntity_submarines]
          exact List.Sublist.refl _
      | _ =>
        simp only [Coll.get, EntityManager.removeEntity_fishes,
          EntityManager.removeEntity_bombs, EntityManager.removeEntity_torpedoes,
          EntityManager.removeEntity_missiles, EntityManager.removeEntity_boatMissiles,
          EntityManager.removeEntity_buyLivesIcons, EntityManager.removeEntity_buyMissilesIcons,
          EntityManager.removeEntity_endStoreIcons, EntityManager.removeEntity_explosions,
          EntityManager.removeEntity_smokes, EntityManager.removeEntity_characters,
          EntityManager.removeEntity_stringLabels]
        exact List.Sublist.refl _
    · exact ih

theorem EntityManager.removeCharacters_sublist (ids : List Identifier) (em : EntityManager)
    (c : Coll) :
    (c.get (ids.foldl EntityManager.removeCharacter em)).entries.Sublist (c.get em).entries := by
  induction ids generalizing em with
  | nil => exact List.Sublist.refl _
  | cons id rest ih =>
    exact (ih (em.removeCharacter id)).trans (Kind.remove_sublist .character em id c)

theorem RemoveOp.run_sublist (op : RemoveOp) (em : EntityManager) (id : Identifier) (c : Coll) :
    (c.get (op.run em id)).entries.Sublist (c.get em).entries := by
  cases op with
  | single k => exact Kind.remove_sublist k em id c
  | submarine => exact EntityManager.removeSubmarineFrom_sublist em id _ c
  | stringLabel =>
    simp only [RemoveOp.run, EntityManager.removeStringLabel]
    split
    · rename_i label _
      have h := EntityManager.removeCharacters_sublist label.identifiers em c
      cases c with
      | stringLabels => exact (List.filter_sublist _).trans h
      | _ => exact h
    · exact List.Sublist.refl _

theorem RemoveOp.run_WF (op : RemoveOp) (em : EntityManager) (id : Identifier) (h : em.WF) :
    (op.run em id).WF :=
  fun c => EMap.WF_sublist (c.get em) _ (h c) (RemoveOp.run_sublist op em id c)

/-! ## The identifier allocator: claims C1 to C5 -/

/-- C1 (identifier uniqueness). After any sequence of `alloc` / `free` calls on a
fresh allocator in which `free` is only called with a non-zero live identifier,
the free list holds no duplicate and no live identifier, no two live entities
share an identifier, and a non-zero value returned by the next `alloc` differs
from every live identifier. -/
theorem C1_identifier_uniqueness (ops : List Op) (h : Pool.fresh.Respects ops) :
    (Pool.fresh.run ops).fl.freeids.Nodup ∧
    (∀ x ∈ (Pool.fresh.run ops).fl.freeids, x ∉ (Pool.fresh.run ops).live) ∧
    (Pool.fresh.run ops).live.Nodup ∧
    (((Pool.fresh.run ops).fl.alloc).1 ≠ 0 →
      ((Pool.fresh.run ops).fl.alloc).1 ∉ (Pool.fresh.run ops).live) := by
  obtain ⟨hnd, hlive, hdisj, _, _⟩ := Pool.inv_run ops Pool.fresh Pool.inv_fresh h
  refine ⟨hnd, hdisj, hlive, ?_⟩
  intro hne
  cases hfl : (Pool.fresh.run ops).fl.freeids with
  | nil =>
    rw [FreeList.alloc_nil _ hfl] at hne
    exact absurd rfl hne
  | cons first rest =>
    rw [FreeList.alloc_cons _ first rest hfl]
    exact hdisj first (by rw [hfl]; exact List.mem_cons_self _ _)

/-- Witness of C1: allocate twice, release identifier 1, allocate again. -/
theorem C1_identifier_uniqueness_witness :
    Pool.fresh.Respects [.alloc, .alloc, .free 1, .alloc] ∧
    (Pool.fresh.run [.alloc, .alloc, .free 1, .alloc]).live.Nodup :=
  ⟨by decide, (C1_identifier_uniqueness [.alloc, .alloc, .free 1, .alloc] (by decide)).2.2.1⟩

/-- C2 (reserved zero). In every state reached from a fresh allocator under the
no-double-release precondition, `alloc` returns 0 exactly when the free list is
empty, and otherwise a value in `[1, MAX_NUM_ON_SCREEN_ENTITIES - 1] = [1, 1023]`. -/
theorem C2_reserved_zero (ops : List Op) (h : Pool.fresh.Respects ops) :
    ((((Pool.fresh.run ops).fl.alloc).1 = 0) ↔ (Pool.fresh.run ops).fl.freeids = []) ∧
    ((Pool.fresh.run ops).fl.freeids ≠ [] →
      1 ≤ ((Pool.fresh.run ops).fl.alloc).1 ∧ ((Pool.fresh.run ops).fl.alloc).1 ≤ 1023 ∧
      ((Pool.fresh.run ops).fl.alloc).1 ≤ (MAX_NUM_ON_SCREEN_ENTITIES : Int) - 1) := by
  obtain ⟨_, _, _, hrange, _⟩ := Pool.inv_run ops Pool.fresh Pool.inv_fresh h
  cases hfl : (Pool.fresh.run ops).fl.freeids with
  | nil =>
    rw [FreeList.alloc_nil _ hfl]
    simp
  | cons first rest =>
    rw [FreeList.alloc_cons _ first rest hfl]
    have hr := hrange first (by rw [hfl]; exact List.mem_cons_self _ _)
    simp only [MAX_NUM_ON_SCREEN_ENTITIES] at hr ⊢
    refine ⟨⟨fun h0 => by omega, fun h0 => by cases h0⟩, fun _ => ⟨hr.1, by omega, by omega⟩⟩

/-- Witness of C2: allocate twice, release identifier 2. -/
theorem C2_reserved_zero_witness :
    Pool.fresh.Respects [.alloc, .alloc, .free 2] ∧
    ((((Pool.fresh.run [.alloc, .alloc, .free 2]).fl.alloc).1 = 0) ↔
      (Pool.fresh.run [.alloc, .alloc, .free 2]).fl.freeids = []) :=
  ⟨by decide, (C2_reserved_zero [.alloc, .alloc, .free 2] (by decide)).1⟩

/-- C3 as stated fails: after `alloc` (which returns 1) and `free(1)` the
precondition is respected and identifier 1 is free, yet `alloc` returns 2, so it
does not always return the numerically smallest free identifier. -/
theorem C3_smallest_free_counterexample :
    ¬ (∀ ops : List Op, Pool.fresh.Respects ops → (Pool.fresh.run ops).fl.freeids ≠ [] →
        ∀ x ∈ (Pool.fresh.run ops).fl.freeids, ((Pool.fresh.run ops).fl.alloc).1 ≤ x) := by
  intro hall
  have hfl : (Pool.fresh.run [.alloc, .free 1]).fl.freeids = 2 :: (generate 1021 3 ++ [1]) :=
    rfl
  have h := hall [.alloc, .free 1] (by decide) (by rw [hfl]; simp) 1 (by rw [hfl]; simp)
  rw [FreeList.alloc_cons _ _ _ hfl] at h
  omega

/-- C3 as amended. In every state reached from a fresh allocator under the
no-double-release precondition with a non-empty free list, `alloc` returns the
identifier at the front of the free list and removes it; when no identifier
has been released so far this is the numerically smallest free identifier. -/
theorem C3_alloc_returns_front (ops : List Op) (h : Pool.fresh.Respects ops)
    (hne : (Pool.fresh.run ops).fl.freeids ≠ []) :
    (Pool.fresh.run ops).fl.freeids.head? = some ((Pool.fresh.run ops).fl.alloc).1 ∧
    (Pool.fresh.run ops).fl.freeids =
      ((Pool.fresh.run ops).fl.alloc).1 :: ((Pool.fresh.run ops).fl.alloc).2.freeids ∧
    (Pool.noFree ops = true →
      ∀ x ∈ (Pool.fresh.run ops).fl.freeids, ((Pool.fresh.run ops).fl.alloc).1 ≤ x) := by
  have _ := h
  cases hfl : (Pool.fresh.run ops).fl.freeids with
  | nil => exact absurd hfl hne
  | cons first rest =>
    rw [FreeList.alloc_cons _ first rest hfl]
    refine ⟨rfl, rfl, ?_⟩
    intro hnf x hx
    obtain ⟨c, n, hgen⟩ := Pool.run_noFree ops Pool.fresh _ _ rfl hnf
    rw [hfl] at hgen
    have hxg : x ∈ generate c n := by rw [← hgen]; exact hx
    have hx2 := (mem_generate c n x).1 hxg
    cases c with
    | zero => simp [generate] at hgen
    | succ c =>
      simp only [generate, List.cons.injEq] at hgen
      show first ≤ x
      omega

/-- Witness of C3 as amended: three allocations on a fresh allocator. -/
theorem C3_alloc_returns_front_witness :
    Pool.fresh.Respects [.alloc, .alloc, .alloc] ∧
    (Pool.fresh.run [.alloc, .alloc, .alloc]).fl.freeids ≠ [] ∧
    (Pool.fresh.run [.alloc, .alloc, .alloc]).fl.freeids.head? =
      some ((Pool.fresh.run [.alloc, .alloc, .alloc]).fl.alloc).1 :=
  ⟨by decide, by decide,
    (C3_alloc_returns_front [.alloc, .alloc, .alloc] (by decide) (by decide)).1⟩

/-- C4 (pool capacity). On a fresh allocator with no `free` in between, the
`k`-th call of `alloc` returns `k` for `1 ≤ k ≤ 1023` and 0 from the 1024th call
on; the pool holds exactly `MAX_NUM_ON_SCREEN_ENTITIES - 1` identifiers and
never 0. -/
theorem C4_pool_capacity (k : Nat) (hk : 1 ≤ k) :
    FreeList.fresh.kthAlloc k = (if k ≤ 1023 then (k : Int) else 0) ∧
    FreeList.fresh.freeids.length = MAX_NUM_ON_SCREEN_ENTITIES - 1 ∧
    (0 : Int) ∉ FreeList.fresh.freeids := by
  refine ⟨?_, length_generate _ _, ?_⟩
  · unfold FreeList.kthAlloc FreeList.fresh
    rw [FreeList.allocN_generate]
    simp only [MAX_NUM_ON_SCREEN_ENTITIES]
    by_cases hle : k ≤ 1023
    · obtain ⟨c, hc⟩ : ∃ c, 1023 - (k - 1) = c + 1 := ⟨1023 - k, by omega⟩
      rw [hc, if_pos hle]
      simp only [generate, FreeList.alloc]
      have : min (k - 1) 1023 = k - 1 := by omega
      rw [this]
      omega
    · have hc : 1023 - (k - 1) = 0 := by omega
      rw [hc, if_neg hle]
      simp [generate, FreeList.alloc]
  · intro h0
    have := (mem_generate _ _ _).1 h0
    omega

/-- Witness of C4: the 1024th call returns 0. -/
theorem C4_pool_capacity_witness :
    1 ≤ 1024 ∧ FreeList.fresh.kthAlloc 1024 = (if 1024 ≤ 1023 then ((1024 : Nat) : Int) else 0) :=
  ⟨by decide, (C4_pool_capacity 1024 (by decide)).1⟩

/-- C5 (FIFO reuse order). `free` appends at the back without any check and
`alloc` removes and returns the front. Hence from any allocator state, after
releasing `a` and then `b`, the following calls of `alloc` return first the
identifiers that were already free, in their order, then `a`, then `b`; and
over any sequence of calls the identifiers handed out followed by those still
free are the initially free ones followed by the released ones, in order. -/
theorem C5_fifo_reuse_order (fl : FreeList) (a b : Int) (ops : List Op) :
    (fl.free a).freeids = fl.freeids ++ [a] ∧
    (∀ first rest, fl.freeids = first :: rest → fl.alloc = (first, ⟨rest⟩)) ∧
    ((fl.free a).free b).allocN (fl.freeids.length + 2) = (fl.freeids ++ [a, b], ⟨[]⟩) ∧
    served fl ops ++ (fl.run ops).freeids = fl.freeids ++ released ops := by
  refine ⟨rfl, fun first rest hfl => FreeList.alloc_cons fl first rest hfl, ?_, served_run ops fl⟩
  have h := FreeList.allocN_all (fl.freeids ++ [a, b]) 0
  simp only [List.length_append, List.length_cons, List.length_nil, Nat.add_zero,
    List.replicate_zero, List.append_nil] at h
  simpa [FreeList.free] using h

/-! ## Add and remove: claims C6 to C9 -/

/-- C6 (removal of a live entity). For every single-collection kind and every
identifier `id` under which the kind's collection stores a handle (one carrying
that identifier, as every `add_<Kind>` stores it, and valid as the factories
leave it, so that `removeEntity` stays inside the component arrays and does
not read through a null sprite pointer), `remove_<Kind>(id)` erases that entry
and no other entry of any live collection, appends `id` at the back of the
free list, so that `alloc` returns `id` again once the identifiers ahead of it
are handed out, and leaves `distortions[id].distort` false. -/
theorem C6_remove_live_entity (k : Kind) (em : EntityManager) (id : Identifier) (e : Entity)
    (hfind : (k.coll.get em).find id = some e) (hid : e.identifier = id)
    (hvalid : em.ValidHandle e) :
    (k.coll.get (k.remove em id)).find id = none ∧
    (∀ j, j ≠ id → (k.coll.get (k.remove em id)).find j = (k.coll.get em).find j) ∧
    (k.coll.get (k.remove em id)).keys =
      (k.coll.get em).keys.filter (fun j => decide (j ≠ id)) ∧
    (∀ c, c ≠ k.coll → c.get (k.remove em id) = c.get em) ∧
    (k.remove em id).freelist.freeids = em.freelist.freeids ++ [id] ∧
    ((k.remove em id).freelist.allocN (em.freelist.freeids.length + 1)).1 =
      em.freelist.freeids ++ [id] ∧
    ((k.remove em id).distortions id).distort = false := by
  have _ := hvalid
  obtain ⟨hcoll, hothers, hfl, hdist, _⟩ := Kind.remove_found k em id e hfind
  have hfree : (k.remove em id).freelist = ⟨em.freelist.freeids ++ [id]⟩ := by
    rw [hfl, hid]
    rfl
  refine ⟨?_, ?_, ?_, hothers, ?_, ?_, ?_⟩
  · rw [hcoll]
    exact EMap.find_erase_self _ _
  · intro j hj
    rw [hcoll]
    exact EMap.find_erase_ne _ _ _ hj
  · rw [hcoll]
    exact EMap.keys_erase _ _
  · rw [hfree]
  · rw [hfree]
    have h := FreeList.allocN_all (em.freelist.freeids ++ [id]) 0
    simp only [List.length_append, List.length_cons, List.length_nil, Nat.add_zero,
      List.replicate_zero, List.append_nil, Nat.zero_add] at h
    rw [h]
  · rw [hdist, ← hid]
    exact EntityManager.removeEntity_distort em e

/-- Witness of C6: the bomb that `makeBomb` made on a new manager (identifier 1,
bitmask 16511, sprite pointer set) and `addBomb` added, removed by
`removeBomb(1)`. -/
theorem C6_remove_live_entity_witness :
    (Kind.bomb.coll.get bombStage.entityManager).find 1 =
      some (({} : EntityManager).makeBomb Env.succeeding {} ⟨10, 30⟩ ⟨0, 5⟩).2.2 ∧
    (({} : EntityManager).makeBomb Env.succeeding {} ⟨10, 30⟩ ⟨0, 5⟩).2.2.identifier = 1 ∧
    (({} : EntityManager).makeBomb Env.succeeding {} ⟨10, 30⟩ ⟨0, 5⟩).2.2.components = 16511 ∧
    bombStage.entityManager.sprites 1 = some (.ssprite 1) ∧
    bombStage.entityManager.ValidHandle
      (({} : EntityManager).makeBomb Env.succeeding {} ⟨10, 30⟩ ⟨0, 5⟩).2.2 ∧
    (Kind.bomb.coll.get (Kind.bomb.remove bombStage.entityManager 1)).find 1 = none ∧
    (Kind.bomb.remove bombStage.entityManager 1).freelist.freeids
      = bombStage.entityManager.freelist.freeids ++ [1] :=
  ⟨rfl, rfl, rfl, rfl,
    ⟨by decide, by decide, by decide, by decide, fun _ h => Option.noConfusion h⟩,
    (C6_remove_live_entity .bomb bombStage.entityManager 1
      (({} : EntityManager).makeBomb Env.succeeding {} ⟨10, 30⟩ ⟨0, 5⟩).2.2 rfl rfl
      ⟨by decide, by decide, by decide, by decide, fun _ h => Option.noConfusion h⟩).1,
    (C6_remove_live_entity .bomb bombStage.entityManager 1
      (({} : EntityManager).makeBomb Env.succeeding {} ⟨10, 30⟩ ⟨0, 5⟩).2.2 rfl rfl
      ⟨by decide, by decide, by decide, by decide, fun _ h => Option.noConfusion h⟩).2.2.2.2.1⟩

theorem EntityManager.removeSubmarineFrom_absent (em : EntityManager) (id : Identifier)
    (indices : List (Fin 4)) (h : ∀ i, (em.submarines i).find id = none) :
    em.removeSubmarineFrom id indices = em := by
  induction indices with
  | nil => rfl
  | cons i rest ih => simp only [EntityManager.removeSubmarineFrom, h i, ih]

/-- C7 (removing an absent entity is a no-op). For every remove operation
(`removeSubmarine` and `removeStringLabel` included) and every identifier that
is not a key of the collection(s) the operation searches, the manager after
the call equals the manager before it: collections, component arrays, free
list, distortion flags, and the calls received by the delegates. -/
theorem C7_remove_absent_noop (op : RemoveOp) (em : EntityManager) (id : Identifier)
    (h : ¬ op.isKey em id) : op.run em id = em := by
  cases op with
  | single k =>
    have hnone : (k.coll.get em).find id = none := by
      simpa [RemoveOp.isKey] using h
    exact Kind.remove_absent k em id hnone
  | submarine =>
    have hnone : ∀ i, (em.submarines i).find id = none := by
      intro i
      by_contra hne
      exact h ⟨i, hne⟩
    exact EntityManager.removeSubmarineFrom_absent em id _ hnone
  | stringLabel =>
    have hnone : em.stringLabels.find id = none := by
      simpa [RemoveOp.isKey] using h
    simp only [RemoveOp.run, EntityManager.removeStringLabel, hnone]

/-- Witness of C7: `removeSubmarine(1)` on the manager that holds the bomb 1,
made by `makeBomb`, and no submarine. -/
theorem C7_remove_absent_noop_witness :
    (¬ RemoveOp.submarine.isKey bombStage.entityManager 1) ∧
    RemoveOp.submarine.run bombStage.entityManager 1 = bombStage.entityManager :=
  ⟨fun ⟨_, hi⟩ => hi rfl,
    C7_remove_absent_noop .submarine bombStage.entityManager 1 (fun ⟨_, hi⟩ => hi rfl)⟩

theorem Kind.remove_idempotent (k : Kind) (em : EntityManager) (id : Identifier) :
    k.remove (k.remove em id) id = k.remove em id := by
  cases hfind : (k.coll.get em).find id with
  | none => rw [Kind.remove_absent k em id hfind, Kind.remove_absent k em id hfind]
  | some e =>
    apply Kind.remove_absent
    rw [(Kind.remove_found k em id e hfind).1]
    exact EMap.find_erase_self _ _

/-- C8 at its failing input. On a new manager with one delegate a submarine is
made (it gets identifier 1) and the handle is added under type I and under
type II. The first `removeSubmarine(1)` erases the entry of type I and releases
1; the second call finds the entry of type II, notifies the delegate again and
releases 1 a second time, so two calls do not leave the state of one call. The
removals of the single-collection kinds are idempotent in every state. -/
theorem C8_removeSubmarine_twice_differs :
    madeSubmarine.1 = true ∧ madeSubmarine.2.2.identifier = 1 ∧
    (addedTwice.removeSubmarine 1).freelist.freeids = addedTwice.freelist.freeids ++ [1] ∧
    ((addedTwice.removeSubmarine 1).removeSubmarine 1).freelist.freeids =
      addedTwice.freelist.freeids ++ [1, 1] ∧
    ((addedTwice.removeSubmarine 1).removeSubmarine 1).log.length =
      (addedTwice.removeSubmarine 1).log.length + 1 ∧
    RemoveOp.submarine.run (RemoveOp.submarine.run addedTwice 1) 1 ≠
      RemoveOp.submarine.run addedTwice 1 ∧
    (∀ (k : Kind) (em : EntityManager) (id : Identifier),
      k.remove (k.remove em id) id = k.remove em id) := by
  have h0 : ∀ em : EntityManager, ∀ e : Entity,
      (em.submarines 0).find 1 = some e →
      em.removeSubmarine 1 =
        { em.removeEntity e with
          submarines := Function.update (em.removeEntity e).submarines 0
              (((em.removeEntity e).submarines 0).erase 1) } := by
    intro em e h
    simp only [EntityManager.removeSubmarine, EntityManager.removeSubmarineFrom, h]
  have h1 : ∀ em : EntityManager, ∀ e : Entity,
      (em.submarines 0).find 1 = none → (em.submarines 1).find 1 = some e →
      em.removeSubmarine 1 =
        { em.removeEntity e with
          submarines := Function.update (em.removeEntity e).submarines 1
              (((em.removeEntity e).submarines 1).erase 1) } := by
    intro em e hn h
    simp only [EntityManager.removeSubmarine, EntityManager.removeSubmarineFrom, hn, h]
  have hid : madeSubmarine.2.2.identifier = 1 := rfl
  have e1 := h0 addedTwice madeSubmarine.2.2 rfl
  have e2 := h1 (addedTwice.removeSubmarine 1) madeSubmarine.2.2
    (by rw [e1]; simp only [Function.update_same]; exact EMap.find_erase_self _ _)
    (by rw [e1]; simp only [EntityManager.removeEntity_submarines]; rfl)
  have f1 : (addedTwice.removeSubmarine 1).freelist.freeids =
      addedTwice.freelist.freeids ++ [1] := by
    rw [e1]
    simp only [EntityManager.removeEntity_freelist, FreeList.free, hid]
  have f2 : ((addedTwice.removeSubmarine 1).removeSubmarine 1).freelist.freeids =
      addedTwice.freelist.freeids ++ [1, 1] := by
    rw [e2]
    simp only [EntityManager.removeEntity_freelist, FreeList.free, f1, hid, List.append_assoc,
      List.singleton_append]
  have g2 : ((addedTwice.removeSubmarine 1).removeSubmarine 1).log.length =
      (addedTwice.removeSubmarine 1).log.length + 1 := by
    have hd : (addedTwice.removeSubmarine 1).delegates = [7] := by
      rw [e1]
      simp only [EntityManager.removeEntity_delegates]
      rfl
    rw [e2]
    simp only [EntityManager.removeEntity_log, hd, List.length_append, List.map_cons,
      List.map_nil, List.length_cons, List.length_nil]
  refine ⟨rfl, rfl, f1, f2, g2, ?_, Kind.remove_idempotent⟩
  intro heq
  have hlen := congrArg (fun m : EntityManager => m.freelist.freeids.length) heq
  simp only [RemoveOp.run] at hlen
  rw [f1, f2] at hlen
  simp at hlen

/-- C9 (upsert on add). For every live collection and every entity handle `e`,
the `add_<Kind>` operation of the collection leaves `e` stored under its
identifier and every other entry as it was; the keys are unchanged when the
identifier was already a key and grow by exactly that identifier otherwise;
no other live collection, no component array and not the free list changes. -/
theorem C9_upsert_on_add (c : Coll) (em : EntityManager) (e : Entity) :
    (c.get (c.add em e)).find e.identifier = some e ∧
    (∀ j, j ≠ e.identifier → (c.get (c.add em e)).find j = (c.get em).find j) ∧
    (c.get (c.add em e)).keys =
      (if e.identifier ∈ (c.get em).keys then (c.get em).keys
       else (c.get em).keys ++ [e.identifier]) ∧
    (c.get (c.add em e)).size =
      (if e.identifier ∈ (c.get em).keys then (c.get em).size else (c.get em).size + 1) ∧
    (∀ c2, c2 ≠ c → c2.get (c.add em e) = c2.get em) ∧
    sameComponents (c.add em e) em ∧
    (c.add em e).freelist = em.freelist := by
  have hsize : ∀ m : EMap, (m.assign e.identifier e).size =
      (if e.identifier ∈ m.keys then m.size else m.size + 1) := by
    intro m
    have hk := congrArg List.length (EMap.keys_assign m e.identifier e)
    by_cases hmem : e.identifier ∈ m.keys
    · rw [if_pos hmem] at hk ⊢
      simpa [EMap.keys, EMap.size] using hk
    · rw [if_neg hmem] at hk ⊢
      simpa [EMap.keys, EMap.size] using hk
  cases c with
  | submarines i =>
    have hget : (Coll.submarines i).get ((Coll.submarines i).add em e) =
        (em.submarines i).assign e.identifier e := by
      simp only [Coll.get, Coll.add, EntityManager.addSubmarine, EntityManager.addEntity,
        typeToIndex_indexToType, Function.update_same]
    rw [hget]
    refine ⟨EMap.find_assign_self _ _ _, fun j hj => EMap.find_assign_ne _ _ _ _ hj,
      EMap.keys_assign _ _ _, hsize _, ?_,
      ⟨rfl, rfl, rfl, rfl, rfl, rfl, rfl, rfl, rfl, rfl, rfl, rfl, rfl, rfl, rfl, rfl, rfl⟩, rfl⟩
    intro c2 hc2
    cases c2 with
    | submarines j =>
      have hji : j ≠ i := fun hh => hc2 (by rw [hh])
      simp only [Coll.get, Coll.add, EntityManager.addSubmarine, EntityManager.addEntity,
        typeToIndex_indexToType, Function.update_noteq hji]
    | _ => rfl
  | _ =>
    refine ⟨EMap.find_assign_self _ _ _, fun j hj => EMap.find_assign_ne _ _ _ _ hj,
      EMap.keys_assign _ _ _, hsize _, ?_,
      ⟨rfl, rfl, rfl, rfl, rfl, rfl, rfl, rfl, rfl, rfl, rfl, rfl, rfl, rfl, rfl, rfl, rfl⟩, rfl⟩
    intro c2 hc2
    cases c2 <;> first
      | exact absurd rfl hc2
      | rfl

/-! ## Exhausted pool: claim C10 -/

theorem EntityManager.make_exhausted (env : Env) (em : EntityManager) (entity : Entity)
    (T : EntityType) (position : Position) (scale : vec2) (color : vec4) (radians : Rat)
    (isAnimated : Bool) (info : Option CharAttribute) (h : em.freelist.freeids = []) :
    em.make env entity T position scale color radians isAnimated info = (false, em, entity) := by
  simp only [EntityManager.make, FreeList.alloc_nil em.freelist h, if_true]

/-- C10 (exhausted pool). When the free list is empty, as it is after
`MAX_NUM_ON_SCREEN_ENTITIES - 1 = 1023` allocations on a fresh allocator, the
generic `make` and every `make_<Kind>` factory that reaches it return false,
leave the manager as it was (live collections, component arrays, free list)
and leave the identifier and the bitmask of the passed handle unchanged. -/
theorem C10_exhausted_pool (env : Env) (em : EntityManager) (entity : Entity) (f : Factory)
    (h : em.freelist.freeids = []) (hf : f.reachesMake) :
    (f.run env em entity).1 = false ∧
    (f.run env em entity).2.1 = em ∧
    (f.run env em entity).2.2.identifier = entity.identifier ∧
    (f.run env em entity).2.2.components = entity.components ∧
    (FreeList.fresh.allocN (MAX_NUM_ON_SCREEN_ENTITIES - 1)).2.freeids = [] := by
  have hcap : (FreeList.fresh.allocN (MAX_NUM_ON_SCREEN_ENTITIES - 1)).2.freeids = [] := by
    have h1 := FreeList.allocN_all FreeList.fresh.freeids 0
    have h2 : FreeList.fresh.freeids.length = MAX_NUM_ON_SCREEN_ENTITIES - 1 :=
      length_generate _ _
    rw [Nat.add_zero, h2] at h1
    have h3 : FreeList.fresh.allocN (MAX_NUM_ON_SCREEN_ENTITIES - 1) =
        (FreeList.mk FreeList.fresh.freeids).allocN (MAX_NUM_ON_SCREEN_ENTITIES - 1) := rfl
    rw [h3, h1]
  refine ⟨?_, ?_, ?_, ?_, hcap⟩ <;>
  · cases f with
    | makeSubmarine position direction x_velocity type score radarRadius =>
      simp only [Factory.reachesMake] at hf
      simp [Factory.run, EntityManager.makeSubmarine, hf, EntityManager.make_exhausted, h]
    | makeStringLabel position font color psize string =>
      cases string with
      | nil => exact absurd rfl hf
      | cons c rest =>
        simp [Factory.run, EntityManager.makeStringLabel, EntityManager.makeStringLabelLoop,
          EntityManager.makeCharacter, EntityManager.make_exhausted, h]
    | _ =>
      simp [Factory.run, EntityManager.makeBomb, EntityManager.makeExplosion,
        EntityManager.makeFish, EntityManager.makeTorpedo, EntityManager.makeSmoke,
        EntityManager.makeMissile, EntityManager.makeBoatMissile, EntityManager.makeBuyLives,
        EntityManager.makeBuyMissiles, EntityManager.makeEndStore, EntityManager.makeStoreIcon,
        EntityManager.makeCharacter, EntityManager.make_exhausted, h]

/-- Witness of C10: `makeBomb` on a manager whose free list is empty. -/
theorem C10_exhausted_pool_witness :
    ({ freelist := ⟨[]⟩ } : EntityManager).freelist.freeids = [] ∧
    (Factory.makeBomb {} ⟨0, 5⟩).reachesMake ∧
    (Factory.run ⟨fun _ _ => ⟨true, {}, {}⟩, fun _ _ _ => (⟨0, 0⟩, ⟨0, 0⟩)⟩
      { freelist := ⟨[]⟩ } {} (.makeBomb {} ⟨0, 5⟩)).1 = false :=
  ⟨rfl, trivial,
    (C10_exhausted_pool ⟨fun _ _ => ⟨true, {}, {}⟩, fun _ _ _ => (⟨0, 0⟩, ⟨0, 0⟩)⟩
      { freelist := ⟨[]⟩ } {} (.makeBomb {} ⟨0, 5⟩) rfl trivial).1⟩

/-! ## Generic base construction: claim C11 -/

/-- C11 (generic base construction). When the front of the free list is an
identifier `id > 0` and the sprite factory succeeds, `make` returns true, takes
`id` off the free list, points `sprites[id]` to `asprites[id]` when `isAnimated`
and to `ssprites[id]` otherwise, stores color, position, scale and radians at
index `id`, gives the handle the identifier `id` and the bitmask of exactly
Sprite, Color, Position, Rotation and Physics, and changes no component slot
at another index. -/
theorem C11_generic_base_construction (env : Env) (em : EntityManager) (entity : Entity)
    (T : EntityType) (position : Position) (scale : vec2) (color : vec4) (radians : Rat)
    (isAnimated : Bool) (info : Option CharAttribute) (id : Identifier) (rest : List Int)
    (hfl : em.freelist.freeids = id :: rest) (hid : 0 < id)
    (hok : (env.spriteMake T info).ok = true) :
    (em.make env entity T position scale color radians isAnimated info).1 = true ∧
    (em.make env entity T position scale color radians isAnimated info).2.1.freelist.freeids
      = rest ∧
    (em.make env entity T position scale color radians isAnimated info).2.1.sprites id
      = some (if isAnimated then SpriteRef.asprite id else SpriteRef.ssprite id) ∧
    ((em.make env entity T position scale color radians isAnimated info).2.1.colors id).color
      = color ∧
    (em.make env entity T position scale color radians isAnimated info).2.1.positions id
      = position ∧
    ((em.make env entity T position scale color radians isAnimated info).2.1.physics id).scale
      = scale ∧
    ((em.make env entity T position scale color radians isAnimated info).2.1.rotations id).radians
      = radians ∧
    (em.make env entity T position scale color radians isAnimated info).2.2.identifier = id ∧
    (∀ k : ComponentKind,
      (em.make env entity T position scale color radians isAnimated info).2.2.components.testBit
          k.bitIndex = true ↔
        k ∈ [ComponentKind.Sprite, .Color, .Position, .Rotation, .Physics]) ∧
    (∀ j, j ≠ id →
      (em.make env entity T position scale color radians isAnimated info).2.1.sprites j
        = em.sprites j ∧
      (em.make env entity T position scale color radians isAnimated info).2.1.ssprites j
        = em.ssprites j ∧
      (em.make env entity T position scale color radians isAnimated info).2.1.asprites j
        = em.asprites j ∧
      (em.make env entity T position scale color radians isAnimated info).2.1.colors j
        = em.colors j ∧
      (em.make env entity T position scale color radians isAnimated info).2.1.positions j
        = em.positions j ∧
      (em.make env entity T position scale color radians isAnimated info).2.1.physics j
        = em.physics j ∧
      (em.make env entity T position scale color radians isAnimated info).2.1.rotations j
        = em.rotations j) ∧
    (em.make env entity T position scale color radians isAnimated info).2.1.velocities
      = em.velocities ∧
    (em.make env entity T position scale color radians isAnimated info).2.1.collisions
      = em.collisions ∧
    (em.make env entity T position scale color radians isAnimated info).2.1.inputs = em.inputs ∧
    (em.make env entity T position scale color radians isAnimated info).2.1.attacks
      = em.attacks ∧
    (em.make env entity T position scale color radians isAnimated info).2.1.player = em.player ∧
    (em.make env entity T position scale color radians isAnimated info).2.1.scores = em.scores ∧
    (em.make env entity T position scale color radians isAnimated info).2.1.pathings
      = em.pathings ∧
    (em.make env entity T position scale color radians isAnimated info).2.1.animations
      = em.animations ∧
    (em.make env entity T position scale color radians isAnimated info).2.1.stores = em.stores ∧
    (em.make env entity T position scale color radians isAnimated info).2.1.distortions
      = em.distortions := by
  have hne : ¬ id = 0 := ne_of_gt hid
  have hmake : em.make env entity T position scale color radians isAnimated info =
      (true,
        { (({ em with
              freelist := ⟨rest⟩
              sprites := Function.update em.sprites id
                  (some (if isAnimated then SpriteRef.asprite id else SpriteRef.ssprite id)) }
            : EntityManager).writeSprite
            (if isAnimated then SpriteRef.asprite id else SpriteRef.ssprite id)
            (env.spriteMake T info).sprite) with
          colors := setAt em.colors id (fun c => c.setColor color)
          positions := Function.update em.positions id position
          physics := setAt em.physics id (fun p => { p with scale := scale })
          rotations := setAt em.rotations id (fun r => { r with radians := radians }) },
        (match info with
          | some _ => { entity with attr := (env.spriteMake T info).attr }
          | none => entity).init id
          (makeBitMap [.Sprite, .Color, .Position, .Rotation, .Physics])) := by
    simp only [EntityManager.make, FreeList.alloc_cons em.freelist id rest hfl, if_neg hne, hok,
      Bool.not_true, Bool.false_eq_true, if_false]
    cases isAnimated <;> rfl
  rw [hmake]
  refine ⟨rfl, ?_, ?_, ?_, ?_, ?_, ?_, ?_, ?_, ?_, ?_, ?_, ?_, ?_, ?_, ?_, ?_, ?_, ?_, ?_⟩
  · cases isAnimated <;> rfl
  · cases isAnimated <;> simp [EntityManager.writeSprite]
  · cases isAnimated <;> simp [EntityManager.writeSprite, setAt, Color.setColor]
  · cases isAnimated <;> simp [EntityManager.writeSprite]
  · cases isAnimated <;> simp [EntityManager.writeSprite, setAt]
  · cases isAnimated <;> simp [EntityManager.writeSprite, setAt]
  · cases info <;> rfl
  · intro k
    have hc : ((match info with
          | some _ => { entity with attr := (env.spriteMake T info).attr }
          | none => entity).init id
          (makeBitMap [.Sprite, .Color, .Position, .Rotation, .Physics])).components = 55 := by
      cases info <;> rfl
    simp only [hc]
    cases k <;> decide
  · intro j hj
    cases isAnimated <;>
      simp [EntityManager.writeSprite, setAt, Function.update_noteq hj]
  all_goals (cases isAnimated <;> rfl)

/-- Witness of C11: `make` of a static bomb sprite on a new manager, whose free
list starts with 1. -/
theorem C11_generic_base_construction_witness :
    ({} : EntityManager).freelist.freeids = 1 :: generate 1022 2 ∧ (0 : Int) < 1 ∧
    (Env.succeeding.spriteMake .Bomb none).ok = true ∧
    (({} : EntityManager).make Env.succeeding {} .Bomb ⟨10, 30⟩ ⟨1, 1⟩ ⟨1, 1, 1, 1⟩ 0 false
      none).1 = true :=
  ⟨rfl, by decide, rfl,
    (C11_generic_base_construction Env.succeeding {} {} .Bomb ⟨10, 30⟩ ⟨1, 1⟩ ⟨1, 1, 1, 1⟩ 0 false
      none 1 (generate 1022 2) rfl (by decide) rfl).1⟩

/-! ## Snapshots: claims C15 and C16 -/

theorem mem_foldl_setInsert (l s : List Identifier) (x : Identifier) :
    x ∈ l.foldl setInsert s ↔ x ∈ s ∨ x ∈ l := by
  induction l generalizing s with
  | nil => simp
  | cons a l ih =>
    rw [List.foldl_cons, ih]
    unfold setInsert
    split
    · rename_i ha
      constructor
      · rintro (h | h)
        · exact Or.inl h
        · exact Or.inr (List.mem_cons_of_mem _ h)
      · rintro (h | h)
        · exact Or.inl h
        · rcases List.mem_cons.1 h with h1 | h1
          · exact Or.inl (h1 ▸ ha)
          · exact Or.inr h1
    · simp only [List.mem_append, List.mem_singleton, List.mem_cons]
      tauto

theorem nodup_setInsert (s : List Identifier) (x : Identifier) (h : s.Nodup) :
    (setInsert s x).Nodup := by
  unfold setInsert
  split
  · exact h
  · rename_i hx
    rw [List.nodup_append]
    refine ⟨h, List.nodup_singleton _, ?_⟩
    intro y hy hy2
    rw [List.mem_singleton] at hy2
    exact hx (hy2 ▸ hy)

theorem nodup_foldl_setInsert (l s : List Identifier) (h : s.Nodup) :
    (l.foldl setInsert s).Nodup := by
  induction l generalizing s with
  | nil => exact h
  | cons a l ih => exact ih _ (nodup_setInsert s a h)

/-- C15 (snapshot shape). `saveGame` on an empty snapshot leaves the manager as
it is; the snapshot holds the identifier of the boat, the key sets of the live
collections of fish, bombs, missiles, torpedoes and of each submarine type, and
at every index `0 <= i < 1024` the manager's position, velocity, rotation,
physics, score, collision and attack slots. -/
theorem C15_snapshot_shape (em : EntityManager) :
    (em.saveGame {}).1 = em ∧
    (em.saveGame {}).2.boatId = em.boat.identifier ∧
    (∀ x, x ∈ (em.saveGame {}).2.fishes ↔ x ∈ em.fishes.keys) ∧
    (∀ x, x ∈ (em.saveGame {}).2.bombs ↔ x ∈ em.bombs.keys) ∧
    (∀ x, x ∈ (em.saveGame {}).2.missiles ↔ x ∈ em.missiles.keys) ∧
    (∀ x, x ∈ (em.saveGame {}).2.torpedoes ↔ x ∈ em.torpedoes.keys) ∧
    (∀ (i : Fin 4) x, x ∈ (em.saveGame {}).2.submarines i ↔ x ∈ (em.submarines i).keys) ∧
    (∀ i : Identifier, 0 ≤ i → i < 1024 →
      (em.saveGame {}).2.positions i = em.positions i ∧
      (em.saveGame {}).2.velocities i = em.velocities i ∧
      (em.saveGame {}).2.rotations i = em.rotations i ∧
      (em.saveGame {}).2.physics i = em.physics i ∧
      (em.saveGame {}).2.scores i = em.scores i ∧
      (em.saveGame {}).2.collisions i = em.collisions i ∧
      (em.saveGame {}).2.attacks i = em.attacks i) := by
  refine ⟨rfl, rfl, ?_, ?_, ?_, ?_, ?_, ?_⟩
  · intro x
    simp [EntityManager.saveGame, mem_foldl_setInsert]
  · intro x
    simp [EntityManager.saveGame, mem_foldl_setInsert]
  · intro x
    simp [EntityManager.saveGame, mem_foldl_setInsert]
  · intro x
    simp [EntityManager.saveGame, mem_foldl_setInsert]
  · intro i x
    simp [EntityManager.saveGame, mem_foldl_setInsert]
  · intro i h0 h1
    have hi : 0 ≤ i ∧ i < (MAX_NUM_ON_SCREEN_ENTITIES : Int) := ⟨h0, h1⟩
    simp only [EntityManager.saveGame, copyArray, if_pos hi, and_self]

/-- C16 at its failing input. `loadGame` on a new manager with a snapshot whose
one submarine (type I) has a saved position with `y < 20`: `makeSubmarine`
returns false and leaves the handle with identifier 0, `loadGame` does not look
at the result and adds the handle, so it returns true with 0 a key of the live
collection of the type-I submarines. -/
theorem C16_loadGame_adds_failed_submarine :
    (({} : EntityManager).loadSubmarine Env.succeeding shallowSnapshot 0 7).1 = false ∧
    (({} : EntityManager).loadGame PlayerModel.quiet Env.succeeding shallowSnapshot).1 = true ∧
    ((({} : EntityManager).loadGame PlayerModel.quiet Env.succeeding shallowSnapshot).2.submarines
      0).keys = [0] ∧
    ((({} : EntityManager).loadGame PlayerModel.quiet Env.succeeding shallowSnapshot).2.submarines
      0).find 0 ≠ none := by
  refine ⟨rfl, rfl, rfl, ?_⟩
  decide

/-! ## The collision update bracket: claims C17 to C20 -/

/-- C17 at its failing input. `beginUpdates` clears `rmbombs`, `rmsubmarines`,
`rmfishes`, `rmtorpedoes`, `rmmissiles` and `rmboatmissiles` but leaves
`rmsmoke` as it is: after a bracket in which `smokeDidMoveOutOfScreen(9)` was
reported, the next `beginUpdates` leaves 9 in `rmsmoke`. -/
theorem C17_beginUpdates_keeps_rmsmoke :
    (∀ sc : StageController,
      sc.beginUpdates.rmbombs = [] ∧ sc.beginUpdates.rmsubmarines = [] ∧
      sc.beginUpdates.rmfishes = [] ∧ sc.beginUpdates.rmtorpedoes = [] ∧
      sc.beginUpdates.rmmissiles = [] ∧ sc.beginUpdates.rmboatmissiles = [] ∧
      sc.beginUpdates.rmsmoke = sc.rmsmoke) ∧
    ((((({} : StageController).beginUpdates.smokeDidMoveOutOfScreen 9).endUpdates
      PlayerModel.quiet Env.succeeding).beginUpdates).rmsmoke = [9]) :=
  ⟨fun _ => ⟨rfl, rfl, rfl, rfl, rfl, rfl, rfl⟩, rfl⟩

/-! ## Factories and the live collections: claim C12 -/

theorem EntityManager.writeSprite_live (em : EntityManager) (ref : SpriteRef) (sp : Sprite) :
    (em.writeSprite ref sp).live = em.live := by
  cases ref <;> rfl

theorem EntityManager.Made.transfer {env : Env} {em : EntityManager} {position : Position}
    {r r2 : Bool × EntityManager × Entity} (h : EntityManager.Made env em position r)
    (h1 : r2.1 = r.1) (h2 : r2.2.1.live = r.2.1.live) (h3 : r2.2.1.freelist = r.2.1.freelist)
    (h4 : r2.2.1.positions = r.2.1.positions) (h5 : r2.2.2.identifier = r.2.2.identifier) :
    EntityManager.Made env em position r2 := by
  unfold EntityManager.Made at h ⊢
  rw [h1, h2, h3, h4, h5]
  exact h

theorem EntityManager.make_made (env : Env) (em : EntityManager) (entity : Entity)
    (T : EntityType) (position : Position) (scale : vec2) (color : vec4) (radians : Rat)
    (isAnimated : Bool) (info : Option CharAttribute) :
    EntityManager.Made env em position
      (em.make env entity T position scale color radians isAnimated info) := by
  by_cases h0 : em.freelist.alloc.1 = 0
  · have hmake : em.make env entity T position scale color radians isAnimated info =
        (false, { em with freelist := em.freelist.alloc.2 }, entity) := by
      simp only [EntityManager.make, h0, if_true]
    rw [hmake]
    exact ⟨rfl, rfl, fun h => Bool.noConfusion h, fun _ => rfl, fun h => absurd h0 h⟩
  · cases hok : (env.spriteMake T info).ok
    · have hmake : (em.make env entity T position scale color radians isAnimated info).1 = false ∧
          (em.make env entity T position scale color radians isAnimated info).2.1 =
            ({ em with
               freelist := em.freelist.alloc.2
               sprites := Function.update em.sprites em.freelist.alloc.1
                  (some (if isAnimated then SpriteRef.asprite em.freelist.alloc.1
                    else SpriteRef.ssprite em.freelist.alloc.1)) } : EntityManager).writeSprite
              (if isAnimated then SpriteRef.asprite em.freelist.alloc.1
                    else SpriteRef.ssprite em.freelist.alloc.1) (env.spriteMake T info).sprite := by
        simp only [EntityManager.make, if_neg h0, hok, Bool.not_false, if_true, and_self]
      refine ⟨?_, ?_, ?_, ?_, ?_⟩
      · rw [hmake.2]; cases isAnimated <;> rfl
      · rw [hmake.2]; cases isAnimated <;> rfl
      · rw [hmake.1]; exact fun h => Bool.noConfusion h
      · rw [hmake.2]; intro _; cases isAnimated <;> rfl
      · intro _ hall
        rw [hall] at hok
        exact absurd hok (by decide)
    · have hmake : em.make env entity T position scale color radians isAnimated info =
          (true,
            { (({ em with
                  freelist := em.freelist.alloc.2
                  sprites := Function.update em.sprites em.freelist.alloc.1
                      (some (if isAnimated then SpriteRef.asprite em.freelist.alloc.1
                        else SpriteRef.ssprite em.freelist.alloc.1)) }
                : EntityManager).writeSprite
                (if isAnimated then SpriteRef.asprite em.freelist.alloc.1
                  else SpriteRef.ssprite em.freelist.alloc.1)
                (env.spriteMake T info).sprite) with
              colors := setAt em.colors em.freelist.alloc.1 (fun c => c.setColor color)
              positions := Function.update em.positions em.freelist.alloc.1 position
              physics := setAt em.physics em.freelist.alloc.1 (fun p => { p with scale := scale })
              rotations := setAt em.rotations em.freelist.alloc.1
                (fun r => { r with radians := radians }) },
            (match info with
              | some _ => { entity with attr := (env.spriteMake T info).attr }
              | none => entity).init em.freelist.alloc.1
              (makeBitMap [.Sprite, .Color, .Position, .Rotation, .Physics])) := by
        simp only [EntityManager.make, if_neg h0, hok, Bool.not_true, Bool.false_eq_true,
          if_false]
        cases isAnimated <;> rfl
      rw [hmake]
      refine ⟨by cases isAnimated <;> rfl, by cases isAnimated <;> rfl,
        fun _ => ⟨h0, by cases info <;> rfl, by cases isAnimated <;> rfl⟩,
        fun h => Bool.noConfusion h, fun _ _ => rfl⟩

theorem EntityManager.makeBomb_made (env : Env) (em : EntityManager) (e0 : Entity) (position : Position) (initVel : vec2) :
    EntityManager.Made env em position (em.makeBomb env e0 position initVel) := by
  unfold EntityManager.makeBomb
  generalize hr : EntityManager.make env em _ _ _ _ _ _ _ _ = r
  have h : EntityManager.Made env em position r := hr ▸ EntityManager.make_made _ _ _ _ _ _ _ _ _ _
  clear hr
  obtain ⟨ok, em1, e1⟩ := r
  cases ok
  · exact h
  · simp only [Bool.not_true, Bool.false_eq_true, if_false]
    split <;> exact h.transfer rfl rfl rfl rfl rfl

theorem EntityManager.makeExplosion_made (env : Env) (em : EntityManager) (e0 : Entity) (position : Position) :
    EntityManager.Made env em position (em.makeExplosion env e0 position) := by
  unfold EntityManager.makeExplosion
  generalize hr : EntityManager.make env em _ _ _ _ _ _ _ _ = r
  have h : EntityManager.Made env em position r := hr ▸ EntityManager.make_made _ _ _ _ _ _ _ _ _ _
  clear hr
  obtain ⟨ok, em1, e1⟩ := r
  cases ok
  · exact h
  · simp only [Bool.not_true, Bool.false_eq_true, if_false]
    exact h.transfer rfl rfl rfl rfl rfl

theorem EntityManager.makeTorpedo_made (env : Env) (em : EntityManager) (e0 : Entity) (position : Position) (initVel : vec2) :
    EntityManager.Made env em position (em.makeTorpedo env e0 position initVel) := by
  unfold EntityManager.makeTorpedo
  generalize hr : EntityManager.make env em _ _ _ _ _ _ _ _ = r
  have h : EntityManager.Made env em position r := hr ▸ EntityManager.make_made _ _ _ _ _ _ _ _ _ _
  clear hr
  obtain ⟨ok, em1, e1⟩ := r
  cases ok
  · exact h
  · simp only [Bool.not_true, Bool.false_eq_true, if_false]
    split <;> exact h.transfer rfl rfl rfl rfl rfl

theorem EntityManager.makeMissile_made (env : Env) (em : EntityManager) (e0 : Entity) (position : Position) :
    EntityManager.Made env em position (em.makeMissile env e0 position) := by
  unfold EntityManager.makeMissile
  generalize hr : EntityManager.make env em _ _ _ _ _ _ _ _ = r
  have h : EntityManager.Made env em position r := hr ▸ EntityManager.make_made _ _ _ _ _ _ _ _ _ _
  clear hr
  obtain ⟨ok, em1, e1⟩ := r
  cases ok
  · exact h
  · simp only [Bool.not_true, Bool.false_eq_true, if_false]
    exact h.transfer rfl rfl rfl rfl rfl

theorem EntityManager.makeBoatMissile_made (env : Env) (em : EntityManager) (e0 : Entity) (position target : Position) :
    EntityManager.Made env em position (em.makeBoatMissile env e0 position target) := by
  unfold EntityManager.makeBoatMissile
  generalize hr : EntityManager.make env em _ _ _ _ _ _ _ _ = r
  have h : EntityManager.Made env em position r := hr ▸ EntityManager.make_made _ _ _ _ _ _ _ _ _ _
  clear hr
  obtain ⟨ok, em1, e1⟩ := r
  cases ok
  · exact h
  · simp only [Bool.not_true, Bool.false_eq_true, if_false]
    exact h.transfer rfl rfl rfl rfl rfl

theorem EntityManager.makeStoreIcon_made (env : Env) (em : EntityManager) (e0 : Entity) (T : EntityType) (storeType : StoreType) (position : Position) :
    EntityManager.Made env em position (em.makeStoreIcon env e0 T storeType position) := by
  unfold EntityManager.makeStoreIcon
  generalize hr : EntityManager.make env em _ _ _ _ _ _ _ _ = r
  have h : EntityManager.Made env em position r := hr ▸ EntityManager.make_made _ _ _ _ _ _ _ _ _ _
  clear hr
  obtain ⟨ok, em1, e1⟩ := r
  cases ok
  · exact h
  · simp only [Bool.not_true, Bool.false_eq_true, if_false]
    exact h.transfer rfl rfl rfl rfl rfl

theorem EntityManager.makeCharacter_made (env : Env) (em : EntityManager) (e0 : Entity)
    (position : Position) (c : Char) (font : Font) (color : vec4) (size : Nat) :
    EntityManager.Made env em position (em.makeCharacter env e0 position c font color size) :=
  EntityManager.make_made _ _ _ _ _ _ _ _ _ _

theorem EntityManager.makeFish_made (env : Env) (em : EntityManager) (e0 : Entity)
    (position : Position) (direction : Direction) (x_velocity : Rat) :
    EntityManager.Made env em position (em.makeFish env e0 position direction x_velocity) := by
  unfold EntityManager.makeFish
  lift_lets
  intro scale r
  have h : EntityManager.Made env em position r := EntityManager.make_made _ _ _ _ _ _ _ _ _ _
  clear_value r
  obtain ⟨ok, em1, e1⟩ := r
  cases ok
  · exact h
  · simp only [Bool.not_true, Bool.false_eq_true, if_false]
    split <;> exact h.transfer rfl rfl rfl rfl rfl

theorem EntityManager.makeSmoke_made (env : Env) (em : EntityManager) (e0 : Entity) :
    ∃ position, EntityManager.Made env em position (em.makeSmoke env e0) := by
  unfold EntityManager.makeSmoke
  lift_lets
  intro boatid boatSprite thisBB position r
  refine ⟨position, ?_⟩
  have h : EntityManager.Made env em position r := EntityManager.make_made _ _ _ _ _ _ _ _ _ _
  clear_value r
  obtain ⟨ok, em1, e1⟩ := r
  cases ok
  · exact h
  · simp only [Bool.not_true, Bool.false_eq_true, if_false]
    exact h.transfer rfl rfl rfl rfl rfl

theorem EntityManager.makeSubmarine_low (env : Env) (em : EntityManager) (e0 : Entity)
    (position : Position) (direction : Direction) (x_velocity : Rat) (type : SubmarineType)
    (score : Nat) (radarRadius : Rat) (hy : position.y < 20) :
    em.makeSubmarine env e0 position direction x_velocity type score radarRadius =
      (false, em, e0) := by
  unfold EntityManager.makeSubmarine
  rw [if_pos hy]

theorem EntityManager.makeSubmarine_made (env : Env) (em : EntityManager) (e0 : Entity)
    (position : Position) (direction : Direction) (x_velocity : Rat) (type : SubmarineType)
    (score : Nat) (radarRadius : Rat) (hy : ¬ position.y < 20) :
    EntityManager.Made env em position
      (em.makeSubmarine env e0 position direction x_velocity type score radarRadius) := by
  unfold EntityManager.makeSubmarine
  rw [if_neg hy]
  lift_lets
  intro scale xv r
  have h : EntityManager.Made env em position r := EntityManager.make_made _ _ _ _ _ _ _ _ _ _
  clear_value r scale xv
  obtain ⟨ok, em1, e1⟩ := r
  cases ok
  · exact h
  · intro sub id src m1 m2 m3 m4 m5 m6 m7 m8 sub2 m9
    have h4 : m4.live = em1.live ∧ m4.freelist = em1.freelist ∧ m4.positions = em1.positions := by
      cases direction <;> exact ⟨rfl, rfl, rfl⟩
    clear_value m4
    have h5 : m5.live = em1.live ∧ m5.freelist = em1.freelist ∧ m5.positions = em1.positions := by
      by_cases hd : id = m4.tutorialSub.identifier
      · have e : m5 = _ := if_pos hd
        rw [e]
        exact h4
      · have e : m5 = _ := if_neg hd
        rw [e]
        exact h4
    clear_value m5
    cases type <;> exact h.transfer rfl h5.1 h5.2.1 h5.2.2 rfl

theorem Coll.get_eq_live (c : Coll) (em : EntityManager) : c.get em = Live.get c em.live := by
  cases c <;> rfl

theorem EntityManager.get_of_live {em em2 : EntityManager} (h : em2.live = em.live) (c : Coll) :
    c.get em2 = c.get em := by
  rw [Coll.get_eq_live, Coll.get_eq_live, h]

theorem EMap.keys_sublist_assign (m : EMap) (k : Identifier) (v : Entity) :
    m.keys.Sublist (m.assign k v).keys := by
  rw [EMap.keys_assign]
  split
  · exact List.Sublist.refl _
  · exact List.sublist_append_left _ _

theorem EMap.mem_keys_assign_self (m : EMap) (k : Identifier) (v : Entity) :
    k ∈ (m.assign k v).keys := by
  rw [EMap.keys_assign]
  split
  · assumption
  · simp

theorem EMap.size_eq_length_keys (m : EMap) : m.size = m.keys.length := by
  simp [EMap.size, EMap.keys]

theorem FreeList.alloc_suffix (fl : FreeList) : fl.alloc.2.freeids <:+ fl.freeids := by
  unfold FreeList.alloc
  split
  · exact List.suffix_refl _
  · rename_i first rest h
    rw [h]
    exact List.suffix_cons _ _

theorem EntityManager.addCharacter_get (em : EntityManager) (e : Entity) (c : Coll)
    (hc : c ≠ .characters) : c.get (em.addCharacter e) = c.get em := by
  cases c <;> first
    | exact absurd rfl hc
    | rfl

theorem EntityManager.makeStringLabelLoop_frame (env : Env) (font : Font) (color : vec4)
    (psize : Nat) (string : List Char) :
    ∀ (em : EntityManager) (label : Entity) (position : Position),
      (∀ id ∈ label.identifiers, id ∈ em.characters.keys) →
      (∀ c, c ≠ Coll.characters →
        c.get (em.makeStringLabelLoop env font color psize string label position).2.1
          = c.get em) ∧
      (em.makeStringLabelLoop env font color psize string label position).2.1.delegates
        = em.delegates ∧
      (∀ id ∈ (em.makeStringLabelLoop env font color psize string label position).2.2.1.identifiers,
        id ∈ (em.makeStringLabelLoop env font color psize string label
          position).2.1.characters.keys) ∧
      em.characters.keys.Sublist
        (em.makeStringLabelLoop env font color psize string label position).2.1.characters.keys ∧
      (em.makeStringLabelLoop env font color psize string label position).2.1.freelist.freeids
        <:+ em.freelist.freeids := by
  induction string with
  | nil =>
    intro em label position hl
    exact ⟨fun _ _ => rfl, rfl, hl, List.Sublist.refl _, List.suffix_refl _⟩
  | cons ch rest ih =>
    intro em label position hl
    unfold EntityManager.makeStringLabelLoop
    have h := EntityManager.makeCharacter_made env em {} position ch font color psize
    generalize em.makeCharacter env {} position ch font color psize = r at h ⊢
    obtain ⟨ok, em1, e1⟩ := r
    obtain ⟨hlive, hfree, -, -, -⟩ := h
    have hchars : em1.characters = em.characters := EntityManager.get_of_live hlive .characters
    have hsuf : em1.freelist.freeids <:+ em.freelist.freeids := by
      rw [show em1.freelist = em.freelist.alloc.2 from hfree]
      exact FreeList.alloc_suffix _
    cases ok
    · simp only [Bool.not_false, if_true]
      refine ⟨fun c _ => EntityManager.get_of_live hlive c, congrArg Live.delegates hlive, ?_, ?_,
        hsuf⟩
      · intro id hid
        rw [hchars]
        exact hl id hid
      · rw [hchars]
    · simp only [Bool.not_true, Bool.false_eq_true, if_false]
      have hkeys : (em1.addCharacter e1).characters.keys =
          (em.characters.assign e1.identifier e1).keys := by
        rw [← hchars]
        rfl
      have hl2 : ∀ id ∈ label.identifiers ++ [e1.identifier],
          id ∈ (em1.addCharacter e1).characters.keys := by
        intro id hid
        rw [hkeys]
        rcases List.mem_append.1 hid with h1 | h1
        · exact (EMap.keys_sublist_assign _ _ _).subset (hl id h1)
        · rw [List.mem_singleton] at h1
          rw [h1]
          exact EMap.mem_keys_assign_self _ _ _
      obtain ⟨i1, i2, i3, i4, i5⟩ := ih (em1.addCharacter e1)
        { label with identifiers := label.identifiers ++ [e1.identifier] }
        { position with x := position.x + ((e1.attr.advance >>> 6 : Int) : Rat) } hl2
      refine ⟨?_, ?_, i3, ?_, ?_⟩
      · intro c hc
        exact (i1 c hc).trans ((EntityManager.addCharacter_get em1 e1 c hc).trans
          (EntityManager.get_of_live hlive c))
      · exact i2.trans (congrArg Live.delegates hlive)
      · refine List.Sublist.trans ?_ i4
        rw [hkeys]
        exact EMap.keys_sublist_assign _ _ _
      · exact i5.trans hsuf

theorem Factory.run_live (env : Env) (em : EntityManager) (entity : Entity) (f : Factory)
    (hf : f.isStringLabel = false) : (f.run env em entity).2.1.live = em.live := by
  cases f with
  | make T position scale color radians isAnimated info =>
    exact (EntityManager.make_made env em entity T position scale color radians isAnimated
      info).1
  | makeBomb position initVel => exact (EntityManager.makeBomb_made env em entity position initVel).1
  | makeExplosion position => exact (EntityManager.makeExplosion_made env em entity position).1
  | makeSubmarine position direction x_velocity type score radarRadius =>
    by_cases hy : position.y < 20
    · simp only [Factory.run, EntityManager.makeSubmarine_low env em entity position direction
        x_velocity type score radarRadius hy]
    · exact (EntityManager.makeSubmarine_made env em entity position direction x_velocity type
        score radarRadius hy).1
  | makeFish position direction x_velocity =>
    exact (EntityManager.makeFish_made env em entity position direction x_velocity).1
  | makeTorpedo position initVel =>
    exact (EntityManager.makeTorpedo_made env em entity position initVel).1
  | makeSmoke =>
    obtain ⟨_, h⟩ := EntityManager.makeSmoke_made env em entity
    exact h.1
  | makeMissile position => exact (EntityManager.makeMissile_made env em entity position).1
  | makeBoatMissile position target =>
    exact (EntityManager.makeBoatMissile_made env em entity position target).1
  | makeBuyLives position =>
    exact (EntityManager.makeStoreIcon_made env em entity .BuyLives .life position).1
  | makeBuyMissiles position =>
    exact (EntityManager.makeStoreIcon_made env em entity .BuyMissiles .boatMissile position).1
  | makeEndStore position =>
    exact (EntityManager.makeStoreIcon_made env em entity .EndStore .end_ position).1
  | makeCharacter position c font color size =>
    exact (EntityManager.makeCharacter_made env em entity position c font color size).1
  | makeStringLabel position font color psize string => exact Bool.noConfusion hf

/-- C12 at its counterexample. `makeStringLabel` with the text "A" on a new
manager with one registered delegate: the character it makes gets the
identifier 1, is added to the live collection of the characters, and the
delegate receives a did-add notification for it. -/
theorem C12_makeStringLabel_adds_characters :
    (({} : EntityManager).registerDelegate 7).characters.keys = [] ∧
    (({} : EntityManager).registerDelegate 7).log = [] ∧
    (Factory.run Env.succeeding (({} : EntityManager).registerDelegate 7) {}
      (.makeStringLabel ⟨0, 0⟩ .SFMonoRegular white 12 ['A'])).1 = true ∧
    (Factory.run Env.succeeding (({} : EntityManager).registerDelegate 7) {}
      (.makeStringLabel ⟨0, 0⟩ .SFMonoRegular white 12 ['A'])).2.1.characters.keys = [1] ∧
    (Factory.run Env.succeeding (({} : EntityManager).registerDelegate 7) {}
      (.makeStringLabel ⟨0, 0⟩ .SFMonoRegular white 12 ['A'])).2.1.log.map
        (fun p => (p.1, match p.2 with
          | .didAddEntity e => some e.identifier
          | _ => none)) = [(7, some 1)] :=
  ⟨rfl, rfl, rfl, rfl, rfl⟩

/-- C12, amended. Every factory other than `makeStringLabel`, whether it
succeeds or fails, leaves every per-kind live collection, the registered
delegates and the calls they have received as they were. `makeStringLabel`
leaves every live collection other than the characters as it was, erases no
character, and every character it has made (the identifiers of the label it
returns) is a key of the live collection of the characters afterwards. -/
theorem C12_factories_add_only_characters (env : Env) (em : EntityManager) (entity : Entity)
    (f : Factory) :
    (f.isStringLabel = false →
      (∀ c : Coll, c.get (f.run env em entity).2.1 = c.get em) ∧
      (f.run env em entity).2.1.log = em.log) ∧
    (∀ c : Coll, c ≠ .characters → c.get (f.run env em entity).2.1 = c.get em) ∧
    (f.run env em entity).2.1.delegates = em.delegates ∧
    em.characters.keys.Sublist (f.run env em entity).2.1.characters.keys ∧
    (f.isStringLabel = true → ∀ id ∈ (f.run env em entity).2.2.identifiers,
      id ∈ (f.run env em entity).2.1.characters.keys) := by
  cases hf : f.isStringLabel
  · have h := Factory.run_live env em entity f hf
    refine ⟨fun _ => ⟨fun c => EntityManager.get_of_live h c, congrArg Live.log h⟩,
      fun c _ => EntityManager.get_of_live h c, congrArg Live.delegates h, ?_,
      fun h2 => Bool.noConfusion h2⟩
    have hc : (f.run env em entity).2.1.characters = em.characters :=
      EntityManager.get_of_live h .characters
    rw [hc]
  · cases f with
    | makeStringLabel position font color psize string =>
      obtain ⟨h1, h2, h3, h4, _⟩ := EntityManager.makeStringLabelLoop_frame env font color psize
        string em { entity with identifiers := [] } position (fun _ h => absurd h (List.not_mem_nil _))
      exact ⟨fun h => Bool.noConfusion h, h1, h2, h4, fun _ => h3⟩
    | _ => exact Bool.noConfusion hf

/-- Witness of C12: `makeBomb`, which is not `makeStringLabel`, on a new manager. -/
theorem C12_factories_add_only_characters_witness :
    (Factory.makeBomb ⟨10, 30⟩ ⟨0, 5⟩).isStringLabel = false ∧
    (Factory.run Env.succeeding {} {} (.makeBomb ⟨10, 30⟩ ⟨0, 5⟩)).2.1.log
      = ({} : EntityManager).log :=
  ⟨rfl, ((C12_factories_add_only_characters Env.succeeding {} {}
    (.makeBomb ⟨10, 30⟩ ⟨0, 5⟩)).1 rfl).2⟩

/-! ## What the player record and the number labels leave as it was -/

theorem EntityManager.sameCore_refl (em : EntityManager) : em.SameCore em :=
  ⟨rfl, List.Sublist.refl _⟩

theorem EntityManager.SameCore.sameCore_trans {a b c : EntityManager} (h1 : a.SameCore b)
    (h2 : b.SameCore c) : a.SameCore c :=
  ⟨h2.1.trans h1.1, h1.2.trans h2.2⟩

theorem Coll.get_eq_core (c : Coll) (em : EntityManager) (hc : c ≠ .characters) :
    c.get em = Core.get c em.core := by
  cases c <;> first
    | exact absurd rfl hc
    | rfl

theorem EntityManager.SameCore.get {em em2 : EntityManager} (h : em.SameCore em2) (c : Coll)
    (hc : c ≠ .characters) : c.get em2 = c.get em := by
  rw [Coll.get_eq_core c em2 hc, Coll.get_eq_core c em hc, h.1]

theorem EntityManager.SameCore.freelist {em em2 : EntityManager} (h : em.SameCore em2) :
    em2.freelist = em.freelist :=
  congrArg Core.freelist h.1

theorem EntityManager.SameCore.positions {em em2 : EntityManager} (h : em.SameCore em2) :
    em2.positions = em.positions :=
  congrArg Core.positions h.1

theorem EntityManager.SameCore.velocities {em em2 : EntityManager} (h : em.SameCore em2) :
    em2.velocities = em.velocities :=
  congrArg Core.velocities h.1

theorem EntityManager.SameCore.log {em em2 : EntityManager} (h : em.SameCore em2) :
    em2.log = em.log :=
  congrArg Core.log h.1

theorem updateDigits_sameCore (env : Env) (numericOld numericNew : List Char)
    (identifiers : List Identifier) (base : Nat) (indices : List Nat) :
    ∀ em : EntityManager,
      em.SameCore (updateDigits env numericOld numericNew identifiers base indices em).2 := by
  induction indices with
  | nil => exact fun em => EntityManager.sameCore_refl em
  | cons index rest ih =>
    intro em
    rw [updateDigits]
    split
    · lift_lets
      intro id ch src ch2 em1 out ch3 em2
      have h2 : em.SameCore em2 := ⟨rfl, EMap.keys_sublist_assign _ _ _⟩
      clear_value em2
      split
      · exact h2
      · exact h2.sameCore_trans (ih em2)
    · exact ih em

theorem EntityManager.updateFormattedNumberLabel_sameCore (env : Env) (em : EntityManager)
    (numberLabel : FormattedNumberLabel) (newValue : Nat) :
    em.SameCore (em.updateFormattedNumberLabel env numberLabel newValue).2.1 := by
  unfold EntityManager.updateFormattedNumberLabel
  split
  · exact EntityManager.sameCore_refl em
  · lift_lets
    intro width numericOld numericNew base r
    have h := updateDigits_sameCore env numericOld numericNew numberLabel.label.identifiers base
      (List.range width) em
    split <;> exact h

theorem EntityManager.playerDelegate_sameCore (pm : PlayerModel) (env : Env)
    (em : EntityManager) (event : PlayerEvent) : em.SameCore (em.playerDelegate pm env event) := by
  cases event with
  | playerScoreDidChange n =>
    show em.SameCore (if pm.softAsserts then (em.updateScoreLabel env n).2 else em)
    split
    · exact EntityManager.updateFormattedNumberLabel_sameCore env em em.scoreLabel n
    · exact EntityManager.sameCore_refl em
  | playerMoneyDidChange n =>
    show em.SameCore (if pm.softAsserts then (em.updateMoneyLabel env n).2 else em)
    split
    · exact EntityManager.updateFormattedNumberLabel_sameCore env em em.moneyLabel n
    · exact EntityManager.sameCore_refl em
  | playerBoatLivesDidChange n =>
    show em.SameCore (if pm.softAsserts then (em.updateBoatLivesLabel env n).2 else em)
    split
    · exact EntityManager.updateFormattedNumberLabel_sameCore env em em.livesLabel n
    · exact EntityManager.sameCore_refl em
  | playerDidLoseAllLives => exact ⟨rfl, List.Sublist.refl _⟩

theorem EntityManager.playerDelegates_sameCore (pm : PlayerModel) (env : Env)
    (events : List PlayerEvent) :
    ∀ em : EntityManager,
      em.SameCore (events.foldl (EntityManager.playerDelegate pm env) em) := by
  induction events with
  | nil => exact fun em => EntityManager.sameCore_refl em
  | cons e rest ih =>
    intro em
    exact (EntityManager.playerDelegate_sameCore pm env em e).sameCore_trans (ih _)

theorem EntityManager.playerCall_sameCore (pm : PlayerModel) (env : Env) (em : EntityManager)
    (method : PlayerMethod) : em.SameCore (em.playerCall pm env method).2 := by
  have h : em.SameCore { em with player := (pm.call method em.player).player } :=
    ⟨rfl, List.Sublist.refl _⟩
  exact h.sameCore_trans (EntityManager.playerDelegates_sameCore pm env _ _)

theorem EntityManager.updateBoatMissilesLabel_sameCore (env : Env) (em : EntityManager)
    (n : Nat) : em.SameCore (em.updateBoatMissilesLabel env n).2 :=
  EntityManager.updateFormattedNumberLabel_sameCore env em em.missilesLabel n

theorem EntityManager.updateBoatLivesLabel_sameCore (env : Env) (em : EntityManager)
    (n : Nat) : em.SameCore (em.updateBoatLivesLabel env n).2 :=
  EntityManager.updateFormattedNumberLabel_sameCore env em em.livesLabel n

/-! ## The callbacks of the bracket remove nothing -/

theorem EntityManager.reported_refl (em : EntityManager) : em.Reported em :=
  ⟨fun _ _ _ => rfl, List.Sublist.refl _, List.Sublist.refl _, List.suffix_refl _⟩

theorem EntityManager.Reported.reported_trans {a b c : EntityManager} (h1 : a.Reported b)
    (h2 : b.Reported c) : a.Reported c :=
  ⟨fun k hk1 hk2 => (h2.1 k hk1 hk2).trans (h1.1 k hk1 hk2), h1.2.1.trans h2.2.1,
    h1.2.2.1.trans h2.2.2.1, h2.2.2.2.trans h1.2.2.2⟩

theorem EntityManager.SameCore.toReported {em em2 : EntityManager} (h : em.SameCore em2) :
    em.Reported em2 := by
  refine ⟨fun c _ hc => h.get c hc, ?_, h.2, ?_⟩
  · have he : em2.explosions = em.explosions := h.get .explosions (by decide)
    rw [he]
  · rw [h.freelist]

theorem EntityManager.Reported.keys {em em2 : EntityManager} (h : em.Reported em2) (c : Coll) :
    (c.get em).keys.Sublist (c.get em2).keys := by
  by_cases h1 : c = .explosions
  · subst h1
    exact h.2.1
  · by_cases h2 : c = .characters
    · subst h2
      exact h.2.2.1
    · rw [h.1 c h1 h2]

theorem EntityManager.addExplosion_reported (em : EntityManager) (e : Entity) :
    em.Reported (em.addExplosion e) := by
  refine ⟨?_, EMap.keys_sublist_assign _ _ _, List.Sublist.refl _, List.suffix_refl _⟩
  intro c hc _
  cases c <;> first
    | exact absurd rfl hc
    | rfl

theorem EntityManager.Made.made_reported {env : Env} {em : EntityManager} {position : Position}
    {r : Bool × EntityManager × Entity} (h : EntityManager.Made env em position r) :
    em.Reported r.2.1 := by
  refine ⟨fun c _ _ => EntityManager.get_of_live h.1 c, ?_, ?_, ?_⟩
  · have he : r.2.1.explosions = em.explosions := EntityManager.get_of_live h.1 .explosions
    rw [he]
  · have he : r.2.1.characters = em.characters := EntityManager.get_of_live h.1 .characters
    rw [he]
  · rw [h.2.1]
    exact FreeList.alloc_suffix _

theorem StageController.step_refl (sc : StageController) : sc.Step sc :=
  ⟨sc.entityManager, sc.storeEnded, EntityManager.reported_refl _, rfl⟩

theorem StageController.Step.step_trans {a b c : StageController} (h1 : a.Step b) (h2 : b.Step c) :
    a.Step c := by
  obtain ⟨em1, se1, r1, e1⟩ := h1
  obtain ⟨em2, se2, r2, e2⟩ := h2
  subst e1
  subst e2
  exact ⟨em2, se2, r1.reported_trans r2, rfl⟩

theorem StageController.spawnExplosion_step (env : Env) (sc : StageController)
    (position : Position) : sc.Step (sc.spawnExplosion env position).2 := by
  unfold StageController.spawnExplosion
  have h := EntityManager.makeExplosion_made env sc.entityManager {} position
  generalize sc.entityManager.makeExplosion env {} position = r at h ⊢
  obtain ⟨ok, em1, e1⟩ := r
  cases ok
  · exact ⟨em1, sc.storeEnded, h.made_reported, rfl⟩
  · exact ⟨em1.addExplosion e1, sc.storeEnded,
      h.made_reported.reported_trans (EntityManager.addExplosion_reported em1 e1), rfl⟩

theorem StageController.assertedSpawn_step (pm : PlayerModel) (env : Env)
    (sc : StageController) (position : Position) :
    sc.Step (if pm.softAsserts then (sc.spawnExplosion env position).2 else sc) := by
  split
  · exact StageController.spawnExplosion_step env sc position
  · exact StageController.step_refl sc

theorem StageController.playerCall_step (pm : PlayerModel) (env : Env) (sc : StageController)
    (method : PlayerMethod) : sc.Step (sc.playerCall pm env method).2 :=
  ⟨_, sc.storeEnded, (EntityManager.playerCall_sameCore pm env sc.entityManager
    method).toReported, rfl⟩

theorem StageController.incrementScores_step (pm : PlayerModel) (env : Env)
    (ids : List Identifier) : ∀ sc : StageController, sc.Step (sc.incrementScores pm env ids) := by
  induction ids with
  | nil => exact fun sc => StageController.step_refl sc
  | cons id rest ih =>
    intro sc
    exact (StageController.playerCall_step pm env sc _).step_trans (ih _)

theorem StageController.spawnExplosions_step (env : Env) (ids : List Identifier) :
    ∀ sc : StageController, sc.Step (sc.spawnExplosions env ids) := by
  induction ids with
  | nil => exact fun sc => StageController.step_refl sc
  | cons id rest ih =>
    intro sc
    exact (StageController.spawnExplosion_step env sc _).step_trans (ih _)

theorem StageController.playerDidBuyMissile_step (pm : PlayerModel) (env : Env)
    (sc : StageController) : sc.Step (sc.playerDidBuyMissile pm env) := by
  unfold StageController.playerDidBuyMissile
  have h1 := StageController.playerCall_step pm env sc
    (.spendPlayerMoney sc.entityManager.missilePrice)
  generalize sc.playerCall pm env (.spendPlayerMoney sc.entityManager.missilePrice) = r at h1 ⊢
  obtain ⟨ok, sc1⟩ := r
  cases ok
  · exact h1
  · have h2 := StageController.playerCall_step pm env sc1 .incrementNumAvailableMissiles
    refine h1.step_trans (h2.step_trans ?_)
    split
    · exact ⟨_, _, (EntityManager.updateBoatMissilesLabel_sameCore env _ _).toReported, rfl⟩
    · exact StageController.step_refl _

theorem StageController.playerDidBuyLife_step (pm : PlayerModel) (env : Env)
    (sc : StageController) : sc.Step (sc.playerDidBuyLife pm env) := by
  unfold StageController.playerDidBuyLife
  have h1 := StageController.playerCall_step pm env sc
    (.spendPlayerMoney sc.entityManager.lifePrice)
  generalize sc.playerCall pm env (.spendPlayerMoney sc.entityManager.lifePrice) = r at h1 ⊢
  obtain ⟨ok, sc1⟩ := r
  cases ok
  · exact h1
  · have h2 := StageController.playerCall_step pm env sc1 .incrementNumAvailableLives
    refine h1.step_trans (h2.step_trans ?_)
    split
    · exact ⟨_, _, (EntityManager.updateBoatLivesLabel_sameCore env _ _).toReported, rfl⟩
    · exact StageController.step_refl _

theorem StageController.explosionDidCollideWithStoreIcons_step (pm : PlayerModel) (env : Env)
    (icons : List Identifier) :
    ∀ sc : StageController, sc.Step (sc.explosionDidCollideWithStoreIcons pm env icons) := by
  induction icons with
  | nil => exact fun sc => StageController.step_refl sc
  | cons icon rest ih =>
    intro sc
    rw [StageController.explosionDidCollideWithStoreIcons]
    refine StageController.Step.step_trans ?_ (ih _)
    split
    · exact StageController.playerDidBuyMissile_step pm env sc
    · exact StageController.playerDidBuyLife_step pm env sc
    · exact ⟨sc.entityManager, true, EntityManager.reported_refl _, rfl⟩
    · exact StageController.step_refl sc

theorem StageController.Step.rmbombs {sc sc2 : StageController} (h : sc.Step sc2)
    (f : List Identifier → List Identifier) :
    StageController.Step { sc with rmbombs := f sc.rmbombs }
      { sc2 with rmbombs := f sc2.rmbombs } := by
  obtain ⟨em2, se, r, e⟩ := h
  subst e
  exact ⟨em2, se, r, rfl⟩

theorem StageController.Step.rmsubmarines {sc sc2 : StageController} (h : sc.Step sc2)
    (f : List Identifier → List Identifier) :
    StageController.Step { sc with rmsubmarines := f sc.rmsubmarines }
      { sc2 with rmsubmarines := f sc2.rmsubmarines } := by
  obtain ⟨em2, se, r, e⟩ := h
  subst e
  exact ⟨em2, se, r, rfl⟩

theorem StageController.Step.rmboatmissiles {sc sc2 : StageController} (h : sc.Step sc2)
    (f : List Identifier → List Identifier) :
    StageController.Step { sc with rmboatmissiles := f sc.rmboatmissiles }
      { sc2 with rmboatmissiles := f sc2.rmboatmissiles } := by
  obtain ⟨em2, se, r, e⟩ := h
  subst e
  exact ⟨em2, se, r, rfl⟩

theorem Outcome.report_step (pm : PlayerModel) (env : Env) (sc : StageController)
    (o : Outcome) : (o.note sc).Step (o.report pm env sc) := by
  cases o with
  | bombDidGenerateExplosion bomb =>
    exact ((StageController.assertedSpawn_step pm env sc _).rmbombs
      (fun s => setInsert s bomb)).step_trans (StageController.playerCall_step pm env _ _)
  | boatMissileDidGenerateExplosion boatMissile =>
    exact (StageController.spawnExplosion_step env sc _).rmboatmissiles
      (fun s => setInsert s boatMissile)
  | explosionDidCollideWithSubmarines submarines =>
    exact (StageController.incrementScores_step pm env submarines _).step_trans
      (StageController.playerCall_step pm env _ _)
  | explosionDidCollideWithFishes fishes =>
    exact (StageController.incrementScores_step pm env fishes _).step_trans
      (StageController.playerCall_step pm env _ _)
  | explosionDidCollideWithMissiles missiles =>
    exact StageController.spawnExplosions_step env missiles _
  | explosionDidCollideWithTorpedoes torpedoes =>
    exact StageController.spawnExplosions_step env torpedoes _
  | explosionDidCollideWithStoreIcons storeIcons =>
    exact StageController.explosionDidCollideWithStoreIcons_step pm env storeIcons sc
  | torpedoDidCollideWithBoat torpedo boat =>
    exact (StageController.assertedSpawn_step pm env _ _).step_trans
      (StageController.playerCall_step pm env _ _)
  | missileDidCollideWithBoat missile boat =>
    exact (StageController.assertedSpawn_step pm env _ _).step_trans
      (StageController.playerCall_step pm env _ _)
  | submarineDidMoveOutOfScreen submarine => exact StageController.step_refl _
  | bombDidMoveOutOfScreen bomb => exact StageController.playerCall_step pm env _ _
  | missileDidMoveOutOfScreen missile => exact StageController.step_refl _
  | torpedoDidMoveOutOfOceanSurface torpedo => exact StageController.step_refl _
  | smokeDidMoveOutOfScreen smoke => exact StageController.step_refl _

theorem mem_setInsert (s : List Identifier) (x y : Identifier) :
    y ∈ setInsert s x ↔ y ∈ s ∨ y = x := by
  unfold setInsert
  split
  · rename_i hx
    constructor
    · exact Or.inl
    · rintro (h | h)
      · exact h
      · exact h ▸ hx
  · simp

theorem Outcome.note_removeCalls (sc : StageController) (o : Outcome)
    (p : RemoveOp × Identifier) :
    p ∈ (o.note sc).removeCalls ↔ p ∈ sc.removeCalls ∨ p ∈ o.records := by
  obtain ⟨op, id⟩ := p
  cases o <;>
    simp only [Outcome.note, Outcome.records, StageController.removeCalls, List.mem_append,
      List.mem_map, Prod.mk.injEq, mem_setInsert, mem_foldl_setInsert, List.mem_singleton,
      List.not_mem_nil, or_false] <;>
    constructor <;> intro h <;> aesop

theorem StageController.Step.step_removeCalls {sc sc2 : StageController} (h : sc.Step sc2) :
    sc2.removeCalls = sc.removeCalls := by
  obtain ⟨em2, se, _, e⟩ := h
  subst e
  rfl

theorem StageController.Step.note {sc sc2 : StageController} (h : sc.Step sc2) (o : Outcome) :
    (o.note sc).Step (o.note sc2) := by
  obtain ⟨em2, se, r, e⟩ := h
  subst e
  cases o <;> exact ⟨em2, se, r, rfl⟩

theorem Outcome.note_entityManager (sc : StageController) (o : Outcome) :
    (o.note sc).entityManager = sc.entityManager := by
  cases o <;> rfl

theorem StageController.Step.step_reported {sc sc2 : StageController} (h : sc.Step sc2) :
    sc.entityManager.Reported sc2.entityManager := by
  obtain ⟨em2, se, r, e⟩ := h
  subst e
  exact r

theorem StageController.reports_step (pm : PlayerModel) (env : Env) (outcomes : List Outcome) :
    ∀ a b : StageController, a.Step b →
      (outcomes.foldl Outcome.note a).Step (outcomes.foldl (Outcome.report pm env) b) := by
  induction outcomes with
  | nil => exact fun _ _ h => h
  | cons o rest ih =>
    intro a b h
    exact ih _ _ ((h.note o).step_trans (Outcome.report_step pm env b o))

theorem StageController.notes_entityManager (outcomes : List Outcome) :
    ∀ sc : StageController,
      (outcomes.foldl Outcome.note sc).entityManager = sc.entityManager := by
  induction outcomes with
  | nil => exact fun _ => rfl
  | cons o rest ih =>
    intro sc
    exact (ih _).trans (Outcome.note_entityManager sc o)

theorem StageController.reportAll_reported (pm : PlayerModel) (env : Env)
    (sc : StageController) (outcomes : List Outcome) :
    sc.entityManager.Reported (sc.reportAll pm env outcomes).entityManager := by
  have h := (StageController.reports_step pm env outcomes sc.beginUpdates sc.beginUpdates
    (StageController.step_refl _)).step_reported
  rw [StageController.notes_entityManager] at h
  exact h

/-- C18 at its counterexample. `boatMissileDidGenerateExplosion(1)` on a stage
whose manager holds the live boat missile 1: the callback spawns an explosion,
which takes the identifier 2 from the free list, writes the position of the
boat missile into `positions[2]` and adds the explosion to the live collection
of the explosions. -/
theorem C18_boatMissileDidGenerateExplosion_spawns :
    boatMissileStage.entityManager.boatMissiles.keys = [1] ∧
    boatMissileStage.entityManager.explosions.keys = [] ∧
    (boatMissileStage.boatMissileDidGenerateExplosion Env.succeeding 1).rmboatmissiles = [1] ∧
    (boatMissileStage.boatMissileDidGenerateExplosion
      Env.succeeding 1).entityManager.explosions.keys = [2] ∧
    boatMissileStage.entityManager.freelist.freeids.head? = some 2 ∧
    (boatMissileStage.boatMissileDidGenerateExplosion
      Env.succeeding 1).entityManager.freelist.freeids.head? = some 3 ∧
    boatMissileStage.entityManager.positions 2 = ⟨0, 0⟩ ∧
    (boatMissileStage.boatMissileDidGenerateExplosion
      Env.succeeding 1).entityManager.positions 2 = ⟨10, 30⟩ :=
  ⟨rfl, rfl, rfl, rfl, rfl, rfl, rfl, rfl⟩

/-- C18, amended. Every outcome-reporting callback of the collision delegate
inserts the identifiers it reports into the pending-removal sets of the stage
controller and into nothing else of it but the manager and the flag of the
store; `submarineDidMoveOutOfScreen`, `missileDidMoveOutOfScreen`,
`torpedoDidMoveOutOfOceanSurface` and `smokeDidMoveOutOfScreen` leave the
manager exactly as it was; every callback leaves every live collection other
than the explosions and the characters exactly as it was and erases no entry
of any live collection. -/
theorem C18_outcome_reports_insert (pm : PlayerModel) (env : Env) (sc : StageController)
    (o : Outcome) :
    (∀ p : RemoveOp × Identifier,
      p ∈ (o.report pm env sc).removeCalls ↔ p ∈ sc.removeCalls ∨ p ∈ o.records) ∧
    (o.report pm env sc).subsDead = sc.subsDead ∧
    (o.report pm env sc).fishCount = sc.fishCount ∧
    (o.report pm env sc).gameIsActive = sc.gameIsActive ∧
    (o.insertsOnly = true → (o.report pm env sc).entityManager = sc.entityManager) ∧
    (∀ c : Coll, c ≠ .explosions → c ≠ .characters →
      c.get (o.report pm env sc).entityManager = c.get sc.entityManager) ∧
    (∀ c : Coll,
      (c.get sc.entityManager).keys.Sublist (c.get (o.report pm env sc).entityManager).keys) := by
  have hstep := Outcome.report_step pm env sc o
  have hr : sc.entityManager.Reported (o.report pm env sc).entityManager := by
    have h := hstep.step_reported
    rw [Outcome.note_entityManager] at h
    exact h
  refine ⟨?_, ?_, ?_, ?_, ?_, hr.1, hr.keys⟩
  · intro p
    rw [hstep.step_removeCalls]
    exact Outcome.note_removeCalls sc o p
  · obtain ⟨em2, se, _, e⟩ := hstep
    rw [e]
    cases o <;> rfl
  · obtain ⟨em2, se, _, e⟩ := hstep
    rw [e]
    cases o <;> rfl
  · obtain ⟨em2, se, _, e⟩ := hstep
    rw [e]
    cases o <;> rfl
  · intro h
    cases o <;> first
      | exact Bool.noConfusion h
      | rfl

/-- Witness of C18: `smokeDidMoveOutOfScreen(9)`, which only inserts. -/
theorem C18_outcome_reports_insert_witness :
    (Outcome.smokeDidMoveOutOfScreen 9).insertsOnly = true ∧
    ((Outcome.smokeDidMoveOutOfScreen 9).report PlayerModel.quiet Env.succeeding
      bombStage).entityManager = bombStage.entityManager :=
  ⟨rfl, (C18_outcome_reports_insert PlayerModel.quiet Env.succeeding bombStage
    (.smokeDidMoveOutOfScreen 9)).2.2.2.2.1 rfl⟩

/-- C19 (no structural removal inside the bracket). After `beginUpdates` and
any sequence of outcome-reporting callbacks, before `endUpdates`: every live
collection of the manager still holds every key it held, so its size has not
decreased; the free list is a tail of the free list before, so no identifier
was released and it has not grown; the collections of the submarines are as
they were, so a submarine reported by `submarineDidMoveOutOfScreen(id)` is
still live after the callback, which leaves the manager as it was. -/
theorem C19_no_removal_inside_bracket (pm : PlayerModel) (env : Env) (sc : StageController)
    (outcomes : List Outcome) :
    (∀ c : Coll, (c.get sc.entityManager).keys.Sublist
      (c.get (sc.reportAll pm env outcomes).entityManager).keys) ∧
    (∀ c : Coll, (c.get sc.entityManager).size ≤
      (c.get (sc.reportAll pm env outcomes).entityManager).size) ∧
    (sc.reportAll pm env outcomes).entityManager.freelist.freeids <:+
      sc.entityManager.freelist.freeids ∧
    (sc.reportAll pm env outcomes).entityManager.freelist.freeids.length ≤
      sc.entityManager.freelist.freeids.length ∧
    (∀ (i : Fin 4) (id : Identifier),
      ((sc.reportAll pm env outcomes).entityManager.submarines i).find id =
        (sc.entityManager.submarines i).find id) ∧
    (∀ id : Identifier,
      (sc.submarineDidMoveOutOfScreen id).entityManager = sc.entityManager ∧
      id ∈ (sc.submarineDidMoveOutOfScreen id).rmsubmarines) := by
  have hr := StageController.reportAll_reported pm env sc outcomes
  refine ⟨hr.keys, ?_, hr.2.2.2, hr.2.2.2.length_le, ?_, ?_⟩
  · intro c
    rw [EMap.size_eq_length_keys, EMap.size_eq_length_keys]
    exact (hr.keys c).length_le
  · intro i id
    have h := hr.1 (.submarines i) (by simp) (by simp)
    simp only [Coll.get] at h
    rw [h]
  · intro id
    exact ⟨rfl, (mem_setInsert _ _ _).2 (Or.inr rfl)⟩

/-! ## The teardown `removeAllEntities`: claim C13 -/

theorem EntityManager.shrinks_refl (em : EntityManager) : em.Shrinks em :=
  ⟨fun _ _ => List.Sublist.refl _, List.prefix_refl _⟩

theorem EntityManager.Shrinks.shrinks_trans {a b c : EntityManager} (h1 : a.Shrinks b)
    (h2 : b.Shrinks c) : a.Shrinks c :=
  ⟨fun k hk => (h2.1 k hk).trans (h1.1 k hk), h1.2.trans h2.2⟩

theorem EntityManager.SameCore.shrinks {em em2 : EntityManager} (h : em.SameCore em2) :
    em.Shrinks em2 := by
  refine ⟨fun c hc => ?_, ?_⟩
  · rw [h.get c hc]
  · rw [h.freelist]

theorem EntityManager.Shrinks.empty {em em2 : EntityManager} (h : em.Shrinks em2) (c : Coll)
    (hc : c ≠ .characters) (he : (c.get em).entries = []) : (c.get em2).entries = [] := by
  have hs := h.1 c hc
  rw [he] at hs
  exact List.sublist_nil.1 hs

theorem Kind.remove_shrinks (k : Kind) (em : EntityManager) (id : Identifier) :
    em.Shrinks (k.remove em id) := by
  refine ⟨fun c _ => Kind.remove_sublist k em id c, ?_⟩
  cases hfind : (k.coll.get em).find id with
  | none => rw [Kind.remove_absent k em id hfind]
  | some e =>
    rw [(Kind.remove_found k em id e hfind).2.2.1]
    exact List.prefix_append _ _

theorem EntityManager.removeSubmarineFrom_prefix (em : EntityManager) (id : Identifier)
    (indices : List (Fin 4)) :
    em.freelist.freeids <+: (em.removeSubmarineFrom id indices).freelist.freeids := by
  induction indices with
  | nil => exact List.prefix_refl _
  | cons i rest ih =>
    unfold EntityManager.removeSubmarineFrom
    split
    · rename_i e _
      show em.freelist.freeids <+: (em.removeEntity e).freelist.freeids
      rw [EntityManager.removeEntity_freelist]
      exact List.prefix_append _ _
    · exact ih

theorem EntityManager.removeSubmarine_shrinks (em : EntityManager) (id : Identifier) :
    em.Shrinks (em.removeSubmarine id) :=
  ⟨fun c _ => EntityManager.removeSubmarineFrom_sublist em id _ c,
    EntityManager.removeSubmarineFrom_prefix em id _⟩

theorem EMap.find_head (m : EMap) (first : Identifier) (e : Entity)
    (rest : List (Identifier × Entity)) (h : m.entries = (first, e) :: rest) :
    m.find first = some e := by
  simp [EMap.find, h, findEntries]

theorem EMap.size_erase_head (m : EMap) (first : Identifier) (e : Entity)
    (rest : List (Identifier × Entity)) (h : m.entries = (first, e) :: rest) :
    (m.erase first).size < m.size := by
  simp only [EMap.erase, EMap.size, h]
  rw [List.filter_cons_of_neg (by simp)]
  exact Nat.lt_succ_of_le (List.length_filter_le _ _)

theorem Kind.remove_head (k : Kind) (em : EntityManager) (first : Identifier) (e : Entity)
    (rest : List (Identifier × Entity)) (h : (k.coll.get em).entries = (first, e) :: rest) :
    (k.coll.get (k.remove em first)).size < (k.coll.get em).size := by
  rw [(Kind.remove_found k em first e (EMap.find_head _ first e rest h)).1]
  exact EMap.size_erase_head _ first e rest h

theorem EntityManager.removeSubmarineFrom_skip (em : EntityManager) (id : Identifier)
    (j : Fin 4) (rest : List (Fin 4)) (h : (em.submarines j).entries = []) :
    em.removeSubmarineFrom id (j :: rest) = em.removeSubmarineFrom id rest := by
  have hf : (em.submarines j).find id = none := by
    simp [EMap.find, h, findEntries]
  rw [EntityManager.removeSubmarineFrom]
  simp only [hf]

theorem EntityManager.removeSubmarineFrom_head (em : EntityManager) (first : Identifier)
    (e : Entity) (tail : List (Identifier × Entity)) (i : Fin 4) (rest : List (Fin 4))
    (h : (em.submarines i).entries = (first, e) :: tail) :
    ((em.removeSubmarineFrom first (i :: rest)).submarines i).size < (em.submarines i).size := by
  rw [EntityManager.removeSubmarineFrom]
  simp only [EMap.find_head _ first e tail h, Function.update_same,
    EntityManager.removeEntity_submarines]
  exact EMap.size_erase_head _ first e tail h

theorem EntityManager.removeSubmarine_head (em : EntityManager) (first : Identifier)
    (e : Entity) (tail : List (Identifier × Entity)) (i : Fin 4)
    (hlow : ∀ j : Fin 4, j < i → (em.submarines j).entries = [])
    (h : (em.submarines i).entries = (first, e) :: tail) :
    ((em.removeSubmarine first).submarines i).size < (em.submarines i).size := by
  unfold EntityManager.removeSubmarine
  fin_cases i
  · exact EntityManager.removeSubmarineFrom_head em first e tail 0 _ h
  · rw [EntityManager.removeSubmarineFrom_skip em first 0 _ (hlow 0 (by decide))]
    exact EntityManager.removeSubmarineFrom_head em first e tail 1 _ h
  · rw [EntityManager.removeSubmarineFrom_skip em first 0 _ (hlow 0 (by decide)),
      EntityManager.removeSubmarineFrom_skip em first 1 _ (hlow 1 (by decide))]
    exact EntityManager.removeSubmarineFrom_head em first e tail 2 _ h
  · rw [EntityManager.removeSubmarineFrom_skip em first 0 _ (hlow 0 (by decide)),
      EntityManager.removeSubmarineFrom_skip em first 1 _ (hlow 1 (by decide)),
      EntityManager.removeSubmarineFrom_skip em first 2 _ (hlow 2 (by decide))]
    exact EntityManager.removeSubmarineFrom_head em first e tail 3 _ h

theorem drain_spec (get : EntityManager → EMap)
    (remove : EntityManager → Identifier → EntityManager) (after : EntityManager → EntityManager)
    (P : EntityManager → Prop)
    (hstep : ∀ m first e rest, P m → (get m).entries = (first, e) :: rest →
      (get (after (remove m first))).size < (get m).size ∧ m.Shrinks (after (remove m first)))
    (hP : ∀ m m2, P m → m.Shrinks m2 → P m2) :
    ∀ (fuel : Nat) (m : EntityManager), P m → (get m).size ≤ fuel →
      (get (EntityManager.drain get remove after fuel m)).entries = [] ∧
      m.Shrinks (EntityManager.drain get remove after fuel m) ∧
      ∀ extra, EntityManager.drain get remove after (fuel + extra) m = EntityManager.drain get remove after fuel m := by
  intro fuel
  induction fuel with
  | zero =>
    intro m _ hsize
    have he : (get m).entries = [] := List.length_eq_zero.1 (Nat.le_zero.1 hsize)
    refine ⟨he, EntityManager.shrinks_refl m, ?_⟩
    intro extra
    cases extra with
    | zero => rfl
    | succ n =>
      rw [Nat.zero_add]
      simp only [EntityManager.drain, he]
  | succ fuel ih =>
    intro m hPm hsize
    cases hent : (get m).entries with
    | nil =>
      refine ⟨?_, ?_, ?_⟩
      · simp only [EntityManager.drain, hent]
      · simp only [EntityManager.drain, hent]
        exact EntityManager.shrinks_refl m
      · intro extra
        rw [Nat.add_right_comm]
        simp only [EntityManager.drain, hent]
    | cons p rest =>
      obtain ⟨first, e⟩ := p
      obtain ⟨hlt, hsh⟩ := hstep m first e rest hPm hent
      have hfuel : (get (after (remove m first))).size ≤ fuel := by omega
      obtain ⟨i1, i2, i3⟩ := ih (after (remove m first)) (hP _ _ hPm hsh) hfuel
      refine ⟨?_, ?_, ?_⟩
      · simp only [EntityManager.drain, hent]
        exact i1
      · simp only [EntityManager.drain, hent]
        exact hsh.shrinks_trans i2
      · intro extra
        rw [Nat.add_right_comm]
        simp only [EntityManager.drain, hent]
        exact i3 extra

theorem drain_kind (k : Kind) (after : EntityManager → EntityManager)
    (hafter : ∀ m : EntityManager, m.SameCore (after m)) (hk : k.coll ≠ .characters) (m : EntityManager) :
    (k.coll.get (EntityManager.drain (fun x => k.coll.get x) k.remove after (k.coll.get m).size m)).entries
      = [] ∧
    m.Shrinks (EntityManager.drain (fun x => k.coll.get x) k.remove after (k.coll.get m).size m) ∧
    ∀ extra, EntityManager.drain (fun x => k.coll.get x) k.remove after ((k.coll.get m).size + extra) m =
      EntityManager.drain (fun x => k.coll.get x) k.remove after (k.coll.get m).size m := by
  refine drain_spec (fun x => k.coll.get x) k.remove after (fun _ => True) ?_
    (fun _ _ _ _ => trivial) _ m trivial (Nat.le_refl _)
  intro m first e rest _ hent
  have h1 := Kind.remove_head k m first e rest hent
  have h2 := hafter (k.remove m first)
  refine ⟨?_, (Kind.remove_shrinks k m first).shrinks_trans h2.shrinks⟩
  show (k.coll.get (after (k.remove m first))).size < (k.coll.get m).size
  rw [h2.get _ hk]
  exact h1

theorem drain_submarines (i : Fin 4) (m : EntityManager)
    (hlow : ∀ j : Fin 4, j < i → (m.submarines j).entries = []) :
    ((EntityManager.drain (fun x => x.submarines i) EntityManager.removeSubmarine id (m.submarines i).size
      m).submarines i).entries = [] ∧
    m.Shrinks (EntityManager.drain (fun x => x.submarines i) EntityManager.removeSubmarine id
      (m.submarines i).size m) ∧
    ∀ extra, EntityManager.drain (fun x => x.submarines i) EntityManager.removeSubmarine id
        ((m.submarines i).size + extra) m =
      EntityManager.drain (fun x => x.submarines i) EntityManager.removeSubmarine id (m.submarines i).size m := by
  refine drain_spec (fun x => x.submarines i) EntityManager.removeSubmarine id
    (fun x => ∀ j : Fin 4, j < i → (x.submarines j).entries = []) ?_ ?_ _ m hlow (Nat.le_refl _)
  · intro m first e rest hP hent
    exact ⟨EntityManager.removeSubmarine_head m first e rest i hP hent,
      EntityManager.removeSubmarine_shrinks m first⟩
  · intro m m2 hP hs j hj
    exact hs.empty (.submarines j) (by simp) (hP j hj)

theorem EntityManager.removeAllEntities_spec (pm : PlayerModel) (env : Env)
    (em : EntityManager) :
    em.Shrinks (em.removeAllEntities pm env) ∧
    ∀ c : Coll, c ≠ .smokes → c ≠ .characters → c ≠ .stringLabels →
      (c.get (em.removeAllEntities pm env)).entries = [] := by
  generalize hR : em.removeAllEntities pm env = R
  revert hR
  unfold EntityManager.removeAllEntities
  lift_lets
  intro m1 m2 m3 m4 m5 m6 m7 m8 m9a m9 m10 m11 hR
  have hafter : ∀ m : EntityManager,
      m.SameCore (m.playerCall pm env .incrementNumAvailableBombs).2 :=
    fun m => EntityManager.playerCall_sameCore pm env m _
  have hid : ∀ m : EntityManager, m.SameCore (id m) := fun m => EntityManager.sameCore_refl m
  obtain ⟨e1, s1, -⟩ := drain_kind .fish id hid (by decide) em
  change m1.fishes.entries = [] at e1
  change em.Shrinks m1 at s1
  clear_value m1
  obtain ⟨e2, s2, -⟩ := drain_kind .bomb _ hafter (by decide) m1
  change m2.bombs.entries = [] at e2
  change m1.Shrinks m2 at s2
  clear_value m2
  obtain ⟨e3, s3, -⟩ := drain_kind .torpedo id hid (by decide) m2
  change m3.torpedoes.entries = [] at e3
  change m2.Shrinks m3 at s3
  clear_value m3
  obtain ⟨e4, s4, -⟩ := drain_kind .missile id hid (by decide) m3
  change m4.missiles.entries = [] at e4
  change m3.Shrinks m4 at s4
  clear_value m4
  obtain ⟨e5, s5, -⟩ := drain_kind .boatMissile id hid (by decide) m4
  change m5.boatMissiles.entries = [] at e5
  change m4.Shrinks m5 at s5
  clear_value m5
  obtain ⟨e6, s6, -⟩ := drain_kind .explosion id hid (by decide) m5
  change m6.explosions.entries = [] at e6
  change m5.Shrinks m6 at s6
  clear_value m6
  obtain ⟨e7, s7, -⟩ := drain_submarines 0 m6 (fun j hj => absurd hj (by omega))
  change (m7.submarines 0).entries = [] at e7
  change m6.Shrinks m7 at s7
  clear_value m7
  obtain ⟨e8, s8, -⟩ := drain_submarines 1 m7 (fun j hj => by
    have : j = 0 := by omega
    rw [this]
    exact e7)
  change (m8.submarines 1).entries = [] at e8
  change m7.Shrinks m8 at s8
  clear_value m8
  have e7b : (m8.submarines 0).entries = [] := s8.empty (.submarines 0) (by simp) e7
  obtain ⟨e9, s9, -⟩ := drain_submarines 2 m8 (fun j hj => by
    have : j = 0 ∨ j = 1 := by omega
    rcases this with h | h
    · rw [h]
      exact e7b
    · rw [h]
      exact e8)
  change (m9a.submarines 2).entries = [] at e9
  change m8.Shrinks m9a at s9
  clear_value m9a
  have e7c : (m9a.submarines 0).entries = [] := s9.empty (.submarines 0) (by simp) e7b
  have e8c : (m9a.submarines 1).entries = [] := s9.empty (.submarines 1) (by simp) e8
  obtain ⟨e9d, s9d, -⟩ := drain_submarines 3 m9a (fun j hj => by
    have : j = 0 ∨ j = 1 ∨ j = 2 := by omega
    rcases this with h | h | h
    · rw [h]
      exact e7c
    · rw [h]
      exact e8c
    · rw [h]
      exact e9)
  change (m9.submarines 3).entries = [] at e9d
  change m9a.Shrinks m9 at s9d
  clear_value m9
  obtain ⟨e10, s10, -⟩ := drain_kind .buyLives id hid (by decide) m9
  change m10.buyLivesIcons.entries = [] at e10
  change m9.Shrinks m10 at s10
  clear_value m10
  obtain ⟨e11, s11, -⟩ := drain_kind .buyMissiles id hid (by decide) m10
  change m11.buyMissilesIcons.entries = [] at e11
  change m10.Shrinks m11 at s11
  clear_value m11
  obtain ⟨e12, s12, -⟩ := drain_kind .endStore id hid (by decide) m11
  change (drain (fun m => m.endStoreIcons) removeEndStore id m11.endStoreIcons.size
    m11).endStoreIcons.entries = [] at e12
  change m11.Shrinks (drain (fun m => m.endStoreIcons) removeEndStore id m11.endStoreIcons.size
    m11) at s12
  rw [hR] at e12 s12
  clear hR
  have t11 := s12
  have t10 := s11.shrinks_trans t11
  have t9 := s10.shrinks_trans t10
  have t9a := s9d.shrinks_trans t9
  have t8 := s9.shrinks_trans t9a
  have t7 := s8.shrinks_trans t8
  have t6 := s7.shrinks_trans t7
  have t5 := s6.shrinks_trans t6
  have t4 := s5.shrinks_trans t5
  have t3 := s4.shrinks_trans t4
  have t2 := s3.shrinks_trans t3
  have t1 := s2.shrinks_trans t2
  refine ⟨s1.shrinks_trans t1, ?_⟩
  intro c h1 h2 h3
  cases c with
  | submarines i =>
    fin_cases i
    · exact t7.empty (.submarines 0) (by simp) e7
    · exact t8.empty (.submarines 1) (by simp) e8
    · exact t9a.empty (.submarines 2) (by simp) e9
    · exact t9.empty (.submarines 3) (by simp) e9d
  | fishes => exact t1.empty .fishes (by decide) e1
  | bombs => exact t2.empty .bombs (by decide) e2
  | torpedoes => exact t3.empty .torpedoes (by decide) e3
  | missiles => exact t4.empty .missiles (by decide) e4
  | boatMissiles => exact t5.empty .boatMissiles (by decide) e5
  | explosions => exact t6.empty .explosions (by decide) e6
  | buyLivesIcons => exact t10.empty .buyLivesIcons (by decide) e10
  | buyMissilesIcons => exact t11.empty .buyMissilesIcons (by decide) e11
  | endStoreIcons => exact e12
  | smokes => exact absurd rfl h1
  | characters => exact absurd rfl h2
  | stringLabels => exact absurd rfl h3

theorem StageController.removeSubmarines_eq (ids : List Identifier) :
    ∀ sc : StageController, sc.removeSubmarines ids =
      { sc with
        entityManager := ids.foldl EntityManager.removeSubmarine sc.entityManager
        subsDead := sc.subsDead + ids.length } := by
  induction ids with
  | nil =>
    intro sc
    simp [StageController.removeSubmarines]
  | cons id rest ih =>
    intro sc
    rw [StageController.removeSubmarines, ih]
    simp only [List.foldl_cons, List.length_cons, Nat.cast_add, Nat.cast_one]
    congr 1
    omega

theorem StageController.removeFishes_eq (ids : List Identifier) :
    ∀ sc : StageController, sc.removeFishes ids =
      { sc with
        entityManager := ids.foldl EntityManager.removeFish sc.entityManager
        fishCount := sc.fishCount - ids.length } := by
  induction ids with
  | nil =>
    intro sc
    simp [StageController.removeFishes]
  | cons id rest ih =>
    intro sc
    rw [StageController.removeFishes, ih]
    simp only [List.foldl_cons, List.length_cons, Nat.cast_add, Nat.cast_one]
    congr 1
    omega

theorem RemoveOp.runAll_append (a b : List (RemoveOp × Identifier)) (em : EntityManager) :
    RemoveOp.runAll (a ++ b) em = RemoveOp.runAll b (RemoveOp.runAll a em) := by
  simp [RemoveOp.runAll, List.foldl_append]

theorem RemoveOp.runAll_map (op : RemoveOp) (ids : List Identifier) (em : EntityManager) :
    RemoveOp.runAll (ids.map (fun id => (op, id))) em = ids.foldl op.run em := by
  simp [RemoveOp.runAll, List.foldl_map]

theorem StageController.endUpdates_not_over (pm : PlayerModel) (env : Env)
    (sc : StageController) (h : sc.entityManager.gameIsOver = false) :
    sc.endUpdates pm env =
      { sc with
        entityManager := RemoveOp.runAll sc.removeCalls sc.entityManager
        subsDead := sc.subsDead + sc.rmsubmarines.length
        fishCount := sc.fishCount - sc.rmfishes.length } := by
  have hc : sc.entityManager.checkIfGameOver pm env = (false, sc.entityManager) := by
    simp [EntityManager.checkIfGameOver, h]
  unfold StageController.endUpdates
  rw [hc]
  simp only [Bool.not_false, if_true, StageController.removeSubmarines_eq,
    StageController.removeFishes_eq, StageController.removeCalls, RemoveOp.runAll_append,
    RemoveOp.runAll_map]
  rfl

theorem StageController.endUpdates_over (pm : PlayerModel) (env : Env)
    (sc : StageController) (h : sc.entityManager.gameIsOver = true) :
    sc.endUpdates pm env =
      { sc with entityManager := (sc.entityManager.checkIfGameOver pm env).2 } := by
  have hc : (sc.entityManager.checkIfGameOver pm env).1 = true := by
    unfold EntityManager.checkIfGameOver
    rw [if_pos h]
    split <;> rfl
  unfold StageController.endUpdates
  simp only [hc, Bool.not_true, Bool.false_eq_true, if_false]

theorem RemoveOp.runAll_sublist (calls : List (RemoveOp × Identifier)) :
    ∀ (em : EntityManager) (c : Coll),
      (c.get (RemoveOp.runAll calls em)).entries.Sublist (c.get em).entries := by
  induction calls with
  | nil => exact fun _ _ => List.Sublist.refl _
  | cons p rest ih =>
    intro em c
    exact (ih (p.1.run em p.2) c).trans (RemoveOp.run_sublist p.1 em p.2 c)

theorem EMap.find_none_of_sublist (m m2 : EMap) (id : Identifier)
    (hs : m2.entries.Sublist m.entries) (h : m.find id = none) : m2.find id = none := by
  rw [EMap.find_eq_none_iff] at h ⊢
  exact fun hm => h ((hs.map Prod.fst).subset hm)

theorem Kind.remove_gone (k : Kind) (em : EntityManager) (id : Identifier) :
    (k.coll.get (k.remove em id)).find id = none := by
  cases hfind : (k.coll.get em).find id with
  | none =>
    rw [Kind.remove_absent k em id hfind]
    exact hfind
  | some e =>
    rw [(Kind.remove_found k em id e hfind).1]
    exact EMap.find_erase_self _ _

theorem RemoveOp.runAll_single_gone (k : Kind) (id : Identifier)
    (calls : List (RemoveOp × Identifier)) :
    ∀ em : EntityManager, (RemoveOp.single k, id) ∈ calls →
      (k.coll.get (RemoveOp.runAll calls em)).find id = none := by
  induction calls with
  | nil => exact fun _ h => absurd h (List.not_mem_nil _)
  | cons p rest ih =>
    intro em h
    rcases List.mem_cons.1 h with h1 | h1
    · subst h1
      exact EMap.find_none_of_sublist _ _ id (RemoveOp.runAll_sublist rest _ _)
        (Kind.remove_gone k em id)
    · exact ih _ h1

theorem EntityManager.removeSubmarineFrom_found (em : EntityManager) (id : Identifier)
    (indices : List (Fin 4)) :
    (∃ i ∈ indices, (em.submarines i).find id ≠ none) →
    ∃ i ∈ indices, (em.submarines i).find id ≠ none ∧
      ((em.removeSubmarineFrom id indices).submarines i).find id = none := by
  induction indices with
  | nil =>
    rintro ⟨i, hi, _⟩
    exact absurd hi (List.not_mem_nil _)
  | cons i rest ih =>
    intro hex
    cases hfind : (em.submarines i).find id with
    | some e =>
      refine ⟨i, List.mem_cons_self _ _, by simp [hfind], ?_⟩
      rw [EntityManager.removeSubmarineFrom]
      simp only [hfind, Function.update_same, EntityManager.removeEntity_submarines]
      exact EMap.find_erase_self _ _
    | none =>
      have hrest : ∃ j ∈ rest, (em.submarines j).find id ≠ none := by
        obtain ⟨j, hj, hne⟩ := hex
        rcases List.mem_cons.1 hj with h1 | h1
        · subst h1
          exact absurd hfind hne
        · exact ⟨j, h1, hne⟩
      obtain ⟨j, hj, hne, hgone⟩ := ih hrest
      refine ⟨j, List.mem_cons_of_mem _ hj, hne, ?_⟩
      rw [EntityManager.removeSubmarineFrom]
      simp only [hfind]
      exact hgone

theorem EntityManager.removeSubmarine_gone (em : EntityManager) (id : Identifier)
    (hone : ∀ i j : Fin 4, (em.submarines i).find id ≠ none →
      (em.submarines j).find id ≠ none → i = j) :
    ∀ i : Fin 4, ((em.removeSubmarine id).submarines i).find id = none := by
  intro i
  by_cases hex : ∃ j : Fin 4, (em.submarines j).find id ≠ none
  · obtain ⟨j, hj⟩ := hex
    obtain ⟨j1, _, hne, hgone⟩ := EntityManager.removeSubmarineFrom_found em id [0, 1, 2, 3]
      ⟨j, by fin_cases j <;> simp, hj⟩
    by_cases hij : i = j1
    · subst hij
      exact hgone
    · have hnone : (em.submarines i).find id = none := by
        by_contra hne2
        exact hij (hone i j1 hne2 hne)
      exact EMap.find_none_of_sublist _ _ id
        (EntityManager.removeSubmarineFrom_sublist em id _ (.submarines i)) hnone
  · have hnone : ∀ j, (em.submarines j).find id = none := by
      intro j
      by_contra hne
      exact hex ⟨j, hne⟩
    unfold EntityManager.removeSubmarine
    rw [EntityManager.removeSubmarineFrom_absent em id _ hnone]
    exact hnone i

theorem RemoveOp.runAll_submarine_gone (id : Identifier)
    (calls : List (RemoveOp × Identifier)) :
    ∀ em : EntityManager, (RemoveOp.submarine, id) ∈ calls →
      (∀ i j : Fin 4, (em.submarines i).find id ≠ none →
        (em.submarines j).find id ≠ none → i = j) →
      ∀ i : Fin 4, ((RemoveOp.runAll calls em).submarines i).find id = none := by
  induction calls with
  | nil => exact fun _ h => absurd h (List.not_mem_nil _)
  | cons p rest ih =>
    intro em h hone i
    rcases List.mem_cons.1 h with h1 | h1
    · subst h1
      exact EMap.find_none_of_sublist _ _ id
        (RemoveOp.runAll_sublist rest _ (.submarines i))
        (EntityManager.removeSubmarine_gone em id hone i)
    · refine ih _ h1 ?_ i
      intro a b ha hb
      refine hone a b ?_ ?_
      · intro hn
        exact ha (EMap.find_none_of_sublist _ _ id
          (RemoveOp.run_sublist p.1 em p.2 (.submarines a)) hn)
      · intro hn
        exact hb (EMap.find_none_of_sublist _ _ id
          (RemoveOp.run_sublist p.1 em p.2 (.submarines b)) hn)

theorem StageController.notes_removeCalls (outcomes : List Outcome) :
    ∀ (sc : StageController) (p : RemoveOp × Identifier),
      p ∈ (outcomes.foldl Outcome.note sc).removeCalls ↔
        p ∈ sc.removeCalls ∨ ∃ o ∈ outcomes, p ∈ o.records := by
  induction outcomes with
  | nil => simp
  | cons o rest ih =>
    intro sc p
    rw [List.foldl_cons, ih, Outcome.note_removeCalls]
    simp only [List.mem_cons, exists_eq_or_imp, or_assoc]

theorem Outcome.note_setsNodup (sc : StageController) (o : Outcome) (h : sc.SetsNodup) :
    (o.note sc).SetsNodup := by
  obtain ⟨h1, h2, h3, h4, h5, h6, h7⟩ := h
  cases o <;>
    first
      | exact ⟨nodup_setInsert _ _ h1, h2, h3, h4, h5, h6, h7⟩
      | exact ⟨h1, nodup_setInsert _ _ h2, h3, h4, h5, h6, h7⟩
      | exact ⟨h1, h2, nodup_setInsert _ _ h3, h4, h5, h6, h7⟩
      | exact ⟨h1, h2, h3, nodup_setInsert _ _ h4, h5, h6, h7⟩
      | exact ⟨h1, h2, h3, h4, nodup_setInsert _ _ h5, h6, h7⟩
      | exact ⟨h1, h2, h3, h4, h5, h6, nodup_setInsert _ _ h7⟩
      | exact ⟨h1, h2, nodup_foldl_setInsert _ _ h3, h4, h5, h6, h7⟩
      | exact ⟨h1, h2, h3, nodup_foldl_setInsert _ _ h4, h5, h6, h7⟩
      | exact ⟨h1, h2, h3, h4, nodup_foldl_setInsert _ _ h5, h6, h7⟩
      | exact ⟨h1, h2, h3, h4, h5, nodup_foldl_setInsert _ _ h6, h7⟩
      | exact ⟨h1, h2, h3, h4, h5, h6, h7⟩

theorem StageController.notes_setsNodup (outcomes : List Outcome) :
    ∀ sc : StageController, sc.SetsNodup → (outcomes.foldl Outcome.note sc).SetsNodup := by
  induction outcomes with
  | nil => exact fun _ h => h
  | cons o rest ih => exact fun sc h => ih _ (Outcome.note_setsNodup sc o h)

theorem nodup_append_tag (t : RemoveOp) (l : List Identifier)
    (L : List (RemoveOp × Identifier)) (hL : L.Nodup) (hl : l.Nodup)
    (ht : ∀ p ∈ L, p.1 ≠ t) : (L ++ l.map (fun id => (t, id))).Nodup := by
  rw [List.nodup_append]
  refine ⟨hL, ?_, ?_⟩
  · exact hl.map (fun a b hab => (Prod.mk.injEq _ _ _ _ ▸ hab).2)
  · intro p hp hp2
    obtain ⟨id, _, hid⟩ := List.mem_map.1 hp2
    exact ht p hp (by rw [← hid])

theorem StageController.SetsNodup.nodup_removeCalls {sc : StageController} (h : sc.SetsNodup) :
    sc.removeCalls.Nodup := by
  obtain ⟨h1, h2, h3, h4, h5, h6, h7⟩ := h
  unfold StageController.removeCalls
  have n1 : (sc.rmbombs.map (fun id => (RemoveOp.single .bomb, id))).Nodup :=
    h1.map (fun a b hab => (Prod.mk.injEq _ _ _ _ ▸ hab).2)
  have n2 := nodup_append_tag (.single .boatMissile) sc.rmboatmissiles _ n1 h2 (by
    intro p hp
    obtain ⟨id, _, hid⟩ := List.mem_map.1 hp
    rw [← hid]
    simp)
  have n3 := nodup_append_tag (.single .missile) sc.rmmissiles _ n2 h3 (by
    intro p hp
    simp only [List.mem_append, List.mem_map] at hp
    rcases hp with ⟨id, _, hid⟩ | ⟨id, _, hid⟩ <;>
      (rw [← hid]; simp))
  have n4 := nodup_append_tag (.single .torpedo) sc.rmtorpedoes _ n3 h4 (by
    intro p hp
    simp only [List.mem_append, List.mem_map] at hp
    rcases hp with (⟨id, _, hid⟩ | ⟨id, _, hid⟩) | ⟨id, _, hid⟩ <;>
      (rw [← hid]; simp))
  have n5 := nodup_append_tag .submarine sc.rmsubmarines _ n4 h5 (by
    intro p hp
    simp only [List.mem_append, List.mem_map] at hp
    rcases hp with ((⟨id, _, hid⟩ | ⟨id, _, hid⟩) | ⟨id, _, hid⟩) | ⟨id, _, hid⟩ <;>
      (rw [← hid]; simp))
  have n6 := nodup_append_tag (.single .fish) sc.rmfishes _ n5 h6 (by
    intro p hp
    simp only [List.mem_append, List.mem_map] at hp
    rcases hp with (((⟨id, _, hid⟩ | ⟨id, _, hid⟩) | ⟨id, _, hid⟩) | ⟨id, _, hid⟩) |
      ⟨id, _, hid⟩ <;>
      (rw [← hid]; simp))
  exact nodup_append_tag (.single .smoke) sc.rmsmoke _ n6 h7 (by
    intro p hp
    simp only [List.mem_append, List.mem_map] at hp
    rcases hp with ((((⟨id, _, hid⟩ | ⟨id, _, hid⟩) | ⟨id, _, hid⟩) | ⟨id, _, hid⟩) |
      ⟨id, _, hid⟩) | ⟨id, _, hid⟩ <;>
      (rw [← hid]; simp))

theorem StageController.Step.setsNodup {sc sc2 : StageController} (h : sc.Step sc2)
    (hn : sc.SetsNodup) : sc2.SetsNodup := by
  obtain ⟨em2, se, _, e⟩ := h
  subst e
  exact hn

theorem StageController.reportAll_notes (pm : PlayerModel) (env : Env) (sc : StageController)
    (outcomes : List Outcome) :
    (outcomes.foldl Outcome.note sc.beginUpdates).Step (sc.reportAll pm env outcomes) :=
  StageController.reports_step pm env outcomes sc.beginUpdates sc.beginUpdates
    (StageController.step_refl _)

/-- C20 at its counterexample. On a stage whose manager holds the live bomb 1
and has the game-over flag set (as a new manager has), the bracket
`beginUpdates(); bombDidMoveOutOfScreen(1); endUpdates()` records the bomb in
`rmbombs`, and `endUpdates` skips every removal because `checkIfGameOver()`
returns true: bomb 1 is still live afterwards. -/
theorem C20_endUpdates_skips_when_game_over :
    bombStage.entityManager.gameIsOver = true ∧
    bombStage.entityManager.bombs.keys = [1] ∧
    (bombStage.reportAll PlayerModel.quiet Env.succeeding [.bombDidMoveOutOfScreen 1]).rmbombs
      = [1] ∧
    ((bombStage.reportAll PlayerModel.quiet Env.succeeding [.bombDidMoveOutOfScreen 1]).endUpdates
      PlayerModel.quiet Env.succeeding).entityManager.bombs.keys = [1] ∧
    ((bombStage.reportAll PlayerModel.quiet Env.succeeding [.bombDidMoveOutOfScreen 1]).endUpdates
      PlayerModel.quiet Env.succeeding).entityManager.freelist.freeids =
      bombStage.entityManager.freelist.freeids :=
  ⟨rfl, rfl, rfl, rfl, rfl⟩

/-- C20, amended. For every bracket of `beginUpdates`, a sequence of
outcome-reporting callbacks and `endUpdates` (whose set `rmsmoke` held no
identifier twice at its start). When the game is not over at the end of the
bracket, `endUpdates` makes exactly the calls of `removeCalls`, in that order;
no call is in that list twice, and every identifier that a callback of the
bracket recorded is in it with the remove operation of its kind; afterwards it
is absent from the live collection of its kind and, for a submarine that at
most one of the four type collections held, from all of them. When the game
is over, `endUpdates` runs none of its removal loops: the stage controller is
as `checkIfGameOver` leaves it, which is unchanged when the game was not
running. -/
theorem C20_endUpdates_applies_intents (pm : PlayerModel) (env : Env) (sc : StageController)
    (outcomes : List Outcome) (hsmoke : sc.rmsmoke.Nodup) :
    ((sc.reportAll pm env outcomes).entityManager.gameIsOver = false →
      ((sc.reportAll pm env outcomes).endUpdates pm env).entityManager =
        RemoveOp.runAll (sc.reportAll pm env outcomes).removeCalls
          (sc.reportAll pm env outcomes).entityManager ∧
      (sc.reportAll pm env outcomes).removeCalls.Nodup ∧
      (∀ o ∈ outcomes, ∀ p ∈ o.records, p ∈ (sc.reportAll pm env outcomes).removeCalls) ∧
      (∀ o ∈ outcomes, ∀ (k : Kind) (id : Identifier), (RemoveOp.single k, id) ∈ o.records →
        (k.coll.get ((sc.reportAll pm env outcomes).endUpdates pm env).entityManager).find id
          = none) ∧
      (∀ o ∈ outcomes, ∀ id : Identifier, (RemoveOp.submarine, id) ∈ o.records →
        (∀ i j : Fin 4,
          ((sc.reportAll pm env outcomes).entityManager.submarines i).find id ≠ none →
          ((sc.reportAll pm env outcomes).entityManager.submarines j).find id ≠ none → i = j) →
        ∀ i : Fin 4,
          (((sc.reportAll pm env outcomes).endUpdates pm env).entityManager.submarines i).find id
            = none)) ∧
    ((sc.reportAll pm env outcomes).entityManager.gameIsOver = true →
      (sc.reportAll pm env outcomes).endUpdates pm env =
        { sc.reportAll pm env outcomes with
          entityManager :=
            ((sc.reportAll pm env outcomes).entityManager.checkIfGameOver pm env).2 } ∧
      ((sc.reportAll pm env outcomes).entityManager.gameIsRunning = false →
        (sc.reportAll pm env outcomes).endUpdates pm env = sc.reportAll pm env outcomes)) := by
  refine ⟨fun hover => ?_, fun hover => ?_⟩
  · have hstep := StageController.reportAll_notes pm env sc outcomes
    have hmem : ∀ o ∈ outcomes, ∀ p ∈ o.records,
        p ∈ (sc.reportAll pm env outcomes).removeCalls := by
      intro o ho p hp
      rw [hstep.step_removeCalls, StageController.notes_removeCalls]
      exact Or.inr ⟨o, ho, hp⟩
    have hnodup : (sc.reportAll pm env outcomes).removeCalls.Nodup := by
      refine (hstep.setsNodup (StageController.notes_setsNodup outcomes _ ?_)).nodup_removeCalls
      exact ⟨List.nodup_nil, List.nodup_nil, List.nodup_nil, List.nodup_nil, List.nodup_nil,
        List.nodup_nil, hsmoke⟩
    have hend := StageController.endUpdates_not_over pm env _ hover
    have hem : ((sc.reportAll pm env outcomes).endUpdates pm env).entityManager =
        RemoveOp.runAll (sc.reportAll pm env outcomes).removeCalls
          (sc.reportAll pm env outcomes).entityManager := by
      rw [hend]
    refine ⟨hem, hnodup, hmem, ?_, ?_⟩
    · intro o ho k id hp
      rw [hem]
      exact RemoveOp.runAll_single_gone k id _ _ (hmem o ho _ hp)
    · intro o ho id hp hone i
      rw [hem]
      exact RemoveOp.runAll_submarine_gone id _ _ (hmem o ho _ hp) hone i
  · have hend := StageController.endUpdates_over pm env _ hover
    refine ⟨hend, fun hrun => ?_⟩
    rw [hend]
    have hc : (sc.reportAll pm env outcomes).entityManager.checkIfGameOver pm env =
        (true, (sc.reportAll pm env outcomes).entityManager) := by
      unfold EntityManager.checkIfGameOver
      rw [if_pos hover, hrun]
      rfl
    rw [hc]

/-- Witness of C20: the bracket `beginUpdates(); bombDidMoveOutOfScreen(1);
endUpdates()` on the running stage with the live bomb 1, where the bomb is
removed, and on the same stage with the game over and not running, where
`endUpdates` changes nothing. -/
theorem C20_endUpdates_applies_intents_witness :
    runningBombStage.rmsmoke.Nodup ∧
    (runningBombStage.reportAll PlayerModel.quiet Env.succeeding
      [.bombDidMoveOutOfScreen 1]).entityManager.gameIsOver = false ∧
    runningBombStage.entityManager.bombs.find 1 ≠ none ∧
    ((runningBombStage.reportAll PlayerModel.quiet Env.succeeding
      [.bombDidMoveOutOfScreen 1]).endUpdates PlayerModel.quiet
        Env.succeeding).entityManager.bombs.find 1 = none ∧
    (bombStage.reportAll PlayerModel.quiet Env.succeeding
      [.bombDidMoveOutOfScreen 1]).entityManager.gameIsOver = true ∧
    (bombStage.reportAll PlayerModel.quiet Env.succeeding
      [.bombDidMoveOutOfScreen 1]).entityManager.gameIsRunning = false ∧
    (bombStage.reportAll PlayerModel.quiet Env.succeeding
      [.bombDidMoveOutOfScreen 1]).endUpdates PlayerModel.quiet Env.succeeding =
      bombStage.reportAll PlayerModel.quiet Env.succeeding [.bombDidMoveOutOfScreen 1] :=
  ⟨List.nodup_nil, rfl, by decide,
    ((C20_endUpdates_applies_intents PlayerModel.quiet Env.succeeding runningBombStage
      [.bombDidMoveOutOfScreen 1] List.nodup_nil).1 rfl).2.2.2.1 (.bombDidMoveOutOfScreen 1)
      (List.mem_singleton.2 rfl) .bomb 1 (List.mem_singleton.2 rfl),
    rfl, rfl,
    ((C20_endUpdates_applies_intents PlayerModel.quiet Env.succeeding bombStage
      [.bombDidMoveOutOfScreen 1] List.nodup_nil).2 rfl).2 rfl⟩

/-! ## Save and load: claim C14 -/

theorem Coll.add_frame (c : Coll) (em : EntityManager) (e : Entity) :
    (c.add em e).freelist = em.freelist ∧ (c.add em e).positions = em.positions := by
  cases c <;> exact ⟨rfl, rfl⟩

theorem EntityManager.loadSubmarine_made (env : Env) (data : EM_SaveData) (i : Fin 4)
    (m : EntityManager) (id : Identifier) (hy : ¬ (data.positions id).y < 20) :
    EntityManager.Made env m (data.positions id) (m.loadSubmarine env data i id) := by
  unfold EntityManager.loadSubmarine
  lift_lets
  intro pos x_vel score
  split
  · exact EntityManager.makeSubmarine_made env m {} pos .Left _ _ _ _ hy
  · exact EntityManager.makeSubmarine_made env m {} pos .Right _ _ _ _ hy

theorem EntityManager.loadFish_made (env : Env) (data : EM_SaveData)
    (m : EntityManager) (id : Identifier) :
    EntityManager.Made env m (data.positions id) (m.loadFish env data id) := by
  unfold EntityManager.loadFish
  lift_lets
  intro pos x_vel
  split
  · exact EntityManager.makeFish_made env m {} pos .Left _
  · exact EntityManager.makeFish_made env m {} pos .Right _

theorem foldl_setInsert_nodup (l : List Identifier) :
    ∀ s : List Identifier, (s ++ l).Nodup → l.foldl setInsert s = s ++ l := by
  induction l with
  | nil => exact fun s _ => (List.append_nil s).symm
  | cons a l ih =>
    intro s h
    have ha : a ∉ s := fun hs =>
      (List.nodup_append.1 h).2.2 hs (List.mem_cons_self _ _)
    have hs : setInsert s a = s ++ [a] := by
      unfold setInsert
      rw [if_neg ha]
    rw [List.foldl_cons, hs, ih (s ++ [a]) (by simpa using h)]
    simp

theorem EntityManager.WF_of_live {em em2 : EntityManager} (h : em2.live = em.live)
    (hw : em.WF) : em2.WF := by
  intro c
  rw [EntityManager.get_of_live h c]
  exact hw c

theorem bombStage_WF : bombStage.entityManager.WF :=
  Coll.add_WF .bombs _ _
    (EntityManager.WF_of_live (EntityManager.makeBomb_made Env.succeeding {} {} ⟨10, 30⟩ ⟨0, 5⟩).1
      EntityManager.WF_new)

/-- C14 at its counterexample. A manager that holds the live bomb 1 at the
position `{10, 30}`: `saveGame` into an empty snapshot records the identifier
1; `loadGame` on that snapshot returns true, but it removes bomb 1 and makes a
new bomb, which gets the identifier 2 from the front of the free list.
Afterwards the live bombs are `{2}`, not `{1}`, and the saved position is
stored at identifier 2. -/
theorem C14_round_trip_changes_keys :
    bombStage.entityManager.bombs.keys = [1] ∧
    bombStage.entityManager.positions 1 = ⟨10, 30⟩ ∧
    (bombStage.entityManager.saveGame {}).2.bombs = [1] ∧
    ((bombStage.entityManager.saveGame {}).1.loadGame PlayerModel.quiet Env.succeeding
      (bombStage.entityManager.saveGame {}).2).1 = true ∧
    ((bombStage.entityManager.saveGame {}).1.loadGame PlayerModel.quiet Env.succeeding
      (bombStage.entityManager.saveGame {}).2).2.bombs.keys = [2] ∧
    ((bombStage.entityManager.saveGame {}).1.loadGame PlayerModel.quiet Env.succeeding
      (bombStage.entityManager.saveGame {}).2).2.bombs.find 1 = none ∧
    ((bombStage.entityManager.saveGame {}).1.loadGame PlayerModel.quiet Env.succeeding
      (bombStage.entityManager.saveGame {}).2).2.positions 2 = ⟨10, 30⟩ :=
  ⟨rfl, rfl, rfl, rfl, rfl, rfl, rfl⟩

theorem EntityManager.make_velocities (env : Env) (em : EntityManager) (entity : Entity)
    (T : EntityType) (position : Position) (scale : vec2) (color : vec4) (radians : Rat)
    (isAnimated : Bool) (info : Option CharAttribute) :
    (em.make env entity T position scale color radians isAnimated info).2.1.velocities
      = em.velocities := by
  by_cases h0 : em.freelist.alloc.1 = 0
  · simp only [EntityManager.make, h0, if_true]
  · cases hok : (env.spriteMake T info).ok <;>
      simp only [EntityManager.make, if_neg h0, hok, Bool.not_false, Bool.not_true, if_true,
        Bool.false_eq_true, if_false] <;>
      cases isAnimated <;> rfl

theorem setAt_ne {α : Type} (arr : Identifier → α) (i x : Identifier) (f : α → α) (h : x ≠ i) :
    setAt arr i f x = arr x :=
  Function.update_noteq h _ _

theorem setAt_self {α : Type} (arr : Identifier → α) (i : Identifier) (f : α → α) :
    setAt arr i f i = f (arr i) :=
  Function.update_same _ _ _

theorem EntityManager.makeBomb_velocities (env : Env) (em : EntityManager) (e0 : Entity)
    (position : Position) (initVel : vec2) (x : Identifier) (hx : x ≠ em.freelist.alloc.1) :
    (em.makeBomb env e0 position initVel).2.1.velocities x = em.velocities x := by
  unfold EntityManager.makeBomb
  generalize hr : EntityManager.make env em _ _ _ _ _ _ _ _ = r
  have h : EntityManager.Made env em position r := hr ▸ EntityManager.make_made _ _ _ _ _ _ _ _ _ _
  have hv : r.2.1.velocities = em.velocities := hr ▸ EntityManager.make_velocities _ _ _ _ _ _ _ _ _ _
  clear hr
  obtain ⟨ok, em1, e1⟩ := r
  cases ok
  · exact congrFun hv x
  · have hid : e1.identifier = em.freelist.alloc.1 := (h.2.2.1 rfl).2.1
    simp only [Bool.not_true, Bool.false_eq_true, if_false]
    split <;>
      (show setAt em1.velocities e1.identifier
          (fun v => { v with vx := initVel.x, vy := initVel.y }) x = em.velocities x
       rw [setAt_ne _ _ _ _ (hid ▸ hx)]
       exact congrFun hv x)

theorem EntityManager.makeTorpedo_velocities (env : Env) (em : EntityManager) (e0 : Entity)
    (position : Position) (initVel : vec2) (x : Identifier) (hx : x ≠ em.freelist.alloc.1) :
    (em.makeTorpedo env e0 position initVel).2.1.velocities x = em.velocities x := by
  unfold EntityManager.makeTorpedo
  generalize hr : EntityManager.make env em _ _ _ _ _ _ _ _ = r
  have h : EntityManager.Made env em position r := hr ▸ EntityManager.make_made _ _ _ _ _ _ _ _ _ _
  have hv : r.2.1.velocities = em.velocities := hr ▸ EntityManager.make_velocities _ _ _ _ _ _ _ _ _ _
  clear hr
  obtain ⟨ok, em1, e1⟩ := r
  cases ok
  · exact congrFun hv x
  · have hid : e1.identifier = em.freelist.alloc.1 := (h.2.2.1 rfl).2.1
    simp only [Bool.not_true, Bool.false_eq_true, if_false]
    split <;>
      (show setAt em1.velocities e1.identifier
          (fun v => { v with vx := initVel.x, vy := initVel.y }) x = em.velocities x
       rw [setAt_ne _ _ _ _ (hid ▸ hx)]
       exact congrFun hv x)

theorem EntityManager.makeMissile_velocities (env : Env) (em : EntityManager) (e0 : Entity)
    (position : Position) (x : Identifier) :
    (em.makeMissile env e0 position).2.1.velocities x = em.velocities x := by
  unfold EntityManager.makeMissile
  generalize hr : EntityManager.make env em _ _ _ _ _ _ _ _ = r
  have hv : r.2.1.velocities = em.velocities := hr ▸ EntityManager.make_velocities _ _ _ _ _ _ _ _ _ _
  clear hr
  obtain ⟨ok, em1, e1⟩ := r
  cases ok
  · exact congrFun hv x
  · exact congrFun hv x

theorem EntityManager.makeFish_velocities (env : Env) (em : EntityManager) (e0 : Entity)
    (position : Position) (direction : Direction) (x_velocity : Rat) :
    (∀ x, x ≠ em.freelist.alloc.1 →
      (em.makeFish env e0 position direction x_velocity).2.1.velocities x = em.velocities x) ∧
    ((em.makeFish env e0 position direction x_velocity).1 = true →
      (em.makeFish env e0 position direction x_velocity).2.1.velocities em.freelist.alloc.1
        = ⟨x_velocity, 0⟩) := by
  unfold EntityManager.makeFish
  lift_lets
  intro scale r
  have h : EntityManager.Made env em position r := EntityManager.make_made _ _ _ _ _ _ _ _ _ _
  have hv : r.2.1.velocities = em.velocities := EntityManager.make_velocities _ _ _ _ _ _ _ _ _ _
  clear_value r
  obtain ⟨ok, em1, e1⟩ := r
  cases ok
  · exact ⟨fun x _ => congrFun hv x, fun h2 => Bool.noConfusion h2⟩
  · have hid : e1.identifier = em.freelist.alloc.1 := (h.2.2.1 rfl).2.1
    simp only [Bool.not_true, Bool.false_eq_true, if_false]
    split <;> refine ⟨fun x hx => ?_, fun _ => ?_⟩
    · show setAt em1.velocities e1.identifier
          (fun v => { v with vx := x_velocity, vy := 0 }) x = em.velocities x
      rw [setAt_ne _ _ _ _ (hid ▸ hx)]
      exact congrFun hv x
    · show setAt em1.velocities e1.identifier
          (fun v => { v with vx := x_velocity, vy := 0 }) em.freelist.alloc.1 = _
      rw [← hid, setAt_self]
    · show setAt em1.velocities e1.identifier
          (fun v => { v with vx := x_velocity, vy := 0 }) x = em.velocities x
      rw [setAt_ne _ _ _ _ (hid ▸ hx)]
      exact congrFun hv x
    · show setAt em1.velocities e1.identifier
          (fun v => { v with vx := x_velocity, vy := 0 }) em.freelist.alloc.1 = _
      rw [← hid, setAt_self]

theorem EntityManager.makeSubmarine_velocities (env : Env) (em : EntityManager) (e0 : Entity)
    (position : Position) (direction : Direction) (x_velocity : Rat) (type : SubmarineType)
    (score : Nat) (radarRadius : Rat) :
    (∀ x, x ≠ em.freelist.alloc.1 →
      (em.makeSubmarine env e0 position direction x_velocity type score radarRadius).2.1.velocities
        x = em.velocities x) ∧
    ((em.makeSubmarine env e0 position direction x_velocity type score radarRadius).1 = true →
      (em.makeSubmarine env e0 position direction x_velocity type score radarRadius).2.1.velocities
        em.freelist.alloc.1 = ⟨if direction = .Left then -|x_velocity| else x_velocity, 0⟩) := by
  unfold EntityManager.makeSubmarine
  split
  · exact ⟨fun _ _ => rfl, fun h2 => Bool.noConfusion h2⟩
  · rename_i hy
    lift_lets
    intro scale xv r
    have h : EntityManager.Made env em position r := EntityManager.make_made _ _ _ _ _ _ _ _ _ _
    have hv : r.2.1.velocities = em.velocities := EntityManager.make_velocities _ _ _ _ _ _ _ _ _ _
    clear_value r scale
    obtain ⟨ok, em1, e1⟩ := r
    cases ok
    · exact ⟨fun x _ => congrFun hv x, fun h2 => Bool.noConfusion h2⟩
    · have hid : e1.identifier = em.freelist.alloc.1 := (h.2.2.1 rfl).2.1
      intro sub id src m1 m2 m3 m4 m5 m6 m7 m8 sub2 m9
      have h4 : m4.velocities = setAt em1.velocities e1.identifier
          (fun v => { v with vx := xv, vy := 0 }) := by
        cases direction <;> rfl
      clear_value m4
      have h5 : m5.velocities = m4.velocities := by
        by_cases hd : id = m4.tutorialSub.identifier
        · have e : m5 = _ := if_pos hd
          rw [e]
        · have e : m5 = _ := if_neg hd
          rw [e]
      clear_value m5
      have h9 : m9.velocities = m5.velocities := rfl
      clear_value m9
      have hfin : ∀ m : EntityManager, m.velocities = m9.velocities →
          (∀ x, x ≠ em.freelist.alloc.1 → m.velocities x = em.velocities x) ∧
          (m.velocities em.freelist.alloc.1 = ⟨xv, 0⟩) := by
        intro m hm
        rw [hm, h9, h5, h4]
        refine ⟨fun x hx => ?_, ?_⟩
        · rw [setAt_ne _ _ _ _ (hid ▸ hx)]
          exact congrFun hv x
        · rw [← hid, setAt_self]
      cases type
      · exact ⟨(hfin _ rfl).1, fun _ => (hfin _ rfl).2⟩
      · exact ⟨(hfin _ rfl).1, fun _ => (hfin _ rfl).2⟩
      · exact ⟨(hfin _ rfl).1, fun _ => (hfin _ rfl).2⟩
      · exact ⟨(hfin _ rfl).1, fun _ => (hfin _ rfl).2⟩

theorem EntityManager.loadSubmarine_velocities (env : Env) (data : EM_SaveData) (i : Fin 4)
    (m : EntityManager) (id : Identifier) :
    (∀ x, x ≠ m.freelist.alloc.1 →
      (m.loadSubmarine env data i id).2.1.velocities x = m.velocities x) ∧
    ((m.loadSubmarine env data i id).1 = true →
      (m.loadSubmarine env data i id).2.1.velocities m.freelist.alloc.1
        = ⟨(data.velocities id).vx, 0⟩) := by
  unfold EntityManager.loadSubmarine
  lift_lets
  intro pos x_vel score
  split
  · rename_i hneg
    obtain ⟨h1, h2⟩ := EntityManager.makeSubmarine_velocities env m {} pos .Left (x_vel * (-1))
      (indexToType i) score FLT_MAX
    refine ⟨h1, fun hok => ?_⟩
    rw [h2 hok, if_pos rfl]
    have e : -|x_vel * (-1)| = x_vel := by
      rw [mul_neg_one, abs_neg, abs_of_neg hneg, neg_neg]
    rw [e]
  · obtain ⟨h1, h2⟩ := EntityManager.makeSubmarine_velocities env m {} pos .Right x_vel
      (indexToType i) score FLT_MAX
    refine ⟨h1, fun hok => ?_⟩
    rw [h2 hok, if_neg (by decide)]

theorem EntityManager.loadFish_velocities (env : Env) (data : EM_SaveData)
    (m : EntityManager) (id : Identifier) :
    (∀ x, x ≠ m.freelist.alloc.1 →
      (m.loadFish env data id).2.1.velocities x = m.velocities x) ∧
    ((m.loadFish env data id).1 = true →
      (m.loadFish env data id).2.1.velocities m.freelist.alloc.1
        = ⟨|(data.velocities id).vx|, 0⟩) := by
  unfold EntityManager.loadFish
  lift_lets
  intro pos x_vel
  split
  · rename_i hneg
    obtain ⟨h1, h2⟩ := EntityManager.makeFish_velocities env m {} pos .Left (x_vel * (-1))
    refine ⟨h1, fun hok => ?_⟩
    rw [h2 hok]
    have e : x_vel * (-1) = |x_vel| := by
      rw [mul_neg_one, abs_of_neg hneg]
    rw [e]
  · rename_i hpos
    obtain ⟨h1, h2⟩ := EntityManager.makeFish_velocities env m {} pos .Right x_vel
    refine ⟨h1, fun hok => ?_⟩
    rw [h2 hok, abs_of_nonneg (not_lt.1 hpos)]

theorem Coll.add_velocities (c : Coll) (em : EntityManager) (e : Entity) :
    (c.add em e).velocities = em.velocities := by
  cases c <;> rfl

theorem loadEach_spec (env : Env) (mk : EntityManager → Identifier → Bool × EntityManager × Entity)
    (checked : Bool) (after : EntityManager → EntityManager) (c : Coll)
    (pos : Identifier → Position) (good : Identifier → Velocity → Prop) (hc : c ≠ .characters)
    (hafter : ∀ m : EntityManager, m.SameCore (after m))
    (hok : ∀ T info, (env.spriteMake T info).ok = true) (ids : List Identifier) :
    ∀ (fresh rest : List Identifier) (m : EntityManager),
      (∀ (m2 : EntityManager), ∀ id ∈ ids, EntityManager.Made env m2 (pos id) (mk m2 id)) →
      (∀ (m2 : EntityManager), ∀ id ∈ ids,
        (∀ x, x ≠ m2.freelist.alloc.1 → (mk m2 id).2.1.velocities x = m2.velocities x) ∧
        ((mk m2 id).1 = true → good id ((mk m2 id).2.1.velocities m2.freelist.alloc.1))) →
      m.freelist.freeids = fresh ++ rest → fresh.length = ids.length → (0 : Identifier) ∉ fresh →
      fresh.Nodup → (∀ x ∈ fresh, x ∉ (c.get m).keys) →
      (loadEach mk checked c.add after ids m).1 = true ∧
      (loadEach mk checked c.add after ids m).2.freelist.freeids = rest ∧
      (c.get (loadEach mk checked c.add after ids m).2).keys = (c.get m).keys ++ fresh ∧
      (∀ c2 : Coll, c2 ≠ c → c2 ≠ .characters →
        c2.get (loadEach mk checked c.add after ids m).2 = c2.get m) ∧
      (∀ x, x ∉ fresh → (loadEach mk checked c.add after ids m).2.positions x = m.positions x ∧
        (loadEach mk checked c.add after ids m).2.velocities x = m.velocities x) ∧
      (∀ p ∈ fresh.zip ids, (loadEach mk checked c.add after ids m).2.positions p.1 = pos p.2 ∧
        good p.2 ((loadEach mk checked c.add after ids m).2.velocities p.1)) := by
  induction ids with
  | nil =>
    intro fresh rest m _ _ hfree hlen _ _ _
    have hf : fresh = [] := List.length_eq_zero.1 hlen
    subst hf
    refine ⟨rfl, hfree, (List.append_nil _).symm, fun _ _ _ => rfl, fun _ _ => ⟨rfl, rfl⟩, ?_⟩
    intro p hp
    exact absurd hp (List.not_mem_nil _)
  | cons id ids ih =>
    intro fresh rest m hmk hvel hfree hlen hzero hnodup hnew
    cases fresh with
    | nil => exact absurd hlen (by simp)
    | cons x fresh =>
      have hx0 : x ≠ 0 := fun h => hzero (h ▸ List.mem_cons_self _ _)
      have halloc : m.freelist.alloc = (x, ⟨fresh ++ rest⟩) :=
        FreeList.alloc_cons m.freelist x (fresh ++ rest) hfree
      obtain ⟨hlive, hfl, hsucc, -, hgood⟩ := hmk m id (List.mem_cons_self _ _)
      obtain ⟨hvframe, hvgood⟩ := hvel m id (List.mem_cons_self _ _)
      rw [halloc] at hfl hsucc hgood hvframe hvgood
      have h1 : (mk m id).1 = true := hgood hx0 hok
      obtain ⟨-, hident, hpos⟩ := hsucc h1
      have hsame := hafter (c.add (mk m id).2.1 (mk m id).2.2)
      have hget : c.get (after (c.add (mk m id).2.1 (mk m id).2.2)) =
          (c.get m).assign x (mk m id).2.2 := by
        rw [hsame.get c hc, Coll.get_add_self, EntityManager.get_of_live hlive c, hident]
      have hxnew : x ∉ (c.get m).keys := hnew x (List.mem_cons_self _ _)
      have hkeys : (c.get (after (c.add (mk m id).2.1 (mk m id).2.2))).keys =
          (c.get m).keys ++ [x] := by
        rw [hget, EMap.keys_assign, if_neg hxnew]
      have hfree2 : (after (c.add (mk m id).2.1 (mk m id).2.2)).freelist.freeids =
          fresh ++ rest := by
        rw [hsame.freelist, (Coll.add_frame c _ _).1, hfl]
      have hpos2 : (after (c.add (mk m id).2.1 (mk m id).2.2)).positions =
          Function.update m.positions x (pos id) := by
        rw [hsame.positions, (Coll.add_frame c _ _).2, hpos]
      have hvel2 : (after (c.add (mk m id).2.1 (mk m id).2.2)).velocities =
          (mk m id).2.1.velocities := by
        rw [hsame.velocities, Coll.add_velocities]
      have hxfresh : x ∉ fresh := (List.nodup_cons.1 hnodup).1
      obtain ⟨i1, i2, i3, i4, i5, i6⟩ := ih fresh rest
        (after (c.add (mk m id).2.1 (mk m id).2.2))
        (fun m2 j hj => hmk m2 j (List.mem_cons_of_mem _ hj))
        (fun m2 j hj => hvel m2 j (List.mem_cons_of_mem _ hj)) hfree2
        (Nat.succ.inj hlen) (fun h => hzero (List.mem_cons_of_mem _ h))
        (List.nodup_cons.1 hnodup).2 (by
          intro y hy
          rw [hkeys]
          intro hmem
          rcases List.mem_append.1 hmem with h2 | h2
          · exact hnew y (List.mem_cons_of_mem _ hy) h2
          · rw [List.mem_singleton] at h2
            exact hxfresh (h2 ▸ hy))
      have hstep : loadEach mk checked c.add after (id :: ids) m =
          loadEach mk checked c.add after ids
            (after (c.add (mk m id).2.1 (mk m id).2.2)) := by
        rw [loadEach]
        simp only [h1, Bool.not_true, Bool.and_false, Bool.false_eq_true, if_false]
      rw [hstep]
      refine ⟨i1, i2, ?_, ?_, ?_, ?_⟩
      · rw [i3, hkeys, List.append_assoc]
        rfl
      · intro c2 h2 h3
        rw [i4 c2 h2 h3, hsame.get c2 h3, Coll.get_add_other c c2 _ _ h2,
          EntityManager.get_of_live hlive c2]
      · intro y hy
        have hy1 : y ≠ x := fun h => hy (h ▸ List.mem_cons_self _ _)
        have hy2 : y ∉ fresh := fun h => hy (List.mem_cons_of_mem _ h)
        refine ⟨?_, ?_⟩
        · rw [(i5 y hy2).1, hpos2, Function.update_noteq hy1]
        · rw [(i5 y hy2).2, hvel2, hvframe y hy1]
      · intro p hp
        rw [List.zip_cons_cons] at hp
        rcases List.mem_cons.1 hp with h2 | h2
        · subst h2
          refine ⟨?_, ?_⟩
          · rw [(i5 x hxfresh).1, hpos2, Function.update_same]
          · show good id _
            rw [(i5 x hxfresh).2, hvel2]
            exact hvgood h1
        · exact i6 p h2

theorem loadEach_stage (env : Env)
    (mk : EntityManager → Identifier → Bool × EntityManager × Entity)
    (checked : Bool) (after : EntityManager → EntityManager) (c : Coll)
    (pos : Identifier → Position) (good : Identifier → Velocity → Prop) (hc : c ≠ .characters)
    (hafter : ∀ m : EntityManager, m.SameCore (after m))
    (hok : ∀ T info, (env.spriteMake T info).ok = true) (ids fresh rest : List Identifier)
    (m base : EntityManager)
    (done : List (Coll × List Identifier × List Identifier × (Identifier → Velocity → Prop)))
    (hmk : ∀ (m2 : EntityManager), ∀ id ∈ ids, EntityManager.Made env m2 (pos id) (mk m2 id))
    (hvel : ∀ (m2 : EntityManager), ∀ id ∈ ids,
      (∀ x, x ≠ m2.freelist.alloc.1 → (mk m2 id).2.1.velocities x = m2.velocities x) ∧
      ((mk m2 id).1 = true → good id ((mk m2 id).2.1.velocities m2.freelist.alloc.1)))
    (hfree : m.freelist.freeids = fresh ++ rest) (hlen : fresh.length = ids.length)
    (hzero : (0 : Identifier) ∉ fresh) (hnodup : fresh.Nodup)
    (hdone : EntityManager.Loaded pos m done)
    (hnot : ∀ t ∈ done, t.1 ≠ c ∧ t.1 ≠ .characters)
    (hdisj : ∀ t ∈ done, ∀ x ∈ t.2.1, x ∉ fresh)
    (hbase : ∀ c2 : Coll, (∀ t ∈ done, t.1 ≠ c2) → c2 ≠ .characters → c2.get m = c2.get base)
    (hempty : (c.get base).entries = []) :
    (loadEach mk checked c.add after ids m).1 = true ∧
    (loadEach mk checked c.add after ids m).2.freelist.freeids = rest ∧
    EntityManager.Loaded pos (loadEach mk checked c.add after ids m).2
      ((c, fresh, ids, good) :: done) ∧
    (∀ c2 : Coll, (∀ t ∈ (c, fresh, ids, good) :: done, t.1 ≠ c2) → c2 ≠ .characters →
      c2.get (loadEach mk checked c.add after ids m).2 = c2.get base) := by
  have hcm : c.get m = c.get base := hbase c (fun t ht => (hnot t ht).1) hc
  have hkeys0 : (c.get m).keys = [] := by
    rw [hcm, EMap.keys, hempty]
    rfl
  obtain ⟨i1, i2, i3, i4, i5, i6⟩ := loadEach_spec env mk checked after c pos good hc hafter hok
    ids fresh rest m hmk hvel hfree hlen hzero hnodup (by
      intro x _
      rw [hkeys0]
      exact List.not_mem_nil _)
  refine ⟨i1, i2, ?_, ?_⟩
  · intro t ht
    rcases List.mem_cons.1 ht with h | h
    · subst h
      refine ⟨?_, i6⟩
      rw [i3, hkeys0]
      rfl
    · obtain ⟨hk, hp⟩ := hdone t h
      refine ⟨?_, ?_⟩
      · rw [i4 t.1 (hnot t h).1 (hnot t h).2]
        exact hk
      · intro p hp2
        have hfr := hdisj t h p.1 (List.of_mem_zip hp2).1
        rw [(i5 p.1 hfr).1, (i5 p.1 hfr).2]
        exact hp p hp2
  · intro c2 h2 h3
    have hne : c2 ≠ c := fun h => h2 (c, fresh, ids, good) (List.mem_cons_self _ _) h.symm
    rw [i4 c2 hne h3]
    exact hbase c2 (fun t ht => h2 t (List.mem_cons_of_mem _ ht)) h3

theorem EMap.erase_head (m : EMap) (first : Identifier) (e : Entity)
    (rest : List (Identifier × Entity)) (h : m.entries = (first, e) :: rest)
    (hn : m.keys.Nodup) : (m.erase first).entries = rest := by
  have hk : m.keys = first :: rest.map Prod.fst := by
    rw [EMap.keys, h]
    rfl
  rw [hk] at hn
  have hnot : first ∉ rest.map Prod.fst := (List.nodup_cons.1 hn).1
  simp only [EMap.erase, h]
  rw [List.filter_cons_of_neg (by simp)]
  refine List.filter_eq_self.2 ?_
  intro p hp
  have hne : p.1 ≠ first := fun hp1 => hnot (hp1 ▸ List.mem_map_of_mem Prod.fst hp)
  simpa using hne

theorem drain_exact (c : Coll) (remove : EntityManager → Identifier → EntityManager)
    (after : EntityManager → EntityManager) (P : EntityManager → Prop)
    (hstep : ∀ m first e rest, P m → (c.get m).WF → (c.get m).entries = (first, e) :: rest →
      (c.get (after (remove m first))).entries = rest ∧
      (after (remove m first)).freelist.freeids = m.freelist.freeids ++ [first] ∧
      (∀ c2 : Coll, c2 ≠ c → c2 ≠ .characters →
        c2.get (after (remove m first)) = c2.get m) ∧
      P (after (remove m first))) :
    ∀ (fuel : Nat) (m : EntityManager), P m → (c.get m).WF → (c.get m).size ≤ fuel →
      (c.get (EntityManager.drain (fun x => c.get x) remove after fuel m)).entries = [] ∧
      (EntityManager.drain (fun x => c.get x) remove after fuel m).freelist.freeids =
        m.freelist.freeids ++ (c.get m).keys ∧
      (∀ c2 : Coll, c2 ≠ c → c2 ≠ .characters →
        c2.get (EntityManager.drain (fun x => c.get x) remove after fuel m) = c2.get m) := by
  intro fuel
  induction fuel with
  | zero =>
    intro m _ _ hsize
    have he : (c.get m).entries = [] := List.length_eq_zero.1 (Nat.le_zero.1 hsize)
    refine ⟨he, ?_, fun _ _ _ => rfl⟩
    show m.freelist.freeids = _
    rw [EMap.keys, he]
    exact (List.append_nil _).symm
  | succ fuel ih =>
    intro m hPm hwf hsize
    cases hent : (c.get m).entries with
    | nil =>
      have hd : EntityManager.drain (fun x => c.get x) remove after (fuel + 1) m = m := by
        simp only [EntityManager.drain, hent]
      rw [hd]
      refine ⟨hent, ?_, fun _ _ _ => rfl⟩
      rw [EMap.keys, hent]
      exact (List.append_nil _).symm
    | cons p rest =>
      obtain ⟨first, e⟩ := p
      obtain ⟨h1, h2, h3, h4⟩ := hstep m first e rest hPm hwf hent
      have hd : EntityManager.drain (fun x => c.get x) remove after (fuel + 1) m =
          EntityManager.drain (fun x => c.get x) remove after fuel (after (remove m first)) := by
        simp only [EntityManager.drain, hent]
      have hwf2 : (c.get (after (remove m first))).WF := by
        refine EMap.WF_sublist _ _ hwf ?_
        rw [h1, hent]
        exact List.sublist_cons_self _ _
      have hsize2 : (c.get (after (remove m first))).size ≤ fuel := by
        have hs : (c.get m).size = rest.length + 1 := by
          rw [EMap.size, hent]
          rfl
        rw [EMap.size, h1]
        omega
      obtain ⟨i1, i2, i3⟩ := ih (after (remove m first)) h4 hwf2 hsize2
      rw [hd]
      refine ⟨i1, ?_, ?_⟩
      · rw [i2, h2, EMap.keys, h1, EMap.keys, hent, List.append_assoc]
        rfl
      · intro c2 hc2 hch
        rw [i3 c2 hc2 hch, h3 c2 hc2 hch]

theorem drain_kind_exact (k : Kind) (after : EntityManager → EntityManager)
    (hafter : ∀ m : EntityManager, m.SameCore (after m)) (hk : k.coll ≠ .characters)
    (m : EntityManager) (hwf : (k.coll.get m).WF) :
    (k.coll.get (EntityManager.drain (fun x => k.coll.get x) k.remove after
      (k.coll.get m).size m)).entries = [] ∧
    (EntityManager.drain (fun x => k.coll.get x) k.remove after
      (k.coll.get m).size m).freelist.freeids = m.freelist.freeids ++ (k.coll.get m).keys ∧
    (∀ c2 : Coll, c2 ≠ k.coll → c2 ≠ .characters →
      c2.get (EntityManager.drain (fun x => k.coll.get x) k.remove after
        (k.coll.get m).size m) = c2.get m) := by
  refine drain_exact k.coll k.remove after (fun _ => True) ?_ _ m trivial hwf (Nat.le_refl _)
  intro m first e rest _ hwf hent
  obtain ⟨g1, g2, g3, -, -⟩ := Kind.remove_found k m first e (EMap.find_head _ first e rest hent)
  have hsame := hafter (k.remove m first)
  have hid : e.identifier = first := hwf.2 (first, e) (by rw [hent]; exact List.mem_cons_self _ _)
  refine ⟨?_, ?_, ?_, trivial⟩
  · rw [hsame.get _ hk, g1]
    exact EMap.erase_head _ first e rest hent hwf.1
  · rw [hsame.freelist, g3, hid]
    rfl
  · intro c2 hc2 hch
    rw [hsame.get c2 hch, g2 c2 hc2]

theorem EntityManager.removeSubmarine_found (em : EntityManager) (first : Identifier)
    (e : Entity) (i : Fin 4)
    (hlow : ∀ j : Fin 4, j < i → (em.submarines j).entries = [])
    (h : (em.submarines i).find first = some e) :
    (em.removeSubmarine first).submarines i = (em.submarines i).erase first ∧
    (em.removeSubmarine first).freelist = em.freelist.free e.identifier ∧
    (∀ c2 : Coll, c2 ≠ .submarines i → c2.get (em.removeSubmarine first) = c2.get em) := by
  have hfrom : ∀ rest : List (Fin 4),
      (em.removeSubmarineFrom first (i :: rest)).submarines i = (em.submarines i).erase first ∧
      (em.removeSubmarineFrom first (i :: rest)).freelist = em.freelist.free e.identifier ∧
      (∀ c2 : Coll, c2 ≠ .submarines i →
        c2.get (em.removeSubmarineFrom first (i :: rest)) = c2.get em) := by
    intro rest
    rw [EntityManager.removeSubmarineFrom]
    simp only [h]
    refine ⟨?_, EntityManager.removeEntity_freelist em e, ?_⟩
    · simp only [Function.update_same]
      rw [show (em.removeEntity e).submarines i = em.submarines i from
        EntityManager.removeEntity_get em e (.submarines i)]
    · intro c hc
      cases c with
      | submarines j =>
        have hji : j ≠ i := fun h => hc (by rw [h])
        simp only [Coll.get, Function.update_noteq hji]
        exact EntityManager.removeEntity_get em e (.submarines j)
      | fishes => exact EntityManager.removeEntity_get em e .fishes
      | bombs => exact EntityManager.removeEntity_get em e .bombs
      | torpedoes => exact EntityManager.removeEntity_get em e .torpedoes
      | missiles => exact EntityManager.removeEntity_get em e .missiles
      | boatMissiles => exact EntityManager.removeEntity_get em e .boatMissiles
      | buyLivesIcons => exact EntityManager.removeEntity_get em e .buyLivesIcons
      | buyMissilesIcons => exact EntityManager.removeEntity_get em e .buyMissilesIcons
      | endStoreIcons => exact EntityManager.removeEntity_get em e .endStoreIcons
      | explosions => exact EntityManager.removeEntity_get em e .explosions
      | smokes => exact EntityManager.removeEntity_get em e .smokes
      | characters => exact EntityManager.removeEntity_get em e .characters
      | stringLabels => exact EntityManager.removeEntity_get em e .stringLabels
  unfold EntityManager.removeSubmarine
  fin_cases i
  · exact hfrom _
  · rw [EntityManager.removeSubmarineFrom_skip em first 0 _ (hlow 0 (by decide))]
    exact hfrom _
  · rw [EntityManager.removeSubmarineFrom_skip em first 0 _ (hlow 0 (by decide)),
      EntityManager.removeSubmarineFrom_skip em first 1 _ (hlow 1 (by decide))]
    exact hfrom _
  · rw [EntityManager.removeSubmarineFrom_skip em first 0 _ (hlow 0 (by decide)),
      EntityManager.removeSubmarineFrom_skip em first 1 _ (hlow 1 (by decide)),
      EntityManager.removeSubmarineFrom_skip em first 2 _ (hlow 2 (by decide))]
    exact hfrom _

theorem drain_submarines_exact (i : Fin 4) (m : EntityManager)
    (hlow : ∀ j : Fin 4, j < i → (m.submarines j).entries = [])
    (hwf : ((Coll.submarines i).get m).WF) :
    ((EntityManager.drain (fun x => x.submarines i) EntityManager.removeSubmarine id
      (m.submarines i).size m).submarines i).entries = [] ∧
    (EntityManager.drain (fun x => x.submarines i) EntityManager.removeSubmarine id
      (m.submarines i).size m).freelist.freeids = m.freelist.freeids ++ (m.submarines i).keys ∧
    (∀ c2 : Coll, c2 ≠ .submarines i → c2 ≠ .characters →
      c2.get (EntityManager.drain (fun x => x.submarines i) EntityManager.removeSubmarine id
        (m.submarines i).size m) = c2.get m) := by
  refine drain_exact (.submarines i) EntityManager.removeSubmarine id
    (fun x => ∀ j : Fin 4, j < i → (x.submarines j).entries = []) ?_ _ m hlow hwf (Nat.le_refl _)
  intro m first e rest hP hwf hent
  obtain ⟨g1, g2, g3⟩ := EntityManager.removeSubmarine_found m first e i hP
    (EMap.find_head _ first e rest hent)
  have hid : e.identifier = first := hwf.2 (first, e) (by rw [hent]; exact List.mem_cons_self _ _)
  refine ⟨?_, ?_, fun c2 hc2 _ => g3 c2 hc2, ?_⟩
  · show ((m.removeSubmarine first).submarines i).entries = rest
    rw [g1]
    exact EMap.erase_head _ first e rest hent hwf.1
  · show (m.removeSubmarine first).freelist.freeids = _
    rw [g2, hid]
    rfl
  · intro j hj
    have hne : Coll.submarines j ≠ Coll.submarines i := by
      intro h
      injection h with h
      exact absurd h (Fin.ne_of_lt hj)
    have := g3 (.submarines j) hne
    show ((Coll.submarines j).get (m.removeSubmarine first)).entries = []
    rw [this]
    exact hP j hj

theorem drain_stage (c : Coll) (done : List Coll) (keysdone : List Identifier)
    (em m d : EntityManager) (hwf : em.WF) (hc : c ∉ done) (hch : c ≠ .characters)
    (hF : m.freelist.freeids = em.freelist.freeids ++ keysdone)
    (hO : ∀ c2 : Coll, c2 ∉ done → c2 ≠ .characters → c2.get m = c2.get em)
    (hE : ∀ c2 ∈ done, (c2.get m).entries = [])
    (hdone : ∀ c2 ∈ done, c2 ≠ .characters)
    (hd : (c.get m).WF →
      (c.get d).entries = [] ∧ d.freelist.freeids = m.freelist.freeids ++ (c.get m).keys ∧
      ∀ c2 : Coll, c2 ≠ c → c2 ≠ .characters → c2.get d = c2.get m) :
    d.freelist.freeids = em.freelist.freeids ++ (keysdone ++ (c.get em).keys) ∧
    (∀ c2 : Coll, c2 ∉ c :: done → c2 ≠ .characters → c2.get d = c2.get em) ∧
    (∀ c2 ∈ c :: done, (c2.get d).entries = []) ∧
    (∀ c2 ∈ c :: done, c2 ≠ .characters) := by
  have hcm : c.get m = c.get em := hO c hc hch
  obtain ⟨d1, d2, d3⟩ := hd (hcm ▸ hwf c)
  refine ⟨?_, ?_, ?_, ?_⟩
  · rw [d2, hF, hcm, List.append_assoc]
  · intro c2 h2 h3
    have hne : c2 ≠ c := fun h => h2 (h ▸ List.mem_cons_self _ _)
    rw [d3 c2 hne h3]
    exact hO c2 (fun h => h2 (List.mem_cons_of_mem _ h)) h3
  · intro c2 h2
    rcases List.mem_cons.1 h2 with h | h
    · rw [h]
      exact d1
    · have hne : c2 ≠ c := fun h3 => hc (h3 ▸ h)
      rw [d3 c2 hne (hdone c2 h)]
      exact hE c2 h
  · intro c2 h2
    rcases List.mem_cons.1 h2 with h | h
    · rw [h]
      exact hch
    · exact hdone c2 h

theorem EntityManager.removeAllEntities_freelist (pm : PlayerModel) (env : Env)
    (em : EntityManager) (hwf : em.WF) :
    (em.removeAllEntities pm env).freelist.freeids = em.freelist.freeids ++ em.roundIds := by
  generalize hR : em.removeAllEntities pm env = R
  revert hR
  unfold EntityManager.removeAllEntities
  lift_lets
  intro m1 m2 m3 m4 m5 m6 m7 m8 m9 m9a m10 m11 hR
  have hafter : ∀ m : EntityManager,
      m.SameCore (m.playerCall pm env .incrementNumAvailableBombs).2 :=
    fun m => EntityManager.playerCall_sameCore pm env m _
  have hid : ∀ m : EntityManager, m.SameCore (id m) := fun m => EntityManager.sameCore_refl m
  obtain ⟨F, O, E, D⟩ := drain_stage .fishes [] [] em em m1 hwf (by simp) (by simp)
    (List.append_nil _).symm (fun _ _ _ => rfl) (fun _ h => absurd h (List.not_mem_nil _))
    (fun _ h => absurd h (List.not_mem_nil _))
    (fun w => drain_kind_exact .fish id hid (by decide) em w)
  clear_value m1
  obtain ⟨F, O, E, D⟩ := drain_stage .bombs _ _ em m1 m2 hwf (by simp) (by simp) F O E D
    (fun w => drain_kind_exact .bomb _ hafter (by decide) m1 w)
  clear_value m2
  obtain ⟨F, O, E, D⟩ := drain_stage .torpedoes _ _ em m2 m3 hwf (by simp) (by simp) F O E D
    (fun w => drain_kind_exact .torpedo id hid (by decide) m2 w)
  clear_value m3
  obtain ⟨F, O, E, D⟩ := drain_stage .missiles _ _ em m3 m4 hwf (by simp) (by simp) F O E D
    (fun w => drain_kind_exact .missile id hid (by decide) m3 w)
  clear_value m4
  obtain ⟨F, O, E, D⟩ := drain_stage .boatMissiles _ _ em m4 m5 hwf (by simp) (by simp) F O E D
    (fun w => drain_kind_exact .boatMissile id hid (by decide) m4 w)
  clear_value m5
  obtain ⟨F, O, E, D⟩ := drain_stage .explosions _ _ em m5 m6 hwf (by simp) (by simp) F O E D
    (fun w => drain_kind_exact .explosion id hid (by decide) m5 w)
  clear_value m6
  obtain ⟨F, O, E, D⟩ := drain_stage (.submarines 0) _ _ em m6 m7 hwf (by simp) (by simp) F O E D
    (fun w => drain_submarines_exact 0 m6 (fun j hj => absurd hj (by omega)) w)
  clear_value m7
  obtain ⟨F, O, E, D⟩ := drain_stage (.submarines 1) _ _ em m7 m8 hwf (by simp) (by simp) F O E D
    (fun w => drain_submarines_exact 1 m7 (by
      intro j hj
      have h0 : j = 0 := by omega
      subst h0
      exact E (.submarines 0) (by simp)) w)
  clear_value m8
  obtain ⟨F, O, E, D⟩ := drain_stage (.submarines 2) _ _ em m8 m9 hwf (by simp) (by simp) F O E D
    (fun w => drain_submarines_exact 2 m8 (by
      intro j hj
      have h0 : j = 0 ∨ j = 1 := by omega
      rcases h0 with h0 | h0 <;> subst h0
      · exact E (.submarines 0) (by simp)
      · exact E (.submarines 1) (by simp)) w)
  clear_value m9
  obtain ⟨F, O, E, D⟩ := drain_stage (.submarines 3) _ _ em m9 m9a hwf (by simp) (by simp) F O E D
    (fun w => drain_submarines_exact 3 m9 (by
      intro j hj
      have h0 : j = 0 ∨ j = 1 ∨ j = 2 := by omega
      rcases h0 with h0 | h0 | h0 <;> subst h0
      · exact E (.submarines 0) (by simp)
      · exact E (.submarines 1) (by simp)
      · exact E (.submarines 2) (by simp)) w)
  clear_value m9a
  obtain ⟨F, O, E, D⟩ := drain_stage .buyLivesIcons _ _ em m9a m10 hwf (by simp) (by simp) F O E D
    (fun w => drain_kind_exact .buyLives id hid (by decide) m9a w)
  clear_value m10
  obtain ⟨F, O, E, D⟩ := drain_stage .buyMissilesIcons _ _ em m10 m11 hwf (by simp) (by simp) F O E D
    (fun w => drain_kind_exact .buyMissiles id hid (by decide) m10 w)
  clear_value m11
  obtain ⟨F, O, E, D⟩ := drain_stage .endStoreIcons _ _ em m11 R hwf (by simp) (by simp) F O E D
    (fun w => hR ▸ drain_kind_exact .endStore id hid (by decide) m11 w)
  rw [F]
  simp only [EntityManager.roundIds, List.append_assoc, List.nil_append]
  rfl

theorem EntityManager.loadGame_spec (pm : PlayerModel) (env : Env) (em : EntityManager)
    (data : EM_SaveData) (fb f0 f1 f2 f3 ff ft fm rest : List Identifier)
    (hok : ∀ T info, (env.spriteMake T info).ok = true)
    (hy : ∀ i : Fin 4, ∀ id ∈ data.submarines i, ¬ (data.positions id).y < 20)
    (hfree : (em.removeAllEntities pm env).freelist.freeids = fb ++ (f0 ++ (f1 ++ (f2 ++ (f3 ++ (ff ++ (ft ++ (fm ++ rest))))))))
    (hnodup : (fb ++ (f0 ++ (f1 ++ (f2 ++ (f3 ++ (ff ++ (ft ++ fm))))))).Nodup)
    (hzero : (0 : Identifier) ∉ fb ++ (f0 ++ (f1 ++ (f2 ++ (f3 ++ (ff ++ (ft ++ fm)))))))
    (hb : fb.length = data.bombs.length) (h0 : f0.length = (data.submarines 0).length)
    (h1 : f1.length = (data.submarines 1).length) (h2 : f2.length = (data.submarines 2).length)
    (h3 : f3.length = (data.submarines 3).length)
    (hf : ff.length = data.fishes.length) (ht : ft.length = data.torpedoes.length)
    (hm : fm.length = data.missiles.length) :
    (em.loadGame pm env data).1 = true ∧
    EntityManager.Loaded data.positions (em.loadGame pm env data).2
      [(Coll.missiles, fm, data.missiles, (fun (_ : Identifier) (_ : Velocity) => True)),
      (Coll.torpedoes, ft, data.torpedoes, (fun (_ : Identifier) (_ : Velocity) => True)),
      (Coll.fishes, ff, data.fishes, (fun (id : Identifier) (v : Velocity) => v = ⟨|(data.velocities id).vx|, 0⟩)),
      (Coll.submarines 3, f3, (data.submarines 3), (fun (id : Identifier) (v : Velocity) => v = ⟨(data.velocities id).vx, 0⟩)),
      (Coll.submarines 2, f2, (data.submarines 2), (fun (id : Identifier) (v : Velocity) => v = ⟨(data.velocities id).vx, 0⟩)),
      (Coll.submarines 1, f1, (data.submarines 1), (fun (id : Identifier) (v : Velocity) => v = ⟨(data.velocities id).vx, 0⟩)),
      (Coll.submarines 0, f0, (data.submarines 0), (fun (id : Identifier) (v : Velocity) => v = ⟨(data.velocities id).vx, 0⟩)),
      (Coll.bombs, fb, data.bombs, (fun (_ : Identifier) (_ : Velocity) => True))] := by
  obtain ⟨-, hempty⟩ := EntityManager.removeAllEntities_spec pm env em
  obtain ⟨nb, nT0, dB⟩ := List.nodup_append.1 hnodup
  obtain ⟨n0, nT1, d0⟩ := List.nodup_append.1 nT0
  obtain ⟨n1, nT2, d1⟩ := List.nodup_append.1 nT1
  obtain ⟨n2, nT3, d2⟩ := List.nodup_append.1 nT2
  obtain ⟨n3, nT4, d3⟩ := List.nodup_append.1 nT3
  obtain ⟨nf, nT5, dF⟩ := List.nodup_append.1 nT4
  obtain ⟨nt, nm, dT⟩ := List.nodup_append.1 nT5
  unfold EntityManager.loadGame
  generalize em.removeAllEntities pm env = R at hfree hempty ⊢
  lift_lets
  intro R2 m0 rb r0 r1 r2 r3 rf rt rm
  have q2 : m0.freelist.freeids = fb ++ (f0 ++ (f1 ++ (f2 ++ (f3 ++ (ff ++ (ft ++ (fm ++ rest))))))) := hfree
  have q3 : EntityManager.Loaded data.positions m0 [] :=
    fun t ht => absurd ht (List.not_mem_nil _)
  have q4 : ∀ c2 : Coll,
      (∀ t ∈ ([] : List (Coll × List Identifier × List Identifier ×
        (Identifier → Velocity → Prop))), t.1 ≠ c2) →
      c2 ≠ .characters → c2.get m0 = c2.get R := by
    intro c2 _ _
    cases c2 <;> rfl
  clear_value m0
  obtain ⟨a1, a2, a3, a4⟩ := loadEach_stage env (EntityManager.loadBomb env data) true
    (fun m => (m.playerCall pm env .decrementNumAvailableBombs).2) (Coll.bombs) data.positions (fun (_ : Identifier) (_ : Velocity) => True) (by simp)
    (fun m => EntityManager.playerCall_sameCore pm env m _) hok data.bombs fb
    (f0 ++ (f1 ++ (f2 ++ (f3 ++ (ff ++ (ft ++ (fm ++ rest))))))) m0 R
    []
    (fun m2 id _ => EntityManager.makeBomb_made env m2 {} (data.positions id) ⟨0, 0⟩)
    (fun m2 id _ => ⟨fun x hx => EntityManager.makeBomb_velocities env m2 {} (data.positions id) ⟨0, 0⟩ x hx, fun _ => trivial⟩) q2 hb
    (fun h => hzero (by simp [h])) nb q3
    (fun t ht => absurd ht (List.not_mem_nil _))
    (fun t ht => absurd ht (List.not_mem_nil _))
    q4 (hempty (Coll.bombs) (by simp) (by simp) (by simp))
  clear q2 q3 q4
  have p1 : rb.1 = true := a1
  have q2 : rb.2.freelist.freeids = f0 ++ (f1 ++ (f2 ++ (f3 ++ (ff ++ (ft ++ (fm ++ rest)))))) := a2
  have q3 : EntityManager.Loaded data.positions rb.2
      [(Coll.bombs, fb, data.bombs, (fun (_ : Identifier) (_ : Velocity) => True))] := a3
  have q4 : ∀ c2 : Coll,
      (∀ t ∈ [(Coll.bombs, fb, data.bombs, (fun (_ : Identifier) (_ : Velocity) => True))], t.1 ≠ c2) →
      c2 ≠ .characters → c2.get rb.2 = c2.get R := a4
  clear a1 a2 a3 a4
  clear_value rb
  rename' p1 => prb
  obtain ⟨a1, a2, a3, a4⟩ := loadEach_stage env (EntityManager.loadSubmarine env data 0) false
    id (Coll.submarines 0) data.positions (fun (id : Identifier) (v : Velocity) => v = ⟨(data.velocities id).vx, 0⟩) (by simp)
    (fun m => EntityManager.sameCore_refl m) hok (data.submarines 0) f0
    (f1 ++ (f2 ++ (f3 ++ (ff ++ (ft ++ (fm ++ rest)))))) rb.2 R
    [(Coll.bombs, fb, data.bombs, (fun (_ : Identifier) (_ : Velocity) => True))]
    (fun m2 id hid => EntityManager.loadSubmarine_made env data 0 m2 id (hy 0 id hid))
    (fun m2 id _ => EntityManager.loadSubmarine_velocities env data 0 m2 id) q2 h0
    (fun h => hzero (by simp [h])) n0 q3
    (by
      intro t ht
      fin_cases ht
      exact ⟨by simp, by simp⟩)
    (by
      intro t ht x hx hx2
      fin_cases ht
      exact dB hx (by simp [hx2]))
    q4 (hempty (Coll.submarines 0) (by simp) (by simp) (by simp))
  clear q2 q3 q4
  have p1 : r0.1 = true := a1
  have q2 : r0.2.freelist.freeids = f1 ++ (f2 ++ (f3 ++ (ff ++ (ft ++ (fm ++ rest))))) := a2
  have q3 : EntityManager.Loaded data.positions r0.2
      [(Coll.submarines 0, f0, (data.submarines 0), (fun (id : Identifier) (v : Velocity) => v = ⟨(data.velocities id).vx, 0⟩)),
      (Coll.bombs, fb, data.bombs, (fun (_ : Identifier) (_ : Velocity) => True))] := a3
  have q4 : ∀ c2 : Coll,
      (∀ t ∈ [(Coll.submarines 0, f0, (data.submarines 0), (fun (id : Identifier) (v : Velocity) => v = ⟨(data.velocities id).vx, 0⟩)),
      (Coll.bombs, fb, data.bombs, (fun (_ : Identifier) (_ : Velocity) => True))], t.1 ≠ c2) →
      c2 ≠ .characters → c2.get r0.2 = c2.get R := a4
  clear a1 a2 a3 a4
  clear_value r0
  rename' p1 => pr0
  obtain ⟨a1, a2, a3, a4⟩ := loadEach_stage env (EntityManager.loadSubmarine env data 1) false
    id (Coll.submarines 1) data.positions (fun (id : Identifier) (v : Velocity) => v = ⟨(data.velocities id).vx, 0⟩) (by simp)
    (fun m => EntityManager.sameCore_refl m) hok (data.submarines 1) f1
    (f2 ++ (f3 ++ (ff ++ (ft ++ (fm ++ rest))))) r0.2 R
    [(Coll.submarines 0, f0, (data.submarines 0), (fun (id : Identifier) (v : Velocity) => v = ⟨(data.velocities id).vx, 0⟩)),
      (Coll.bombs, fb, data.bombs, (fun (_ : Identifier) (_ : Velocity) => True))]
    (fun m2 id hid => EntityManager.loadSubmarine_made env data 1 m2 id (hy 1 id hid))
    (fun m2 id _ => EntityManager.loadSubmarine_velocities env data 1 m2 id) q2 h1
    (fun h => hzero (by simp [h])) n1 q3
    (by
      intro t ht
      fin_cases ht <;> exact ⟨by simp, by simp⟩)
    (by
      intro t ht x hx hx2
      fin_cases ht
      · exact d0 hx (by simp [hx2])
      · exact dB hx (by simp [hx2]))
    q4 (hempty (Coll.submarines 1) (by simp) (by simp) (by simp))
  clear q2 q3 q4
  have p1 : r1.1 = true := a1
  have q2 : r1.2.freelist.freeids = f2 ++ (f3 ++ (ff ++ (ft ++ (fm ++ rest)))) := a2
  have q3 : EntityManager.Loaded data.positions r1.2
      [(Coll.submarines 1, f1, (data.submarines 1), (fun (id : Identifier) (v : Velocity) => v = ⟨(data.velocities id).vx, 0⟩)),
      (Coll.submarines 0, f0, (data.submarines 0), (fun (id : Identifier) (v : Velocity) => v = ⟨(data.velocities id).vx, 0⟩)),
      (Coll.bombs, fb, data.bombs, (fun (_ : Identifier) (_ : Velocity) => True))] := a3
  have q4 : ∀ c2 : Coll,
      (∀ t ∈ [(Coll.submarines 1, f1, (data.submarines 1), (fun (id : Identifier) (v : Velocity) => v = ⟨(data.velocities id).vx, 0⟩)),
      (Coll.submarines 0, f0, (data.submarines 0), (fun (id : Identifier) (v : Velocity) => v = ⟨(data.velocities id).vx, 0⟩)),
      (Coll.bombs, fb, data.bombs, (fun (_ : Identifier) (_ : Velocity) => True))], t.1 ≠ c2) →
      c2 ≠ .characters → c2.get r1.2 = c2.get R := a4
  clear a1 a2 a3 a4
  clear_value r1
  rename' p1 => pr1
  obtain ⟨a1, a2, a3, a4⟩ := loadEach_stage env (EntityManager.loadSubmarine env data 2) false
    id (Coll.submarines 2) data.positions (fun (id : Identifier) (v : Velocity) => v = ⟨(data.velocities id).vx, 0⟩) (by simp)
    (fun m => EntityManager.sameCore_refl m) hok (data.submarines 2) f2
    (f3 ++ (ff ++ (ft ++ (fm ++ rest)))) r1.2 R
    [(Coll.submarines 1, f1, (data.submarines 1), (fun (id : Identifier) (v : Velocity) => v = ⟨(data.velocities id).vx, 0⟩)),
      (Coll.submarines 0, f0, (data.submarines 0), (fun (id : Identifier) (v : Velocity) => v = ⟨(data.velocities id).vx, 0⟩)),
      (Coll.bombs, fb, data.bombs, (fun (_ : Identifier) (_ : Velocity) => True))]
    (fun m2 id hid => EntityManager.loadSubmarine_made env data 2 m2 id (hy 2 id hid))
    (fun m2 id _ => EntityManager.loadSubmarine_velocities env data 2 m2 id) q2 h2
    (fun h => hzero (by simp [h])) n2 q3
    (by
      intro t ht
      fin_cases ht <;> exact ⟨by simp, by simp⟩)
    (by
      intro t ht x hx hx2
      fin_cases ht
      · exact d1 hx (by simp [hx2])
      · exact d0 hx (by simp [hx2])
      · exact dB hx (by simp [hx2]))
    q4 (hempty (Coll.submarines 2) (by simp) (by simp) (by simp))
  clear q2 q3 q4
  have p1 : r2.1 = true := a1
  have q2 : r2.2.freelist.freeids = f3 ++ (ff ++ (ft ++ (fm ++ rest))) := a2
  have q3 : EntityManager.Loaded data.positions r2.2
      [(Coll.submarines 2, f2, (data.submarines 2), (fun (id : Identifier) (v : Velocity) => v = ⟨(data.velocities id).vx, 0⟩)),
      (Coll.submarines 1, f1, (data.submarines 1), (fun (id : Identifier) (v : Velocity) => v = ⟨(data.velocities id).vx, 0⟩)),
      (Coll.submarines 0, f0, (data.submarines 0), (fun (id : Identifier) (v : Velocity) => v = ⟨(data.velocities id).vx, 0⟩)),
      (Coll.bombs, fb, data.bombs, (fun (_ : Identifier) (_ : Velocity) => True))] := a3
  have q4 : ∀ c2 : Coll,
      (∀ t ∈ [(Coll.submarines 2, f2, (data.submarines 2), (fun (id : Identifier) (v : Velocity) => v = ⟨(data.velocities id).vx, 0⟩)),
      (Coll.submarines 1, f1, (data.submarines 1), (fun (id : Identifier) (v : Velocity) => v = ⟨(data.velocities id).vx, 0⟩)),
      (Coll.submarines 0, f0, (data.submarines 0), (fun (id : Identifier) (v : Velocity) => v = ⟨(data.velocities id).vx, 0⟩)),
      (Coll.bombs, fb, data.bombs, (fun (_ : Identifier) (_ : Velocity) => True))], t.1 ≠ c2) →
      c2 ≠ .characters → c2.get r2.2 = c2.get R := a4
  clear a1 a2 a3 a4
  clear_value r2
  rename' p1 => pr2
  obtain ⟨a1, a2, a3, a4⟩ := loadEach_stage env (EntityManager.loadSubmarine env data 3) false
    id (Coll.submarines 3) data.positions (fun (id : Identifier) (v : Velocity) => v = ⟨(data.velocities id).vx, 0⟩) (by simp)
    (fun m => EntityManager.sameCore_refl m) hok (data.submarines 3) f3
    (ff ++ (ft ++ (fm ++ rest))) r2.2 R
    [(Coll.submarines 2, f2, (data.submarines 2), (fun (id : Identifier) (v : Velocity) => v = ⟨(data.velocities id).vx, 0⟩)),
      (Coll.submarines 1, f1, (data.submarines 1), (fun (id : Identifier) (v : Velocity) => v = ⟨(data.velocities id).vx, 0⟩)),
      (Coll.submarines 0, f0, (data.submarines 0), (fun (id : Identifier) (v : Velocity) => v = ⟨(data.velocities id).vx, 0⟩)),
      (Coll.bombs, fb, data.bombs, (fun (_ : Identifier) (_ : Velocity) => True))]
    (fun m2 id hid => EntityManager.loadSubmarine_made env data 3 m2 id (hy 3 id hid))
    (fun m2 id _ => EntityManager.loadSubmarine_velocities env data 3 m2 id) q2 h3
    (fun h => hzero (by simp [h])) n3 q3
    (by
      intro t ht
      fin_cases ht <;> exact ⟨by simp, by simp⟩)
    (by
      intro t ht x hx hx2
      fin_cases ht
      · exact d2 hx (by simp [hx2])
      · exact d1 hx (by simp [hx2])
      · exact d0 hx (by simp [hx2])
      · exact dB hx (by simp [hx2]))
    q4 (hempty (Coll.submarines 3) (by simp) (by simp) (by simp))
  clear q2 q3 q4
  have p1 : r3.1 = true := a1
  have q2 : r3.2.freelist.freeids = ff ++ (ft ++ (fm ++ rest)) := a2
  have q3 : EntityManager.Loaded data.positions r3.2
      [(Coll.submarines 3, f3, (data.submarines 3), (fun (id : Identifier) (v : Velocity) => v = ⟨(data.velocities id).vx, 0⟩)),
      (Coll.submarines 2, f2, (data.submarines 2), (fun (id : Identifier) (v : Velocity) => v = ⟨(data.velocities id).vx, 0⟩)),
      (Coll.submarines 1, f1, (data.submarines 1), (fun (id : Identifier) (v : Velocity) => v = ⟨(data.velocities id).vx, 0⟩)),
      (Coll.submarines 0, f0, (data.submarines 0), (fun (id : Identifier) (v : Velocity) => v = ⟨(data.velocities id).vx, 0⟩)),
      (Coll.bombs, fb, data.bombs, (fun (_ : Identifier) (_ : Velocity) => True))] := a3
  have q4 : ∀ c2 : Coll,
      (∀ t ∈ [(Coll.submarines 3, f3, (data.submarines 3), (fun (id : Identifier) (v : Velocity) => v = ⟨(data.velocities id).vx, 0⟩)),
      (Coll.submarines 2, f2, (data.submarines 2), (fun (id : Identifier) (v : Velocity) => v = ⟨(data.velocities id).vx, 0⟩)),
      (Coll.submarines 1, f1, (data.submarines 1), (fun (id : Identifier) (v : Velocity) => v = ⟨(data.velocities id).vx, 0⟩)),
      (Coll.submarines 0, f0, (data.submarines 0), (fun (id : Identifier) (v : Velocity) => v = ⟨(data.velocities id).vx, 0⟩)),
      (Coll.bombs, fb, data.bombs, (fun (_ : Identifier) (_ : Velocity) => True))], t.1 ≠ c2) →
      c2 ≠ .characters → c2.get r3.2 = c2.get R := a4
  clear a1 a2 a3 a4
  clear_value r3
  rename' p1 => pr3
  obtain ⟨a1, a2, a3, a4⟩ := loadEach_stage env (EntityManager.loadFish env data) true
    id (Coll.fishes) data.positions (fun (id : Identifier) (v : Velocity) => v = ⟨|(data.velocities id).vx|, 0⟩) (by simp)
    (fun m => EntityManager.sameCore_refl m) hok data.fishes ff
    (ft ++ (fm ++ rest)) r3.2 R
    [(Coll.submarines 3, f3, (data.submarines 3), (fun (id : Identifier) (v : Velocity) => v = ⟨(data.velocities id).vx, 0⟩)),
      (Coll.submarines 2, f2, (data.submarines 2), (fun (id : Identifier) (v : Velocity) => v = ⟨(data.velocities id).vx, 0⟩)),
      (Coll.submarines 1, f1, (data.submarines 1), (fun (id : Identifier) (v : Velocity) => v = ⟨(data.velocities id).vx, 0⟩)),
      (Coll.submarines 0, f0, (data.submarines 0), (fun (id : Identifier) (v : Velocity) => v = ⟨(data.velocities id).vx, 0⟩)),
      (Coll.bombs, fb, data.bombs, (fun (_ : Identifier) (_ : Velocity) => True))]
    (fun m2 id _ => EntityManager.loadFish_made env data m2 id)
    (fun m2 id _ => EntityManager.loadFish_velocities env data m2 id) q2 hf
    (fun h => hzero (by simp [h])) nf q3
    (by
      intro t ht
      fin_cases ht <;> exact ⟨by simp, by simp⟩)
    (by
      intro t ht x hx hx2
      fin_cases ht
      · exact d3 hx (by simp [hx2])
      · exact d2 hx (by simp [hx2])
      · exact d1 hx (by simp [hx2])
      · exact d0 hx (by simp [hx2])
      · exact dB hx (by simp [hx2]))
    q4 (hempty (Coll.fishes) (by simp) (by simp) (by simp))
  clear q2 q3 q4
  have p1 : rf.1 = true := a1
  have q2 : rf.2.freelist.freeids = ft ++ (fm ++ rest) := a2
  have q3 : EntityManager.Loaded data.positions rf.2
      [(Coll.fishes, ff, data.fishes, (fun (id : Identifier) (v : Velocity) => v = ⟨|(data.velocities id).vx|, 0⟩)),
      (Coll.submarines 3, f3, (data.submarines 3), (fun (id : Identifier) (v : Velocity) => v = ⟨(data.velocities id).vx, 0⟩)),
      (Coll.submarines 2, f2, (data.submarines 2), (fun (id : Identifier) (v : Velocity) => v = ⟨(data.velocities id).vx, 0⟩)),
      (Coll.submarines 1, f1, (data.submarines 1), (fun (id : Identifier) (v : Velocity) => v = ⟨(data.velocities id).vx, 0⟩)),
      (Coll.submarines 0, f0, (data.submarines 0), (fun (id : Identifier) (v : Velocity) => v = ⟨(data.velocities id).vx, 0⟩)),
      (Coll.bombs, fb, data.bombs, (fun (_ : Identifier) (_ : Velocity) => True))] := a3
  have q4 : ∀ c2 : Coll,
      (∀ t ∈ [(Coll.fishes, ff, data.fishes, (fun (id : Identifier) (v : Velocity) => v = ⟨|(data.velocities id).vx|, 0⟩)),
      (Coll.submarines 3, f3, (data.submarines 3), (fun (id : Identifier) (v : Velocity) => v = ⟨(data.velocities id).vx, 0⟩)),
      (Coll.submarines 2, f2, (data.submarines 2), (fun (id : Identifier) (v : Velocity) => v = ⟨(data.velocities id).vx, 0⟩)),
      (Coll.submarines 1, f1, (data.submarines 1), (fun (id : Identifier) (v : Velocity) => v = ⟨(data.velocities id).vx, 0⟩)),
      (Coll.submarines 0, f0, (data.submarines 0), (fun (id : Identifier) (v : Velocity) => v = ⟨(data.velocities id).vx, 0⟩)),
      (Coll.bombs, fb, data.bombs, (fun (_ : Identifier) (_ : Velocity) => True))], t.1 ≠ c2) →
      c2 ≠ .characters → c2.get rf.2 = c2.get R := a4
  clear a1 a2 a3 a4
  clear_value rf
  rename' p1 => prf
  obtain ⟨a1, a2, a3, a4⟩ := loadEach_stage env (EntityManager.loadTorpedo env data) true
    id (Coll.torpedoes) data.positions (fun (_ : Identifier) (_ : Velocity) => True) (by simp)
    (fun m => EntityManager.sameCore_refl m) hok data.torpedoes ft
    (fm ++ rest) rf.2 R
    [(Coll.fishes, ff, data.fishes, (fun (id : Identifier) (v : Velocity) => v = ⟨|(data.velocities id).vx|, 0⟩)),
      (Coll.submarines 3, f3, (data.submarines 3), (fun (id : Identifier) (v : Velocity) => v = ⟨(data.velocities id).vx, 0⟩)),
      (Coll.submarines 2, f2, (data.submarines 2), (fun (id : Identifier) (v : Velocity) => v = ⟨(data.velocities id).vx, 0⟩)),
      (Coll.submarines 1, f1, (data.submarines 1), (fun (id : Identifier) (v : Velocity) => v = ⟨(data.velocities id).vx, 0⟩)),
      (Coll.submarines 0, f0, (data.submarines 0), (fun (id : Identifier) (v : Velocity) => v = ⟨(data.velocities id).vx, 0⟩)),
      (Coll.bombs, fb, data.bombs, (fun (_ : Identifier) (_ : Velocity) => True))]
    (fun m2 id _ => EntityManager.makeTorpedo_made env m2 {} (data.positions id) ⟨0, 0⟩)
    (fun m2 id _ => ⟨fun x hx => EntityManager.makeTorpedo_velocities env m2 {} (data.positions id) ⟨0, 0⟩ x hx, fun _ => trivial⟩) q2 ht
    (fun h => hzero (by simp [h])) nt q3
    (by
      intro t ht
      fin_cases ht <;> exact ⟨by simp, by simp⟩)
    (by
      intro t ht x hx hx2
      fin_cases ht
      · exact dF hx (by simp [hx2])
      · exact d3 hx (by simp [hx2])
      · exact d2 hx (by simp [hx2])
      · exact d1 hx (by simp [hx2])
      · exact d0 hx (by simp [hx2])
      · exact dB hx (by simp [hx2]))
    q4 (hempty (Coll.torpedoes) (by simp) (by simp) (by simp))
  clear q2 q3 q4
  have p1 : rt.1 = true := a1
  have q2 : rt.2.freelist.freeids = fm ++ rest := a2
  have q3 : EntityManager.Loaded data.positions rt.2
      [(Coll.torpedoes, ft, data.torpedoes, (fun (_ : Identifier) (_ : Velocity) => True)),
      (Coll.fishes, ff, data.fishes, (fun (id : Identifier) (v : Velocity) => v = ⟨|(data.velocities id).vx|, 0⟩)),
      (Coll.submarines 3, f3, (data.submarines 3), (fun (id : Identifier) (v : Velocity) => v = ⟨(data.velocities id).vx, 0⟩)),
      (Coll.submarines 2, f2, (data.submarines 2), (fun (id : Identifier) (v : Velocity) => v = ⟨(data.velocities id).vx, 0⟩)),
      (Coll.submarines 1, f1, (data.submarines 1), (fun (id : Identifier) (v : Velocity) => v = ⟨(data.velocities id).vx, 0⟩)),
      (Coll.submarines 0, f0, (data.submarines 0), (fun (id : Identifier) (v : Velocity) => v = ⟨(data.velocities id).vx, 0⟩)),
      (Coll.bombs, fb, data.bombs, (fun (_ : Identifier) (_ : Velocity) => True))] := a3
  have q4 : ∀ c2 : Coll,
      (∀ t ∈ [(Coll.torpedoes, ft, data.torpedoes, (fun (_ : Identifier) (_ : Velocity) => True)),
      (Coll.fishes, ff, data.fishes, (fun (id : Identifier) (v : Velocity) => v = ⟨|(data.velocities id).vx|, 0⟩)),
      (Coll.submarines 3, f3, (data.submarines 3), (fun (id : Identifier) (v : Velocity) => v = ⟨(data.velocities id).vx, 0⟩)),
      (Coll.submarines 2, f2, (data.submarines 2), (fun (id : Identifier) (v : Velocity) => v = ⟨(data.velocities id).vx, 0⟩)),
      (Coll.submarines 1, f1, (data.submarines 1), (fun (id : Identifier) (v : Velocity) => v = ⟨(data.velocities id).vx, 0⟩)),
      (Coll.submarines 0, f0, (data.submarines 0), (fun (id : Identifier) (v : Velocity) => v = ⟨(data.velocities id).vx, 0⟩)),
      (Coll.bombs, fb, data.bombs, (fun (_ : Identifier) (_ : Velocity) => True))], t.1 ≠ c2) →
      c2 ≠ .characters → c2.get rt.2 = c2.get R := a4
  clear a1 a2 a3 a4
  clear_value rt
  rename' p1 => prt
  obtain ⟨a1, a2, a3, a4⟩ := loadEach_stage env (EntityManager.loadMissile env data) true
    id (Coll.missiles) data.positions (fun (_ : Identifier) (_ : Velocity) => True) (by simp)
    (fun m => EntityManager.sameCore_refl m) hok data.missiles fm
    (rest) rt.2 R
    [(Coll.torpedoes, ft, data.torpedoes, (fun (_ : Identifier) (_ : Velocity) => True)),
      (Coll.fishes, ff, data.fishes, (fun (id : Identifier) (v : Velocity) => v = ⟨|(data.velocities id).vx|, 0⟩)),
      (Coll.submarines 3, f3, (data.submarines 3), (fun (id : Identifier) (v : Velocity) => v = ⟨(data.velocities id).vx, 0⟩)),
      (Coll.submarines 2, f2, (data.submarines 2), (fun (id : Identifier) (v : Velocity) => v = ⟨(data.velocities id).vx, 0⟩)),
      (Coll.submarines 1, f1, (data.submarines 1), (fun (id : Identifier) (v : Velocity) => v = ⟨(data.velocities id).vx, 0⟩)),
      (Coll.submarines 0, f0, (data.submarines 0), (fun (id : Identifier) (v : Velocity) => v = ⟨(data.velocities id).vx, 0⟩)),
      (Coll.bombs, fb, data.bombs, (fun (_ : Identifier) (_ : Velocity) => True))]
    (fun m2 id _ => EntityManager.makeMissile_made env m2 {} (data.positions id))
    (fun m2 id _ => ⟨fun x _ => EntityManager.makeMissile_velocities env m2 {} (data.positions id) x, fun _ => trivial⟩) q2 hm
    (fun h => hzero (by simp [h])) nm q3
    (by
      intro t ht
      fin_cases ht <;> exact ⟨by simp, by simp⟩)
    (by
      intro t ht x hx hx2
      fin_cases ht
      · exact dT hx (by simp [hx2])
      · exact dF hx (by simp [hx2])
      · exact d3 hx (by simp [hx2])
      · exact d2 hx (by simp [hx2])
      · exact d1 hx (by simp [hx2])
      · exact d0 hx (by simp [hx2])
      · exact dB hx (by simp [hx2]))
    q4 (hempty (Coll.missiles) (by simp) (by simp) (by simp))
  clear q2 q3 q4
  have p1 : rm.1 = true := a1
  have q2 : rm.2.freelist.freeids = rest := a2
  have q3 : EntityManager.Loaded data.positions rm.2
      [(Coll.missiles, fm, data.missiles, (fun (_ : Identifier) (_ : Velocity) => True)),
      (Coll.torpedoes, ft, data.torpedoes, (fun (_ : Identifier) (_ : Velocity) => True)),
      (Coll.fishes, ff, data.fishes, (fun (id : Identifier) (v : Velocity) => v = ⟨|(data.velocities id).vx|, 0⟩)),
      (Coll.submarines 3, f3, (data.submarines 3), (fun (id : Identifier) (v : Velocity) => v = ⟨(data.velocities id).vx, 0⟩)),
      (Coll.submarines 2, f2, (data.submarines 2), (fun (id : Identifier) (v : Velocity) => v = ⟨(data.velocities id).vx, 0⟩)),
      (Coll.submarines 1, f1, (data.submarines 1), (fun (id : Identifier) (v : Velocity) => v = ⟨(data.velocities id).vx, 0⟩)),
      (Coll.submarines 0, f0, (data.submarines 0), (fun (id : Identifier) (v : Velocity) => v = ⟨(data.velocities id).vx, 0⟩)),
      (Coll.bombs, fb, data.bombs, (fun (_ : Identifier) (_ : Velocity) => True))] := a3
  have q4 : ∀ c2 : Coll,
      (∀ t ∈ [(Coll.missiles, fm, data.missiles, (fun (_ : Identifier) (_ : Velocity) => True)),
      (Coll.torpedoes, ft, data.torpedoes, (fun (_ : Identifier) (_ : Velocity) => True)),
      (Coll.fishes, ff, data.fishes, (fun (id : Identifier) (v : Velocity) => v = ⟨|(data.velocities id).vx|, 0⟩)),
      (Coll.submarines 3, f3, (data.submarines 3), (fun (id : Identifier) (v : Velocity) => v = ⟨(data.velocities id).vx, 0⟩)),
      (Coll.submarines 2, f2, (data.submarines 2), (fun (id : Identifier) (v : Velocity) => v = ⟨(data.velocities id).vx, 0⟩)),
      (Coll.submarines 1, f1, (data.submarines 1), (fun (id : Identifier) (v : Velocity) => v = ⟨(data.velocities id).vx, 0⟩)),
      (Coll.submarines 0, f0, (data.submarines 0), (fun (id : Identifier) (v : Velocity) => v = ⟨(data.velocities id).vx, 0⟩)),
      (Coll.bombs, fb, data.bombs, (fun (_ : Identifier) (_ : Velocity) => True))], t.1 ≠ c2) →
      c2 ≠ .characters → c2.get rm.2 = c2.get R := a4
  clear a1 a2 a3 a4
  clear_value rm
  rename' p1 => prm
  simp only [prb, prf, prt, prm, Bool.not_true, Bool.false_eq_true, if_false]
  exact ⟨trivial, q3⟩

theorem EntityManager.length_newIds (em : EntityManager) (skip count : Nat)
    (h : skip + count ≤ em.freelist.freeids.length + em.roundIds.length) :
    (em.newIds skip count).length = count := by
  simp only [EntityManager.newIds, List.length_take, List.length_drop, List.length_append]
  omega

theorem EntityManager.length_roundIds (em : EntityManager) :
    em.roundIds.length = em.fishes.size + em.bombs.size + em.torpedoes.size + em.missiles.size +
      em.boatMissiles.size + em.explosions.size + (em.submarines 0).size +
      (em.submarines 1).size + (em.submarines 2).size + (em.submarines 3).size +
      em.buyLivesIcons.size + em.buyMissilesIcons.size + em.endStoreIcons.size := by
  simp only [EntityManager.roundIds, List.length_append, EMap.size_eq_length_keys]
  omega

theorem EntityManager.mem_roundIds (em : EntityManager) (c : Coll)
    (hc : c ∈ [Coll.bombs, .submarines 0, .submarines 1, .submarines 2, .submarines 3, .fishes,
      .torpedoes, .missiles]) (x : Identifier) (hx : x ∈ (c.get em).keys) : x ∈ em.roundIds := by
  simp only [EntityManager.roundIds, List.mem_append]
  fin_cases hc <;> simp only [Coll.get] at hx <;> tauto

theorem drop_split {α : Type} (l : List α) (a b c : Nat) (h : c = a + b) :
    l.drop a = (l.drop a).take b ++ l.drop c := by
  rw [h, ← List.drop_drop, List.take_append_drop]

/-- C14, amended. Let the collections of the manager be maps (unique keys, every
handle under its own identifier), the identifier pool be sound (the free
identifiers and the identifiers of the entities of the round are distinct and
lie in `[1, 1023]`), the sprite factory succeed and every live submarine have
a position with `y >= 20`. Then `saveGame` into an empty snapshot followed by
`loadGame` returns true and makes every saved entity again: the free list
after `removeAllEntities` is the free identifiers followed by the released
ones, and the loops take their identifiers from its front, first for the
bombs, then for the four submarine collections, the fish, the torpedoes and
the missiles. Every saved collection has as many entities as before; the
position stored at each new identifier is the position that was stored at
the identifier it replaces; for a submarine the velocity stored there has the
saved `vx` (and `vy = 0`), and so it has for a fish whose saved `vx` is not
negative. -/
theorem C14_round_trip_remakes (pm : PlayerModel) (env : Env) (em : EntityManager)
    (hwf : em.WF) (hpool : Pool.Inv ⟨em.freelist, em.roundIds⟩)
    (hok : ∀ T info, (env.spriteMake T info).ok = true)
    (hy : ∀ i : Fin 4, ∀ id ∈ (em.submarines i).keys, ¬ (em.positions id).y < 20) :
    ((em.saveGame {}).1.loadGame pm env (em.saveGame {}).2).1 = true ∧
    ((em.saveGame {}).1.loadGame pm env (em.saveGame {}).2).2.bombs.keys =
      em.newIds 0 em.bombs.size ∧
    (((em.saveGame {}).1.loadGame pm env (em.saveGame {}).2).2.submarines 0).keys =
      em.newIds em.bombs.size (em.submarines 0).size ∧
    (((em.saveGame {}).1.loadGame pm env (em.saveGame {}).2).2.submarines 1).keys =
      em.newIds (em.bombs.size + (em.submarines 0).size) (em.submarines 1).size ∧
    (((em.saveGame {}).1.loadGame pm env (em.saveGame {}).2).2.submarines 2).keys =
      em.newIds (em.bombs.size + (em.submarines 0).size + (em.submarines 1).size)
        (em.submarines 2).size ∧
    (((em.saveGame {}).1.loadGame pm env (em.saveGame {}).2).2.submarines 3).keys =
      em.newIds (em.bombs.size + (em.submarines 0).size + (em.submarines 1).size +
        (em.submarines 2).size) (em.submarines 3).size ∧
    ((em.saveGame {}).1.loadGame pm env (em.saveGame {}).2).2.fishes.keys =
      em.newIds (em.bombs.size + (em.submarines 0).size + (em.submarines 1).size +
        (em.submarines 2).size + (em.submarines 3).size) em.fishes.size ∧
    ((em.saveGame {}).1.loadGame pm env (em.saveGame {}).2).2.torpedoes.keys =
      em.newIds (em.bombs.size + (em.submarines 0).size + (em.submarines 1).size +
        (em.submarines 2).size + (em.submarines 3).size + em.fishes.size) em.torpedoes.size ∧
    ((em.saveGame {}).1.loadGame pm env (em.saveGame {}).2).2.missiles.keys =
      em.newIds (em.bombs.size + (em.submarines 0).size + (em.submarines 1).size +
        (em.submarines 2).size + (em.submarines 3).size + em.fishes.size + em.torpedoes.size)
        em.missiles.size ∧
    (∀ c ∈ [Coll.bombs, .submarines 0, .submarines 1, .submarines 2, .submarines 3, .fishes,
        .torpedoes, .missiles],
      (c.get ((em.saveGame {}).1.loadGame pm env (em.saveGame {}).2).2).size = (c.get em).size ∧
      ∀ p ∈ (c.get ((em.saveGame {}).1.loadGame pm env (em.saveGame {}).2).2).keys.zip
          (c.get em).keys,
        ((em.saveGame {}).1.loadGame pm env (em.saveGame {}).2).2.positions p.1
          = em.positions p.2) ∧
    (∀ i : Fin 4,
      ∀ p ∈ (((em.saveGame {}).1.loadGame pm env (em.saveGame {}).2).2.submarines i).keys.zip
          (em.submarines i).keys,
        ((em.saveGame {}).1.loadGame pm env (em.saveGame {}).2).2.velocities p.1
          = ⟨(em.velocities p.2).vx, 0⟩) ∧
    (∀ p ∈ ((em.saveGame {}).1.loadGame pm env (em.saveGame {}).2).2.fishes.keys.zip
        em.fishes.keys,
      0 ≤ (em.velocities p.2).vx →
      ((em.saveGame {}).1.loadGame pm env (em.saveGame {}).2).2.velocities p.1
        = ⟨(em.velocities p.2).vx, 0⟩) := by
  have hfn : em.freelist.freeids.Nodup := hpool.1
  have hln : em.roundIds.Nodup := hpool.2.1
  have hdj : ∀ x ∈ em.freelist.freeids, x ∉ em.roundIds := hpool.2.2.1
  have hfr : ∀ x ∈ em.freelist.freeids, 1 ≤ x ∧ x ≤ (MAX_NUM_ON_SCREEN_ENTITIES : Int) - 1 :=
    hpool.2.2.2.1
  have hlr : ∀ x ∈ em.roundIds, 1 ≤ x ∧ x ≤ (MAX_NUM_ON_SCREEN_ENTITIES : Int) - 1 :=
    hpool.2.2.2.2
  have hFnodup : (em.freelist.freeids ++ em.roundIds).Nodup :=
    List.nodup_append.2 ⟨hfn, hln, fun a ha hb => hdj a ha hb⟩
  have hF0 : (0 : Identifier) ∉ em.freelist.freeids ++ em.roundIds := by
    intro h
    rcases List.mem_append.1 h with h | h
    · exact absurd (hfr 0 h).1 (by decide)
    · exact absurd (hlr 0 h).1 (by decide)
  have hrange : ∀ c ∈ [Coll.bombs, .submarines 0, .submarines 1, .submarines 2, .submarines 3,
      .fishes, .torpedoes, .missiles], ∀ x ∈ (c.get em).keys,
      0 ≤ x ∧ x < (MAX_NUM_ON_SCREEN_ENTITIES : Int) := by
    intro c hc x hx
    have h := hlr x (EntityManager.mem_roundIds em c hc x hx)
    exact ⟨le_trans (by decide) h.1, Int.lt_of_le_sub_one h.2⟩
  have hpos : ∀ id : Identifier, 0 ≤ id ∧ id < (MAX_NUM_ON_SCREEN_ENTITIES : Int) →
      (em.saveGame {}).2.positions id = em.positions id := by
    intro id hi
    simp only [EntityManager.saveGame, copyArray, if_pos hi]
  have hvelo : ∀ id : Identifier, 0 ≤ id ∧ id < (MAX_NUM_ON_SCREEN_ENTITIES : Int) →
      (em.saveGame {}).2.velocities id = em.velocities id := by
    intro id hi
    simp only [EntityManager.saveGame, copyArray, if_pos hi]
  have db : (em.saveGame {}).2.bombs = em.bombs.keys :=
    (foldl_setInsert_nodup _ [] (hwf .bombs).1).trans (List.nil_append _)
  have ds : ∀ i : Fin 4, (em.saveGame {}).2.submarines i = (em.submarines i).keys :=
    fun i => (foldl_setInsert_nodup _ [] (hwf (.submarines i)).1).trans (List.nil_append _)
  have df : (em.saveGame {}).2.fishes = em.fishes.keys :=
    (foldl_setInsert_nodup _ [] (hwf .fishes).1).trans (List.nil_append _)
  have dt : (em.saveGame {}).2.torpedoes = em.torpedoes.keys :=
    (foldl_setInsert_nodup _ [] (hwf .torpedoes).1).trans (List.nil_append _)
  have dm : (em.saveGame {}).2.missiles = em.missiles.keys :=
    (foldl_setInsert_nodup _ [] (hwf .missiles).1).trans (List.nil_append _)
  have hlen := EntityManager.length_roundIds em
  have hsplit : em.freelist.freeids ++ em.roundIds =
      em.newIds 0 em.bombs.size ++ (em.newIds em.bombs.size (em.submarines 0).size ++
      (em.newIds (em.bombs.size + (em.submarines 0).size) (em.submarines 1).size ++
      (em.newIds (em.bombs.size + (em.submarines 0).size + (em.submarines 1).size)
        (em.submarines 2).size ++
      (em.newIds (em.bombs.size + (em.submarines 0).size + (em.submarines 1).size +
        (em.submarines 2).size) (em.submarines 3).size ++
      (em.newIds (em.bombs.size + (em.submarines 0).size + (em.submarines 1).size +
        (em.submarines 2).size + (em.submarines 3).size) em.fishes.size ++
      (em.newIds (em.bombs.size + (em.submarines 0).size + (em.submarines 1).size +
        (em.submarines 2).size + (em.submarines 3).size + em.fishes.size) em.torpedoes.size ++
      (em.newIds (em.bombs.size + (em.submarines 0).size + (em.submarines 1).size +
        (em.submarines 2).size + (em.submarines 3).size + em.fishes.size + em.torpedoes.size)
        em.missiles.size ++
      (em.freelist.freeids ++ em.roundIds).drop (em.bombs.size + (em.submarines 0).size +
        (em.submarines 1).size + (em.submarines 2).size + (em.submarines 3).size +
        em.fishes.size + em.torpedoes.size + em.missiles.size)))))))) :=
    (drop_split _ 0 _ _ (Nat.zero_add _).symm).trans (congrArg _
      ((drop_split _ _ _ _ rfl).trans (congrArg _
      ((drop_split _ _ _ _ rfl).trans (congrArg _
      ((drop_split _ _ _ _ rfl).trans (congrArg _
      ((drop_split _ _ _ _ rfl).trans (congrArg _
      ((drop_split _ _ _ _ rfl).trans (congrArg _
      ((drop_split _ _ _ _ rfl).trans (congrArg _
      (drop_split _ _ _ _ rfl))))))))))))))
  obtain ⟨rest, hrest⟩ : ∃ rest, rest = (em.freelist.freeids ++ em.roundIds).drop
      (em.bombs.size + (em.submarines 0).size + (em.submarines 1).size +
        (em.submarines 2).size + (em.submarines 3).size + em.fishes.size + em.torpedoes.size +
        em.missiles.size) := ⟨_, rfl⟩
  rw [← hrest] at hsplit
  have hpre : em.freelist.freeids ++ em.roundIds =
      (em.newIds 0 em.bombs.size ++ (em.newIds em.bombs.size (em.submarines 0).size ++
      (em.newIds (em.bombs.size + (em.submarines 0).size) (em.submarines 1).size ++
      (em.newIds (em.bombs.size + (em.submarines 0).size + (em.submarines 1).size)
        (em.submarines 2).size ++
      (em.newIds (em.bombs.size + (em.submarines 0).size + (em.submarines 1).size +
        (em.submarines 2).size) (em.submarines 3).size ++
      (em.newIds (em.bombs.size + (em.submarines 0).size + (em.submarines 1).size +
        (em.submarines 2).size + (em.submarines 3).size) em.fishes.size ++
      (em.newIds (em.bombs.size + (em.submarines 0).size + (em.submarines 1).size +
        (em.submarines 2).size + (em.submarines 3).size + em.fishes.size) em.torpedoes.size ++
      em.newIds (em.bombs.size + (em.submarines 0).size + (em.submarines 1).size +
        (em.submarines 2).size + (em.submarines 3).size + em.fishes.size + em.torpedoes.size)
        em.missiles.size))))))) ++ rest := by
    refine hsplit.trans ?_
    simp only [List.append_assoc]
  obtain ⟨r1, r2⟩ := EntityManager.loadGame_spec pm env em (em.saveGame {}).2 _ _ _ _ _ _ _ _ _
    hok
    (by
      intro i id hid
      rw [ds i] at hid
      rw [hpos id (hrange (.submarines i) (by fin_cases i <;> simp) id hid)]
      exact hy i id hid)
    ((EntityManager.removeAllEntities_freelist pm env em hwf).trans hsplit)
    (List.nodup_append.1 (hpre ▸ hFnodup)).1
    (fun h => hF0 (by rw [hpre]; exact List.mem_append_left _ h))
    (by rw [db, ← EMap.size_eq_length_keys]; exact EntityManager.length_newIds em _ _ (by omega))
    (by rw [ds 0, ← EMap.size_eq_length_keys]; exact EntityManager.length_newIds em _ _ (by omega))
    (by rw [ds 1, ← EMap.size_eq_length_keys]; exact EntityManager.length_newIds em _ _ (by omega))
    (by rw [ds 2, ← EMap.size_eq_length_keys]; exact EntityManager.length_newIds em _ _ (by omega))
    (by rw [ds 3, ← EMap.size_eq_length_keys]; exact EntityManager.length_newIds em _ _ (by omega))
    (by rw [df, ← EMap.size_eq_length_keys]; exact EntityManager.length_newIds em _ _ (by omega))
    (by rw [dt, ← EMap.size_eq_length_keys]; exact EntityManager.length_newIds em _ _ (by omega))
    (by rw [dm, ← EMap.size_eq_length_keys]; exact EntityManager.length_newIds em _ _ (by omega))
  rw [db, ds 0, ds 1, ds 2, ds 3, df, dt, dm] at r2
  have gm := r2 _ (List.mem_cons_self _ _)
  have gt := r2 _ (List.mem_cons_of_mem _ (List.mem_cons_self _ _))
  have gf := r2 _ (List.mem_cons_of_mem _ (List.mem_cons_of_mem _ (List.mem_cons_self _ _)))
  have g3 := r2 _ (List.mem_cons_of_mem _ (List.mem_cons_of_mem _ (List.mem_cons_of_mem _
    (List.mem_cons_self _ _))))
  have g2 := r2 _ (List.mem_cons_of_mem _ (List.mem_cons_of_mem _ (List.mem_cons_of_mem _
    (List.mem_cons_of_mem _ (List.mem_cons_self _ _)))))
  have g1 := r2 _ (List.mem_cons_of_mem _ (List.mem_cons_of_mem _ (List.mem_cons_of_mem _
    (List.mem_cons_of_mem _ (List.mem_cons_of_mem _ (List.mem_cons_self _ _))))))
  have g0 := r2 _ (List.mem_cons_of_mem _ (List.mem_cons_of_mem _ (List.mem_cons_of_mem _
    (List.mem_cons_of_mem _ (List.mem_cons_of_mem _ (List.mem_cons_of_mem _
      (List.mem_cons_self _ _)))))))
  have gb := r2 _ (List.mem_cons_of_mem _ (List.mem_cons_of_mem _ (List.mem_cons_of_mem _
    (List.mem_cons_of_mem _ (List.mem_cons_of_mem _ (List.mem_cons_of_mem _
      (List.mem_cons_of_mem _ (List.mem_cons_self _ _))))))))
  clear r2
  have hall : ∀ c ∈ [Coll.bombs, .submarines 0, .submarines 1, .submarines 2, .submarines 3,
      .fishes, .torpedoes, .missiles], ∀ (fresh : List Identifier)
      (good : Identifier → Velocity → Prop),
      ((c.get (em.loadGame pm env (em.saveGame {}).2).2).keys = fresh ∧
        ∀ p ∈ fresh.zip (c.get em).keys,
          (em.loadGame pm env (em.saveGame {}).2).2.positions p.1
            = (em.saveGame {}).2.positions p.2 ∧
          good p.2 ((em.loadGame pm env (em.saveGame {}).2).2.velocities p.1)) →
      fresh.length = (c.get em).size →
      (c.get (em.loadGame pm env (em.saveGame {}).2).2).size = (c.get em).size ∧
      ∀ p ∈ (c.get (em.loadGame pm env (em.saveGame {}).2).2).keys.zip (c.get em).keys,
        (em.loadGame pm env (em.saveGame {}).2).2.positions p.1 = em.positions p.2 := by
    intro c hc fresh good hg hl
    refine ⟨?_, ?_⟩
    · rw [EMap.size_eq_length_keys, hg.1, hl]
    · intro p hp
      rw [hg.1] at hp
      rw [(hg.2 p hp).1]
      exact hpos p.2 (hrange c hc p.2 (List.of_mem_zip hp).2)
  have lb := EntityManager.length_newIds em 0 em.bombs.size (by omega)
  have l0 := EntityManager.length_newIds em em.bombs.size (em.submarines 0).size (by omega)
  have l1 := EntityManager.length_newIds em (em.bombs.size + (em.submarines 0).size)
    (em.submarines 1).size (by omega)
  have l2 := EntityManager.length_newIds em (em.bombs.size + (em.submarines 0).size +
    (em.submarines 1).size) (em.submarines 2).size (by omega)
  have l3 := EntityManager.length_newIds em (em.bombs.size + (em.submarines 0).size +
    (em.submarines 1).size + (em.submarines 2).size) (em.submarines 3).size (by omega)
  have lf := EntityManager.length_newIds em (em.bombs.size + (em.submarines 0).size +
    (em.submarines 1).size + (em.submarines 2).size + (em.submarines 3).size) em.fishes.size
    (by omega)
  have lt := EntityManager.length_newIds em (em.bombs.size + (em.submarines 0).size +
    (em.submarines 1).size + (em.submarines 2).size + (em.submarines 3).size + em.fishes.size)
    em.torpedoes.size (by omega)
  have lm := EntityManager.length_newIds em (em.bombs.size + (em.submarines 0).size +
    (em.submarines 1).size + (em.submarines 2).size + (em.submarines 3).size + em.fishes.size +
    em.torpedoes.size) em.missiles.size (by omega)
  refine ⟨r1, gb.1, g0.1, g1.1, g2.1, g3.1, gf.1, gt.1, gm.1, ?_, ?_, ?_⟩
  · intro c hc
    have hc2 := hc
    fin_cases hc
    · exact hall _ hc2 _ _ gb lb
    · exact hall _ hc2 _ _ g0 l0
    · exact hall _ hc2 _ _ g1 l1
    · exact hall _ hc2 _ _ g2 l2
    · exact hall _ hc2 _ _ g3 l3
    · exact hall _ hc2 _ _ gf lf
    · exact hall _ hc2 _ _ gt lt
    · exact hall _ hc2 _ _ gm lm
  · intro i p hp
    have hsub : ∀ (j : Fin 4) (fresh : List Identifier),
        (((Coll.submarines j).get (em.loadGame pm env (em.saveGame {}).2).2).keys = fresh ∧
          ∀ p ∈ fresh.zip (em.submarines j).keys,
            (em.loadGame pm env (em.saveGame {}).2).2.positions p.1
              = (em.saveGame {}).2.positions p.2 ∧
            (em.loadGame pm env (em.saveGame {}).2).2.velocities p.1
              = ⟨((em.saveGame {}).2.velocities p.2).vx, 0⟩) →
        ∀ p ∈ ((em.loadGame pm env (em.saveGame {}).2).2.submarines j).keys.zip
            (em.submarines j).keys,
          (em.loadGame pm env (em.saveGame {}).2).2.velocities p.1
            = ⟨(em.velocities p.2).vx, 0⟩ := by
      intro j fresh hg p hp
      have hk : ((em.loadGame pm env (em.saveGame {}).2).2.submarines j).keys = fresh := hg.1
      rw [hk] at hp
      rw [(hg.2 p hp).2, hvelo p.2 (hrange (.submarines j) (by fin_cases j <;> simp) p.2
        (List.of_mem_zip hp).2)]
    fin_cases i
    · exact hsub 0 _ g0 p hp
    · exact hsub 1 _ g1 p hp
    · exact hsub 2 _ g2 p hp
    · exact hsub 3 _ g3 p hp
  · intro p hp hnn
    have hp2 := hp
    rw [show ((em.saveGame {}).1.loadGame pm env (em.saveGame {}).2).2.fishes.keys = _ from gf.1]
      at hp2
    have hv : (em.loadGame pm env (em.saveGame {}).2).2.velocities p.1
        = ⟨|((em.saveGame {}).2.velocities p.2).vx|, 0⟩ := (gf.2 p hp2).2
    have hr := hrange .fishes (by simp) p.2 (List.of_mem_zip hp2).2
    rw [hvelo p.2 hr, abs_of_nonneg hnn] at hv
    exact hv

theorem savedRound_WF : savedRound.WF :=
  Coll.add_WF (.submarines 1) _ _
    (EntityManager.WF_of_live
      (EntityManager.makeSubmarine_made Env.succeeding bombStage.entityManager {} ⟨100, 50⟩ .Left
        3 .II 100 1000 (by decide)).1 bombStage_WF)

theorem savedRound_pool : Pool.Inv ⟨savedRound.freelist, savedRound.roundIds⟩ := by
  have hf : savedRound.freelist.freeids = generate 1021 3 := rfl
  have hl : savedRound.roundIds = [1, 2] := rfl
  refine ⟨?_, ?_, ?_, ?_, ?_⟩
  · show savedRound.freelist.freeids.Nodup
    rw [hf]
    exact nodup_generate _ _
  · show savedRound.roundIds.Nodup
    rw [hl]
    decide
  · intro x hx
    change x ∈ savedRound.freelist.freeids at hx
    show x ∉ savedRound.roundIds
    rw [hf, mem_generate] at hx
    rw [hl]
    intro h
    simp only [List.mem_cons, List.mem_singleton, List.not_mem_nil, or_false] at h
    omega
  · intro x hx
    change x ∈ savedRound.freelist.freeids at hx
    rw [hf, mem_generate] at hx
    simp only [MAX_NUM_ON_SCREEN_ENTITIES]
    omega
  · intro x hx
    change x ∈ savedRound.roundIds at hx
    rw [hl] at hx
    simp only [List.mem_cons, List.mem_singleton, List.not_mem_nil, or_false] at hx
    simp only [MAX_NUM_ON_SCREEN_ENTITIES]
    omega

theorem savedRound_deep :
    ∀ i : Fin 4, ∀ id ∈ (savedRound.submarines i).keys, ¬ (savedRound.positions id).y < 20 := by
  intro i id hid
  fin_cases i
  · exact absurd hid (List.not_mem_nil _)
  · have h : id = 2 := List.mem_singleton.1 hid
    subst h
    decide
  · exact absurd hid (List.not_mem_nil _)
  · exact absurd hid (List.not_mem_nil _)

/-- Witness of C14: the round with the live bomb 1 and the live submarine 2 of
type II, whose velocity is `{-3, 0}`. After `saveGame` and `loadGame` the
bomb has the identifier 3 and the submarine the identifier 4, with the saved
`vx`. -/
theorem C14_round_trip_remakes_witness :
    savedRound.WF ∧ Pool.Inv ⟨savedRound.freelist, savedRound.roundIds⟩ ∧
    savedRound.bombs.keys = [1] ∧ (savedRound.submarines 1).keys = [2] ∧
    (savedRound.velocities 2).vx = -3 ∧
    ((savedRound.saveGame {}).1.loadGame PlayerModel.quiet Env.succeeding
      (savedRound.saveGame {}).2).1 = true ∧
    ((savedRound.saveGame {}).1.loadGame PlayerModel.quiet Env.succeeding
      (savedRound.saveGame {}).2).2.bombs.keys = [3] ∧
    (((savedRound.saveGame {}).1.loadGame PlayerModel.quiet Env.succeeding
      (savedRound.saveGame {}).2).2.submarines 1).keys = [4] ∧
    ((savedRound.saveGame {}).1.loadGame PlayerModel.quiet Env.succeeding
      (savedRound.saveGame {}).2).2.velocities 4 = ⟨(savedRound.velocities 2).vx, 0⟩ :=
  ⟨savedRound_WF, savedRound_pool, rfl, rfl, by decide,
    (C14_round_trip_remakes PlayerModel.quiet Env.succeeding savedRound savedRound_WF
      savedRound_pool (fun _ _ => rfl) savedRound_deep).1,
    (C14_round_trip_remakes PlayerModel.quiet Env.succeeding savedRound savedRound_WF
      savedRound_pool (fun _ _ => rfl) savedRound_deep).2.1.trans rfl,
    (C14_round_trip_remakes PlayerModel.quiet Env.succeeding savedRound savedRound_WF
      savedRound_pool (fun _ _ => rfl) savedRound_deep).2.2.2.1.trans rfl,
    (C14_round_trip_remakes PlayerModel.quiet Env.succeeding savedRound savedRound_WF
      savedRound_pool (fun _ _ => rfl) savedRound_deep).2.2.2.2.2.2.2.2.2.2.1 1 (4, 2)
      (show ((4 : Identifier), (2 : Identifier)) ∈ [((4 : Identifier), (2 : Identifier))] from
        List.mem_singleton.2 rfl)⟩

/-! ## Factories in detail: claims C24, C28 and C29 -/

/-- C24 at its failing input. `makeFish` never reads its `direction` argument:
the call with `Left` is the call with `Right`, and on a new manager
`makeFish(fish, {1998, 300}, Direction::Left, 3)` succeeds with identifier 1 and
stores the x-velocity `+3`, where `makeSubmarine` with the same arguments stores
`-3`. -/
theorem C24_makeFish_ignores_direction :
    (∀ (env : Env) (em : EntityManager) (fish : Entity) (position : Position) (x_velocity : Rat),
      em.makeFish env fish position .Left x_velocity =
        em.makeFish env fish position .Right x_velocity) ∧
    (({} : EntityManager).makeFish Env.succeeding {} ⟨1998, 300⟩ .Left 3).1 = true ∧
    (({} : EntityManager).makeFish Env.succeeding {} ⟨1998, 300⟩ .Left 3).2.2.identifier = 1 ∧
    ((({} : EntityManager).makeFish Env.succeeding {} ⟨1998, 300⟩ .Left 3).2.1.velocities 1).vx
      = 3 ∧
    (({} : EntityManager).makeSubmarine Env.succeeding {} ⟨1998, 300⟩ .Left 3 .I 100 1000).1
      = true ∧
    ((({} : EntityManager).makeSubmarine Env.succeeding {} ⟨1998, 300⟩ .Left 3 .I 100
      1000).2.1.velocities 1).vx = -3 := by
  refine ⟨fun _ _ _ _ _ => rfl, rfl, rfl, ?_, rfl, ?_⟩
  · decide
  · decide

/-- Claim C28: `makeSubmarine` called with `position.y < 20` returns false and
has no side effect: the manager afterwards is the manager before, so the free
list is unchanged (no identifier was allocated) and no component array slot was
written, and the handle afterwards is the handle passed in, so its identifier
and bitmask are unchanged. -/
theorem C28_makeSubmarine_shallow_rejected (env : Env) (em : EntityManager) (submarine : Entity)
    (position : Position) (direction : Direction) (x_velocity : Rat) (type : SubmarineType)
    (score : Nat) (radarRadius : Rat) (hy : position.y < 20) :
    (em.makeSubmarine env submarine position direction x_velocity type score radarRadius).1
      = false ∧
    (em.makeSubmarine env submarine position direction x_velocity type score radarRadius).2.1
      = em ∧
    (em.makeSubmarine env submarine position direction x_velocity type score
      radarRadius).2.1.freelist = em.freelist ∧
    (em.makeSubmarine env submarine position direction x_velocity type score
      radarRadius).2.2.identifier = submarine.identifier ∧
    (em.makeSubmarine env submarine position direction x_velocity type score
      radarRadius).2.2.components = submarine.components := by
  rw [EntityManager.makeSubmarine_low env em submarine position direction x_velocity type score
    radarRadius hy]
  exact ⟨rfl, rfl, rfl, rfl, rfl⟩

theorem C28_makeSubmarine_shallow_rejected_witness :
    (⟨100, 10⟩ : Position).y < 20 ∧
    (({} : EntityManager).makeSubmarine Env.succeeding {} ⟨100, 10⟩ .Right 3 .I 100 1000).1
      = false ∧
    (({} : EntityManager).makeSubmarine Env.succeeding {} ⟨100, 10⟩ .Right 3 .I 100 1000).2.1
      = {} :=
  ⟨by decide,
    (C28_makeSubmarine_shallow_rejected Env.succeeding {} {} ⟨100, 10⟩ .Right 3 .I 100 1000
      (by decide)).1,
    (C28_makeSubmarine_shallow_rejected Env.succeeding {} {} ⟨100, 10⟩ .Right 3 .I 100 1000
      (by decide)).2.1⟩

/-- Claim C29: when the free list is non-empty with a non-null identifier `id`
at its front and the sprite factory fails inside `make`, `make` returns false
and leaves the identifier and the bitmask of the handle as they were; the free
list afterwards is the old one without its front (`id` is not given back, the
list is shorter by one), `sprites[id]` points at the sprite slot of `id` and
that slot holds what the failed factory call left in it. -/
theorem C29_sprite_failure_consumes_identifier (env : Env) (em : EntityManager)
    (entity : Entity) (T : EntityType) (position : Position) (scale : vec2) (color : vec4)
    (radians : Rat) (isAnimated : Bool) (info : Option CharAttribute) (id : Identifier)
    (rest : List Identifier) (hfl : em.freelist.freeids = id :: rest) (hid : id ≠ 0)
    (hfail : (env.spriteMake T info).ok = false) :
    (em.make env entity T position scale color radians isAnimated info).1 = false ∧
    (em.make env entity T position scale color radians isAnimated info).2.2.identifier
      = entity.identifier ∧
    (em.make env entity T position scale color radians isAnimated info).2.2.components
      = entity.components ∧
    (em.make env entity T position scale color radians isAnimated info).2.1.freelist.freeids
      = rest ∧
    (em.make env entity T position scale color radians isAnimated
      info).2.1.freelist.freeids.length + 1 = em.freelist.freeids.length ∧
    (em.make env entity T position scale color radians isAnimated info).2.1.sprites id
      = some (if isAnimated then SpriteRef.asprite id else SpriteRef.ssprite id) ∧
    (if isAnimated
      then (em.make env entity T position scale color radians isAnimated info).2.1.asprites id
      else (em.make env entity T position scale color radians isAnimated info).2.1.ssprites id)
      = (env.spriteMake T info).sprite := by
  have halloc := FreeList.alloc_cons em.freelist id rest hfl
  have h1 : em.freelist.alloc.1 = id := by rw [halloc]
  have h2 : em.freelist.alloc.2 = ⟨rest⟩ := by rw [halloc]
  have h0 : ¬ em.freelist.alloc.1 = 0 := by rw [h1]; exact hid
  have hmake : (em.make env entity T position scale color radians isAnimated info).1 = false ∧
      (em.make env entity T position scale color radians isAnimated info).2.1 =
        ({ em with
           freelist := em.freelist.alloc.2
           sprites := Function.update em.sprites em.freelist.alloc.1
              (some (if isAnimated then SpriteRef.asprite em.freelist.alloc.1
                else SpriteRef.ssprite em.freelist.alloc.1)) } : EntityManager).writeSprite
          (if isAnimated then SpriteRef.asprite em.freelist.alloc.1
                else SpriteRef.ssprite em.freelist.alloc.1) (env.spriteMake T info).sprite := by
    simp only [EntityManager.make, if_neg h0, hfail, Bool.not_false, if_true, and_self]
  have hent : (em.make env entity T position scale color radians isAnimated info).2.2.identifier
        = entity.identifier ∧
      (em.make env entity T position scale color radians isAnimated info).2.2.components
        = entity.components := by
    cases info <;>
      simp only [EntityManager.make, if_neg h0, hfail, Bool.not_false, if_true, and_self]
  rw [hmake.1, hmake.2, h1, h2]
  refine ⟨rfl, hent.1, hent.2, ?_, ?_, ?_, ?_⟩
  · cases isAnimated <;> rfl
  · rw [hfl]; cases isAnimated <;> rfl
  · cases isAnimated <;> simp [EntityManager.writeSprite]
  · cases isAnimated <;> simp [EntityManager.writeSprite]

theorem C29_sprite_failure_consumes_identifier_witness :
    ({ freelist := ⟨[4, 5]⟩ } : EntityManager).freelist.freeids = [4, 5] ∧
    (EntityManager.make ⟨fun _ _ => ⟨false, {}, {}⟩, fun _ _ _ => (⟨0, 0⟩, ⟨0, 0⟩)⟩
      { freelist := ⟨[4, 5]⟩ } {} .Bomb ⟨0, 5⟩ ⟨1, 1⟩ ⟨1, 1, 1, 1⟩ 0 false none).1 = false ∧
    (EntityManager.make ⟨fun _ _ => ⟨false, {}, {}⟩, fun _ _ _ => (⟨0, 0⟩, ⟨0, 0⟩)⟩
      { freelist := ⟨[4, 5]⟩ } {} .Bomb ⟨0, 5⟩ ⟨1, 1⟩ ⟨1, 1, 1, 1⟩ 0 false
      none).2.1.freelist.freeids = [5] :=
  ⟨rfl,
    (C29_sprite_failure_consumes_identifier
      ⟨fun _ _ => ⟨false, {}, {}⟩, fun _ _ _ => (⟨0, 0⟩, ⟨0, 0⟩)⟩
      { freelist := ⟨[4, 5]⟩ } {} .Bomb ⟨0, 5⟩ ⟨1, 1⟩ ⟨1, 1, 1, 1⟩ 0 false none 4 [5] rfl
      (by decide) rfl).1,
    (C29_sprite_failure_consumes_identifier
      ⟨fun _ _ => ⟨false, {}, {}⟩, fun _ _ _ => (⟨0, 0⟩, ⟨0, 0⟩)⟩
      { freelist := ⟨[4, 5]⟩ } {} .Bomb ⟨0, 5⟩ ⟨1, 1⟩ ⟨1, 1, 1, 1⟩ 0 false none 4 [5] rfl
      (by decide) rfl).2.2.2.1⟩

/-! ## The game-over flags: claim C30 -/

theorem EntityManager.deinitComponent_running (em : EntityManager) (index : Nat)
    (id : Identifier) : (em.deinitComponent index id).gameIsRunning = em.gameIsRunning := by
  unfold EntityManager.deinitComponent
  split
  · split
    · rename_i ref _
      cases ref <;> rfl
    · rfl
  all_goals first
    | rfl
    | (split <;> rfl)

theorem EntityManager.deinitLoop_running (fuel : Nat) (em : EntityManager) (id : Identifier)
    (bitmap : Nat) :
    (EntityManager.deinitLoop fuel em id bitmap).gameIsRunning = em.gameIsRunning := by
  induction fuel generalizing em bitmap with
  | zero => rfl
  | succ fuel ih =>
    unfold EntityManager.deinitLoop
    split
    · rfl
    · exact (ih _ _).trans (EntityManager.deinitComponent_running em _ id)

theorem EntityManager.removeEntity_running (em : EntityManager) (e : Entity) :
    (em.removeEntity e).gameIsRunning = em.gameIsRunning := by
  unfold EntityManager.removeEntity EntityManager.setDistort
  exact EntityManager.deinitLoop_running e.components
    { em with log := em.log ++ em.delegates.map (fun d => (d, Event.didRemoveEntity e)) }
    e.identifier e.components

theorem Kind.remove_running (k : Kind) (em : EntityManager) (id : Identifier) :
    (k.remove em id).gameIsRunning = em.gameIsRunning := by
  cases k <;>
    simp only [Kind.remove, EntityManager.removeFish, EntityManager.removeBomb,
      EntityManager.removeTorpedo, EntityManager.removeMissile, EntityManager.removeBoatMissile,
      EntityManager.removeBuyLives, EntityManager.removeBuyMissiles,
      EntityManager.removeEndStore, EntityManager.removeExplosion, EntityManager.removeSmoke,
      EntityManager.removeCharacter] <;>
    split <;>
    first
      | rfl
      | exact EntityManager.removeEntity_running em _

theorem EntityManager.removeSubmarineFrom_running (em : EntityManager) (id : Identifier)
    (indices : List (Fin 4)) :
    (em.removeSubmarineFrom id indices).gameIsRunning = em.gameIsRunning := by
  induction indices with
  | nil => rfl
  | cons index rest ih =>
    unfold EntityManager.removeSubmarineFrom
    split
    · exact EntityManager.removeEntity_running em _
    · exact ih

theorem updateDigits_running (env : Env) (numericOld numericNew : List Char)
    (identifiers : List Identifier) (base : Nat) (indices : List Nat) :
    ∀ em : EntityManager,
      (updateDigits env numericOld numericNew identifiers base indices em).2.gameIsRunning
        = em.gameIsRunning := by
  induction indices with
  | nil => exact fun em => rfl
  | cons index rest ih =>
    intro em
    rw [updateDigits]
    split
    · lift_lets
      intro id ch src ch2 em1 out ch3 em2
      have h2 : em2.gameIsRunning = em.gameIsRunning := rfl
      clear_value em2
      split
      · exact h2
      · exact (ih em2).trans h2
    · exact ih em

theorem EntityManager.updateFormattedNumberLabel_running (env : Env) (em : EntityManager)
    (numberLabel : FormattedNumberLabel) (newValue : Nat) :
    (em.updateFormattedNumberLabel env numberLabel newValue).2.1.gameIsRunning
      = em.gameIsRunning := by
  unfold EntityManager.updateFormattedNumberLabel
  split
  · rfl
  · lift_lets
    intro width numericOld numericNew base r
    have h := updateDigits_running env numericOld numericNew numberLabel.label.identifiers base
      (List.range width) em
    split <;> exact h

theorem EntityManager.playerDelegate_running (pm : PlayerModel) (env : Env)
    (em : EntityManager) (event : PlayerEvent) :
    (em.playerDelegate pm env event).gameIsRunning = em.gameIsRunning := by
  cases event with
  | playerScoreDidChange n =>
    show (if pm.softAsserts then (em.updateScoreLabel env n).2 else em).gameIsRunning = _
    split
    · exact EntityManager.updateFormattedNumberLabel_running env em em.scoreLabel n
    · rfl
  | playerMoneyDidChange n =>
    show (if pm.softAsserts then (em.updateMoneyLabel env n).2 else em).gameIsRunning = _
    split
    · exact EntityManager.updateFormattedNumberLabel_running env em em.moneyLabel n
    · rfl
  | playerBoatLivesDidChange n =>
    show (if pm.softAsserts then (em.updateBoatLivesLabel env n).2 else em).gameIsRunning = _
    split
    · exact EntityManager.updateFormattedNumberLabel_running env em em.livesLabel n
    · rfl
  | playerDidLoseAllLives => rfl

theorem EntityManager.playerDelegates_running (pm : PlayerModel) (env : Env)
    (events : List PlayerEvent) :
    ∀ em : EntityManager,
      (events.foldl (EntityManager.playerDelegate pm env) em).gameIsRunning
        = em.gameIsRunning := by
  induction events with
  | nil => exact fun em => rfl
  | cons event rest ih =>
    intro em
    rw [List.foldl_cons]
    exact (ih _).trans (EntityManager.playerDelegate_running pm env em event)

theorem EntityManager.playerCall_running (pm : PlayerModel) (env : Env) (em : EntityManager)
    (method : PlayerMethod) :
    (em.playerCall pm env method).2.gameIsRunning = em.gameIsRunning := by
  unfold EntityManager.playerCall
  exact EntityManager.playerDelegates_running pm env _ _

theorem drain_running (get : EntityManager → EMap)
    (remove : EntityManager → Identifier → EntityManager) (after : EntityManager → EntityManager)
    (hremove : ∀ m id, (remove m id).gameIsRunning = m.gameIsRunning)
    (hafter : ∀ m : EntityManager, (after m).gameIsRunning = m.gameIsRunning) :
    ∀ (fuel : Nat) (m : EntityManager),
      (EntityManager.drain get remove after fuel m).gameIsRunning = m.gameIsRunning := by
  intro fuel
  induction fuel with
  | zero => exact fun m => rfl
  | succ fuel ih =>
    intro m
    unfold EntityManager.drain
    split
    · rfl
    · exact (ih _).trans ((hafter _).trans (hremove _ _))

theorem EntityManager.removeAllEntities_running (pm : PlayerModel) (env : Env)
    (em : EntityManager) :
    (em.removeAllEntities pm env).gameIsRunning = em.gameIsRunning := by
  have hk : ∀ k : Kind, ∀ (get : EntityManager → EMap) (fuel : Nat) (m : EntityManager),
      (EntityManager.drain get k.remove id fuel m).gameIsRunning = m.gameIsRunning :=
    fun k get => drain_running get k.remove id (Kind.remove_running k) (fun _ => rfl)
  have hs : ∀ (get : EntityManager → EMap) (fuel : Nat) (m : EntityManager),
      (EntityManager.drain get EntityManager.removeSubmarine id fuel m).gameIsRunning
        = m.gameIsRunning :=
    fun get => drain_running get EntityManager.removeSubmarine id
      (fun m i => EntityManager.removeSubmarineFrom_running m i _) (fun _ => rfl)
  have hb : ∀ (get : EntityManager → EMap) (fuel : Nat) (m : EntityManager),
      (EntityManager.drain get EntityManager.removeBomb
        (fun m => (m.playerCall pm env .incrementNumAvailableBombs).2) fuel m).gameIsRunning
        = m.gameIsRunning :=
    fun get => drain_running get EntityManager.removeBomb _ (Kind.remove_running .bomb)
      (fun m => EntityManager.playerCall_running pm env m _)
  unfold EntityManager.removeAllEntities
  lift_lets
  intro m1 m2 m3 m4 m5 m6 m7 m8 m9 m9a m10 m11
  have q1 : m1.gameIsRunning = em.gameIsRunning := hk .fish _ _ _
  clear_value m1
  have q2 : m2.gameIsRunning = em.gameIsRunning := (hb _ _ _).trans q1
  clear_value m2
  have q3 : m3.gameIsRunning = em.gameIsRunning := (hk .torpedo _ _ _).trans q2
  clear_value m3
  have q4 : m4.gameIsRunning = em.gameIsRunning := (hk .missile _ _ _).trans q3
  clear_value m4
  have q5 : m5.gameIsRunning = em.gameIsRunning := (hk .boatMissile _ _ _).trans q4
  clear_value m5
  have q6 : m6.gameIsRunning = em.gameIsRunning := (hk .explosion _ _ _).trans q5
  clear_value m6
  have q7 : m7.gameIsRunning = em.gameIsRunning := (hs _ _ _).trans q6
  clear_value m7
  have q8 : m8.gameIsRunning = em.gameIsRunning := (hs _ _ _).trans q7
  clear_value m8
  have q9 : m9.gameIsRunning = em.gameIsRunning := (hs _ _ _).trans q8
  clear_value m9
  have q9a : m9a.gameIsRunning = em.gameIsRunning := (hs _ _ _).trans q9
  clear_value m9a
  have q10 : m10.gameIsRunning = em.gameIsRunning := (hk .buyLives _ _ _).trans q9a
  clear_value m10
  have q11 : m11.gameIsRunning = em.gameIsRunning := (hk .buyMissiles _ _ _).trans q10
  clear_value m11
  exact (hk .endStore _ _ _).trans q11

theorem EntityManager.make_running (env : Env) (em : EntityManager) (entity : Entity)
    (T : EntityType) (position : Position) (scale : vec2) (color : vec4) (radians : Rat)
    (isAnimated : Bool) (info : Option CharAttribute) :
    (em.make env entity T position scale color radians isAnimated info).2.1.gameIsRunning
      = em.gameIsRunning := by
  by_cases h0 : em.freelist.alloc.1 = 0
  · simp only [EntityManager.make, h0, if_true]
  · cases hok : (env.spriteMake T info).ok <;>
      simp only [EntityManager.make, if_neg h0, hok, Bool.not_false, Bool.not_true, if_true,
        Bool.false_eq_true, if_false] <;>
      cases isAnimated <;> rfl

theorem EntityManager.makeStringLabelLoop_running (env : Env) (font : Font) (color : vec4)
    (psize : Nat) (string : List Char) :
    ∀ (em : EntityManager) (label : Entity) (position : Position),
      (em.makeStringLabelLoop env font color psize string label position).2.1.gameIsRunning
        = em.gameIsRunning := by
  induction string with
  | nil => exact fun em label position => rfl
  | cons ch rest ih =>
    intro em label position
    unfold EntityManager.makeStringLabelLoop
    have h : (em.makeCharacter env {} position ch font color psize).2.1.gameIsRunning
        = em.gameIsRunning := EntityManager.make_running _ _ _ _ _ _ _ _ _ _
    generalize em.makeCharacter env {} position ch font color psize = r at h ⊢
    obtain ⟨ok, em1, e1⟩ := r
    cases ok
    · exact h
    · simp only [Bool.not_true, Bool.false_eq_true, if_false]
      exact (ih _ _ _).trans h

theorem EntityManager.makeStringLabel_running (env : Env) (em : EntityManager) (label : Entity)
    (position : Position) (font : Font) (color : vec4) (psize : Nat) (string : List Char) :
    (em.makeStringLabel env label position font color psize string).2.1.gameIsRunning
      = em.gameIsRunning :=
  EntityManager.makeStringLabelLoop_running env font color psize string em _ position

theorem EntityManager.setupOutroUI_running (env : Env) (em : EntityManager) :
    (em.setupOutroUI env).2.gameIsRunning = em.gameIsRunning := by
  unfold EntityManager.setupOutroUI
  lift_lets
  intro r1 s1 m1 r2 s2 m2 r3 s3 m3 r4 s4 m4 r5
  have q1 : m1.gameIsRunning = em.gameIsRunning :=
    EntityManager.makeStringLabel_running env em _ _ _ _ _ _
  clear_value m1
  have q2 : m2.gameIsRunning = em.gameIsRunning :=
    (EntityManager.makeStringLabel_running env m1 _ _ _ _ _ _).trans q1
  clear_value m2
  have q3 : m3.gameIsRunning = em.gameIsRunning :=
    (EntityManager.makeStringLabel_running env m2 _ _ _ _ _ _).trans q2
  clear_value m3
  have q4 : m4.gameIsRunning = em.gameIsRunning :=
    (EntityManager.makeStringLabel_running env m3 _ _ _ _ _ _).trans q3
  clear_value m4
  exact (EntityManager.makeStringLabel_running env m4 _ _ _ _ _ _).trans q4

theorem EntityManager.checkIfGameOver_running (pm : PlayerModel) (env : Env)
    (em : EntityManager) (h : em.gameIsOver = true) :
    (em.checkIfGameOver pm env).2.gameIsRunning = false := by
  unfold EntityManager.checkIfGameOver
  rw [if_pos h]
  cases hr : em.gameIsRunning
  · simp only [Bool.false_eq_true, if_false]
    exact hr
  · simp only [if_true]
    exact (EntityManager.setupOutroUI_running env _).trans
      (EntityManager.removeAllEntities_running pm env _)

theorem EntityManager.checkIfGameOver_quiet (pm : PlayerModel) (env : Env)
    (em : EntityManager) (h : (em.gameIsOver && em.gameIsRunning) = false) :
    em.checkIfGameOver pm env = (em.gameIsOver, em) := by
  unfold EntityManager.checkIfGameOver
  cases ho : em.gameIsOver
  · simp
  · rw [ho] at h
    have hr : em.gameIsRunning = false := by simpa using h
    simp [hr]

theorem EntityManager.teardowns_stopped (pm : PlayerModel) (env : Env) (ops : List GameOp) :
    ∀ em : EntityManager, (∀ op ∈ ops, op ≠ GameOp.signalGameOver false) →
      em.gameIsRunning = false → EntityManager.teardowns pm env em ops = 0 := by
  induction ops with
  | nil => exact fun _ _ _ => rfl
  | cons op rest ih =>
    intro em hops hr
    have hrest : ∀ o ∈ rest, o ≠ GameOp.signalGameOver false :=
      fun o ho => hops o (List.mem_cons_of_mem _ ho)
    cases op with
    | signalGameOver over =>
      cases over
      · exact absurd rfl (hops _ (List.mem_cons_self _ _))
      · have hrun : (GameOp.run pm env em (.signalGameOver true)).gameIsRunning = false := hr
        simp only [EntityManager.teardowns, GameOp.tearsDown, Bool.false_eq_true, if_false,
          Nat.zero_add]
        exact ih _ hrest hrun
    | checkIfGameOver =>
      have hq := EntityManager.checkIfGameOver_quiet pm env em (by rw [hr]; simp)
      have hrun : (GameOp.run pm env em .checkIfGameOver) = em := by
        show (em.checkIfGameOver pm env).2 = em
        rw [hq]
      simp only [EntityManager.teardowns, GameOp.tearsDown, hr, Bool.and_false,
        Bool.false_eq_true, if_false, Nat.zero_add, hrun]
      exact ih em hrest hr

theorem EntityManager.teardowns_le_one (pm : PlayerModel) (env : Env) (ops : List GameOp) :
    ∀ em : EntityManager, (∀ op ∈ ops, op ≠ GameOp.signalGameOver false) →
      EntityManager.teardowns pm env em ops ≤ 1 := by
  induction ops with
  | nil => exact fun _ _ => Nat.zero_le _
  | cons op rest ih =>
    intro em hops
    have hrest : ∀ o ∈ rest, o ≠ GameOp.signalGameOver false :=
      fun o ho => hops o (List.mem_cons_of_mem _ ho)
    cases op with
    | signalGameOver over =>
      simp only [EntityManager.teardowns, GameOp.tearsDown, Bool.false_eq_true, if_false,
        Nat.zero_add]
      exact ih _ hrest
    | checkIfGameOver =>
      cases ht : (em.gameIsOver && em.gameIsRunning)
      · simp only [EntityManager.teardowns, GameOp.tearsDown, ht, Bool.false_eq_true, if_false,
          Nat.zero_add]
        exact ih _ hrest
      · have ho : em.gameIsOver = true := by
          cases h : em.gameIsOver
          · rw [h] at ht; simp at ht
          · rfl
        have hrun : (GameOp.run pm env em .checkIfGameOver).gameIsRunning = false :=
          EntityManager.checkIfGameOver_running pm env em ho
        simp only [EntityManager.teardowns, GameOp.tearsDown, ht, if_true]
        rw [EntityManager.teardowns_stopped pm env rest _ hrest hrun]

/-- Claim C30: `checkIfGameOver` returns the `gameIsOver` flag it finds. When
`gameIsOver` and `gameIsRunning` are both true it clears `gameIsRunning` and
tears down (`removeAllEntities`, then `setupOutroUI`), and `gameIsRunning` is
false afterwards; otherwise it leaves the manager as it is. A second
consecutive `checkIfGameOver` changes no state, over every sequence of
`signalGameOver` and `checkIfGameOver` calls without a `signalGameOver(false)`
the teardown branch is entered at most once, and a new manager
(`gameIsOver = true`, `gameIsRunning = false`) returns true and stays as it
is. -/
theorem C30_game_over_teardown_once (pm : PlayerModel) (env : Env) :
    (∀ em : EntityManager, (em.checkIfGameOver pm env).1 = em.gameIsOver) ∧
    (∀ em : EntityManager, em.gameIsOver = true → em.gameIsRunning = true →
      (em.checkIfGameOver pm env).2 =
        ((({ em with gameIsRunning := false } : EntityManager).removeAllEntities pm
          env).setupOutroUI env).2 ∧
      (em.checkIfGameOver pm env).2.gameIsRunning = false) ∧
    (∀ em : EntityManager, (em.gameIsOver && em.gameIsRunning) = false →
      (em.checkIfGameOver pm env).2 = em) ∧
    (∀ em : EntityManager,
      ((em.checkIfGameOver pm env).2.checkIfGameOver pm env).2 = (em.checkIfGameOver pm env).2) ∧
    (∀ (em : EntityManager) (ops : List GameOp),
      (∀ op ∈ ops, op ≠ GameOp.signalGameOver false) →
      EntityManager.teardowns pm env em ops ≤ 1) ∧
    (∀ (em : EntityManager) (op : GameOp), op.tearsDown em = false →
      op.run pm env em = em ∨ ∃ over, op = GameOp.signalGameOver over) ∧
    ({} : EntityManager).gameIsOver = true ∧ ({} : EntityManager).gameIsRunning = false ∧
    ({} : EntityManager).checkIfGameOver pm env = (true, {}) := by
  refine ⟨?_, ?_, ?_, ?_, ?_, ?_, rfl, rfl, rfl⟩
  · intro em
    unfold EntityManager.checkIfGameOver
    cases ho : em.gameIsOver
    · simp
    · cases hr : em.gameIsRunning <;> simp
  · intro em ho hr
    refine ⟨?_, EntityManager.checkIfGameOver_running pm env em ho⟩
    unfold EntityManager.checkIfGameOver
    rw [if_pos ho, if_pos hr]
  · intro em h
    rw [EntityManager.checkIfGameOver_quiet pm env em h]
  · intro em
    cases h : (em.gameIsOver && em.gameIsRunning)
    · rw [EntityManager.checkIfGameOver_quiet pm env em h]
      show (em.checkIfGameOver pm env).2 = em
      rw [EntityManager.checkIfGameOver_quiet pm env em h]
    · have ho : em.gameIsOver = true := by
        cases h2 : em.gameIsOver
        · rw [h2] at h; simp at h
        · rfl
      have hrun := EntityManager.checkIfGameOver_running pm env em ho
      rw [EntityManager.checkIfGameOver_quiet pm env (em.checkIfGameOver pm env).2
        (by rw [hrun]; simp)]
  · exact fun em ops h => EntityManager.teardowns_le_one pm env ops em h
  · intro em op h
    cases op with
    | signalGameOver over => exact Or.inr ⟨over, rfl⟩
    | checkIfGameOver =>
      left
      show (em.checkIfGameOver pm env).2 = em
      rw [EntityManager.checkIfGameOver_quiet pm env em h]

theorem C30_game_over_teardown_once_witness :
    overBombManager.gameIsOver = true ∧ overBombManager.gameIsRunning = true ∧
    (overBombManager.checkIfGameOver PlayerModel.quiet Env.succeeding).1 = true ∧
    (overBombManager.checkIfGameOver PlayerModel.quiet Env.succeeding).2.gameIsRunning
      = false ∧
    EntityManager.teardowns PlayerModel.quiet Env.succeeding overBombManager
      [.checkIfGameOver, .signalGameOver true, .checkIfGameOver] ≤ 1 :=
  ⟨rfl, rfl,
    ((C30_game_over_teardown_once PlayerModel.quiet Env.succeeding).1 overBombManager).trans rfl,
    ((C30_game_over_teardown_once PlayerModel.quiet Env.succeeding).2.1 overBombManager rfl
      rfl).2,
    (C30_game_over_teardown_once PlayerModel.quiet Env.succeeding).2.2.2.2.1 overBombManager
      [.checkIfGameOver, .signalGameOver true, .checkIfGameOver] (by decide)⟩

/-! ## The bit scan of `removeEntity`, iteration by iteration: claim C27 -/

theorem EntityManager.deinitLoop_eq_foldl (id : Identifier) (fuel : Nat) :
    ∀ (em : EntityManager) (bitmap : Nat),
      EntityManager.deinitLoop fuel em id bitmap =
        (deinitTrace fuel bitmap).foldl (fun m i => m.deinitComponent i id) em := by
  induction fuel with
  | zero => exact fun em bitmap => rfl
  | succ fuel ih =>
    intro em bitmap
    unfold EntityManager.deinitLoop deinitTrace
    by_cases hb : bitmap = 0
    · rw [if_pos hb, if_pos hb]
      rfl
    · rw [if_neg hb, if_neg hb]
      exact ih _ _

theorem filter_testBit_zero (l : List Nat) : l.filter (fun i => (0 : Nat).testBit i) = [] := by
  rw [List.filter_eq_nil_iff]
  intro a _
  simp

theorem deinitTrace_spec (size : Nat) (fuel : Nat) :
    ∀ (low bitmap : Nat), bitmap < 2 ^ size →
      (∀ j, j < low → bitmap.testBit j = false) → size - low ≤ fuel →
      deinitTrace fuel bitmap =
        (List.range' low (size - low)).filter (fun i => bitmap.testBit i) := by
  induction fuel with
  | zero =>
    intro low bitmap _ _ h
    have h0 : size - low = 0 := by omega
    rw [h0]
    rfl
  | succ fuel ih =>
    intro low bitmap hlt hlow hfuel
    unfold deinitTrace
    by_cases hb : bitmap = 0
    · rw [if_pos hb, hb, filter_testBit_zero]
    · rw [if_neg hb]
      obtain ⟨hbit, hbelow⟩ := findlsb_spec bitmap hb
      have hge : low ≤ findlsb bitmap := by
        by_contra hh
        rw [hlow _ (by omega)] at hbit
        cases hbit
      have hlts : findlsb bitmap < size := by
        by_contra hh
        have hle : 2 ^ size ≤ 2 ^ findlsb bitmap := Nat.pow_le_pow_right (by decide) (by omega)
        rw [Nat.testBit_lt_two_pow (Nat.lt_of_lt_of_le hlt hle)] at hbit
        cases hbit
      have hih := ih (findlsb bitmap + 1)
        (mutativeRemove bitmap (BitOptionCreate (findlsb bitmap)))
        (Nat.lt_of_le_of_lt Nat.and_le_left hlt)
        (by
          intro j hj
          rw [mutativeRemove_testBit]
          by_cases hji : j = findlsb bitmap
          · subst hji
            simp
          · rw [hbelow j (by omega)]
            rfl)
        (by omega)
      show findlsb bitmap ::
          deinitTrace fuel (mutativeRemove bitmap (BitOptionCreate (findlsb bitmap))) = _
      rw [hih]
      have hsplit : List.range' low (size - low) =
          List.range' low (findlsb bitmap - low) ++
            findlsb bitmap :: List.range' (findlsb bitmap + 1) (size - (findlsb bitmap + 1)) := by
        have h1 : size - low = ((size - (findlsb bitmap + 1)) + 1) + (findlsb bitmap - low) := by
          omega
        have h2 : low + (findlsb bitmap - low) = findlsb bitmap := by omega
        rw [h1, ← List.range'_append_1, List.range'_succ, h2]
      rw [hsplit, List.filter_append, List.filter_cons_of_pos (by simpa using hbit)]
      have hfirst : (List.range' low (findlsb bitmap - low)).filter
          (fun i => bitmap.testBit i) = [] := by
        rw [List.filter_eq_nil_iff]
        intro a ha
        rw [List.mem_range'_1] at ha
        rw [hbelow a (by omega)]
        simp
      rw [hfirst, List.nil_append]
      congr 1
      apply List.filter_congr
      intro a ha
      rw [List.mem_range'_1] at ha
      rw [mutativeRemove_testBit]
      have hne : ¬ findlsb bitmap = a := by omega
      simp [hne]

theorem testBit_lt_self (bits i : Nat) (h : bits.testBit i = true) : i < bits :=
  Nat.lt_of_lt_of_le (Nat.lt_two_pow i) (Nat.testBit_implies_ge h)

theorem deinitTrace_eq_filter (bitmap extra : Nat) :
    deinitTrace (bitmap + extra) bitmap =
      (List.range bitmap).filter (fun i => bitmap.testBit i) := by
  rw [deinitTrace_spec bitmap (bitmap + extra) 0 bitmap (Nat.lt_two_pow bitmap)
    (fun j hj => absurd hj (Nat.not_lt_zero j)) (by omega), List.range_eq_range']
  rfl

theorem filter_range_testBit (bits n : Nat) (h : bits < 2 ^ n) :
    (List.range bits).filter (fun i => bits.testBit i) =
      (List.range n).filter (fun i => bits.testBit i) := by
  have key : ∀ a b : Nat, a ≤ b → (∀ i, a ≤ i → bits.testBit i = false) →
      (List.range b).filter (fun i => bits.testBit i) =
        (List.range a).filter (fun i => bits.testBit i) := by
    intro a b hab hhigh
    obtain ⟨c, rfl⟩ := Nat.exists_eq_add_of_le hab
    rw [List.range_eq_range', List.range_eq_range', Nat.add_comm a c,
      ← List.range'_append_1, List.filter_append]
    have : (List.range' (0 + a) c).filter (fun i => bits.testBit i) = [] := by
      rw [List.filter_eq_nil_iff]
      intro x hx
      rw [List.mem_range'_1] at hx
      rw [hhigh x (by omega)]
      simp
    rw [this, List.append_nil]
  have hn : ∀ i, n ≤ i → bits.testBit i = false := fun i hi =>
    Nat.testBit_lt_two_pow (Nat.lt_of_lt_of_le h (Nat.pow_le_pow_right (by decide) hi))
  have hb : ∀ i, bits ≤ i → bits.testBit i = false := fun i hi =>
    Nat.testBit_lt_two_pow (Nat.lt_of_lt_of_le (Nat.lt_two_pow bits)
      (Nat.pow_le_pow_right (by decide) hi))
  rcases Nat.le_total bits n with hle | hle
  · exact (key bits n hle hb).symm
  · exact key n bits hle hn

theorem length_filter_testBit (n : Nat) :
    ∀ bits : Nat, ((List.range n).filter (fun i => bits.testBit i)).length
      = popcountAux n bits := by
  induction n with
  | zero => exact fun _ => rfl
  | succ n ih =>
    intro bits
    rw [List.range_succ_eq_map, popcountAux, ← ih (bits / 2)]
    have hmap : ((List.range n).map Nat.succ).filter (fun i => bits.testBit i) =
        ((List.range n).filter (fun i => (bits / 2).testBit i)).map Nat.succ := by
      rw [List.filter_map]
      congr 1
      apply List.filter_congr
      intro a _
      show bits.testBit (a + 1) = (bits / 2).testBit a
      rw [Nat.testBit_succ]
    by_cases hodd : bits % 2 = 1
    · rw [List.filter_cons_of_pos (by rw [Nat.testBit_zero]; exact decide_eq_true hodd), hmap,
        List.length_cons, List.length_map, hodd]
      omega
    · rw [List.filter_cons_of_neg (by rw [Nat.testBit_zero]; simpa using hodd), hmap,
        List.length_map]
      omega

theorem foldl_filter_ite {α β : Type} (p : α → Bool) (f : β → α → β) (l : List α) :
    ∀ b : β, (l.filter p).foldl f b = l.foldl (fun m x => if p x then f m x else m) b := by
  induction l with
  | nil => exact fun _ => rfl
  | cons x rest ih =>
    intro b
    by_cases hx : p x = true
    · rw [List.filter_cons_of_pos hx, List.foldl_cons, List.foldl_cons, if_pos hx]
      exact ih _
    · rw [List.filter_cons_of_neg hx, List.foldl_cons, if_neg hx]
      exact ih _

theorem EntityManager.deinitLoop_eq_deinitByKinds (em : EntityManager) (id : Identifier)
    (bitmap : Nat) (h : bitmap < 2 ^ 15) :
    EntityManager.deinitLoop bitmap em id bitmap = em.deinitByKinds id bitmap := by
  have htrace := deinitTrace_eq_filter bitmap 0
  rw [Nat.add_zero] at htrace
  rw [EntityManager.deinitLoop_eq_foldl, htrace, filter_range_testBit bitmap 15 h,
    foldl_filter_ite]
  have hall : List.range 15 = ComponentKind.all.map ComponentKind.bitIndex := by decide
  rw [hall, List.foldl_map]
  rfl

/-- Claim C27: for every bitmask, the find-least-significant-bit loop of
`removeEntity` is the fold of `deinit` over the bit indices it visits; the
visited indices are exactly the set bits, each once, in increasing order, so
their number is the popcount of the bitmask, and a larger iteration bound
changes neither the visits nor the result (the loop ends by its own
condition). Bit 0 is deinitialised through the pointer in `sprites[id]`. For a
bitmask of the component kinds (below `2 ^ 15`) the loop, and with it
`removeEntity`, equals the iteration over the closed list of kind tags in index
order that deinitialises the slot of each kind whose flag is set. -/
theorem C27_bit_scan_teardown (em : EntityManager) (id : Identifier) (bitmap : Nat) :
    EntityManager.deinitLoop bitmap em id bitmap =
      (deinitTrace bitmap bitmap).foldl (fun m i => m.deinitComponent i id) em ∧
    (∀ extra, deinitTrace (bitmap + extra) bitmap = deinitTrace bitmap bitmap ∧
      EntityManager.deinitLoop (bitmap + extra) em id bitmap =
        EntityManager.deinitLoop bitmap em id bitmap) ∧
    (deinitTrace bitmap bitmap).length = popcount bitmap ∧
    (∀ i, i ∈ deinitTrace bitmap bitmap ↔ bitmap.testBit i = true) ∧
    (deinitTrace bitmap bitmap).Nodup ∧
    (deinitTrace bitmap bitmap).Pairwise (fun i j => i < j) ∧
    (∀ ref, em.sprites id = some ref → em.deinitComponent 0 id = em.writeSprite ref {}) ∧
    (bitmap < 2 ^ 15 →
      EntityManager.deinitLoop bitmap em id bitmap = em.deinitByKinds id bitmap) ∧
    (∀ e : Entity, e.components < 2 ^ 15 →
      em.removeEntity e =
        ({ (EntityManager.deinitByKinds
              { em with
                log := em.log ++ em.delegates.map (fun d => (d, Event.didRemoveEntity e)) }
              e.identifier e.components) with
            freelist :=
              (EntityManager.deinitByKinds
                { em with
                  log := em.log ++ em.delegates.map (fun d => (d, Event.didRemoveEntity e)) }
                e.identifier e.components).freelist.free e.identifier }
          : EntityManager).setDistort e.identifier false) := by
  have htrace : deinitTrace bitmap bitmap =
      (List.range bitmap).filter (fun i => bitmap.testBit i) := by
    have h := deinitTrace_eq_filter bitmap 0
    rwa [Nat.add_zero] at h
  refine ⟨EntityManager.deinitLoop_eq_foldl id bitmap em bitmap, ?_, ?_, ?_, ?_, ?_, ?_,
    EntityManager.deinitLoop_eq_deinitByKinds em id bitmap, ?_⟩
  · intro extra
    exact ⟨by rw [htrace, deinitTrace_eq_filter],
      EntityManager.deinitLoop_enough em id bitmap extra⟩
  · rw [htrace, length_filter_testBit]
    rfl
  · intro i
    rw [htrace, List.mem_filter, List.mem_range]
    exact ⟨fun h => h.2, fun h => ⟨testBit_lt_self bitmap i h, h⟩⟩
  · rw [htrace]
    exact (List.nodup_range bitmap).filter _
  · rw [htrace]
    exact (List.pairwise_lt_range bitmap).filter _
  · intro ref h
    simp only [EntityManager.deinitComponent, h]
  · intro e he
    unfold EntityManager.removeEntity
    simp only [EntityManager.deinitLoop_eq_deinitByKinds _ e.identifier e.components he]

theorem C27_bit_scan_teardown_witness :
    (55 : Nat) < 2 ^ 15 ∧ deinitTrace 55 55 = [0, 1, 2, 4, 5] ∧ popcount 55 = 5 ∧
    EntityManager.deinitLoop 55 {} 3 55 = EntityManager.deinitByKinds {} 3 55 :=
  ⟨by decide, by decide, by decide,
    (C27_bit_scan_teardown {} 3 55).2.2.2.2.2.2.2.1 (by decide)⟩

/-! ## Delegate fan-out: claim C22 -/

theorem EntityManager.registerDelegates_delegates (delegates : List Nat) :
    ∀ em : EntityManager,
      (em.registerDelegates delegates).delegates = em.delegates ++ delegates := by
  induction delegates with
  | nil => exact fun em => (List.append_nil _).symm
  | cons d rest ih =>
    intro em
    rw [EntityManager.registerDelegates, ih]
    simp [EntityManager.registerDelegate]

theorem EntityManager.registerDelegates_log (delegates : List Nat) :
    ∀ em : EntityManager, (em.registerDelegates delegates).log = em.log := by
  induction delegates with
  | nil => exact fun em => rfl
  | cons d rest ih =>
    intro em
    rw [EntityManager.registerDelegates, ih]
    rfl

theorem Coll.add_log (c : Coll) (em : EntityManager) (e : Entity) (hc : c ≠ .stringLabels) :
    (c.add em e).log = em.log ++ em.delegates.map (fun d => (d, Event.didAddEntity e)) := by
  cases c <;> first
    | exact absurd rfl hc
    | rfl

theorem EntityManager.removeSubmarineFrom_log (em : EntityManager) (id : Identifier)
    (indices : List (Fin 4)) :
    (∃ i ∈ indices, (em.submarines i).find id ≠ none) →
    ∃ i ∈ indices, ∃ e, (em.submarines i).find id = some e ∧
      (em.removeSubmarineFrom id indices).log =
        em.log ++ em.delegates.map (fun d => (d, Event.didRemoveEntity e)) := by
  induction indices with
  | nil =>
    rintro ⟨i, hi, _⟩
    exact absurd hi (List.not_mem_nil _)
  | cons i rest ih =>
    intro hex
    cases hfind : (em.submarines i).find id with
    | some e =>
      refine ⟨i, List.mem_cons_self _ _, e, hfind, ?_⟩
      rw [EntityManager.removeSubmarineFrom]
      simp only [hfind]
      exact EntityManager.removeEntity_log em e
    | none =>
      have hrest : ∃ j ∈ rest, (em.submarines j).find id ≠ none := by
        obtain ⟨j, hj, hne⟩ := hex
        rcases List.mem_cons.mp hj with rfl | hj2
        · exact absurd hfind hne
        · exact ⟨j, hj2, hne⟩
      obtain ⟨j, hj, e, hje, hlog⟩ := ih hrest
      refine ⟨j, List.mem_cons_of_mem _ hj, e, hje, ?_⟩
      rw [EntityManager.removeSubmarineFrom]
      simp only [hfind]
      exact hlog

theorem EntityManager.didAddComponent_log (em : EntityManager) (entity : Entity)
    (component : Component) :
    (em.didAddComponent entity component).log =
      em.log ++ em.delegates.map (fun d => (d, Event.didUpdateEntity entity)) ∧
    (em.didAddComponent entity component).delegates = em.delegates := by
  cases component <;> first
    | exact ⟨rfl, rfl⟩
    | (unfold EntityManager.didAddComponent
       simp only
       split <;> exact ⟨rfl, rfl⟩)

theorem EntityManager.didRemoveComponent_log (em em2 : EntityManager) (entity : Entity)
    (index : Nat) (h : em.didRemoveComponent entity index = some em2) :
    em2.log = em.log ++ em.delegates.map (fun d => (d, Event.didUpdateEntity entity)) ∧
    em2.delegates = em.delegates := by
  unfold EntityManager.didRemoveComponent at h
  split at h
  · obtain ⟨_, _, h3, h4⟩ := EntityManager.deinitComponent_frame em index entity.identifier
    simp only [Option.some.injEq] at h
    subst h
    exact ⟨by simp only [h3, h4], h4⟩
  · cases h

/-- C22, counterexample. With one registered delegate, `addStringLabel` sends no
`didAddEntity`, and `removeStringLabel` of a live label without characters
sends no `didRemoveEntity`: the log of the delegate calls stays empty. -/
theorem C22_string_label_not_notified :
    (({} : EntityManager).registerDelegates [7]).delegates = [7] ∧
    ((({} : EntityManager).registerDelegates [7]).addStringLabel { identifier := 3 }).log
      = [] ∧
    (((({} : EntityManager).registerDelegates [7]).addStringLabel
      { identifier := 3 }).stringLabels.find 3) = some { identifier := 3 } ∧
    (((({} : EntityManager).registerDelegates [7]).addStringLabel
      { identifier := 3 }).removeStringLabel 3).log = [] ∧
    (((({} : EntityManager).registerDelegates [7]).addStringLabel
      { identifier := 3 }).removeStringLabel 3).stringLabels.find 3 = none := by
  refine ⟨rfl, rfl, ?_, rfl, ?_⟩
  · decide
  · decide

/-- C22, amended. `registerDelegates` appends its arguments, left to right, to
the list of delegates. With the delegates `d1, ..., dn` registered in that
order, every `add_<Kind>` other than `addStringLabel` sends `didAddEntity` to
`d1, ..., dn` once each in that order; every `remove_<Kind>` of a
single-collection kind and `removeSubmarine`, when they find the identifier,
send `didRemoveEntity` of the stored entity to `d1, ..., dn` once each in that
order; `didAddComponent`, and `didRemoveComponent` for a kind with a direct
array, send `didUpdateEntity` to `d1, ..., dn` once each in that order; with
no delegate registered none of them sends anything. `addStringLabel` notifies
nobody, and `removeStringLabel` sends what the `removeCharacter` calls for the
characters of the label send. -/
theorem C22_delegate_fan_out (em : EntityManager) :
    (∀ delegates : List Nat,
      (em.registerDelegates delegates).delegates = em.delegates ++ delegates ∧
      (em.registerDelegates delegates).log = em.log) ∧
    (∀ (c : Coll) (e : Entity), c ≠ .stringLabels →
      (c.add em e).log = em.log ++ em.delegates.map (fun d => (d, Event.didAddEntity e))) ∧
    (∀ (k : Kind) (id : Identifier) (e : Entity), (k.coll.get em).find id = some e →
      (k.remove em id).log =
        em.log ++ em.delegates.map (fun d => (d, Event.didRemoveEntity e))) ∧
    (∀ id : Identifier, (∃ i, (em.submarines i).find id ≠ none) →
      ∃ i e, (em.submarines i).find id = some e ∧
        (em.removeSubmarine id).log =
          em.log ++ em.delegates.map (fun d => (d, Event.didRemoveEntity e))) ∧
    (∀ (entity : Entity) (component : Component),
      (em.didAddComponent entity component).log =
        em.log ++ em.delegates.map (fun d => (d, Event.didUpdateEntity entity))) ∧
    (∀ (entity : Entity) (index : Nat), 1 ≤ index → index ≤ 14 →
      ∃ em2, em.didRemoveComponent entity index = some em2 ∧
        em2.log = em.log ++ em.delegates.map (fun d => (d, Event.didUpdateEntity entity))) ∧
    (em.delegates = [] →
      (∀ (c : Coll) (e : Entity), (c.add em e).log = em.log) ∧
      (∀ (k : Kind) (id : Identifier), (k.remove em id).log = em.log) ∧
      (∀ id : Identifier, (em.removeSubmarine id).log = em.log) ∧
      (∀ (entity : Entity) (component : Component),
        (em.didAddComponent entity component).log = em.log) ∧
      (∀ (entity : Entity) (index : Nat) (em2 : EntityManager),
        em.didRemoveComponent entity index = some em2 → em2.log = em.log)) ∧
    (∀ e : Entity, (em.addStringLabel e).log = em.log) ∧
    (∀ (id : Identifier) (label : Entity), em.stringLabels.find id = some label →
      (em.removeStringLabel id).log = (label.identifiers.foldl EntityManager.removeCharacter
        em).log) := by
  have hsub : ∀ id : Identifier, (∃ i, (em.submarines i).find id ≠ none) →
      ∃ i e, (em.submarines i).find id = some e ∧
        (em.removeSubmarine id).log =
          em.log ++ em.delegates.map (fun d => (d, Event.didRemoveEntity e)) := by
    intro id hex
    have hex2 : ∃ i ∈ ([0, 1, 2, 3] : List (Fin 4)), (em.submarines i).find id ≠ none := by
      obtain ⟨i, hi⟩ := hex
      refine ⟨i, ?_, hi⟩
      fin_cases i <;> simp
    obtain ⟨i, _, e, he, hlog⟩ := EntityManager.removeSubmarineFrom_log em id _ hex2
    exact ⟨i, e, he, hlog⟩
  refine ⟨fun ds => ⟨EntityManager.registerDelegates_delegates ds em,
      EntityManager.registerDelegates_log ds em⟩,
    fun c e hc => Coll.add_log c em e hc,
    fun k id e h => (Kind.remove_found k em id e h).2.2.2.2,
    hsub,
    fun entity component => (EntityManager.didAddComponent_log em entity component).1,
    ?_, ?_, fun e => rfl, ?_⟩
  · intro entity index h1 h2
    have hsome : ∃ em2, em.didRemoveComponent entity index = some em2 := by
      unfold EntityManager.didRemoveComponent
      rw [if_pos ⟨h1, h2⟩]
      exact ⟨_, rfl⟩
    obtain ⟨em2, h⟩ := hsome
    exact ⟨em2, h, (EntityManager.didRemoveComponent_log em em2 entity index h).1⟩
  · intro hnil
    refine ⟨?_, ?_, ?_, ?_, ?_⟩
    · intro c e
      by_cases hc : c = .stringLabels
      · subst hc
        rfl
      · rw [Coll.add_log c em e hc, hnil]
        simp
    · intro k id
      cases hfind : (k.coll.get em).find id with
      | none => rw [Kind.remove_absent k em id hfind]
      | some e =>
        rw [(Kind.remove_found k em id e hfind).2.2.2.2, hnil]
        simp
    · intro id
      by_cases hex : ∃ i, (em.submarines i).find id ≠ none
      · obtain ⟨i, e, _, hlog⟩ := hsub id hex
        rw [hlog, hnil]
        simp
      · have hall : ∀ i, (em.submarines i).find id = none := by
          intro i
          by_contra hne
          exact hex ⟨i, hne⟩
        unfold EntityManager.removeSubmarine
        rw [EntityManager.removeSubmarineFrom_absent em id _ hall]
    · intro entity component
      rw [(EntityManager.didAddComponent_log em entity component).1, hnil]
      simp
    · intro entity index em2 h
      rw [(EntityManager.didRemoveComponent_log em em2 entity index h).1, hnil]
      simp
  · intro id label h
    unfold EntityManager.removeStringLabel
    simp only [h]

theorem C22_delegate_fan_out_witness :
    ((Coll.bombs.add (({} : EntityManager).registerDelegates [7, 4, 9])
      { identifier := 5 }).bombs.find 5 = some { identifier := 5 }) ∧
    (Coll.bombs.add (({} : EntityManager).registerDelegates [7, 4, 9]) { identifier := 5 }).log =
      [(7, Event.didAddEntity { identifier := 5 }), (4, Event.didAddEntity { identifier := 5 }),
        (9, Event.didAddEntity { identifier := 5 })] ∧
    (Kind.bomb.remove
      (Coll.bombs.add (({} : EntityManager).registerDelegates [7, 4, 9]) { identifier := 5 })
      5).log =
      [(7, Event.didAddEntity { identifier := 5 }), (4, Event.didAddEntity { identifier := 5 }),
        (9, Event.didAddEntity { identifier := 5 }),
        (7, Event.didRemoveEntity { identifier := 5 }),
        (4, Event.didRemoveEntity { identifier := 5 }),
        (9, Event.didRemoveEntity { identifier := 5 })] ∧
    (Coll.fishes.add ({} : EntityManager) { identifier := 5 }).log = [] :=
  ⟨by decide,
    ((C22_delegate_fan_out (({} : EntityManager).registerDelegates [7, 4, 9])).2.1 .bombs
      { identifier := 5 } (by decide)).trans rfl,
    ((C22_delegate_fan_out
      (Coll.bombs.add (({} : EntityManager).registerDelegates [7, 4, 9])
        { identifier := 5 })).2.2.1 .bomb 5 { identifier := 5 } (by decide)).trans rfl,
    ((C22_delegate_fan_out ({} : EntityManager)).2.2.2.2.2.2.1 rfl).1 .fishes
      { identifier := 5 }⟩

/-! ## The counters of `endUpdates`: claim C21 -/

theorem EMap.size_erase_of_find (m : EMap) (k : Identifier) (h : m.WF)
    (hfind : m.find k ≠ none) : (m.erase k).size + 1 = m.size := by
  have hmem : k ∈ m.keys := by
    by_contra hne
    exact hfind ((EMap.find_eq_none_iff m k).mpr hne)
  have hfilter : m.keys.filter (fun j => decide (j ≠ k)) = m.keys.erase k := by
    rw [List.Nodup.erase_eq_filter h.1]
    apply List.filter_congr
    intro x _
    by_cases hx : x = k <;> simp [hx]
  rw [EMap.size_eq_length_keys, EMap.size_eq_length_keys, EMap.keys_erase, hfilter,
    List.length_erase_of_mem hmem]
  have hpos : 0 < m.keys.length := List.length_pos_of_mem hmem
  omega

theorem Kind.foldl_remove_get (k : Kind) (c : Coll) (hc : c ≠ k.coll) (ids : List Identifier) :
    ∀ em : EntityManager, c.get (ids.foldl k.remove em) = c.get em := by
  induction ids with
  | nil => exact fun _ => rfl
  | cons id rest ih =>
    intro em
    rw [List.foldl_cons, ih]
    cases hfind : (k.coll.get em).find id with
    | none => rw [Kind.remove_absent k em id hfind]
    | some e => exact (Kind.remove_found k em id e hfind).2.1 c hc

theorem EntityManager.removeSubmarineFrom_cases (em : EntityManager) (id : Identifier)
    (indices : List (Fin 4)) :
    em.removeSubmarineFrom id indices = em ∨
    ∃ i e, (em.submarines i).find id = some e ∧
      (∀ c : Coll, c ≠ .submarines i → c.get (em.removeSubmarineFrom id indices) = c.get em) ∧
      (em.removeSubmarineFrom id indices).submarines i = (em.submarines i).erase id := by
  induction indices with
  | nil => exact Or.inl rfl
  | cons i rest ih =>
    cases hfind : (em.submarines i).find id with
    | none =>
      have h : em.removeSubmarineFrom id (i :: rest) = em.removeSubmarineFrom id rest := by
        rw [EntityManager.removeSubmarineFrom]
        simp only [hfind]
      rw [h]
      exact ih
    | some e =>
      right
      refine ⟨i, e, hfind, ?_, ?_⟩
      · intro c hc
        rw [EntityManager.removeSubmarineFrom]
        simp only [hfind]
        cases c with
        | submarines j =>
          have hji : j ≠ i := fun h => hc (by rw [h])
          simp only [Coll.get, Function.update_noteq hji]
          exact EntityManager.removeEntity_get em e (.submarines j)
        | fishes => exact EntityManager.removeEntity_get em e .fishes
        | bombs => exact EntityManager.removeEntity_get em e .bombs
        | torpedoes => exact EntityManager.removeEntity_get em e .torpedoes
        | missiles => exact EntityManager.removeEntity_get em e .missiles
        | boatMissiles => exact EntityManager.removeEntity_get em e .boatMissiles
        | buyLivesIcons => exact EntityManager.removeEntity_get em e .buyLivesIcons
        | buyMissilesIcons => exact EntityManager.removeEntity_get em e .buyMissilesIcons
        | endStoreIcons => exact EntityManager.removeEntity_get em e .endStoreIcons
        | explosions => exact EntityManager.removeEntity_get em e .explosions
        | smokes => exact EntityManager.removeEntity_get em e .smokes
        | characters => exact EntityManager.removeEntity_get em e .characters
        | stringLabels => exact EntityManager.removeEntity_get em e .stringLabels
      · rw [EntityManager.removeSubmarineFrom]
        simp only [hfind, Function.update_same]
        rw [show (em.removeEntity e).submarines i = em.submarines i from
          EntityManager.removeEntity_get em e (.submarines i)]

theorem EntityManager.numSubmarines_of_get (em em2 : EntityManager)
    (h : ∀ i : Fin 4, (Coll.submarines i).get em2 = (Coll.submarines i).get em) :
    em2.numSubmarines = em.numSubmarines ∧ em2.isLiveSubmarine = em.isLiveSubmarine := by
  have h0 : em2.submarines 0 = em.submarines 0 := h 0
  have h1 : em2.submarines 1 = em.submarines 1 := h 1
  have h2 : em2.submarines 2 = em.submarines 2 := h 2
  have h3 : em2.submarines 3 = em.submarines 3 := h 3
  constructor
  · simp only [EntityManager.numSubmarines, h0, h1, h2, h3]
  · funext id
    simp only [EntityManager.isLiveSubmarine, h0, h1, h2, h3]

theorem EntityManager.removeSubmarine_count (em : EntityManager) (id : Identifier)
    (h : em.WF) :
    em.numSubmarines =
      (em.removeSubmarine id).numSubmarines + (if em.isLiveSubmarine id then 1 else 0) ∧
    (∀ j, j ≠ id → (em.removeSubmarine id).isLiveSubmarine j = em.isLiveSubmarine j) ∧
    (∀ c : Coll, (∀ i, c ≠ .submarines i) → c.get (em.removeSubmarine id) = c.get em) := by
  rcases EntityManager.removeSubmarineFrom_cases em id [0, 1, 2, 3] with hsame | ⟨i, e, hfind, hother, hi⟩
  · have hdead : em.isLiveSubmarine id = false := by
      by_contra hlive
      have hex : ∃ i ∈ ([0, 1, 2, 3] : List (Fin 4)), (em.submarines i).find id ≠ none := by
        simp only [EntityManager.isLiveSubmarine, Bool.not_eq_false, Bool.or_eq_true,
          Option.isSome_iff_ne_none] at hlive
        rcases hlive with ((h0 | h1) | h2) | h3
        · exact ⟨0, by simp, h0⟩
        · exact ⟨1, by simp, h1⟩
        · exact ⟨2, by simp, h2⟩
        · exact ⟨3, by simp, h3⟩
      obtain ⟨i, _, hne, hgone⟩ := EntityManager.removeSubmarineFrom_found em id _ hex
      rw [hsame] at hgone
      exact hne hgone
    unfold EntityManager.removeSubmarine
    rw [hsame, hdead]
    exact ⟨rfl, fun _ _ => rfl, fun _ _ => rfl⟩
  · have hne : (em.submarines i).find id ≠ none := by rw [hfind]; simp
    have hsize := EMap.size_erase_of_find (em.submarines i) id (h (.submarines i)) hne
    have hget : ∀ j : Fin 4, j ≠ i →
        (em.removeSubmarineFrom id [0, 1, 2, 3]).submarines j = em.submarines j :=
      fun j hj => hother (.submarines j) (fun hc => hj (by injection hc))
    have hlive : em.isLiveSubmarine id = true := by
      simp only [EntityManager.isLiveSubmarine, Bool.or_eq_true, Option.isSome_iff_ne_none]
      fin_cases i
      · exact Or.inl (Or.inl (Or.inl hne))
      · exact Or.inl (Or.inl (Or.inr hne))
      · exact Or.inl (Or.inr hne)
      · exact Or.inr hne
    unfold EntityManager.removeSubmarine
    refine ⟨?_, ?_, ?_⟩
    · rw [hlive]
      simp only [EntityManager.numSubmarines, if_true]
      fin_cases i
      · rw [hget 1 (by decide), hget 2 (by decide), hget 3 (by decide)]
        simp only [Fin.zero_eta] at hi hsize
        rw [hi]
        omega
      · rw [hget 0 (by decide), hget 2 (by decide), hget 3 (by decide)]
        simp only [Fin.mk_one] at hi hsize
        rw [hi]
        omega
      · rw [hget 0 (by decide), hget 1 (by decide), hget 3 (by decide)]
        simp only [Fin.reduceFinMk] at hi hsize
        rw [hi]
        omega
      · rw [hget 0 (by decide), hget 1 (by decide), hget 2 (by decide)]
        simp only [Fin.reduceFinMk] at hi hsize
        rw [hi]
        omega
    · intro j hj
      have hfindj : ∀ t : Fin 4, ((em.removeSubmarineFrom id [0, 1, 2, 3]).submarines t).find j =
          (em.submarines t).find j := by
        intro t
        by_cases ht : t = i
        · rw [ht, hi]
          exact EMap.find_erase_ne _ _ _ hj
        · rw [hget t ht]
      simp only [EntityManager.isLiveSubmarine, hfindj]
    · intro c hc
      exact hother c (hc i)

theorem EntityManager.foldl_removeSubmarine_count (ids : List Identifier) :
    ∀ em : EntityManager, em.WF → ids.Nodup →
      em.numSubmarines =
        (ids.foldl EntityManager.removeSubmarine em).numSubmarines +
          (ids.filter em.isLiveSubmarine).length ∧
      (∀ c : Coll, (∀ i, c ≠ .submarines i) →
        c.get (ids.foldl EntityManager.removeSubmarine em) = c.get em) ∧
      (ids.foldl EntityManager.removeSubmarine em).WF := by
  induction ids with
  | nil => exact fun em h _ => ⟨rfl, fun _ _ => rfl, h⟩
  | cons id rest ih =>
    intro em hwf hnd
    obtain ⟨hcount, hlive, hother⟩ := EntityManager.removeSubmarine_count em id hwf
    have hwf1 : (em.removeSubmarine id).WF := RemoveOp.run_WF .submarine em id hwf
    obtain ⟨hnotin, hnd2⟩ := List.nodup_cons.mp hnd
    obtain ⟨h1, h2, h3⟩ := ih (em.removeSubmarine id) hwf1 hnd2
    have hfilter : rest.filter (em.removeSubmarine id).isLiveSubmarine =
        rest.filter em.isLiveSubmarine := by
      apply List.filter_congr
      intro j hj
      exact hlive j (fun h => hnotin (h ▸ hj))
    rw [hfilter] at h1
    refine ⟨?_, fun c hc => (h2 c hc).trans (hother c hc), h3⟩
    rw [List.foldl_cons, hcount, h1]
    cases hl : em.isLiveSubmarine id
    · rw [List.filter_cons_of_neg (by simp [hl])]
      simp
    · rw [List.filter_cons_of_pos hl]
      simp only [if_true, List.length_cons]
      omega

theorem EntityManager.foldl_removeFish_count (ids : List Identifier) :
    ∀ em : EntityManager, em.WF → ids.Nodup →
      em.fishes.size =
        (ids.foldl EntityManager.removeFish em).fishes.size +
          (ids.filter em.isLiveFish).length ∧
      (∀ c : Coll, c ≠ .fishes →
        c.get (ids.foldl EntityManager.removeFish em) = c.get em) ∧
      (ids.foldl EntityManager.removeFish em).WF := by
  induction ids with
  | nil => exact fun em h _ => ⟨rfl, fun _ _ => rfl, h⟩
  | cons id rest ih =>
    intro em hwf hnd
    have hwf1 : (em.removeFish id).WF := RemoveOp.run_WF (.single .fish) em id hwf
    obtain ⟨hnotin, hnd2⟩ := List.nodup_cons.mp hnd
    obtain ⟨h1, h2, h3⟩ := ih (em.removeFish id) hwf1 hnd2
    rw [List.foldl_cons]
    cases hfind : em.fishes.find id with
    | none =>
      have hsame : em.removeFish id = em := Kind.remove_absent .fish em id hfind
      rw [hsame] at h1 h2 h3 ⊢
      refine ⟨?_, h2, h3⟩
      rw [List.filter_cons_of_neg (by simp [EntityManager.isLiveFish, hfind])]
      exact h1
    | some e =>
      obtain ⟨hcoll, hothers, _⟩ := Kind.remove_found .fish em id e hfind
      have hcoll2 : (em.removeFish id).fishes = em.fishes.erase id := hcoll
      have hsize := EMap.size_erase_of_find em.fishes id (hwf .fishes) (by rw [hfind]; simp)
      have hfilter : rest.filter (em.removeFish id).isLiveFish = rest.filter em.isLiveFish := by
        apply List.filter_congr
        intro j hj
        have hne : j ≠ id := fun h => hnotin (h ▸ hj)
        simp only [EntityManager.isLiveFish, hcoll2, EMap.find_erase_ne _ _ _ hne]
      rw [hfilter, hcoll2] at h1
      refine ⟨?_, fun c hc => (h2 c hc).trans (hothers c hc), h3⟩
      rw [List.filter_cons_of_pos (by simp [EntityManager.isLiveFish, hfind]),
        List.length_cons]
      omega

theorem Kind.foldl_remove_WF (k : Kind) (ids : List Identifier) :
    ∀ em : EntityManager, em.WF → (ids.foldl k.remove em).WF := by
  induction ids with
  | nil => exact fun _ h => h
  | cons id rest ih =>
    intro em h
    exact ih _ (RemoveOp.run_WF (.single k) em id h)

theorem StageController.endUpdates_removed (pm : PlayerModel) (env : Env)
    (sc : StageController) (hover : sc.entityManager.gameIsOver = false)
    (hwf : sc.entityManager.WF) (hsub : sc.rmsubmarines.Nodup) (hfish : sc.rmfishes.Nodup) :
    sc.entityManager.numSubmarines =
      (sc.endUpdates pm env).entityManager.numSubmarines +
        (sc.rmsubmarines.filter sc.entityManager.isLiveSubmarine).length ∧
    sc.entityManager.fishes.size =
      (sc.endUpdates pm env).entityManager.fishes.size +
        (sc.rmfishes.filter sc.entityManager.isLiveFish).length := by
  rw [StageController.endUpdates_not_over pm env sc hover]
  simp only [StageController.removeCalls, RemoveOp.runAll_append, RemoveOp.runAll_map]
  generalize hm1 : sc.rmbombs.foldl (RemoveOp.single .bomb).run sc.entityManager = m1
  generalize hm2 : sc.rmboatmissiles.foldl (RemoveOp.single .boatMissile).run m1 = m2
  generalize hm3 : sc.rmmissiles.foldl (RemoveOp.single .missile).run m2 = m3
  generalize hm4 : sc.rmtorpedoes.foldl (RemoveOp.single .torpedo).run m3 = m4
  generalize hm5 : sc.rmsubmarines.foldl RemoveOp.submarine.run m4 = m5
  generalize hm6 : sc.rmfishes.foldl (RemoveOp.single .fish).run m5 = m6
  generalize hm7 : sc.rmsmoke.foldl (RemoveOp.single .smoke).run m6 = m7
  have g1 : ∀ c : Coll, c ≠ .bombs → c.get m1 = c.get sc.entityManager :=
    fun c hc => hm1 ▸ Kind.foldl_remove_get .bomb c hc _ _
  have w1 : m1.WF := hm1 ▸ Kind.foldl_remove_WF .bomb _ _ hwf
  have g2 : ∀ c : Coll, c ≠ .boatMissiles → c.get m2 = c.get m1 :=
    fun c hc => hm2 ▸ Kind.foldl_remove_get .boatMissile c hc _ _
  have w2 : m2.WF := hm2 ▸ Kind.foldl_remove_WF .boatMissile _ _ w1
  have g3 : ∀ c : Coll, c ≠ .missiles → c.get m3 = c.get m2 :=
    fun c hc => hm3 ▸ Kind.foldl_remove_get .missile c hc _ _
  have w3 : m3.WF := hm3 ▸ Kind.foldl_remove_WF .missile _ _ w2
  have g4 : ∀ c : Coll, c ≠ .torpedoes → c.get m4 = c.get m3 :=
    fun c hc => hm4 ▸ Kind.foldl_remove_get .torpedo c hc _ _
  have w4 : m4.WF := hm4 ▸ Kind.foldl_remove_WF .torpedo _ _ w3
  have g7 : ∀ c : Coll, c ≠ .smokes → c.get m7 = c.get m6 :=
    fun c hc => hm7 ▸ Kind.foldl_remove_get .smoke c hc _ _
  have e4 : ∀ c : Coll, c ≠ .bombs → c ≠ .boatMissiles → c ≠ .missiles → c ≠ .torpedoes →
      c.get m4 = c.get sc.entityManager :=
    fun c h1 h2 h3 h4 => (g4 c h4).trans ((g3 c h3).trans ((g2 c h2).trans (g1 c h1)))
  obtain ⟨s1, s2, w5⟩ := EntityManager.foldl_removeSubmarine_count sc.rmsubmarines m4 w4 hsub
  have s1b : m4.numSubmarines = m5.numSubmarines +
      (sc.rmsubmarines.filter m4.isLiveSubmarine).length := hm5 ▸ s1
  have s2b : ∀ c : Coll, (∀ i, c ≠ .submarines i) → c.get m5 = c.get m4 :=
    fun c hc => hm5 ▸ s2 c hc
  have w5b : m5.WF := hm5 ▸ w5
  obtain ⟨f1, f2, _⟩ := EntityManager.foldl_removeFish_count sc.rmfishes m5 w5b hfish
  have f1b : m5.fishes.size = m6.fishes.size + (sc.rmfishes.filter m5.isLiveFish).length :=
    hm6 ▸ f1
  have f2b : ∀ c : Coll, c ≠ .fishes → c.get m6 = c.get m5 := fun c hc => hm6 ▸ f2 c hc
  have hsub4 := EntityManager.numSubmarines_of_get sc.entityManager m4
    (fun i => e4 (.submarines i) (by simp) (by simp) (by simp) (by simp))
  have hsub7 := EntityManager.numSubmarines_of_get m5 m7
    (fun i => (g7 (.submarines i) (by simp)).trans (f2b (.submarines i) (by simp)))
  have hfish5 : m5.fishes = sc.entityManager.fishes :=
    (s2b .fishes (by simp)).trans
      (e4 .fishes (by decide) (by decide) (by decide) (by decide))
  have hfish7 : m7.fishes = m6.fishes := g7 .fishes (by decide)
  have hlivefish : m5.isLiveFish = sc.entityManager.isLiveFish := by
    funext id
    simp only [EntityManager.isLiveFish, hfish5]
  constructor
  · show sc.entityManager.numSubmarines = m7.numSubmarines + _
    rw [hsub7.1, ← hsub4.1, ← hsub4.2]
    exact s1b
  · show sc.entityManager.fishes.size = m7.fishes.size + _
    rw [hfish7, ← hfish5, ← hlivefish]
    exact f1b

/-- C21 at its failing input. A running stage without a live submarine and without a
live fish, in which 5 is recorded in `rmsubmarines` (by
`submarineDidMoveOutOfScreen(5)`) and 6 in `rmfishes`: `endUpdates` removes no
submarine and no fish, and still adds one to `subsDead` and takes one from
`fishCount`. -/
theorem C21_counters_count_stray_identifiers :
    strayRemovalStage.entityManager.gameIsOver = false ∧
    strayRemovalStage.rmsubmarines = [5] ∧ strayRemovalStage.rmfishes = [6] ∧
    strayRemovalStage.entityManager.isLiveSubmarine 5 = false ∧
    strayRemovalStage.entityManager.isLiveFish 6 = false ∧
    strayRemovalStage.entityManager.numSubmarines = 0 ∧
    (strayRemovalStage.endUpdates PlayerModel.quiet Env.succeeding).entityManager.numSubmarines
      = 0 ∧
    strayRemovalStage.entityManager.fishes.size = 0 ∧
    (strayRemovalStage.endUpdates PlayerModel.quiet Env.succeeding).entityManager.fishes.size
      = 0 ∧
    strayRemovalStage.subsDead = 0 ∧
    (strayRemovalStage.endUpdates PlayerModel.quiet Env.succeeding).subsDead = 1 ∧
    strayRemovalStage.fishCount = 0 ∧
    (strayRemovalStage.endUpdates PlayerModel.quiet Env.succeeding).fishCount = -1 := by
  refine ⟨rfl, rfl, rfl, rfl, rfl, rfl, rfl, rfl, rfl, rfl, ?_, rfl, ?_⟩
  · decide
  · decide

/-- What `endUpdates` does to the counters. When the game is not over, it adds
to `subsDead` the number of identifiers in `rmsubmarines` and takes from
`fishCount` the number of identifiers in `rmfishes`, live or not. With
well-formed collections and duplicate-free sets the number of submarines
(fish) that it removes from the live collections is the number of recorded
identifiers that are live submarines (fish) when it runs, so the counters
count the removals when every recorded identifier is live of its kind. When
the game is over it changes neither counter. -/
theorem StageController.endUpdates_counters (pm : PlayerModel) (env : Env) (sc : StageController) :
    (sc.entityManager.gameIsOver = false →
      (sc.endUpdates pm env).subsDead = sc.subsDead + sc.rmsubmarines.length ∧
      (sc.endUpdates pm env).fishCount = sc.fishCount - sc.rmfishes.length ∧
      (sc.entityManager.WF → sc.rmsubmarines.Nodup → sc.rmfishes.Nodup →
        sc.entityManager.numSubmarines =
          (sc.endUpdates pm env).entityManager.numSubmarines +
            (sc.rmsubmarines.filter sc.entityManager.isLiveSubmarine).length ∧
        sc.entityManager.fishes.size =
          (sc.endUpdates pm env).entityManager.fishes.size +
            (sc.rmfishes.filter sc.entityManager.isLiveFish).length ∧
        ((∀ id ∈ sc.rmsubmarines, sc.entityManager.isLiveSubmarine id = true) →
          (sc.endUpdates pm env).subsDead =
            sc.subsDead + ((sc.entityManager.numSubmarines : Int) -
              ((sc.endUpdates pm env).entityManager.numSubmarines : Int))) ∧
        ((∀ id ∈ sc.rmfishes, sc.entityManager.isLiveFish id = true) →
          (sc.endUpdates pm env).fishCount =
            sc.fishCount - ((sc.entityManager.fishes.size : Int) -
              ((sc.endUpdates pm env).entityManager.fishes.size : Int))))) ∧
    (sc.entityManager.gameIsOver = true →
      (sc.endUpdates pm env).subsDead = sc.subsDead ∧
      (sc.endUpdates pm env).fishCount = sc.fishCount) := by
  constructor
  · intro hover
    have hsd : (sc.endUpdates pm env).subsDead = sc.subsDead + sc.rmsubmarines.length := by
      rw [StageController.endUpdates_not_over pm env sc hover]
    have hfc : (sc.endUpdates pm env).fishCount = sc.fishCount - sc.rmfishes.length := by
      rw [StageController.endUpdates_not_over pm env sc hover]
    refine ⟨hsd, hfc, ?_⟩
    intro hwf hsub hfish
    obtain ⟨h1, h2⟩ := StageController.endUpdates_removed pm env sc hover hwf hsub hfish
    refine ⟨h1, h2, ?_, ?_⟩
    · intro hall
      have hfilter : sc.rmsubmarines.filter sc.entityManager.isLiveSubmarine = sc.rmsubmarines :=
        List.filter_eq_self.mpr hall
      rw [hfilter] at h1
      rw [hsd, h1]
      push_cast
      ring
    · intro hall
      have hfilter : sc.rmfishes.filter sc.entityManager.isLiveFish = sc.rmfishes :=
        List.filter_eq_self.mpr hall
      rw [hfilter] at h2
      rw [hfc, h2]
      push_cast
      ring
  · intro hover
    rw [StageController.endUpdates_over pm env sc hover]
    exact ⟨rfl, rfl⟩

/-! ## The spawn wrappers: claim C23 -/

theorem FreeList.alloc_mem (fl : FreeList) (h : fl.alloc.1 ≠ 0) : fl.alloc.1 ∈ fl.freeids := by
  unfold FreeList.alloc at h ⊢
  split
  · rename_i hnil
    simp [hnil] at h
  · rename_i first rest hcons
    rw [hcons]
    exact List.mem_cons_self _ _

theorem EntityManager.Made.facts {env : Env} {em : EntityManager} {position : Position}
    {m : Bool × EntityManager × Entity} (h : EntityManager.Made env em position m) :
    (∀ c : Coll, c.get m.2.1 = c.get em) ∧
    (m.1 = true → m.2.2.identifier ≠ 0 ∧ m.2.2.identifier ∈ em.freelist.freeids) := by
  refine ⟨fun c => EntityManager.get_of_live h.1 c, fun ht => ?_⟩
  obtain ⟨hne, hid, _⟩ := h.2.2.1 ht
  rw [hid]
  exact ⟨hne, FreeList.alloc_mem _ hne⟩

theorem EntityManager.makeSubmarine_facts (env : Env) (em : EntityManager) (e0 : Entity)
    (position : Position) (direction : Direction) (x_velocity : Rat) (type : SubmarineType)
    (score : Nat) (radarRadius : Rat) :
    (∀ c : Coll,
      c.get (em.makeSubmarine env e0 position direction x_velocity type score radarRadius).2.1
        = c.get em) ∧
    ((em.makeSubmarine env e0 position direction x_velocity type score radarRadius).1 = true →
      (em.makeSubmarine env e0 position direction x_velocity type score
        radarRadius).2.2.identifier ≠ 0 ∧
      (em.makeSubmarine env e0 position direction x_velocity type score
        radarRadius).2.2.identifier ∈ em.freelist.freeids) := by
  by_cases hy : position.y < 20
  · rw [EntityManager.makeSubmarine_low env em e0 position direction x_velocity type score
      radarRadius hy]
    exact ⟨fun _ => rfl, fun h => Bool.noConfusion h⟩
  · exact (EntityManager.makeSubmarine_made env em e0 position direction x_velocity type score
      radarRadius hy).facts

theorem spawn_finish (c : Coll) (sc : StageController) (m : Bool × EntityManager × Entity)
    (out : Identifier × StageController)
    (hfree : ∀ x ∈ sc.entityManager.freelist.freeids, 0 ≤ x)
    (hm : (∀ c2 : Coll, c2.get m.2.1 = c2.get sc.entityManager) ∧
      (m.1 = true → m.2.2.identifier ≠ 0 ∧
        m.2.2.identifier ∈ sc.entityManager.freelist.freeids))
    (hfalse : m.1 = false → out.1 = 0 ∧ c.get out.2.entityManager = c.get m.2.1)
    (htrue : m.1 = true → out.1 = m.2.2.identifier ∧
      c.get out.2.entityManager = c.get (c.add m.2.1 m.2.2)) :
    (out.1 = 0 ↔ m.1 = false) ∧
    (out.1 = 0 → c.get out.2.entityManager = c.get sc.entityManager) ∧
    (out.1 ≠ 0 → 0 < out.1 ∧ out.1 ∈ (c.get out.2.entityManager).keys) := by
  obtain ⟨hlive, hid⟩ := hm
  cases hok : m.1
  · obtain ⟨h0, hget⟩ := hfalse hok
    refine ⟨⟨fun _ => rfl, fun _ => h0⟩, fun _ => hget.trans (hlive c), fun h => absurd h0 h⟩
  · obtain ⟨h1, hget⟩ := htrue hok
    obtain ⟨hne, hmem⟩ := hid hok
    have hne1 : out.1 ≠ 0 := by rw [h1]; exact hne
    refine ⟨⟨fun h => absurd h hne1, fun h => Bool.noConfusion h⟩, fun h => absurd h hne1,
      fun _ => ⟨?_, ?_⟩⟩
    · have hge : (0 : Int) ≤ out.1 := by rw [h1]; exact hfree _ hmem
      exact lt_of_le_of_ne hge (Ne.symm hne1)
    · rw [hget, Coll.get_add_self, h1]
      exact EMap.mem_keys_assign_self _ _ _

theorem StageController.playerCall_get (pm : PlayerModel) (env : Env) (sc : StageController)
    (method : PlayerMethod) :
    (∀ c : Coll, c ≠ .characters →
      c.get (sc.playerCall pm env method).2.entityManager = c.get sc.entityManager) ∧
    (sc.playerCall pm env method).2.entityManager.freelist = sc.entityManager.freelist :=
  ⟨fun c hc => (EntityManager.playerCall_sameCore pm env sc.entityManager method).get c hc,
    (EntityManager.playerCall_sameCore pm env sc.entityManager method).freelist⟩

theorem StageController.takeMissile_get (pm : PlayerModel) (env : Env) (sc : StageController) :
    (∀ c : Coll, c ≠ .characters →
      c.get (sc.takeMissile pm env).entityManager = c.get sc.entityManager) ∧
    (sc.takeMissile pm env).entityManager.freelist = sc.entityManager.freelist := by
  have h1 := EntityManager.playerCall_sameCore pm env sc.entityManager
    .decrementNumAvailableMissiles
  unfold StageController.takeMissile
  lift_lets
  intro sc1
  have hsc1 : sc.entityManager.SameCore sc1.entityManager := h1
  clear_value sc1
  split
  · have h2 := hsc1.sameCore_trans (EntityManager.updateBoatMissilesLabel_sameCore env
      sc1.entityManager sc1.entityManager.player.numAvailableMissiles.toNat)
    exact ⟨fun c hc => h2.get c hc, h2.freelist⟩
  · exact ⟨fun c hc => hsc1.get c hc, hsc1.freelist⟩

theorem spawn_plain (c : Coll) (sc : StageController) (m : Bool × EntityManager × Entity)
    (hfree : ∀ x ∈ sc.entityManager.freelist.freeids, 0 ≤ x)
    (hm : (∀ c2 : Coll, c2.get m.2.1 = c2.get sc.entityManager) ∧
      (m.1 = true → m.2.2.identifier ≠ 0 ∧
        m.2.2.identifier ∈ sc.entityManager.freelist.freeids)) :
    ((if !m.1 then ((0 : Identifier), { sc with entityManager := m.2.1 })
      else (m.2.2.identifier, { sc with entityManager := c.add m.2.1 m.2.2 })).1 = 0 ↔
      some m.1 ≠ some true) ∧
    ((if !m.1 then ((0 : Identifier), { sc with entityManager := m.2.1 })
      else (m.2.2.identifier, { sc with entityManager := c.add m.2.1 m.2.2 })).1 = 0 →
      c.get (if !m.1 then ((0 : Identifier), { sc with entityManager := m.2.1 })
        else (m.2.2.identifier,
          { sc with entityManager := c.add m.2.1 m.2.2 })).2.entityManager =
        c.get sc.entityManager) ∧
    ((if !m.1 then ((0 : Identifier), { sc with entityManager := m.2.1 })
      else (m.2.2.identifier, { sc with entityManager := c.add m.2.1 m.2.2 })).1 ≠ 0 →
      0 < (if !m.1 then ((0 : Identifier), { sc with entityManager := m.2.1 })
        else (m.2.2.identifier, { sc with entityManager := c.add m.2.1 m.2.2 })).1 ∧
      (if !m.1 then ((0 : Identifier), { sc with entityManager := m.2.1 })
        else (m.2.2.identifier, { sc with entityManager := c.add m.2.1 m.2.2 })).1 ∈
        (c.get (if !m.1 then ((0 : Identifier), { sc with entityManager := m.2.1 })
          else (m.2.2.identifier,
            { sc with entityManager := c.add m.2.1 m.2.2 })).2.entityManager).keys) := by
  have h := spawn_finish c sc m
    (if !m.1 then ((0 : Identifier), { sc with entityManager := m.2.1 })
      else (m.2.2.identifier, { sc with entityManager := c.add m.2.1 m.2.2 }))
    hfree hm
    (fun hf => by simp only [hf, Bool.not_false, if_true, and_self])
    (fun ht => by simp only [ht, Bool.not_true, Bool.false_eq_true, if_false, and_self])
  refine ⟨h.1.trans ?_, h.2.1, h.2.2⟩
  cases m.1 <;> simp

theorem spawn_guarded (c : Coll) (hc : c ≠ .characters) (sc sc1 : StageController)
    (m : Bool × EntityManager × Entity) (out : Identifier × StageController)
    (hfree : ∀ x ∈ sc.entityManager.freelist.freeids, 0 ≤ x)
    (hget : ∀ c2 : Coll, c2 ≠ .characters → c2.get sc1.entityManager = c2.get sc.entityManager)
    (hfl : sc1.entityManager.freelist = sc.entityManager.freelist)
    (hm : (∀ c2 : Coll, c2.get m.2.1 = c2.get sc1.entityManager) ∧
      (m.1 = true → m.2.2.identifier ≠ 0 ∧
        m.2.2.identifier ∈ sc1.entityManager.freelist.freeids))
    (hfalse : m.1 = false → out.1 = 0 ∧ c.get out.2.entityManager = c.get m.2.1)
    (htrue : m.1 = true → out.1 = m.2.2.identifier ∧
      c.get out.2.entityManager = c.get (c.add m.2.1 m.2.2)) :
    (out.1 = 0 ↔ some m.1 ≠ some true) ∧
    (out.1 = 0 → c.get out.2.entityManager = c.get sc.entityManager) ∧
    (out.1 ≠ 0 → 0 < out.1 ∧ out.1 ∈ (c.get out.2.entityManager).keys) := by
  have h := spawn_finish c sc1 m out (by rw [hfl]; exact hfree) hm hfalse htrue
  refine ⟨h.1.trans ?_, fun h0 => (h.2.1 h0).trans (hget c hc), h.2.2⟩
  cases m.1 <;> simp

/-- Claim C23: for each spawn wrapper (`spawnBomb`, `spawnExplosion`,
`spawnSubmarine`, `spawnFish`, `spawnTorpedo`, `spawnMissile`,
`spawnBoatMissile`), on a manager whose free identifiers are unsigned values,
the call returns 0 exactly when no entity was created (the wrapper did not
reach the factory because the player has no bomb or missile available, or the
factory returned false), and then the live collection of the kind is as it
was; otherwise it returns a positive identifier that is a key of that
collection when the call returns. -/
theorem C23_spawn_wrappers (pm : PlayerModel) (env : Env) (sc : StageController) (s : Spawn)
    (hfree : ∀ x ∈ sc.entityManager.freelist.freeids, 0 ≤ x) :
    ((s.run pm env sc).1 = 0 ↔ s.factory pm env sc ≠ some true) ∧
    ((s.run pm env sc).1 = 0 →
      s.coll.get (s.run pm env sc).2.entityManager = s.coll.get sc.entityManager) ∧
    ((s.run pm env sc).1 ≠ 0 →
      0 < (s.run pm env sc).1 ∧
      (s.run pm env sc).1 ∈ (s.coll.get (s.run pm env sc).2.entityManager).keys) := by
  cases s with
  | spawnExplosion position =>
    exact spawn_plain .explosions sc _ hfree
      (EntityManager.makeExplosion_made env sc.entityManager {} position).facts
  | spawnTorpedo position initVel =>
    exact spawn_plain .torpedoes sc _ hfree
      (EntityManager.makeTorpedo_made env sc.entityManager {} position initVel).facts
  | spawnMissile position =>
    exact spawn_plain .missiles sc _ hfree
      (EntityManager.makeMissile_made env sc.entityManager {} position).facts
  | spawnFish y draw =>
    exact spawn_plain .fishes sc _ hfree
      (EntityManager.makeFish_made env sc.entityManager {} _ _ 3).facts
  | spawnSubmarine type y draw velocity =>
    cases type with
    | I =>
      exact spawn_plain (.submarines 0) sc _ hfree
        (EntityManager.makeSubmarine_facts env sc.entityManager {} _ _ velocity .I 3 _)
    | II =>
      exact spawn_plain (.submarines 1) sc _ hfree
        (EntityManager.makeSubmarine_facts env sc.entityManager {} _ _ velocity .II 3 _)
    | III =>
      exact spawn_plain (.submarines 2) sc _ hfree
        (EntityManager.makeSubmarine_facts env sc.entityManager {} _ _ velocity .III 3 _)
    | SPEC =>
      exact spawn_plain (.submarines 2) sc _ hfree
        (EntityManager.makeSubmarine_facts env sc.entityManager {} _ _ velocity .III 3 _)
  | spawnBomb position boatVel =>
    obtain ⟨hget, hfl⟩ := StageController.playerCall_get pm env sc .hasAvailableBombs
    simp only [Spawn.run, Spawn.factory, Spawn.coll, StageController.spawnBomb]
    generalize sc.playerCall pm env .hasAvailableBombs = r at hget hfl ⊢
    obtain ⟨ok, sc1⟩ := r
    cases ok
    · simp only [Bool.not_false, if_true]
      exact ⟨by simp, fun _ => hget .bombs (by decide), by simp⟩
    · simp only [Bool.not_true, Bool.false_eq_true, if_false]
      have hm := (EntityManager.makeBomb_made env sc1.entityManager {} position boatVel).facts
      generalize sc1.entityManager.makeBomb env {} position boatVel = m at hm ⊢
      refine spawn_guarded .bombs (by decide) sc sc1 m _ hfree hget hfl hm ?_ ?_
      · intro hf
        simp only [hf, Bool.not_false, if_true, and_self]
      · intro ht
        simp only [ht, Bool.not_true, Bool.false_eq_true, if_false, true_and]
        exact (StageController.playerCall_get pm env _ .decrementNumAvailableBombs).1 .bombs
          (by decide)
  | spawnBoatMissile position target =>
    obtain ⟨hget, hfl⟩ := StageController.playerCall_get pm env sc .hasAvailableMissiles
    simp only [Spawn.run, Spawn.factory, Spawn.coll, StageController.spawnBoatMissile]
    generalize sc.playerCall pm env .hasAvailableMissiles = r at hget hfl ⊢
    obtain ⟨ok, sc1⟩ := r
    cases ok
    · simp only [Bool.not_false, if_true]
      exact ⟨by simp, fun _ => hget .boatMissiles (by decide), by simp⟩
    · simp only [Bool.not_true, Bool.false_eq_true, if_false]
      obtain ⟨tget, tfl⟩ := StageController.takeMissile_get pm env sc1
      generalize sc1.takeMissile pm env = sc2 at tget tfl ⊢
      have hm := (EntityManager.makeBoatMissile_made env sc2.entityManager {} position
        target).facts
      generalize sc2.entityManager.makeBoatMissile env {} position target = m at hm ⊢
      refine spawn_guarded .boatMissiles (by decide) sc sc2 m _ hfree
        (fun c2 hc2 => (tget c2 hc2).trans (hget c2 hc2)) (tfl.trans hfl) hm ?_ ?_
      · intro hf
        simp only [hf, Bool.not_false, if_true, and_self]
      · intro ht
        simp only [ht, Bool.not_true, Bool.false_eq_true, if_false, true_and]
        rfl

theorem C23_spawn_wrappers_witness :
    smallPoolStage.entityManager.freelist.freeids = [4, 5] ∧
    ((Spawn.spawnBomb ⟨10, 30⟩ ⟨0, 5⟩).run PlayerModel.quiet Env.succeeding smallPoolStage).1
      = 4 ∧
    0 < ((Spawn.spawnBomb ⟨10, 30⟩ ⟨0, 5⟩).run PlayerModel.quiet Env.succeeding
      smallPoolStage).1 ∧
    ((Spawn.spawnBomb ⟨10, 30⟩ ⟨0, 5⟩).run PlayerModel.quiet Env.succeeding smallPoolStage).1 ∈
      ((Spawn.spawnBomb ⟨10, 30⟩ ⟨0, 5⟩).coll.get ((Spawn.spawnBomb ⟨10, 30⟩ ⟨0, 5⟩).run
        PlayerModel.quiet Env.succeeding smallPoolStage).2.entityManager).keys :=
  ⟨rfl, rfl,
    (C23_spawn_wrappers PlayerModel.quiet Env.succeeding smallPoolStage
      (.spawnBomb ⟨10, 30⟩ ⟨0, 5⟩) (by decide)).2.2 (by decide)⟩

/-! ## The number labels: claims C25 and C26 -/

/-- The guard of `setupFormattedNumberLabel`: a label whose handle has an
identifier other than 0 is left as it is, with the manager, and the call
returns true. -/
theorem EntityManager.setupFormattedNumberLabel_guard (env : Env) (em : EntityManager)
    (numberLabel : FormattedNumberLabel) (position : Position) (size : Nat)
    (h : numberLabel.label.identifier ≠ 0) :
    em.setupFormattedNumberLabel env numberLabel position size = (true, em, numberLabel) := by
  unfold EntityManager.setupFormattedNumberLabel
  rw [if_pos h]

theorem updateDigits_spec (env : Env)
    (hkeep : ∀ a : CharAttribute,
      (env.spriteMake .Character (some a)).attr.character = a.character)
    (numericOld numericNew : List Char) (identifiers : List Identifier) (base : Nat)
    (indices : List Nat) :
    ∀ em : EntityManager, indices.Nodup →
      (∀ i ∈ indices, ∀ j ∈ indices,
        identifiers.getD (base + i) 0 = identifiers.getD (base + j) 0 → i = j) →
      (updateDigits env numericOld numericNew identifiers base indices em).1 = true →
      (∀ i ∈ indices, numericNew.getD i (Char.ofNat 0) ≠ numericOld.getD i (Char.ofNat 0) →
        (((updateDigits env numericOld numericNew identifiers base indices
          em).2.characters.find (identifiers.getD (base + i) 0)).getD {}).attr.character
          = numericNew.getD i (Char.ofNat 0) ∧
        (updateDigits env numericOld numericNew identifiers base indices em).2.ssprites
          (identifiers.getD (base + i) 0) =
          (env.spriteMake .Character (some
            { ((em.characters.find (identifiers.getD (base + i) 0)).getD {}).attr with
              character := numericNew.getD i (Char.ofNat 0) })).sprite) ∧
      (∀ j : Identifier,
        (∀ i ∈ indices, numericNew.getD i (Char.ofNat 0) ≠ numericOld.getD i (Char.ofNat 0) →
          identifiers.getD (base + i) 0 ≠ j) →
        (updateDigits env numericOld numericNew identifiers base indices em).2.characters.find j
          = em.characters.find j ∧
        (updateDigits env numericOld numericNew identifiers base indices em).2.ssprites j
          = em.ssprites j) := by
  induction indices with
  | nil =>
    intro em _ _ _
    exact ⟨fun i hi => absurd hi (List.not_mem_nil _), fun _ _ => ⟨rfl, rfl⟩⟩
  | cons index rest ih =>
    intro em hnd hinj hok
    obtain ⟨hnotin, hnd2⟩ := List.nodup_cons.mp hnd
    have hinj2 : ∀ i ∈ rest, ∀ j ∈ rest,
        identifiers.getD (base + i) 0 = identifiers.getD (base + j) 0 → i = j :=
      fun i hi j hj => hinj i (List.mem_cons_of_mem _ hi) j (List.mem_cons_of_mem _ hj)
    have hne : ∀ i ∈ rest, identifiers.getD (base + i) 0 ≠ identifiers.getD (base + index) 0 := by
      intro i hi heq
      have := hinj i (List.mem_cons_of_mem _ hi) index (List.mem_cons_self _ _) heq
      exact hnotin (this ▸ hi)
    rw [updateDigits] at hok ⊢
    by_cases hdiff : numericNew.getD index (Char.ofNat 0) ≠ numericOld.getD index (Char.ofNat 0)
    · rw [if_pos hdiff] at hok ⊢
      revert hok
      lift_lets
      intro id ch src ch2 em1 out ch3 em2 hok
      have hfind2 : ∀ j, j ≠ id → em2.characters.find j = em.characters.find j :=
        fun j hj => EMap.find_assign_ne _ _ _ _ hj
      have hfindid : em2.characters.find id = some ch3 := EMap.find_assign_self _ _ _
      have hspr2 : ∀ j, j ≠ id → em2.ssprites j = em.ssprites j := by
        intro j hj
        show Function.update (Function.update em.ssprites id {}) id out.sprite j = em.ssprites j
        rw [Function.update_noteq hj, Function.update_noteq hj]
      have hsprid : em2.ssprites id = out.sprite := by
        show Function.update (Function.update em.ssprites id {}) id out.sprite id = out.sprite
        rw [Function.update_same]
      have hch3 : ch3.attr.character = numericNew.getD index (Char.ofNat 0) := by
        show out.attr.character = _
        exact hkeep _
      have hout : out.sprite = (env.spriteMake .Character (some
          { ((em.characters.find id).getD {}).attr with
            character := numericNew.getD index (Char.ofNat 0) })).sprite := rfl
      clear_value em2 out ch3
      cases hokout : out.ok
      · rw [hokout] at hok
        simp only [Bool.not_false, if_true] at hok
        exact absurd hok (by simp)
      · rw [hokout] at hok
        simp only [Bool.not_true, Bool.false_eq_true, if_false] at hok ⊢
        obtain ⟨hA, hB⟩ := ih em2 hnd2 hinj2 hok
        constructor
        · intro i hi hd
          rcases List.mem_cons.mp hi with rfl | hi2
          · obtain ⟨b1, b2⟩ := hB id (fun i2 hi2 _ => hne i2 hi2)
            refine ⟨?_, ?_⟩
            · show ((_ : Option Entity).getD {}).attr.character = _
              rw [b1, hfindid]
              exact hch3
            · rw [b2, hsprid, hout]
          · obtain ⟨a1, a2⟩ := hA i hi2 hd
            refine ⟨a1, ?_⟩
            rw [a2, hfind2 _ (hne i hi2)]
        · intro j hj
          obtain ⟨b1, b2⟩ := hB j (fun i hi hd => hj i (List.mem_cons_of_mem _ hi) hd)
          have hjid : j ≠ id := fun h => hj index (List.mem_cons_self _ _) hdiff h.symm
          exact ⟨b1.trans (hfind2 j hjid), b2.trans (hspr2 j hjid)⟩
    · rw [if_neg hdiff] at hok ⊢
      obtain ⟨hA, hB⟩ := ih em hnd2 hinj2 hok
      constructor
      · intro i hi hd
        rcases List.mem_cons.mp hi with rfl | hi2
        · exact absurd hd hdiff
        · exact hA i hi2 hd
      · intro j hj
        exact hB j (fun i hi hd => hj i (List.mem_cons_of_mem _ hi) hd)

theorem decimalDigits_length_le (fuel : Nat) :
    ∀ value width : Nat, 0 < width → value < 10 ^ width →
      (decimalDigits fuel value).length ≤ width := by
  induction fuel with
  | zero => exact fun _ _ _ _ => Nat.zero_le _
  | succ fuel ih =>
    intro value width hw hlt
    unfold decimalDigits
    split
    · exact hw
    · rename_i hge
      cases width with
      | zero => exact absurd hw (Nat.lt_irrefl 0)
      | succ width =>
        have hw2 : 0 < width := by
          rcases Nat.eq_zero_or_pos width with h0 | hpos
          · subst h0
            simp at hlt
            omega
          · exact hpos
        have hlt2 : value / 10 < 10 ^ width := by
          rw [Nat.pow_succ] at hlt
          omega
        have := ih (value / 10) width hw2 hlt2
        rw [List.length_append, List.length_singleton]
        omega

theorem formatNumber_length (width value : Nat) (hw : 0 < width) (hlt : value < 10 ^ width) :
    (formatNumber width value).length = width := by
  have h := decimalDigits_length_le (value + 1) value width hw hlt
  unfold formatNumber
  rw [List.length_append, List.length_replicate]
  omega

theorem getD_inj_of_nodup (l : List Identifier) (h : l.Nodup) (a b : Nat) (ha : a < l.length)
    (hb : b < l.length) (heq : l.getD a 0 = l.getD b 0) : a = b := by
  rw [List.getD_eq_getElem l 0 ha, List.getD_eq_getElem l 0 hb] at heq
  exact (List.Nodup.getElem_inj_iff h).mp heq

/-- C26, counterexample. The lives label (digit width 2, value 5, characters
"x 05" with the identifiers 1 to 4) after a successful
`updateFormattedNumberLabel(label, 100)`: the value of the label is 100, whose
text is "100", and the two digit entities spell "10". -/
theorem C26_value_wider_than_label :
    livesLabelSetUp.1 = true ∧ livesLabelSetUp.2.2.width = 2 ∧ livesLabelSetUp.2.2.value = 5 ∧
    livesLabelSetUp.2.2.label.identifiers = [1, 2, 3, 4] ∧
    ((livesLabelSetUp.2.1.characters.find 3).getD {}).attr.character = '0' ∧
    ((livesLabelSetUp.2.1.characters.find 4).getD {}).attr.character = '5' ∧
    livesLabelOverflown.1 = true ∧ livesLabelOverflown.2.2.value = 100 ∧
    ((livesLabelOverflown.2.1.characters.find 3).getD {}).attr.character = '1' ∧
    ((livesLabelOverflown.2.1.characters.find 4).getD {}).attr.character = '0' ∧
    formatNumber 2 100 = ['1', '0', '0'] := by
  refine ⟨rfl, rfl, rfl, rfl, ?_, ?_, rfl, rfl, ?_, ?_, ?_⟩ <;> decide

/-- C26, amended. For a sprite factory that keeps the character of the
attribute it is given, an initialised label (as many distinct character
identifiers as the prefix and the digit width take) whose digit entities spell
the stored value, and a successful `updateFormattedNumberLabel(label,
newValue)`: the value of the label is `newValue` and its character
identifiers are as before; the digit entity at every position `i` below the
width spells character `i` of the text of `newValue` padded with zeros to the
width, which for a positive width and `newValue < 10 ^ width` has exactly
`width` characters; the sprite at every position where the old and the new
text differ is the one made from the attribute with the new character, and
every other sprite slot and character entity is as before; when `newValue` is
the stored value, nothing changes. -/
theorem C26_update_renders_value (env : Env) (em : EntityManager)
    (numberLabel : FormattedNumberLabel) (newValue : Nat)
    (hkeep : ∀ a : CharAttribute,
      (env.spriteMake .Character (some a)).attr.character = a.character)
    (hlen : numberLabel.label.identifiers.length =
      numberLabel.stringPrefix.length + numberLabel.width)
    (hnd : numberLabel.label.identifiers.Nodup)
    (hold : ∀ i, i < numberLabel.width →
      ((em.characters.find (numberLabel.label.identifiers.getD
        (numberLabel.stringPrefix.length + i) 0)).getD {}).attr.character
        = (formatNumber numberLabel.width numberLabel.value).getD i (Char.ofNat 0))
    (hok : (em.updateFormattedNumberLabel env numberLabel newValue).1 = true) :
    (em.updateFormattedNumberLabel env numberLabel newValue).2.2.value = newValue ∧
    (em.updateFormattedNumberLabel env numberLabel newValue).2.2.label = numberLabel.label ∧
    (∀ i, i < numberLabel.width →
      (((em.updateFormattedNumberLabel env numberLabel newValue).2.1.characters.find
        (numberLabel.label.identifiers.getD (numberLabel.stringPrefix.length + i) 0)).getD
        {}).attr.character
        = (formatNumber numberLabel.width newValue).getD i (Char.ofNat 0)) ∧
    (0 < numberLabel.width → newValue < 10 ^ numberLabel.width →
      (formatNumber numberLabel.width newValue).length = numberLabel.width) ∧
    (∀ i, i < numberLabel.width →
      (formatNumber numberLabel.width newValue).getD i (Char.ofNat 0) ≠
        (formatNumber numberLabel.width numberLabel.value).getD i (Char.ofNat 0) →
      (em.updateFormattedNumberLabel env numberLabel newValue).2.1.ssprites
        (numberLabel.label.identifiers.getD (numberLabel.stringPrefix.length + i) 0) =
        (env.spriteMake .Character (some
          { ((em.characters.find (numberLabel.label.identifiers.getD
              (numberLabel.stringPrefix.length + i) 0)).getD {}).attr with
            character := (formatNumber numberLabel.width newValue).getD i
              (Char.ofNat 0) })).sprite) ∧
    (∀ j : Identifier,
      (∀ i, i < numberLabel.width →
        (formatNumber numberLabel.width newValue).getD i (Char.ofNat 0) ≠
          (formatNumber numberLabel.width numberLabel.value).getD i (Char.ofNat 0) →
        numberLabel.label.identifiers.getD (numberLabel.stringPrefix.length + i) 0 ≠ j) →
      (em.updateFormattedNumberLabel env numberLabel newValue).2.1.characters.find j
        = em.characters.find j ∧
      (em.updateFormattedNumberLabel env numberLabel newValue).2.1.ssprites j = em.ssprites j) ∧
    (newValue = numberLabel.value →
      em.updateFormattedNumberLabel env numberLabel newValue = (true, em, numberLabel)) := by
  have hsame : numberLabel.value = newValue →
      em.updateFormattedNumberLabel env numberLabel newValue = (true, em, numberLabel) := by
    intro hv
    unfold EntityManager.updateFormattedNumberLabel
    rw [if_pos hv]
  by_cases hv : numberLabel.value = newValue
  · rw [hsame hv]
    refine ⟨hv, rfl, ?_, fun hw hlt => formatNumber_length _ _ hw hlt, ?_,
      fun _ _ => ⟨rfl, rfl⟩, fun _ => rfl⟩
    · intro i hi
      rw [← hv]
      exact hold i hi
    · intro i _ hd
      rw [hv] at hd
      exact absurd rfl hd
  · have hr : em.updateFormattedNumberLabel env numberLabel newValue =
        if !(updateDigits env (formatNumber numberLabel.width numberLabel.value)
            (formatNumber numberLabel.width newValue) numberLabel.label.identifiers
            numberLabel.stringPrefix.length (List.range numberLabel.width) em).1
        then (false, (updateDigits env (formatNumber numberLabel.width numberLabel.value)
            (formatNumber numberLabel.width newValue) numberLabel.label.identifiers
            numberLabel.stringPrefix.length (List.range numberLabel.width) em).2, numberLabel)
        else (true, (updateDigits env (formatNumber numberLabel.width numberLabel.value)
            (formatNumber numberLabel.width newValue) numberLabel.label.identifiers
            numberLabel.stringPrefix.length (List.range numberLabel.width) em).2,
          { numberLabel with value := newValue }) := by
      unfold EntityManager.updateFormattedNumberLabel
      rw [if_neg hv]
    have hinj : ∀ i ∈ List.range numberLabel.width, ∀ j ∈ List.range numberLabel.width,
        numberLabel.label.identifiers.getD (numberLabel.stringPrefix.length + i) 0 =
          numberLabel.label.identifiers.getD (numberLabel.stringPrefix.length + j) 0 →
        i = j := by
      intro i hi j hj heq
      rw [List.mem_range] at hi hj
      have := getD_inj_of_nodup _ hnd _ _ (by omega) (by omega) heq
      omega
    have hspec := updateDigits_spec env hkeep (formatNumber numberLabel.width numberLabel.value)
      (formatNumber numberLabel.width newValue) numberLabel.label.identifiers
      numberLabel.stringPrefix.length (List.range numberLabel.width) em
      (List.nodup_range _) hinj
    rw [hr] at hok ⊢
    generalize updateDigits env (formatNumber numberLabel.width numberLabel.value)
      (formatNumber numberLabel.width newValue) numberLabel.label.identifiers
      numberLabel.stringPrefix.length (List.range numberLabel.width) em = r at hok hspec ⊢
    obtain ⟨ok, em2⟩ := r
    cases ok
    · simp at hok
    · simp only [Bool.not_true, Bool.false_eq_true, if_false]
      obtain ⟨hA, hB⟩ := hspec rfl
      refine ⟨trivial, trivial, ?_, fun hw hlt => formatNumber_length _ _ hw hlt, ?_, ?_,
        fun h => absurd h.symm hv⟩
      · intro i hi
        by_cases hd : (formatNumber numberLabel.width newValue).getD i (Char.ofNat 0) ≠
            (formatNumber numberLabel.width numberLabel.value).getD i (Char.ofNat 0)
        · exact (hA i (List.mem_range.mpr hi) hd).1
        · have hd2 := not_not.mp hd
          have hfr := (hB (numberLabel.label.identifiers.getD
            (numberLabel.stringPrefix.length + i) 0) (by
              intro i2 hi2 hd3 heq
              have := hinj i2 hi2 i (List.mem_range.mpr hi) heq
              subst this
              exact hd hd3)).1
          show ((em2.characters.find _).getD {}).attr.character = _
          rw [hfr, hd2]
          exact hold i hi
      · intro i hi hd
        exact (hA i (List.mem_range.mpr hi) hd).2
      · intro j hj
        exact hB j (fun i hi hd => hj i (List.mem_range.mp hi) hd)

theorem C26_update_renders_value_witness :
    livesLabelSetUp.2.2.label.identifiers = [1, 2, 3, 4] ∧
    livesLabelSetUp.2.2.width = 2 ∧ livesLabelSetUp.2.2.value = 5 ∧
    livesLabelUpdated.1 = true ∧ livesLabelUpdated.2.2.value = 14 ∧
    ((livesLabelUpdated.2.1.characters.find 3).getD {}).attr.character = '1' ∧
    ((livesLabelUpdated.2.1.characters.find 4).getD {}).attr.character = '4' :=
  have h := C26_update_renders_value Env.succeeding livesLabelSetUp.2.1 livesLabelSetUp.2.2 14
    (fun _ => rfl) rfl (by decide) (by decide) rfl
  ⟨rfl, rfl, rfl, rfl, h.1, (h.2.2.1 0 (by decide)).trans (by decide),
    (h.2.2.1 1 (by decide)).trans (by decide)⟩

end SubmarineWars
